import Mathlib

/-!
# UltraDefrag: analysis and optimization engine

A shallow embedding of `src/dll/udefrag/analyze.c` and
`src/dll/udefrag/optimize.c`, followed by theorems about it.

Conventions of the embedding.

* `ULONGLONG` values are natural numbers; every arithmetic operation of the
  C code that can wrap is followed by `% 2^64` (written `wrap64`).
* Circular doubly linked lists (block maps, free regions, file lists) are
  Lean lists in list order; the empty list is the `NULL` pointer, the
  "next wraps to the first" test is the end of the list.
* A pointer to a file is its index in `filelist`; a pointer to a block is
  the index of its file together with its index in the block map.
* Code that can trap (integer division by zero) returns `Except Fault`.
* Routines of the repository that are not in the sources at hand
  (`move_file`, `find_first_block`, ...) are fields of `Externals`; the
  definitions named `spec_...` model some of them from the specification.
-/

namespace UltraDefrag

/-! ## Machine integers -/

/-- The modulus of `ULONGLONG` arithmetic, 2^64. -/
def U64_MOD : Nat := 18446744073709551616

/-- Reduction of an exact result to the `ULONGLONG` range. -/
def wrap64 (n : Nat) : Nat := n % U64_MOD

/-- The ways in which the embedded code can trap. -/
inductive Fault where
  | division_by_zero
  | invalid_pointer
deriving DecidableEq, Repr

/-! ## Data model -/

/-- One extent of a file: `winx_blockmap` (vcn, lcn, length). -/
structure winx_blockmap where
  vcn : Nat
  lcn : Nat
  length : Nat
deriving DecidableEq, Repr

/-- A free region of the volume: `winx_volume_region`. -/
structure winx_volume_region where
  lcn : Nat
  length : Nat
deriving DecidableEq, Repr

/-- The `disp` member of `winx_file_info`. -/
structure winx_file_disposition where
  clusters : Nat
  fragments : Nat
  flags : Nat
  blockmap : List winx_blockmap
deriving DecidableEq, Repr

/-- A file record; strings are lists of character codes, `none` is `NULL`. -/
structure winx_file_info where
  name : List Nat
  path : Option (List Nat)
  flags : Nat
  disp : winx_file_disposition
  user_defined_flags : Nat
  creation_time : Nat
  last_modification_time : Nat
  last_access_time : Nat
deriving DecidableEq, Repr

/-- The members of `jp->udo` read by the analysis and optimization code. -/
structure udefrag_job_options where
  in_filter : List (List Nat)
  ex_filter : List (List Nat)
  cut_filter : List (List Nat)
  fragment_size_threshold : Nat
  size_limit : Nat
  optimizer_size_limit : Nat
  fragments_limit : Nat
  sorting_flags : Nat
  job_flags : Nat
  dbgprint_level : Nat
  algorithm_defined_fst : Nat
deriving DecidableEq, Repr

/-! ## analyze.c: `exclude_by_fragment_size` -/

/-- The body of the `for` loop of `exclude_by_fragment_size` for the blocks
after the first one. `prev` is `block->prev`, `fragment_size` the running
value; `none` is the early `return 0` taken when a finished run is smaller
than the threshold, `some s` the value of `fragment_size` at loop exit. -/
def exclude_by_fragment_size_loop (bytes_per_cluster threshold : Nat) :
    winx_blockmap → Nat → List winx_blockmap → Option Nat
  | _, fragment_size, [] => some fragment_size
  | prev, fragment_size, block :: rest =>
    if block.lcn = wrap64 (prev.lcn + prev.length) then
      exclude_by_fragment_size_loop bytes_per_cluster threshold block
        (wrap64 (fragment_size + block.length)) rest
    else if fragment_size ≠ 0 ∧
        wrap64 (fragment_size * bytes_per_cluster) < threshold then
      none
    else
      exclude_by_fragment_size_loop bytes_per_cluster threshold block
        block.length rest

/-- The routine `exclude_by_fragment_size` of analyze.c (lines 298-330).
`DEFAULT_FRAGMENT_SIZE_THRESHOLD` is a constant of a header that is not
among the sources, hence a parameter. -/
def exclude_by_fragment_size (DEFAULT_FRAGMENT_SIZE_THRESHOLD : Nat)
    (f : winx_file_info) (udo : udefrag_job_options)
    (bytes_per_cluster : Nat) : Int :=
  if udo.fragment_size_threshold = DEFAULT_FRAGMENT_SIZE_THRESHOLD then 0
  else if udo.algorithm_defined_fst ≠ 0 then 0
  else
    match f.disp.blockmap with
    | [] => 0
    | first :: rest =>
      match exclude_by_fragment_size_loop bytes_per_cluster
          udo.fragment_size_threshold first (wrap64 (0 + first.length)) rest with
      | none => 0
      | some fragment_size =>
        if fragment_size ≠ 0 ∧
            wrap64 (fragment_size * bytes_per_cluster) <
              udo.fragment_size_threshold then 0
        else 1

/-- The contiguous runs of a block map, as the specification describes
them: maximal sequences of adjacent blocks with
`next.lcn = prev.lcn + prev.length`; the result lists the number of
clusters of each run, in map order. -/
def contiguous_runs : List winx_blockmap → List Nat
  | [] => []
  | [b] => [b.length]
  | a :: b :: rest =>
    if b.lcn = a.lcn + a.length then
      match contiguous_runs (b :: rest) with
      | [] => [a.length]
      | r :: rs => (a.length + r) :: rs
    else a.length :: contiguous_runs (b :: rest)

/-- The total number of clusters of a block map. -/
def blockmap_clusters (bm : List winx_blockmap) : Nat :=
  (bm.map (fun b => b.length)).sum

/-- No block of the map reaches beyond the 64-bit cluster address space. -/
def blocks_in_range (bm : List winx_blockmap) : Prop :=
  ∀ b ∈ bm, b.lcn + b.length < U64_MOD

instance (bm : List winx_blockmap) : Decidable (blocks_in_range bm) := by
  unfold blocks_in_range; infer_instance

/-- A file record with the given block map and nothing else of interest. -/
def file_of_blockmap (bm : List winx_blockmap) : winx_file_info :=
  { name := [], path := some [], flags := 0,
    disp := { clusters := blockmap_clusters bm, fragments := bm.length,
              flags := 0, blockmap := bm },
    user_defined_flags := 0, creation_time := 0,
    last_modification_time := 0, last_access_time := 0 }

/-- Job options with the given fragment size threshold, all filters off. -/
def options_with_threshold (threshold : Nat) : udefrag_job_options :=
  { in_filter := [], ex_filter := [], cut_filter := [],
    fragment_size_threshold := threshold, size_limit := 0,
    optimizer_size_limit := 0, fragments_limit := 0, sorting_flags := 0,
    job_flags := 0, dbgprint_level := 0, algorithm_defined_fst := 0 }

/-- The runs of a block map computed front to back, the way the loop of
`exclude_by_fragment_size` accumulates them: `acc` is the size of the run
that ends with `prev`. -/
def runs_acc : Nat → winx_blockmap → List winx_blockmap → List Nat
  | acc, _, [] => [acc]
  | acc, prev, b :: rest =>
    if b.lcn = prev.lcn + prev.length then runs_acc (acc + b.length) b rest
    else acc :: runs_acc b.length b rest

/-! ## analyze.c: volume information -/

/-- The `file_system_type` enumeration (its names occur in `fs_types`). -/
inductive file_system_type where
  | FS_UNKNOWN
  | FS_FAT12
  | FS_FAT16
  | FS_FAT32
  | FS_EXFAT
  | FS_NTFS
  | FS_UDF
deriving DecidableEq, Repr

/-- The `udefrag_job_type` enumeration (its names occur in the job code). -/
inductive udefrag_job_type where
  | ANALYSIS_JOB
  | DEFRAGMENTATION_JOB
  | FULL_OPTIMIZATION_JOB
  | QUICK_OPTIMIZATION_JOB
  | MFT_OPTIMIZATION_JOB
  | SINGLE_FILE_MOVE_FRONT_JOB
  | SINGLE_FILE_MOVE_END_JOB
deriving DecidableEq, Repr

/-- One row of the `fs_types` table. -/
structure fs_type_struct where
  name : List Nat
  type : file_system_type
  is_fat : Int
  is_ntfs : Int
deriving DecidableEq, Repr

/-- The character codes of a string literal. -/
def c_str (s : String) : List Nat := s.toList.map Char.toNat

/-- The table `fs_types` of analyze.c (lines 37-46); the terminating row
`{ NULL, FS_UNKNOWN, 0, 0 }` is the end of the list. -/
def fs_types : List fs_type_struct :=
  [ { name := c_str "NTFS",  type := .FS_NTFS,  is_fat := 0, is_ntfs := 1 },
    { name := c_str "FAT12", type := .FS_FAT12, is_fat := 1, is_ntfs := 0 },
    { name := c_str "FAT",   type := .FS_FAT16, is_fat := 1, is_ntfs := 0 },
    { name := c_str "FAT16", type := .FS_FAT16, is_fat := 1, is_ntfs := 0 },
    { name := c_str "FAT32", type := .FS_FAT32, is_fat := 1, is_ntfs := 0 },
    { name := c_str "EXFAT", type := .FS_EXFAT, is_fat := 1, is_ntfs := 0 },
    { name := c_str "UDF",   type := .FS_UDF,   is_fat := 0, is_ntfs := 0 } ]

/-- The members of `NTFS_DATA` read by `get_mft_zones_layout`. -/
structure ntfs_volume_data where
  MftStartLcn : Nat
  MftValidDataLength : Nat
  BytesPerCluster : Nat
  MftZoneStart : Nat
  MftZoneEnd : Nat
  Mft2StartLcn : Nat
  BytesPerFileRecordSegment : Nat
deriving DecidableEq, Repr

/-- The structure `winx_volume_information` filled by the geometry query. -/
structure winx_volume_information where
  fs_name : List Nat
  total_bytes : Nat
  free_bytes : Nat
  total_clusters : Nat
  bytes_per_cluster : Nat
  device_capacity : Nat
  is_dirty : Int
  ntfs_data : ntfs_volume_data
deriving DecidableEq, Repr

/-- The result of `memset(&jp->v_info,0,...)`. -/
def winx_volume_information.zero : winx_volume_information :=
  { fs_name := [], total_bytes := 0, free_bytes := 0, total_clusters := 0,
    bytes_per_cluster := 0, device_capacity := 0, is_dirty := 0,
    ntfs_data := ⟨0, 0, 0, 0, 0, 0, 0⟩ }

/-- The structure `struct _mft_zone`. -/
structure mft_zone_struct where
  start : Nat
  length : Nat
deriving DecidableEq, Repr

/-- The counters of `jp->pi` (`udefrag_progress_info`). -/
structure udefrag_progress_info where
  files : Nat
  directories : Nat
  compressed : Nat
  fragmented : Nat
  fragments : Nat
  bad_fragments : Nat
  bad_clusters : Nat
  total_space : Nat
  free_space : Nat
  mft_size : Nat
  used_clusters : Nat
  clusters_to_process : Nat
  processed_clusters : Nat
  moved_clusters : Nat
  total_moves : Nat
deriving DecidableEq, Repr

/-- The per-size file counters `jp->f_counters`. -/
structure file_counters where
  tiny_files : Nat
  small_files : Nat
  average_files : Nat
  big_files : Nat
  huge_files : Nat
  giant_files : Nat
deriving DecidableEq, Repr

/-- The job context `udefrag_job_parameters`. The member `world` stands for
everything the code at hand never reads itself (cluster map, binary trees,
volume handle, the state of the operating system); only the routines of
`Externals` look at it. -/
structure udefrag_job_parameters (ω : Type) where
  job_type : udefrag_job_type
  volume_letter : Nat
  win_version : Nat
  udo : udefrag_job_options
  v_info : winx_volume_information
  mft_zone : mft_zone_struct
  pi : udefrag_progress_info
  f_counters : file_counters
  fs_type : file_system_type
  is_fat : Int
  is_ntfs : Int
  clusters_at_once : Nat
  filelist : List winx_file_info
  free_regions : List winx_volume_region
  free_regions_count : Nat
  already_optimized_clusters : Nat
  last_move_status : Int
  world : ω

/-- A pointer to a block: the index of its file in `filelist` and the index
of the block in the block map of that file. -/
structure block_ref where
  file : Nat
  block : Nat
deriving DecidableEq, Repr

/-- The routines called by the code at hand whose bodies are in other
modules (zenwinx, move.c, search.c, map.c, udefrag.c, ...), and the
routines of analyze.c that scan the disk through them (`find_files`,
`produce_list_of_fragmented_files`, `redraw_well_known_locked_files`). Each one is an
arbitrary function of the job context; `destroy_lists` and
`reset_cluster_map` yield only the members they own (the file and region
lists, the cluster map inside `world`). `find_first_block` yields the block
found, the value it leaves in `*min_lcn` and the job context.
`memory_beyond path k` is the string a read at `path + k` finds when `k`
exceeds the length of the path: what the memory behind the terminating zero
happens to hold. -/
structure Externals (ω : Type) where
  destroy_lists :
    udefrag_job_parameters ω → List winx_file_info × List winx_volume_region × ω
  winx_get_volume_information :
    udefrag_job_parameters ω → Int × winx_volume_information
  reset_cluster_map : udefrag_job_parameters ω → ω
  winx_get_free_volume_regions : udefrag_job_parameters ω → udefrag_job_parameters ω
  colorize_map_region : udefrag_job_parameters ω → Nat → Nat → ω
  winx_sub_volume_region :
    List winx_volume_region → Nat → Nat → List winx_volume_region
  find_files : udefrag_job_parameters ω → Int × udefrag_job_parameters ω
  redraw_well_known_locked_files :
    udefrag_job_parameters ω → udefrag_job_parameters ω
  produce_list_of_fragmented_files :
    udefrag_job_parameters ω → udefrag_job_parameters ω
  termination_router : udefrag_job_parameters ω → Int × udefrag_job_parameters ω
  release_temp_space_regions : udefrag_job_parameters ω → udefrag_job_parameters ω
  winx_defrag_fopen : Nat → udefrag_job_parameters ω → Int × udefrag_job_parameters ω
  find_first_block :
    udefrag_job_parameters ω → Nat → Nat →
      Option block_ref × Nat × udefrag_job_parameters ω
  find_first_free_region :
    udefrag_job_parameters ω → Nat → Nat → Option winx_volume_region
  build_fragments_list : winx_file_info → List winx_blockmap
  winx_patcmp : List Nat → List (List Nat) → Int
  move_file :
    Nat → Nat → Nat → Nat → udefrag_job_parameters ω → Int × udefrag_job_parameters ω
  memory_beyond : List Nat → Nat → List Nat

/-- Unsigned 64-bit subtraction `a - b`. -/
def sub64 (a b : Nat) : Nat := (a + U64_MOD - b % U64_MOD) % U64_MOD

/-- Unsigned division; dividing by zero traps. -/
def udiv64 (a b : Nat) : Except Fault Nat :=
  if b = 0 then .error .division_by_zero else .ok (a / b)

/-- The constants `_256K` ... `_2T` of analyze.c (lines 54-64). -/
def _256K : Nat := 256 * 1024
def _4M : Nat := 4 * 1024 * 1024
def _8M : Nat := 8 * 1024 * 1024
def _16M : Nat := 16 * 1024 * 1024
def _32M : Nat := 32 * 1024 * 1024
def _64M : Nat := 64 * 1024 * 1024
def _20G : Nat := 20 * 1024 * 1024 * 1024
def _100G : Nat := 100 * 1024 * 1024 * 1024
def _250G : Nat := 250 * 1024 * 1024 * 1024
def _1T : Nat := 1024 * 1024 * 1024 * 1024
def _2T : Nat := 2 * 1024 * 1024 * 1024 * 1024

/-- The choice of `bytes_at_once` in `adjust_move_at_once_parameter`. -/
def bytes_at_once (device_capacity : Nat) : Nat :=
  if device_capacity < _20G then _256K
  else if device_capacity < _100G then _4M
  else if device_capacity < _250G then _8M
  else if device_capacity < _1T then _16M
  else if device_capacity < _2T then _32M
  else _64M

/-- The routine `adjust_move_at_once_parameter` of analyze.c (lines 72-97). -/
def adjust_move_at_once_parameter {ω : Type} (jp : udefrag_job_parameters ω) :
    Except Fault (udefrag_job_parameters ω) := do
  let q ← udiv64 (bytes_at_once jp.v_info.device_capacity) jp.v_info.bytes_per_cluster
  let jp := { jp with clusters_at_once := q }
  if jp.clusters_at_once = 0 then
    pure { jp with clusters_at_once := wrap64 (jp.clusters_at_once + 1) }
  else pure jp

/-- The conversion `_strupr` applies to one character (the "C" locale). -/
def c_toupper (c : Nat) : Nat := if 97 ≤ c ∧ c ≤ 122 then c - 32 else c

/-- The library routine `_strupr`. -/
def _strupr (s : List Nat) : List Nat := s.map c_toupper

/-- The lookup loop over `fs_types` in `get_volume_information`
(lines 160-167): the first row whose name equals `fs_name` is applied. -/
def fs_types_loop {ω : Type} (fs_name : List Nat) (jp : udefrag_job_parameters ω) :
    List fs_type_struct → udefrag_job_parameters ω
  | [] => jp
  | row :: rest =>
    if fs_name = row.name then
      { jp with fs_type := row.type, is_fat := row.is_fat, is_ntfs := row.is_ntfs }
    else fs_types_loop fs_name jp rest

/-- The first part of `get_volume_information` (lines 109-132): the resets
made before the geometry is queried. The result is the job context that
`winx_get_volume_information` is called with. -/
def volume_query_context {ω : Type} (E : Externals ω)
    (jp : udefrag_job_parameters ω) : udefrag_job_parameters ω :=
  -- reset mft zone disposition, v_info structure and statistics
  let jp := { jp with mft_zone := ⟨0, 0⟩ }
  let jp := { jp with v_info := winx_volume_information.zero }
  let jp := { jp with pi := { jp.pi with
    files := 0, directories := 0, compressed := 0, fragmented := 0, fragments := 0,
    total_space := 0, free_space := 0, mft_size := 0, clusters_to_process := 0,
    processed_clusters := 0 } }
  let jp := { jp with fs_type := .FS_UNKNOWN, is_fat := 0, is_ntfs := 0 }
  -- reset file lists
  let (filelist, free_regions, world) := E.destroy_lists jp
  { jp with filelist := filelist, free_regions := free_regions, world := world }

/-- The routine `get_volume_information` of analyze.c (lines 105-186).
`UDEFRAG_DIRTY_VOLUME` and `MAX_FS_NAME_LENGTH` are constants of headers
that are not among the sources, hence parameters. The result is the
returned code and the job context at return. -/
def get_volume_information {ω : Type} (E : Externals ω)
    (UDEFRAG_DIRTY_VOLUME : Int) (MAX_FS_NAME_LENGTH : Nat)
    (jp : udefrag_job_parameters ω) : Except Fault (Int × udefrag_job_parameters ω) := do
  let jp := volume_query_context E jp
  -- update global variables holding drive geometry
  let (status, v_info) := E.winx_get_volume_information jp
  let jp := { jp with v_info := v_info }
  if status < 0 then return (-1, jp)
  -- don't touch dirty volumes
  if jp.v_info.is_dirty ≠ 0 then return (UDEFRAG_DIRTY_VOLUME, jp)
  let jp := { jp with pi := { jp.pi with
    total_space := jp.v_info.total_bytes, free_space := jp.v_info.free_bytes } }
  let q ← udiv64 jp.v_info.free_bytes jp.v_info.bytes_per_cluster
  let jp := { jp with pi := { jp.pi with
    used_clusters := sub64 jp.v_info.total_clusters q } }
  -- validate geometry
  if jp.v_info.total_clusters = 0 ∨ jp.v_info.bytes_per_cluster = 0 then
    return (-1, jp)
  let jp ← adjust_move_at_once_parameter jp
  -- check partition type
  let fs_name := _strupr (jp.v_info.fs_name.take MAX_FS_NAME_LENGTH)
  let jp := fs_types_loop fs_name jp fs_types
  let jp := { jp with pi := { jp.pi with
    clusters_to_process := jp.v_info.total_clusters, processed_clusters := 0 } }
  let jp :=
    if jp.udo.fragment_size_threshold ≠ 0 then
      if jp.udo.fragment_size_threshold ≤ jp.v_info.bytes_per_cluster then
        { jp with udo := { jp.udo with fragment_size_threshold := 0 } }
      else jp
    else jp
  -- reset cluster map
  let jp := { jp with world := E.reset_cluster_map jp }
  return (0, jp)

/-- The routine `get_free_space_layout` of analyze.c (lines 209-224): the
scan of the free regions (with its `process_free_region` callbacks) is the
zenwinx routine `winx_get_free_volume_regions`; a full disk is let through,
the result is always zero. -/
def get_free_space_layout {ω : Type} (E : Externals ω)
    (jp : udefrag_job_parameters ω) : Int × udefrag_job_parameters ω :=
  (0, E.winx_get_free_volume_regions jp)

/-- The routine `check_requested_action` of analyze.c (lines 868-878).
`UDEFRAG_UDF_DEFRAG` is a constant of a header that is not among the
sources, hence a parameter. -/
def check_requested_action {ω : Type} (UDEFRAG_UDF_DEFRAG : Int)
    (jp : udefrag_job_parameters ω) : Int :=
  if jp.job_type ≠ .ANALYSIS_JOB ∧ jp.fs_type = .FS_UDF then UDEFRAG_UDF_DEFRAG
  else 0

/-- The routine `check_region` of analyze.c (lines 231-238). -/
def check_region {ω : Type} (jp : udefrag_job_parameters ω) (lcn length : Nat) : Int :=
  if lcn < jp.v_info.total_clusters ∧
      wrap64 (lcn + length) ≤ jp.v_info.total_clusters then 1
  else 0

/-- The routine `get_mft_zones_layout` of analyze.c (lines 246-291).
`WINDOWS_XP` is a constant of a header that is not among the sources, hence
a parameter. The figures of the MFT mirror are only traced, they are left
out. -/
def get_mft_zones_layout {ω : Type} (E : Externals ω) (WINDOWS_XP : Nat)
    (jp : udefrag_job_parameters ω) : udefrag_job_parameters ω :=
  if jp.fs_type ≠ .FS_NTFS then jp
  else
    -- $MFT
    let length :=
      if jp.v_info.ntfs_data.BytesPerCluster ≠ 0 then
        jp.v_info.ntfs_data.MftValidDataLength / jp.v_info.ntfs_data.BytesPerCluster
      else 0
    let jp := { jp with pi := { jp.pi with
      mft_size := wrap64 (length * jp.v_info.bytes_per_cluster) } }
    -- MFT Zone
    let start := jp.v_info.ntfs_data.MftZoneStart
    let length := wrap64 (sub64 jp.v_info.ntfs_data.MftZoneEnd
      jp.v_info.ntfs_data.MftZoneStart + 1)
    if check_region jp start length ≠ 0 then
      -- remark space as MFT Zone
      let jp := { jp with world := E.colorize_map_region jp start length }
      let jp :=
        if jp.win_version < WINDOWS_XP then
          { jp with free_regions := E.winx_sub_volume_region jp.free_regions start length }
        else jp
      { jp with mft_zone := ⟨start, length⟩ }
    else jp

/-- The routines `analyze` calls, for its log of calls. -/
inductive analysis_step where
  | get_volume_information
  | get_free_space_layout
  | get_mft_zones_layout
  | find_files
  | redraw_well_known_locked_files
  | produce_list_of_fragmented_files
  | check_fragmentation_level
  | check_requested_action
deriving DecidableEq, Repr

/-- The routine `analyze` of analyze.c (lines 911-949). The result is the
returned code, the job context at return and the list of the routines that
have been called, in call order. The timing calls are left out. -/
def analyze {ω : Type} (E : Externals ω)
    (UDEFRAG_DIRTY_VOLUME UDEFRAG_UDF_DEFRAG : Int) (MAX_FS_NAME_LENGTH WINDOWS_XP : Nat)
    (jp : udefrag_job_parameters ω) :
    Except Fault (Int × udefrag_job_parameters ω × List analysis_step) := do
  -- update volume information
  let (result, jp) ← get_volume_information E UDEFRAG_DIRTY_VOLUME MAX_FS_NAME_LENGTH jp
  let log := [analysis_step.get_volume_information]
  if result < 0 then return (result, jp, log)
  -- search for free space areas
  let (r, jp) := get_free_space_layout E jp
  let log := log ++ [.get_free_space_layout]
  if r < 0 then return (-1, jp, log)
  -- redraw mft zone in light magenta
  let jp := get_mft_zones_layout E WINDOWS_XP jp
  let log := log ++ [.get_mft_zones_layout]
  -- search for files
  let (r, jp) := E.find_files jp
  let log := log ++ [.find_files]
  if r < 0 then return (-1, jp, log)
  -- redraw well known locked files in green
  let jp := E.redraw_well_known_locked_files jp
  let log := log ++ [.redraw_well_known_locked_files]
  -- produce a list of fragmented files
  let jp := E.produce_list_of_fragmented_files jp
  let log := log ++ [.produce_list_of_fragmented_files, .check_fragmentation_level]
  let result := check_requested_action UDEFRAG_UDF_DEFRAG jp
  let log := log ++ [.check_requested_action]
  if result < 0 then return (result, jp, log)
  return (0, jp, log)

/-- The conversion of one character to lower case (the "C" locale). -/
def c_tolower (c : Nat) : Nat := if 65 ≤ c ∧ c ≤ 90 then c + 32 else c

/-- Equality of two names up to the case of their letters, the way the
specification words the lookup of the file system name. -/
def eq_ignore_case (a b : List Nat) : Prop := a.map c_tolower = b.map c_tolower

instance (a b : List Nat) : Decidable (eq_ignore_case a b) := by
  unfold eq_ignore_case; infer_instance

/-- The row of a table that the lookup loop of `get_volume_information`
stops at, if any. -/
def fs_types_find (fs_name : List Nat) : List fs_type_struct → Option fs_type_struct
  | [] => none
  | row :: rest => if fs_name = row.name then some row else fs_types_find fs_name rest

/-- The file system name the geometry query reports for a job. -/
def reported_fs_name {ω : Type} (E : Externals ω) (jp : udefrag_job_parameters ω) :
    List Nat :=
  (E.winx_get_volume_information (volume_query_context E jp)).2.fs_name

/-! ## optimize.c: `cleanup_space` -/

/-- Why a run of the embedded code yields no result: the code traps, or the
fuel given to a loop is used up before the loop is left. -/
inductive Stop where
  | trap (fault : Fault)
  | out_of_fuel
deriving DecidableEq, Repr

/-- One call `move_file(file,vcn,length,target,jp)` together with the value
it returned. -/
structure move_call where
  file : Nat
  vcn : Nat
  length : Nat
  target : Nat
  status : Int
deriving DecidableEq, Repr

/-- One iteration of the loop of `cleanup_space` that reached `move_file`:
the list of free regions and the number of clusters still to clean up when
the iteration began, and the call it made. -/
structure cleanup_iteration where
  free_regions : List winx_volume_region
  clusters_to_cleanup : Nat
  call : move_call
deriving DecidableEq, Repr

/-- The test applied to a region by the scan of `cleanup_space`
(lines 70-72). -/
def cleanup_space_test (reserved_start_lcn reserved_end_lcn : Nat)
    (r : winx_volume_region) : Bool :=
  decide (r.length > 0 ∧
    (r.lcn > reserved_end_lcn ∨ wrap64 (r.lcn + r.length) ≤ reserved_start_lcn))

/-- The scan of `cleanup_space` (lines 69-77): from `free_regions->prev`
backwards through the whole list, the first region passing the test. -/
def cleanup_space_scan (free_regions : List winx_volume_region)
    (reserved_start_lcn reserved_end_lcn : Nat) : Option winx_volume_region :=
  free_regions.reverse.find? (cleanup_space_test reserved_start_lcn reserved_end_lcn)

/-- The `while` loop of `cleanup_space` (lines 66-88). The first argument
bounds the number of iterations. The result is the returned code, the job
context at return and the iterations that called `move_file`. -/
def cleanup_space_loop {ω : Type} (E : Externals ω) (file : Nat)
    (reserved_start_lcn reserved_end_lcn : Nat) :
    Nat → Nat → Nat → udefrag_job_parameters ω →
      Except Stop (Int × udefrag_job_parameters ω × List cleanup_iteration)
  | 0, _, clusters_to_cleanup, jp =>
    if clusters_to_cleanup = 0 then .ok (0, jp, []) else .error .out_of_fuel
  | fuel + 1, current_vcn, clusters_to_cleanup, jp =>
    if clusters_to_cleanup = 0 then .ok (0, jp, [])
    else
      -- use the last free region
      match jp.free_regions with
      | [] => .ok (-1, jp, [])
      | _ :: _ =>
        match cleanup_space_scan jp.free_regions reserved_start_lcn reserved_end_lcn with
        | none => .ok (-1, jp, [])
        | some rgn =>
          let n := min rgn.length clusters_to_cleanup
          let target := sub64 (wrap64 (rgn.lcn + rgn.length)) n
          let moved := E.move_file file current_vcn n target jp
          let it : cleanup_iteration :=
            ⟨jp.free_regions, clusters_to_cleanup, ⟨file, current_vcn, n, target, moved.1⟩⟩
          if moved.1 < 0 then .ok (-2, moved.2, [it])
          else
            match cleanup_space_loop E file reserved_start_lcn reserved_end_lcn fuel
                (wrap64 (current_vcn + n)) (sub64 clusters_to_cleanup n) moved.2 with
            | .error e => .error e
            | .ok (code, jp1, its) => .ok (code, jp1, it :: its)

/-- The routine `cleanup_space` of optimize.c (lines 56-90). `file` is the
index of the file in the file list and `block` the block pointed to, `none`
standing for `NULL`. Each iteration cleans up at least one cluster, so
`clusters_to_cleanup` bounds the number of iterations. -/
def cleanup_space {ω : Type} (E : Externals ω) (jp : udefrag_job_parameters ω)
    (file : Option Nat) (block : Option winx_blockmap)
    (clusters_to_cleanup reserved_start_lcn reserved_end_lcn : Nat) :
    Except Stop (Int × udefrag_job_parameters ω × List cleanup_iteration) :=
  if clusters_to_cleanup = 0 then .ok (0, jp, [])
  else
    match file, block with
    | some file, some block =>
      cleanup_space_loop E file reserved_start_lcn reserved_end_lcn
        clusters_to_cleanup block.vcn clusters_to_cleanup jp
    | _, _ => .ok (0, jp, [])

/-- A region is usable for a clean-up, in the words of the specification:
it is not empty and no cluster of it lies in the reserved range
`[reserved_start_lcn, reserved_end_lcn]` (both ends included). -/
def usable_region (reserved_start_lcn reserved_end_lcn : Nat)
    (r : winx_volume_region) : Prop :=
  r.length > 0 ∧
    ∀ x, r.lcn ≤ x → x < r.lcn + r.length →
      ¬ (reserved_start_lcn ≤ x ∧ x ≤ reserved_end_lcn)

/-- What the specification says of one iteration of `cleanup_space`: the
region chosen is the last usable one of the list, the call moves
`n = min(region.length, remaining)` clusters to
`target = region.lcn + region.length - n`, and the target range lies inside
the region and off the reserved range. -/
def iteration_as_specified (reserved_start_lcn reserved_end_lcn : Nat)
    (it : cleanup_iteration) : Prop :=
  ∃ (rgn : winx_volume_region) (before after : List winx_volume_region),
    it.free_regions = before ++ rgn :: after ∧
    usable_region reserved_start_lcn reserved_end_lcn rgn ∧
    (∀ r ∈ after, ¬ usable_region reserved_start_lcn reserved_end_lcn r) ∧
    it.call.length = min rgn.length it.clusters_to_cleanup ∧
    0 < it.call.length ∧
    it.call.target = rgn.lcn + rgn.length - it.call.length ∧
    rgn.lcn ≤ it.call.target ∧
    it.call.target + it.call.length ≤ rgn.lcn + rgn.length ∧
    ∀ x, it.call.target ≤ x → x < it.call.target + it.call.length →
      ¬ (reserved_start_lcn ≤ x ∧ x ≤ reserved_end_lcn)

/-- The constants and macros of `udefrag-internals.h` (and, for
`STATUS_ALREADY_COMMITTED`, of the system headers) that optimize.c uses; the
header is not among the sources at hand, so they are parameters. -/
structure udefrag_internals where
  DEFAULT_FRAGMENT_SIZE_THRESHOLD : Nat
  OPTIMIZER_MAGIC_CONSTANT : Nat
  OPTIMIZER_MAGIC_CONSTANT_N : Nat
  OPTIMIZER_MAGIC_CONSTANT_M : Nat
  MAX_FILE_SIZE : Nat
  UD_FILE_FRAGMENTED_BY_FILE_OPT : Nat
  UD_FILE_MOVING_FAILED : Nat
  UD_FILE_REGION_NOT_FOUND : Nat
  UD_FILE_MOVED_TO_FRONT : Nat
  UD_FILE_NOT_LOCKED : Nat
  UD_FILE_LOCKED : Nat
  SKIP_PARTIALLY_MOVABLE_FILES : Nat
  STATUS_ALREADY_COMMITTED : Int
  can_move : winx_file_info → Int → Bool
  can_move_entirely : winx_file_info → file_system_type → Bool
  is_fragmented : winx_file_info → Bool
  UD_SORT_BY_SIZE : Nat
  UD_SORT_BY_CREATION_TIME : Nat
  UD_SORT_BY_MODIFICATION_TIME : Nat
  UD_SORT_BY_ACCESS_TIME : Nat
  UD_SORT_DESCENDING : Nat
  UD_FILE_EXCLUDED : Nat
  UD_FILE_OVER_LIMIT : Nat
  UD_JOB_CONTEXT_MENU_HANDLER : Nat
  GIANT_FILE_SIZE : Nat
  HUGE_FILE_SIZE : Nat
  BIG_FILE_SIZE : Nat
  AVERAGE_FILE_SIZE : Nat
  SMALL_FILE_SIZE : Nat
  is_temporary : winx_file_info → Bool
  is_directory : winx_file_info → Bool
  is_compressed : winx_file_info → Bool

/-! ## analyze.c: `fragmented_files_compare` -/

/-- The routine `fragmented_files_compare` of analyze.c (lines 776-791).
`winx_wcsicmp` is a routine of zenwinx whose body is not among the sources,
hence a parameter. -/
def fragmented_files_compare
    (winx_wcsicmp : Option (List Nat) → Option (List Nat) → Int)
    (a b : winx_file_info) : Int :=
  -- sort files in descending order by number of fragments
  if a.disp.fragments ≠ b.disp.fragments then
    (if a.disp.fragments < b.disp.fragments then 1 else -1)
  -- if files have equal number of fragments, sort them by path
  else winx_wcsicmp a.path b.path

/-- A comparator of a total (pre)order, C style: the signs of `cmp x y` and
`cmp y x` are opposite, and "not greater" is transitive. -/
def total_order_comparator {α : Type} (cmp : α → α → Int) : Prop :=
  (∀ x y, Int.sign (cmp x y) = - Int.sign (cmp y x)) ∧
  (∀ x y z, cmp x y ≤ 0 → cmp y z ≤ 0 → cmp x z ≤ 0)

/-! ## optimize.c: cutting off the sorted out files -/

/-- The flag `flag` is set in the flag word `flags`. -/
def flag_set (flags flag : Nat) : Prop := flags &&& flag = flag

instance (flags flag : Nat) : Decidable (flag_set flags flag) := by
  unfold flag_set; infer_instance

/-- The assignment `file->user_defined_flags |= flag`. -/
def set_user_flag (flag : Nat) (file : winx_file_info) : winx_file_info :=
  { file with user_defined_flags := file.user_defined_flags ||| flag }

/-- The loop of `cut_off_group_of_files` (lines 737-742) over the files of
the tree from `first_file` on: `n` files at most are marked, the result is
the files as they are left and the value of `already_optimized_clusters`. -/
def cut_off_group_of_files_loop (H : udefrag_internals) :
    List winx_file_info → Nat → Nat → List winx_file_info × Nat
  | [], _, already_optimized_clusters => ([], already_optimized_clusters)
  | file :: rest, n, already_optimized_clusters =>
    if n = 0 then (file :: rest, already_optimized_clusters)
    else
      let marked := set_user_flag H.UD_FILE_MOVED_TO_FRONT file
      let r := cut_off_group_of_files_loop H rest (n - 1)
        (wrap64 (already_optimized_clusters + file.disp.clusters))
      (marked :: r.1, r.2)

/-- The routine `cut_off_group_of_files` of optimize.c (lines 721-747). The
tree `pt` is the list of its files in traversal order, `first_file` the
position of the first file of the group in it (a position beyond the end
stands for a file that `prb_t_find` does not find). -/
def cut_off_group_of_files {ω : Type} (H : udefrag_internals)
    (jp : udefrag_job_parameters ω) (pt : List winx_file_info)
    (first_file n length : Nat) : udefrag_job_parameters ω × List winx_file_info :=
  -- the group should be larger than 20 MB or should contain at least 10 files
  let magic_length := min H.OPTIMIZER_MAGIC_CONSTANT jp.udo.optimizer_size_limit
  if wrap64 (length * jp.v_info.bytes_per_cluster) < magic_length ∧
      n < H.OPTIMIZER_MAGIC_CONSTANT_N then (jp, pt)
  else
    let r := cut_off_group_of_files_loop H (pt.drop first_file) n
      jp.already_optimized_clusters
    ({ jp with already_optimized_clusters := r.2 }, pt.take first_file ++ r.1)

/-- The clusters of a list of files, summed. -/
def files_clusters (files : List winx_file_info) : Nat :=
  (files.map (fun f => f.disp.clusters)).sum

/-! ## optimize.c: moving files to the end of the disk -/

/-- The loop of `is_block_quite_small` over the list of fragments
(lines 646-656); the result is the value the routine returns. -/
def is_block_quite_small_loop {ω : Type} (jp : udefrag_job_parameters ω)
    (block : winx_blockmap) : List winx_blockmap → Int
  | [] => 1
  | fr :: rest =>
    if block.lcn ≥ fr.lcn ∧ block.lcn < wrap64 (fr.lcn + fr.length) then
      if wrap64 (fr.length * jp.v_info.bytes_per_cluster) ≥
          wrap64 (2 * jp.udo.fragment_size_threshold) then 0
      else 1
    else is_block_quite_small_loop jp block rest

/-- The routine `is_block_quite_small` of optimize.c (lines 619-659). -/
def is_block_quite_small {ω : Type} (E : Externals ω) (H : udefrag_internals)
    (jp : udefrag_job_parameters ω) (file : winx_file_info) (block : winx_blockmap) :
    Int :=
  let file_size := wrap64 (file.disp.clusters * jp.v_info.bytes_per_cluster)
  let block_size := wrap64 (block.length * jp.v_info.bytes_per_cluster)
  -- move everything which need to be sorted out
  if file_size < jp.udo.optimizer_size_limit then 1
  -- skip big not fragmented files
  else if ¬ H.is_fragmented file then 0
  -- move everything fragmented if the fragment size threshold isn't set
  else if jp.udo.fragment_size_threshold = H.DEFAULT_FRAGMENT_SIZE_THRESHOLD then 1
  -- move files which need to be defragmented entirely
  else if file_size < wrap64 (2 * jp.udo.fragment_size_threshold) then 1
  -- skip fragments which probably won't get moved in defragmentation
  else if block_size ≥ wrap64 (2 * jp.udo.fragment_size_threshold) then 0
  -- move small fragments needing defragmentation
  else is_block_quite_small_loop jp block (E.build_fragments_list file)

/-- The file and the block a block pointer points to; a pointer to no block
of the file list cannot be read through. -/
def block_at {ω : Type} (jp : udefrag_job_parameters ω) (ref : block_ref) :
    Except Fault (winx_file_info × winx_blockmap) :=
  match jp.filelist[ref.file]? with
  | none => .error .invalid_pointer
  | some file =>
    match file.disp.blockmap[ref.block]? with
    | none => .error .invalid_pointer
    | some block => .ok (file, block)

/-- One call of `cleanup_space` made by `move_files_to_back`: the file and
the block to be evacuated, the code returned and the iterations of the
call. -/
structure evacuation where
  file : Nat
  block : winx_blockmap
  code : Int
  iterations : List cleanup_iteration
deriving DecidableEq, Repr

/-- The loop of `move_files_to_back` (lines 686-707). The first argument
bounds the number of iterations. The result is the list of the calls of
`cleanup_space` made, and the value left in `*start_lcn` with the job
context if the loop has been left. -/
def move_files_to_back_loop {ω : Type} (E : Externals ω) (H : udefrag_internals) :
    Nat → udefrag_job_parameters ω → Nat →
      List evacuation × Except Stop (Nat × udefrag_job_parameters ω)
  | 0, _, _ => ([], .error .out_of_fuel)
  | fuel + 1, jp, min_lcn =>
    let stop := E.termination_router jp
    if stop.1 ≠ 0 then ([], .ok (stop.2.v_info.total_clusters, stop.2))
    else
      let found := E.find_first_block stop.2 min_lcn H.SKIP_PARTIALLY_MOVABLE_FILES
      let min_lcn := found.2.1
      let jp := found.2.2
      match found.1 with
      | none => ([], .ok (jp.v_info.total_clusters, jp))
      | some ref =>
        match block_at jp ref with
        | .error fault => ([], .error (.trap fault))
        | .ok (first_file, first_block) =>
          if is_block_quite_small E H jp first_file first_block ≠ 0 then
            let lcn := first_block.lcn
            match cleanup_space E jp (some ref.file) (some first_block) first_block.length
                0 (sub64 (wrap64 (first_block.lcn + first_block.length)) 1) with
            | .error e => ([], .error e)
            | .ok (result, jp, its) =>
              let ev : evacuation := ⟨ref.file, first_block, result, its⟩
              let jp :=
                if result = 0 then
                  { jp with pi := { jp.pi with total_moves := wrap64 (jp.pi.total_moves + 1) } }
                else jp
              if result = -1 then
                -- no more free space beyond exists
                ([ev], .ok (lcn, jp))
              else
                let r := move_files_to_back_loop E H fuel jp min_lcn
                (ev :: r.1, r.2)
          else move_files_to_back_loop E H fuel jp min_lcn

/-- The routine `move_files_to_back` of optimize.c (lines 670-714);
`start_lcn` is the value of `*start_lcn` at entry. -/
def move_files_to_back {ω : Type} (E : Externals ω) (H : udefrag_internals)
    (fuel : Nat) (jp : udefrag_job_parameters ω) (start_lcn : Nat) :
    List evacuation × Except Stop (Nat × udefrag_job_parameters ω) :=
  let jp := { jp with pi := { jp.pi with moved_clusters := 0 } }
  -- release temporarily allocated space
  let jp := E.release_temp_space_regions jp
  move_files_to_back_loop E H fuel jp start_lcn

/-! ## optimize.c: moving files to the beginning of the disk -/

/-- The file a file pointer points to; a pointer to no file of the file list
cannot be read through. -/
def file_at {ω : Type} (jp : udefrag_job_parameters ω) (file : Nat) :
    Except Fault winx_file_info :=
  match jp.filelist[file]? with
  | none => .error .invalid_pointer
  | some f => .ok f

/-- The assignment `file->user_defined_flags |= flag` through a file
pointer. -/
def set_file_flag {ω : Type} (jp : udefrag_job_parameters ω) (file flag : Nat) :
    Except Fault (udefrag_job_parameters ω) :=
  match jp.filelist[file]? with
  | none => .error .invalid_pointer
  | some f => .ok { jp with filelist := jp.filelist.set file (set_user_flag flag f) }

/-- What `move_files_to_front` does with a file it visits. -/
inductive front_action where
  | not_movable
  | passed_over
  | flagged_and_stopped
  | moved
deriving DecidableEq, Repr

/-- One file visited by `move_files_to_front`: whether it carried
`UD_FILE_REGION_NOT_FOUND` when it was visited, the values of
`skipped_files` and `jp->pi.moved_clusters` at that time, and what was done
with it. -/
structure front_visit where
  file : Nat
  flagged_before : Bool
  skipped_files : Nat
  moved_clusters : Nat
  action : front_action
deriving DecidableEq, Repr

/-- The loop of `move_files_to_front` (lines 563-603). The traverser is the
list of the files still to be visited, in tree order. The result is the job
context, the value left in `*start_lcn` and the files visited. -/
def move_files_to_front_loop {ω : Type} (E : Externals ω) (H : udefrag_internals)
    (end_lcn : Nat) :
    List Nat → udefrag_job_parameters ω → Nat → Nat →
      Except Fault (udefrag_job_parameters ω × Nat × List front_visit)
  | [], jp, start_lcn, _ => .ok (jp, start_lcn, [])
  | file :: rest, jp, start_lcn, skipped_files => do
    let f ← file_at jp file
    let flagged := decide (f.user_defined_flags &&& H.UD_FILE_REGION_NOT_FOUND ≠ 0)
    let visit (a : front_action) : front_visit :=
      ⟨file, flagged, skipped_files, jp.pi.moved_clusters, a⟩
    if H.can_move_entirely f jp.fs_type then
      let rgn := E.find_first_free_region jp start_lcn f.disp.clusters
      let fitting : Option winx_volume_region :=
        match rgn with
        | some r => if r.lcn < end_lcn then some r else none
        | none => none
      match fitting with
      | none =>
        -- region_not_found
        if flagged then
          -- whenever it's impossible to find a suitable region twice, skip the file
          let r ← move_files_to_front_loop E H end_lcn rest jp start_lcn
            (wrap64 (skipped_files + 1))
          pure (r.1, r.2.1, visit .passed_over :: r.2.2)
        else if skipped_files ≠ 0 ∧ jp.pi.moved_clusters = 0 then
          -- skip all subsequent big files too
          let r ← move_files_to_front_loop E H end_lcn rest jp start_lcn
            (wrap64 (skipped_files + 1))
          pure (r.1, r.2.1, visit .passed_over :: r.2.2)
        else
          let jp ← set_file_flag jp file H.UD_FILE_REGION_NOT_FOUND
          pure (jp, start_lcn, [visit .flagged_and_stopped])
      | some r =>
        -- move the file
        let lcn := r.lcn
        let vcn ←
          match f.disp.blockmap with
          | [] => Except.error Fault.invalid_pointer
          | block :: _ => Except.ok block.vcn
        let moved := E.move_file file vcn f.disp.clusters r.lcn jp
        let jp := moved.2
        let f1 ← file_at jp file
        let jp :=
          if moved.1 ≥ 0 then
            { jp with pi := { jp.pi with total_moves := wrap64 (jp.pi.total_moves + 1) } }
          else jp
        let start_lcn :=
          if moved.1 ≥ 0 ∧
              wrap64 (f1.disp.clusters * jp.v_info.bytes_per_cluster) <
                H.OPTIMIZER_MAGIC_CONSTANT then wrap64 (lcn + 1)
          else start_lcn
        let jp ← set_file_flag jp file H.UD_FILE_MOVED_TO_FRONT
        let r ← move_files_to_front_loop E H end_lcn rest jp start_lcn skipped_files
        pure (r.1, r.2.1, visit .moved :: r.2.2)
    else
      let r ← move_files_to_front_loop E H end_lcn rest jp start_lcn skipped_files
      pure (r.1, r.2.1, visit .not_movable :: r.2.2)

/-- The routine `move_files_to_front` of optimize.c (lines 546-610);
`start_lcn` is the value of `*start_lcn` at entry, `t` the files from the
current position of the traverser on. -/
def move_files_to_front {ω : Type} (E : Externals ω) (H : udefrag_internals)
    (jp : udefrag_job_parameters ω) (start_lcn end_lcn : Nat) (t : List Nat) :
    Except Fault (udefrag_job_parameters ω × Nat × List front_visit) :=
  let jp := { jp with pi := { jp.pi with moved_clusters := 0 } }
  -- release temporarily allocated space
  let jp := E.release_temp_space_regions jp
  move_files_to_front_loop E H end_lcn t jp start_lcn 0

/-- What holds of a file visited by `move_files_to_front`, given the visits
`log` of the sweep and the file list `files` at its end: a file is passed
over only if it carried `UD_FILE_REGION_NOT_FOUND` already, or if a file has
been skipped before it and no cluster has been moved in the sweep; a file is
flagged, the sweep stopping at it, only if neither is the case. -/
def front_visit_as_coded (H : udefrag_internals) (log : List front_visit)
    (files : List winx_file_info) (v : front_visit) : Prop :=
  (v.action = .passed_over →
    v.flagged_before = true ∨ (v.skipped_files ≠ 0 ∧ v.moved_clusters = 0)) ∧
  (v.action = .flagged_and_stopped →
    v.flagged_before = false ∧ ¬ (v.skipped_files ≠ 0 ∧ v.moved_clusters = 0) ∧
    log.getLast? = some v ∧
    ∃ f, files[v.file]? = some f ∧
      flag_set f.user_defined_flags H.UD_FILE_REGION_NOT_FOUND)

/-! ## analyze.c: `is_file_locked` -/

/-- The routine `is_file_locked` of analyze.c (lines 667-691). `f` is the
index of the file in the file list. `winx_defrag_fopen` yields the status
(`STATUS_SUCCESS` is 0) and the job context; the handle is closed at once.
The redrawing of the file on the cluster map is left out. -/
def is_file_locked {ω : Type} (E : Externals ω) (H : udefrag_internals) (f : Nat)
    (jp : udefrag_job_parameters ω) : Except Fault (Int × udefrag_job_parameters ω) := do
  let file ← file_at jp f
  -- check whether the file has been passed the check already
  if file.user_defined_flags &&& H.UD_FILE_NOT_LOCKED ≠ 0 then pure (0, jp)
  else if file.user_defined_flags &&& H.UD_FILE_LOCKED ≠ 0 then pure (1, jp)
  else
    -- file status is undefined, so let's try to open it
    let opened := E.winx_defrag_fopen f jp
    if opened.1 = 0 then
      let jp ← set_file_flag opened.2 f H.UD_FILE_NOT_LOCKED
      pure (0, jp)
    else
      let jp ← set_file_flag opened.2 f H.UD_FILE_LOCKED
      pure (1, jp)

/-! ## optimize.c: `advance_vcn` and `optimize_file` -/

/-- The loop of `advance_vcn` (lines 106-123) from the block at the head of
the list on; `head_vcn` is the VCN of the first block of the map, which
follows the last one in the circular list. -/
def advance_vcn_loop (head_vcn vcn : Nat) : List winx_blockmap → Nat → Nat → Nat
  | [], _, _ => 0
  | block :: rest, n, current_vcn =>
    if n = 0 then 0
    else if wrap64 (block.vcn + block.length) > vcn then
      if n > sub64 block.length (sub64 current_vcn block.vcn) then
        match rest with
        | [] => 0
        | next :: _ =>
          advance_vcn_loop head_vcn vcn rest
            (sub64 n (sub64 block.length (sub64 current_vcn block.vcn))) next.vcn
      else if n = sub64 block.length (sub64 current_vcn block.vcn) then
        match rest with
        | [] => wrap64 (block.vcn + block.length)
        | next :: _ => next.vcn
      else wrap64 (current_vcn + n)
    else
      match rest with
      | [] => 0
      | _ :: _ => advance_vcn_loop head_vcn vcn rest n current_vcn

/-- The routine `advance_vcn` of optimize.c (lines 97-126). -/
def advance_vcn (f : winx_file_info) (vcn n : Nat) : Nat :=
  if n = 0 then vcn
  else
    match f.disp.blockmap with
    | [] => 0
    | first :: rest => advance_vcn_loop first.vcn vcn (first :: rest) n vcn

/-- The assignment `file->user_defined_flags &= ~flag`. -/
def clear_user_flag (flag : Nat) (file : winx_file_info) : winx_file_info :=
  { file with user_defined_flags :=
      file.user_defined_flags ^^^ (file.user_defined_flags &&& flag) }

/-- What `optimize_file` does to the disk and to other files, in order: a
call of `cleanup_space` (with its iterations), the flagging of a file with
`UD_FILE_FRAGMENTED_BY_FILE_OPT`, a call of `move_file` for the file being
optimized. -/
inductive optimize_event where
  | cleanup (ev : evacuation)
  | flag (file : Nat)
  | move (call : move_call)
deriving DecidableEq, Repr

/-- The local variables of `optimize_file` that live across iterations,
with the job context. -/
structure optimize_state (ω : Type) where
  jp : udefrag_job_parameters ω
  clusters_to_process : Nat
  start_vcn : Nat
  start_lcn : Nat
  region : winx_volume_region

/-- The ways the inner loop of `optimize_file` is left: `goto done`,
`goto try_again`, or towards the label `move_the_file` (by `break`, by
`goto`, or with the loop condition false) with the value of `target_rgn`. -/
inductive inner_exit (ω : Type) where
  | done (st : optimize_state ω)
  | try_again (st : optimize_state ω)
  | move_the_file (st : optimize_state ω) (target_rgn : Option winx_volume_region)

/-- The inner loop of `optimize_file` (lines 205-263). The first argument
bounds the number of iterations; `clusters_to_cleanup`, `block_cleaned_up`
and `target_rgn` are the variables of that name (a pointer to a region is
the region pointed to). The result is the list of events and the way the
loop is left. -/
def optimize_file_inner {ω : Type} (E : Externals ω) (H : udefrag_internals)
    (f first_cluster end_lcn : Nat) :
    Nat → optimize_state ω → Nat → Bool → Option winx_volume_region →
      List optimize_event × Except Stop (inner_exit ω)
  | 0, _, _, _, _ => ([], .error .out_of_fuel)
  | fuel + 1, st, clusters_to_cleanup, block_cleaned_up, target_rgn =>
    if clusters_to_cleanup = 0 then ([], .ok (.move_the_file st target_rgn))
    else
      let stop := E.termination_router st.jp
      let st := { st with jp := stop.2 }
      if stop.1 ≠ 0 then ([], .ok (.done st))
      else
        let found := E.find_first_block st.jp st.start_lcn 0
        let st := { st with jp := found.2.2 }
        match found.1 with
        | none => ([], .ok (.move_the_file st target_rgn))
        | some ref =>
          match block_at st.jp ref with
          | .error fault => ([], .error (.trap fault))
          | .ok (first_file, first_block) =>
            if first_block.lcn ≥ end_lcn then ([], .ok (.move_the_file st target_rgn))
            -- does the first block follow the previously moved one?
            else if block_cleaned_up = true ∧
                (first_block.lcn ≠ wrap64 (st.region.lcn + st.region.length) ∨
                  ref.file = f) then
              ([], .ok (.move_the_file st target_rgn))
            -- don't move already optimized parts of the file
            else if ref.file = f ∧ first_block.vcn = st.start_vcn then
              match first_file.disp.blockmap[ref.block + 1]? with
              | none => ([], .ok (.done { st with clusters_to_process := 0 }))
              | some next =>
                if st.clusters_to_process ≤ first_block.length then
                  ([], .ok (.done { st with clusters_to_process := 0 }))
                else
                  optimize_file_inner E H f first_cluster end_lcn fuel
                    { st with
                      clusters_to_process := sub64 st.clusters_to_process first_block.length,
                      start_vcn := next.vcn,
                      start_lcn := wrap64 (first_block.lcn + first_block.length) }
                    (sub64 clusters_to_cleanup first_block.length) block_cleaned_up
                    target_rgn
            else
              -- cleanup space
              let lcn := first_block.lcn
              let clusters_to_move := min clusters_to_cleanup first_block.length
              match cleanup_space E st.jp (some ref.file) (some first_block)
                  clusters_to_move first_cluster
                  (sub64 (wrap64 (first_block.lcn + first_block.length)) 1) with
              | .error e => ([], .error e)
              | .ok (result, jp, its) =>
                let ev := optimize_event.cleanup ⟨ref.file, first_block, result, its⟩
                let st := { st with jp := jp }
                if result = -1 then ([ev], .ok (.done st))
                else
                  match (if ref.file ≠ f then
                      set_file_flag st.jp ref.file H.UD_FILE_FRAGMENTED_BY_FILE_OPT
                    else .ok st.jp) with
                  | .error fault => ([ev], .error (.trap fault))
                  | .ok jp =>
                    let evs := if ref.file ≠ f then [ev, .flag ref.file] else [ev]
                    let st := { st with jp := jp }
                    if result = -2 then
                      if block_cleaned_up = false then
                        (evs, .ok (.try_again
                          { st with start_lcn := wrap64 (lcn + clusters_to_move) }))
                      else (evs, .ok (.move_the_file st target_rgn))
                    else
                      -- space cleaned up successfully
                      let region : winx_volume_region :=
                        { lcn := if block_cleaned_up = false then lcn else st.region.lcn,
                          length := wrap64 (st.region.length + clusters_to_move) }
                      let r := optimize_file_inner E H f first_cluster end_lcn fuel
                        { st with region := region,
                                  start_lcn := wrap64 (region.lcn + region.length) }
                        (sub64 clusters_to_cleanup clusters_to_move) true (some region)
                      (evs ++ r.1, r.2)

/-- The search for the first free region after `start_lcn` in
`optimize_file` (lines 190-197). -/
def first_region_after (free_regions : List winx_volume_region) (start_lcn : Nat) :
    Option winx_volume_region :=
  free_regions.find? (fun rgn => decide (rgn.lcn ≥ start_lcn ∧ rgn.length ≠ 0))

/-- The outer loop of `optimize_file` (label `try_again`, lines 180-289).
The first argument bounds the number of iterations (of either loop). The
result is the list of events and the state in which the label `done` is
reached. -/
def optimize_file_outer {ω : Type} (E : Externals ω) (H : udefrag_internals)
    (f first_cluster : Nat) :
    Nat → optimize_state ω → List optimize_event × Except Stop (optimize_state ω)
  | 0, _ => ([], .error .out_of_fuel)
  | fuel + 1, st =>
    if st.clusters_to_process = 0 then ([], .ok st)
    else
      let stop := E.termination_router st.jp
      let st := { st with jp := stop.2 }
      if stop.1 ≠ 0 then ([], .ok st)
      else
        -- release temporarily allocated space
        let st := { st with jp := E.release_temp_space_regions st.jp }
        match st.jp.free_regions with
        | [] => ([], .ok st)
        | _ :: _ =>
          -- search for the first free region after start_lcn
          let target_rgn := first_region_after st.jp.free_regions st.start_lcn
          -- process file blocks between start_lcn and target_rgn
          let end_lcn :=
            match target_rgn with
            | some rgn => rgn.lcn
            | none => st.jp.v_info.total_clusters
          let st := { st with region := { st.region with length := 0 } }
          let inner := optimize_file_inner E H f first_cluster end_lcn fuel st
            st.clusters_to_process false target_rgn
          match inner.2 with
          | .error e => (inner.1, .error e)
          | .ok (.done st) => (inner.1, .ok st)
          | .ok (.try_again st) =>
            let r := optimize_file_outer E H f first_cluster fuel st
            (inner.1 ++ r.1, r.2)
          | .ok (.move_the_file st target_rgn) =>
            match target_rgn with
            | none => (inner.1, .ok st)
            | some target_rgn =>
              match file_at st.jp f with
              | .error fault => (inner.1, .error (.trap fault))
              | .ok file =>
                let clusters_to_move := min st.clusters_to_process target_rgn.length
                let next_vcn := advance_vcn file st.start_vcn clusters_to_move
                let target := target_rgn.lcn
                let moved := E.move_file f st.start_vcn clusters_to_move target st.jp
                let ev := optimize_event.move
                  ⟨f, st.start_vcn, clusters_to_move, target, moved.1⟩
                let st := { st with jp := moved.2 }
                if moved.1 < 0 then
                  if st.jp.last_move_status ≠ H.STATUS_ALREADY_COMMITTED then
                    -- on unrecoverable failures exit
                    (inner.1 ++ [ev], .ok st)
                  else
                    -- go forward and try to cleanup next blocks
                    match file_at st.jp f with
                    | .error fault => (inner.1 ++ [ev], .error (.trap fault))
                    | .ok file =>
                      let st := { st with
                        jp := { st.jp with filelist :=
                          st.jp.filelist.set f (clear_user_flag H.UD_FILE_MOVING_FAILED file) },
                        start_lcn := wrap64 (target + clusters_to_move) }
                      let r := optimize_file_outer E H f first_cluster fuel st
                      (inner.1 ++ ev :: r.1, r.2)
                else
                  -- file's part moved successfully
                  let st := { st with
                    jp := { st.jp with pi := { st.jp.pi with
                      total_moves := wrap64 (st.jp.pi.total_moves + 1) } },
                    clusters_to_process := sub64 st.clusters_to_process clusters_to_move,
                    start_lcn := wrap64 (target + clusters_to_move),
                    start_vcn := next_vcn }
                  if next_vcn = 0 then (inner.1 ++ [ev], .ok st)
                  else
                    let r := optimize_file_outer E H f first_cluster fuel st
                    (inner.1 ++ ev :: r.1, r.2)

/-- The end of `optimize_file` (label `done`, lines 291-293): the code
returned for the state in which the label is reached. -/
def optimize_file_done {ω : Type} (E : Externals ω) (st : optimize_state ω) :
    Int × udefrag_job_parameters ω :=
  let stop := E.termination_router st.jp
  if stop.1 ≠ 0 then (1, stop.2)
  else (if st.clusters_to_process > 0 then -1 else 1, stop.2)

/-- The routine `optimize_file` of optimize.c (lines 145-294). `f` is the
index of the file in the file list, `fuel` bounds the number of loop
iterations. The result is the list of events and, if the routine returns,
the code returned with the job context. -/
def optimize_file {ω : Type} (E : Externals ω) (H : udefrag_internals) (fuel f : Nat)
    (jp : udefrag_job_parameters ω) :
    List optimize_event × Except Stop (Int × udefrag_job_parameters ω) :=
  match file_at jp f with
  | .error fault => ([], .error (.trap fault))
  | .ok file =>
    -- check whether the file needs optimization or not
    if ¬ H.can_move file jp.is_fat ∨ ¬ H.is_fragmented file then ([], .ok (0, jp))
    else
      -- check whether the file is locked or not
      match is_file_locked E H f jp with
      | .error fault => ([], .error (.trap fault))
      | .ok (locked, jp) =>
        if locked ≠ 0 then ([], .ok (-1, jp))
        else
          match file_at jp f with
          | .error fault => ([], .error (.trap fault))
          | .ok file =>
          match file.disp.blockmap with
          | [] => ([], .error (.trap .invalid_pointer))
          | first :: rest =>
            let clusters_to_process := sub64 file.disp.clusters first.length
            if clusters_to_process = 0 then ([], .ok (0, jp))
            else
              let first_cluster := first.lcn
              let start_lcn := wrap64 (first.lcn + first.length)
              let start_vcn :=
                match rest with
                | [] => first.vcn
                | next :: _ => next.vcn
              let r := optimize_file_outer E H f first_cluster fuel
                ⟨jp, clusters_to_process, start_vcn, start_lcn, ⟨0, 0⟩⟩
              match r.2 with
              | .error e => (r.1, .error e)
              | .ok st => (r.1, .ok (optimize_file_done E st))





/-- The iterations of a run of `cleanup_space` count down the clusters to
clean up: each one starts with the remainder left by the one before, moves
at least one cluster and at most that remainder. -/
def remaining_chain : Nat → List cleanup_iteration → Prop
  | _, [] => True
  | remaining, it :: rest =>
    it.clusters_to_cleanup = remaining ∧ 1 ≤ it.call.length ∧
    it.call.length ≤ remaining ∧ remaining_chain (remaining - it.call.length) rest

/-- The blocks of a map are contiguous in VCN space: each block starts at
the VCN where the block before it ends. -/
def vcn_contiguous : List winx_blockmap → Prop
  | [] => True
  | [_] => True
  | a :: b :: rest => b.vcn = a.vcn + a.length ∧ vcn_contiguous (b :: rest)

/-! ## optimize.c: `files_compare` -/

/-- Reduction of an exact result to the range of a 32-bit `int`. -/
def wrap32 (x : Int) : Int := (x + 2147483648) % 4294967296 - 2147483648

/-- The routine `files_compare` of optimize.c (lines 487-531).
`winx_wcsicmp` is a routine of zenwinx whose body is not among the sources,
hence a parameter. -/
def files_compare {ω : Type} (H : udefrag_internals)
    (winx_wcsicmp : Option (List Nat) → Option (List Nat) → Int)
    (jp : udefrag_job_parameters ω) (a b : winx_file_info) : Int :=
  let paths_compare := winx_wcsicmp a.path b.path
  let result : Int :=
    if jp.udo.sorting_flags &&& H.UD_SORT_BY_SIZE ≠ 0 then
      -- sort files of equal sizes by path
      if a.disp.clusters = b.disp.clusters then paths_compare
      else if a.disp.clusters > b.disp.clusters then 1 else -1
    else if jp.udo.sorting_flags &&& H.UD_SORT_BY_CREATION_TIME ≠ 0 then
      -- sort files of equal creation times by path
      if a.creation_time = b.creation_time then paths_compare
      else if a.creation_time > b.creation_time then 1 else -1
    else if jp.udo.sorting_flags &&& H.UD_SORT_BY_MODIFICATION_TIME ≠ 0 then
      -- sort files of equal last modification times by path
      if a.last_modification_time = b.last_modification_time then paths_compare
      else if a.last_modification_time > b.last_modification_time then 1 else -1
    else if jp.udo.sorting_flags &&& H.UD_SORT_BY_ACCESS_TIME ≠ 0 then
      -- sort files of equal last access times by path
      if a.last_access_time = b.last_access_time then paths_compare
      else if a.last_access_time > b.last_access_time then 1 else -1
    else paths_compare
  if jp.udo.sorting_flags &&& H.UD_SORT_DESCENDING ≠ 0 then wrap32 (result * (-1))
  else result

/-- The criterion selected by the sorting flags, in the words of the
specification: size, else creation time, else modification time, else
access time; `none` stands for the path. -/
def selected_criterion (H : udefrag_internals) (sorting_flags : Nat) :
    Option (winx_file_info → Nat) :=
  if sorting_flags &&& H.UD_SORT_BY_SIZE ≠ 0 then some (fun f => f.disp.clusters)
  else if sorting_flags &&& H.UD_SORT_BY_CREATION_TIME ≠ 0 then
    some (fun f => f.creation_time)
  else if sorting_flags &&& H.UD_SORT_BY_MODIFICATION_TIME ≠ 0 then
    some (fun f => f.last_modification_time)
  else if sorting_flags &&& H.UD_SORT_BY_ACCESS_TIME ≠ 0 then
    some (fun f => f.last_access_time)
  else none

/-- The ascending order of the specification: by the selected criterion,
every tie being broken by the comparison of the paths. -/
def ascending_order (H : udefrag_internals)
    (winx_wcsicmp : Option (List Nat) → Option (List Nat) → Int)
    (sorting_flags : Nat) (a b : winx_file_info) : Int :=
  match selected_criterion H sorting_flags with
  | some key =>
    if key a < key b then -1
    else if key b < key a then 1
    else winx_wcsicmp a.path b.path
  | none => winx_wcsicmp a.path b.path

/-! ## analyze.c: `filter` -/

/-- The routine `exclude_by_fragments` of analyze.c (lines 364-368). -/
def exclude_by_fragments {ω : Type} (f : winx_file_info)
    (jp : udefrag_job_parameters ω) : Int :=
  if jp.udo.fragments_limit = 0 then 0
  else if f.disp.fragments < jp.udo.fragments_limit then 1 else 0

/-- The routine `exclude_by_size` of analyze.c (lines 374-386); the result
is the value returned and the file as it is left. -/
def exclude_by_size {ω : Type} (H : udefrag_internals) (f : winx_file_info)
    (jp : udefrag_job_parameters ω) : Int × winx_file_info :=
  let f := clear_user_flag H.UD_FILE_OVER_LIMIT f
  let filesize := wrap64 (f.disp.clusters * jp.v_info.bytes_per_cluster)
  if filesize > jp.udo.size_limit then (1, set_user_flag H.UD_FILE_OVER_LIMIT f)
  else (0, f)

/-- The routine `exclude_by_path` of analyze.c (lines 392-410). A path is
the list of its characters up to the terminating zero; `f->path + 0x4` is
the path without its first four characters. -/
def exclude_by_path {ω : Type} (E : Externals ω) (f : winx_file_info)
    (jp : udefrag_job_parameters ω) : Except Fault Int :=
  match f.path with
  | none => .error .invalid_pointer
  | some path =>
    -- note that paths have the \??\ internal prefix while patterns haven't
    if path.length < 4 then .ok 1
    else if jp.udo.ex_filter.length ≠ 0 ∧
        E.winx_patcmp (path.drop 4) jp.udo.ex_filter ≠ 0 then .ok 1
    else if jp.udo.cut_filter.length ≠ 0 ∧
        E.winx_patcmp (path.drop 4) jp.udo.cut_filter = 0 then .ok 1
    else if jp.udo.in_filter.length = 0 then .ok 0
    else .ok (if E.winx_patcmp (path.drop 4) jp.udo.in_filter = 0 then 1 else 0)

/-- The routine `update_progress_counters` of analyze.c (lines 514-535). -/
def update_progress_counters {ω : Type} (H : udefrag_internals) (f : winx_file_info)
    (jp : udefrag_job_parameters ω) : udefrag_job_parameters ω :=
  let jp := { jp with pi := { jp.pi with files := wrap64 (jp.pi.files + 1) } }
  let jp :=
    if H.is_directory f then
      { jp with pi := { jp.pi with directories := wrap64 (jp.pi.directories + 1) } }
    else jp
  let jp :=
    if H.is_compressed f then
      { jp with pi := { jp.pi with compressed := wrap64 (jp.pi.compressed + 1) } }
    else jp
  let jp := { jp with pi := { jp.pi with
    processed_clusters := wrap64 (jp.pi.processed_clusters + f.disp.clusters) } }
  let filesize := wrap64 (f.disp.clusters * jp.v_info.bytes_per_cluster)
  let c := jp.f_counters
  if filesize ≥ H.GIANT_FILE_SIZE then
    { jp with f_counters := { c with giant_files := wrap64 (c.giant_files + 1) } }
  else if filesize ≥ H.HUGE_FILE_SIZE then
    { jp with f_counters := { c with huge_files := wrap64 (c.huge_files + 1) } }
  else if filesize ≥ H.BIG_FILE_SIZE then
    { jp with f_counters := { c with big_files := wrap64 (c.big_files + 1) } }
  else if filesize ≥ H.AVERAGE_FILE_SIZE then
    { jp with f_counters := { c with average_files := wrap64 (c.average_files + 1) } }
  else if filesize ≥ H.SMALL_FILE_SIZE then
    { jp with f_counters := { c with small_files := wrap64 (c.small_files + 1) } }
  else
    { jp with f_counters := { c with tiny_files := wrap64 (c.tiny_files + 1) } }

/-- The removal of the trailing dot of the root directory path in `filter`
(lines 433-439); 46 is the dot, 92 the backslash. -/
def remove_trailing_dot (path : List Nat) : List Nat :=
  if path.length ≥ 2 ∧ path[path.length - 1]? = some 46 ∧
      path[path.length - 2]? = some 92 then path.dropLast
  else path

/-- The tests of `filter` from the one for resident streams to the label
`accept_file` (lines 442-485): whether the file is to be skipped (`goto
skip_file`), and the file as the tests leave it. -/
def filter_tests {ω : Type} (E : Externals ω) (H : udefrag_internals)
    (jp : udefrag_job_parameters ω) (f : winx_file_info) :
    Except Fault (Bool × winx_file_info) :=
  -- skip resident streams
  if f.disp.fragments = 0 then .ok (true, f)
  -- skip files with invalid map
  else if f.disp.blockmap = [] then .ok (true, f)
  -- skip temporary files
  else if H.is_temporary f then .ok (true, f)
  else
    -- filter files by their sizes
    let sized := exclude_by_size H f jp
    if sized.1 ≠ 0 then .ok (true, sized.2)
    -- filter files by their number of fragments
    else if exclude_by_fragments sized.2 jp ≠ 0 then .ok (true, sized.2)
    -- filter files by their fragment sizes
    else if exclude_by_fragment_size H.DEFAULT_FRAGMENT_SIZE_THRESHOLD sized.2 jp.udo
        jp.v_info.bytes_per_cluster ≠ 0 then .ok (true, sized.2)
    else
      -- filter files by their paths
      match exclude_by_path E sized.2 jp with
      | .error fault => .error fault
      | .ok excluded => .ok (decide (excluded ≠ 0), sized.2)

/-- The string at `path + k`: the path without its first `k` characters. No
length is tested; when `k` exceeds the length of the path the read goes
beyond the terminating zero and finds what the memory holds there. -/
def string_from {ω : Type} (E : Externals ω) (path : List Nat) (k : Nat) : List Nat :=
  if k ≤ path.length then path.drop k else E.memory_beyond path k

/-- The counting of `filter` under the label `accept_file` (lines 494-503).
The code reads `f->path + 0x4` without a test of the length of the path. -/
def filter_count {ω : Type} (E : Externals ω) (H : udefrag_internals)
    (jp : udefrag_job_parameters ω) (f : winx_file_info) :
    Except Fault (udefrag_job_parameters ω) :=
  -- count everything in context menu handler to avoid ambiguity
  if jp.udo.job_flags &&& H.UD_JOB_CONTEXT_MENU_HANDLER ≠ 0 then
    if jp.udo.cut_filter.length ≠ 0 then
      match f.path with
      | none => .error .invalid_pointer
      | some path =>
        if E.winx_patcmp (string_from E path 4) jp.udo.cut_filter ≠ 0 then
          .ok (update_progress_counters H f jp)
        else .ok jp
    else .ok (update_progress_counters H f jp)
  else .ok jp

/-- The routine `filter` of analyze.c (lines 417-509). The result is the
value returned, the file entry as it is left and the job context. -/
def filter {ω : Type} (E : Externals ω) (H : udefrag_internals)
    (jp : udefrag_job_parameters ω) (f : winx_file_info) :
    Except Fault (Int × winx_file_info × udefrag_job_parameters ω) :=
  match f.path with
  -- skip entries with empty path, as well as their children
  | none => .ok (1, set_user_flag H.UD_FILE_EXCLUDED f, jp)
  | some path =>
    if path = [] then .ok (1, set_user_flag H.UD_FILE_EXCLUDED f, jp)
    else
      let f := { f with path := some (remove_trailing_dot path) }
      match filter_tests E H jp f with
      | .error fault => .error fault
      | .ok (skip, f) =>
        let f := if skip then set_user_flag H.UD_FILE_EXCLUDED f else f
        match filter_count E H jp f with
        | .error fault => .error fault
        | .ok jp => .ok (0, f, jp)

/-- The file entry as the tests of `filter` leave it: `exclude_by_size` has
been applied unless one of the three tests before it has sent the file to
`skip_file`. -/
def filter_tests_file {ω : Type} (H : udefrag_internals)
    (jp : udefrag_job_parameters ω) (f : winx_file_info) : winx_file_info :=
  if f.disp.fragments = 0 ∨ f.disp.blockmap = [] ∨ H.is_temporary f = true then f
  else (exclude_by_size H f jp).2

/-- The end of the label `skip_file`: the file is marked if it is skipped. -/
def mark_if_skipped (H : udefrag_internals) (skip : Bool) (f : winx_file_info) :
    winx_file_info :=
  if skip then set_user_flag H.UD_FILE_EXCLUDED f else f

/-! ## optimize.c: `count_clusters` -/

/-- The body of the loop of `count_clusters` of optimize.c (lines 880-884):
the value of `n` after the region `rgn` has been looked at. -/
def count_clusters_step (start_lcn : Nat) (rgn : winx_volume_region) (n : Nat) : Nat :=
  if rgn.lcn ≥ start_lcn then wrap64 (n + rgn.length)
  else if wrap64 (rgn.lcn + rgn.length) > start_lcn then
    wrap64 (n + sub64 rgn.length (sub64 start_lcn rgn.lcn))
  else n

/-- The loop of `count_clusters` of optimize.c (lines 878-886) over the
circular list of free regions, from the region `rgn` on. -/
def count_clusters_loop {ω : Type} (E : Externals ω) (start_lcn : Nat) :
    List winx_volume_region → udefrag_job_parameters ω → Nat →
      Nat × udefrag_job_parameters ω
  | [], jp, n => (n, jp)
  | rgn :: rest, jp, n =>
    let t := E.termination_router jp
    if t.1 ≠ 0 then (n, t.2)
    else count_clusters_loop E start_lcn rest t.2 (count_clusters_step start_lcn rgn n)

/-- The routine `count_clusters` of optimize.c (lines 868-889); the timing
counters are left out. The result is the value returned and the job context. -/
def count_clusters {ω : Type} (E : Externals ω) (jp : udefrag_job_parameters ω)
    (start_lcn : Nat) : Nat × udefrag_job_parameters ω :=
  -- actualize the list of free regions
  let jp := E.release_temp_space_regions jp
  let r := count_clusters_loop E start_lcn jp.free_regions jp 0
  (sub64 (sub64 r.2.v_info.total_clusters start_lcn) r.1, r.2)

/-- Specification side: the cluster `x` lies in the region `r`. -/
def cluster_in_region (r : winx_volume_region) (x : Nat) : Prop :=
  r.lcn ≤ x ∧ x < r.lcn + r.length

instance (r : winx_volume_region) (x : Nat) : Decidable (cluster_in_region r x) := by
  unfold cluster_in_region; infer_instance

/-- Specification side: the number of clusters of `[a, b)` that belong to
no region of the list. -/
def allocated_clusters_between (regions : List winx_volume_region) (a b : Nat) : Nat :=
  ((Finset.Ico a b).filter (fun x => ∀ r ∈ regions, ¬ cluster_in_region r x)).card

/-- Specification side: the number of clusters of `[a, b)` that belong to
some region of the list. -/
def free_clusters_between (regions : List winx_volume_region) (a b : Nat) : Nat :=
  ((Finset.Ico a b).filter (fun x => ∃ r ∈ regions, cluster_in_region r x)).card

/-- Specification side: two regions have no cluster in common. -/
def regions_disjoint (a b : winx_volume_region) : Prop :=
  a.lcn + a.length ≤ b.lcn ∨ b.lcn + b.length ≤ a.lcn

instance (a b : winx_volume_region) : Decidable (regions_disjoint a b) := by
  unfold regions_disjoint; infer_instance

/-! ## optimize.c: one iteration of the inner loop of `optimize_file` -/

/-- What one iteration of the inner loop of `optimize_file` ends with: the
loop is left, or the next iteration starts with the given values of the
state, of `clusters_to_cleanup`, of `block_cleaned_up` and of `target_rgn`. -/
inductive inner_step (ω : Type) where
  | leave (how : inner_exit ω)
  | next (st : optimize_state ω) (clusters_to_cleanup : Nat) (block_cleaned_up : Bool)
      (target_rgn : Option winx_volume_region)

/-- One iteration of the inner loop of `optimize_file` (lines 205-263),
the test of the loop condition included: the body of `optimize_file_inner`
up to the next iteration. -/
def optimize_file_inner_step {ω : Type} (E : Externals ω) (H : udefrag_internals)
    (f first_cluster end_lcn : Nat) (st : optimize_state ω) (clusters_to_cleanup : Nat)
    (block_cleaned_up : Bool) (target_rgn : Option winx_volume_region) :
    List optimize_event × Except Stop (inner_step ω) :=
  if clusters_to_cleanup = 0 then ([], .ok (.leave (.move_the_file st target_rgn)))
  else
    let stop := E.termination_router st.jp
    let st := { st with jp := stop.2 }
    if stop.1 ≠ 0 then ([], .ok (.leave (.done st)))
    else
      let found := E.find_first_block st.jp st.start_lcn 0
      let st := { st with jp := found.2.2 }
      match found.1 with
      | none => ([], .ok (.leave (.move_the_file st target_rgn)))
      | some ref =>
        match block_at st.jp ref with
        | .error fault => ([], .error (.trap fault))
        | .ok (first_file, first_block) =>
          if first_block.lcn ≥ end_lcn then
            ([], .ok (.leave (.move_the_file st target_rgn)))
          -- does the first block follow the previously moved one?
          else if block_cleaned_up = true ∧
              (first_block.lcn ≠ wrap64 (st.region.lcn + st.region.length) ∨
                ref.file = f) then
            ([], .ok (.leave (.move_the_file st target_rgn)))
          -- don't move already optimized parts of the file
          else if ref.file = f ∧ first_block.vcn = st.start_vcn then
            match first_file.disp.blockmap[ref.block + 1]? with
            | none => ([], .ok (.leave (.done { st with clusters_to_process := 0 })))
            | some next =>
              if st.clusters_to_process ≤ first_block.length then
                ([], .ok (.leave (.done { st with clusters_to_process := 0 })))
              else
                ([], .ok (.next
                  { st with
                    clusters_to_process := sub64 st.clusters_to_process first_block.length,
                    start_vcn := next.vcn,
                    start_lcn := wrap64 (first_block.lcn + first_block.length) }
                  (sub64 clusters_to_cleanup first_block.length) block_cleaned_up
                  target_rgn))
          else
            -- cleanup space
            let lcn := first_block.lcn
            let clusters_to_move := min clusters_to_cleanup first_block.length
            match cleanup_space E st.jp (some ref.file) (some first_block)
                clusters_to_move first_cluster
                (sub64 (wrap64 (first_block.lcn + first_block.length)) 1) with
            | .error e => ([], .error e)
            | .ok (result, jp, its) =>
              let ev := optimize_event.cleanup ⟨ref.file, first_block, result, its⟩
              let st := { st with jp := jp }
              if result = -1 then ([ev], .ok (.leave (.done st)))
              else
                match (if ref.file ≠ f then
                    set_file_flag st.jp ref.file H.UD_FILE_FRAGMENTED_BY_FILE_OPT
                  else .ok st.jp) with
                | .error fault => ([ev], .error (.trap fault))
                | .ok jp =>
                  let evs := if ref.file ≠ f then [ev, .flag ref.file] else [ev]
                  let st := { st with jp := jp }
                  if result = -2 then
                    if block_cleaned_up = false then
                      (evs, .ok (.leave (.try_again
                        { st with start_lcn := wrap64 (lcn + clusters_to_move) })))
                    else (evs, .ok (.leave (.move_the_file st target_rgn)))
                  else
                    -- space cleaned up successfully
                    let region : winx_volume_region :=
                      { lcn := if block_cleaned_up = false then lcn else st.region.lcn,
                        length := wrap64 (st.region.length + clusters_to_move) }
                    (evs, .ok (.next
                      { st with region := region,
                                start_lcn := wrap64 (region.lcn + region.length) }
                      (sub64 clusters_to_cleanup clusters_to_move) true (some region)))

/-- The inner loop as the iteration of `optimize_file_inner_step`: what a
run of `fuel + 1` iterations is, given the outcome of the first one. -/
def optimize_file_inner_after {ω : Type} (E : Externals ω) (H : udefrag_internals)
    (f first_cluster end_lcn fuel : Nat)
    (s : List optimize_event × Except Stop (inner_step ω)) :
    List optimize_event × Except Stop (inner_exit ω) :=
  match s.2 with
  | .error e => (s.1, .error e)
  | .ok (.leave how) => (s.1, .ok how)
  | .ok (.next st clusters_to_cleanup block_cleaned_up target_rgn) =>
    (s.1 ++ (optimize_file_inner E H f first_cluster end_lcn fuel st clusters_to_cleanup
        block_cleaned_up target_rgn).1,
      (optimize_file_inner E H f first_cluster end_lcn fuel st clusters_to_cleanup
        block_cleaned_up target_rgn).2)

/-- Specification side: the relation between the counters of the inner
loop of `optimize_file` at the start of an iteration. As long as no block
has been cleaned up, `clusters_to_cleanup` is `clusters_to_process` (and the
region under construction is empty); afterwards `region.length` and
`clusters_to_cleanup` add up to `clusters_to_process`, and `target_rgn`
points to the region. `clusters_to_process` is a `ULONGLONG`. -/
def cleanup_invariant {ω : Type} (st : optimize_state ω) (clusters_to_cleanup : Nat)
    (block_cleaned_up : Bool) (target_rgn : Option winx_volume_region) : Prop :=
  st.clusters_to_process < U64_MOD ∧
  (if block_cleaned_up = true then
    st.region.length + clusters_to_cleanup = st.clusters_to_process ∧
      target_rgn = some st.region
  else clusters_to_cleanup = st.clusters_to_process ∧ st.region.length = 0)

/-- Specification side: what an iteration of the inner loop that starts with
`st`, `clusters_to_cleanup`, `block_cleaned_up` and `target_rgn` may end
with. If the loop goes on, `k` clusters have been taken off
`clusters_to_cleanup` without underflow, and either they have been taken off
`clusters_to_process` as well (a part of the file already in place, no block
cleaned up so far) or they have been added to the region `target_rgn` now
points to. If the loop is left for `move_the_file`, the counters, the region
and `target_rgn` are as they were. The loop is left for `try_again` only if
no block has been cleaned up. -/
def cleanup_step_post {ω : Type} (st : optimize_state ω) (clusters_to_cleanup : Nat)
    (block_cleaned_up : Bool) (target_rgn : Option winx_volume_region) :
    inner_step ω → Prop
  | .next st1 clusters_to_cleanup1 block_cleaned_up1 target_rgn1 =>
    ∃ k, k ≤ clusters_to_cleanup ∧ clusters_to_cleanup1 = clusters_to_cleanup - k ∧
      ((block_cleaned_up1 = false ∧ block_cleaned_up = false ∧
          k < st.clusters_to_process ∧
          st1.clusters_to_process = st.clusters_to_process - k ∧
          st1.region = st.region ∧ target_rgn1 = target_rgn) ∨
        (block_cleaned_up1 = true ∧ st1.clusters_to_process = st.clusters_to_process ∧
          st1.region.length = st.region.length + k ∧ target_rgn1 = some st1.region))
  | .leave (.move_the_file st1 target_rgn1) =>
    st1.clusters_to_process = st.clusters_to_process ∧ st1.region = st.region ∧
      target_rgn1 = target_rgn
  | .leave (.try_again st1) =>
    block_cleaned_up = false ∧ st1.clusters_to_process = st.clusters_to_process
  | .leave (.done st1) => st1.clusters_to_process ≤ st.clusters_to_process

/-! ## The move primitive and the free-space tracker, from the specification

The routines `move_file`, `release_temp_space_regions` and `find_first_block`
are not among the sources at hand. The definitions of this section model
them from the specification (§4.2, §4.3, §5, §6), on a job context whose
member `world` is the temporary space: the regions vacated by moves and not
yet re-admitted to the free space. -/

/-- Modelled from the spec: `subtract(lcn, length)` of the free-space
tracker (§4.2; the routine `winx_sub_volume_region` is missing): the first
region that holds `[lcn, lcn + length)` is shrunk or split. -/
def spec_sub_volume_region :
    List winx_volume_region → Nat → Nat → List winx_volume_region
  | [], _, _ => []
  | r :: rest, lcn, length =>
    if r.lcn ≤ lcn ∧ lcn + length ≤ r.lcn + r.length then
      (if r.lcn < lcn then [⟨r.lcn, lcn - r.lcn⟩] else []) ++
        ((if lcn + length < r.lcn + r.length then
          [⟨lcn + length, r.lcn + r.length - (lcn + length)⟩] else []) ++ rest)
    else r :: spec_sub_volume_region rest lcn length

/-- Modelled from the spec: the free-space tracker has a region that holds
`[lcn, lcn + length)`; a move to a range that is not free fails with "target
already in use" (§4.3; part of the missing `move_file`). -/
def spec_is_free (regions : List winx_volume_region) (lcn length : Nat) : Bool :=
  regions.any (fun r => decide (r.lcn ≤ lcn ∧ lcn + length ≤ r.lcn + r.length))

/-- Modelled from the spec: a region is re-admitted to the tracker, an
ordered collection keyed by `lcn` (§4.2; the routine `winx_add_volume_region`
is missing). -/
def spec_add_volume_region :
    List winx_volume_region → winx_volume_region → List winx_volume_region
  | [], x => [x]
  | r :: rest, x =>
    if x.lcn ≤ r.lcn then x :: r :: rest else r :: spec_add_volume_region rest x

/-- Modelled from the spec: the blocks left of a block once the clusters of
the VCN range `[vcn, vcn + length)` have been moved away (part of the missing
`move_file`). -/
def spec_block_rest (b : winx_blockmap) (vcn length : Nat) : List winx_blockmap :=
  (if b.vcn < vcn then [⟨b.vcn, b.lcn, min b.length (vcn - b.vcn)⟩] else []) ++
    (if vcn + length < b.vcn + b.length then
      [⟨max b.vcn (vcn + length), b.lcn + (max b.vcn (vcn + length) - b.vcn),
        b.vcn + b.length - max b.vcn (vcn + length)⟩]
    else [])

/-- Modelled from the spec: the clusters of a block that a move of the VCN
range `[vcn, vcn + length)` vacates (part of the missing `move_file`). -/
def spec_block_vacated (b : winx_blockmap) (vcn length : Nat) : List winx_volume_region :=
  if max b.vcn vcn < min (b.vcn + b.length) (vcn + length) then
    [⟨b.lcn + (max b.vcn vcn - b.vcn),
      min (b.vcn + b.length) (vcn + length) - max b.vcn vcn⟩]
  else []

/-- Modelled from the spec: a block is put into a block map, which is ordered
by VCN (§8, block-map contiguity; part of the missing `move_file`). -/
def spec_insert_block : List winx_blockmap → winx_blockmap → List winx_blockmap
  | [], x => [x]
  | b :: rest, x =>
    if x.vcn ≤ b.vcn then x :: b :: rest else b :: spec_insert_block rest x

/-- Modelled from the spec: the block map of a file after
`move_clusters(file, start_vcn, length, target_lcn)` (§6; part of the missing
`move_file`). -/
def spec_move_blockmap (bm : List winx_blockmap) (vcn length target : Nat) :
    List winx_blockmap :=
  spec_insert_block (bm.flatMap (fun b => spec_block_rest b vcn length))
    ⟨vcn, target, length⟩

/-- Modelled from the spec: `move_file(file, start_vcn, length, target_lcn)`
(§4.3, §6; the routine is missing). The move fails hard for a file that is
not in the list, a locked file or a VCN range that is not the file's, and
with "target already in use" (`STATUS_ALREADY_COMMITTED`) for a target range
that is not free; a move of no cluster changes nothing. A successful move
rewrites the block map of the file, subtracts the target range from the free
space, and keeps the clusters vacated as temporary space: a moved-from
region cannot be reused as a target until it is released (§5). `locked`
lists the files the system has locked. -/
def spec_move_file (H : udefrag_internals) (locked : List Nat)
    (f vcn length target : Nat) (jp : udefrag_job_parameters (List winx_volume_region)) :
    Int × udefrag_job_parameters (List winx_volume_region) :=
  match jp.filelist[f]? with
  | none => (-1, jp)
  | some file =>
    if length = 0 then (0, jp)
    else if f ∈ locked then
      (-1, { jp with last_move_status := H.STATUS_ALREADY_COMMITTED + 1 })
    else if spec_is_free jp.free_regions target length = false then
      (-1, { jp with last_move_status := H.STATUS_ALREADY_COMMITTED })
    else if ((file.disp.blockmap.flatMap (fun b => spec_block_vacated b vcn length)).map
        (fun r => r.length)).sum ≠ length then
      (-1, { jp with last_move_status := H.STATUS_ALREADY_COMMITTED + 1 })
    else
      (0, { jp with
        filelist := jp.filelist.set f
          { file with disp := { file.disp with
              blockmap := spec_move_blockmap file.disp.blockmap vcn length target,
              fragments :=
                (contiguous_runs
                  (spec_move_blockmap file.disp.blockmap vcn length target)).length } },
        free_regions := spec_sub_volume_region jp.free_regions target length,
        world := jp.world ++
          file.disp.blockmap.flatMap (fun b => spec_block_vacated b vcn length),
        pi := { jp.pi with moved_clusters := wrap64 (jp.pi.moved_clusters + length) },
        last_move_status := 0 })

/-- Modelled from the spec: `release_temporary(jp)` (§4.2; the routine
`release_temp_space_regions` is missing): the clusters provisionally vacated
are re-admitted to the free space. -/
def spec_release_temp_space_regions
    (jp : udefrag_job_parameters (List winx_volume_region)) :
    udefrag_job_parameters (List winx_volume_region) :=
  { jp with free_regions := jp.world.foldl spec_add_volume_region jp.free_regions,
            world := [] }

/-- Modelled from the spec: the better of a candidate found so far and the
block `b`, for the search of the first allocated block at or after
`min_lcn` (part of the missing `find_first_block`). -/
def spec_first_of (min_lcn : Nat) (best : Option (block_ref × winx_blockmap))
    (ref : block_ref) (b : winx_blockmap) : Option (block_ref × winx_blockmap) :=
  if b.lcn < min_lcn then best
  else
    match best with
    | none => some (ref, b)
    | some (r0, b0) => if b.lcn < b0.lcn then some (ref, b) else some (r0, b0)

/-- Modelled from the spec: the search through the blocks of one file, from
the block of index `i` on (part of the missing `find_first_block`). -/
def spec_scan_blocks (min_lcn file : Nat) :
    List winx_blockmap → Nat → Option (block_ref × winx_blockmap) →
      Option (block_ref × winx_blockmap)
  | [], _, best => best
  | b :: rest, i, best =>
    spec_scan_blocks min_lcn file rest (i + 1) (spec_first_of min_lcn best ⟨file, i⟩ b)

/-- Modelled from the spec: the search through the files of the list, from
the file of index `i` on (part of the missing `find_first_block`). -/
def spec_scan_files (min_lcn : Nat) :
    List winx_file_info → Nat → Option (block_ref × winx_blockmap) →
      Option (block_ref × winx_blockmap)
  | [], _, best => best
  | f :: rest, i, best =>
    spec_scan_files min_lcn rest (i + 1) (spec_scan_blocks min_lcn i f.disp.blockmap 0 best)

/-- Modelled from the spec: `find_first_block` (§4.3 step 2; the routine is
missing): the first allocated block at or after `min_lcn` belonging to any
file. -/
def spec_find_first_block (jp : udefrag_job_parameters (List winx_volume_region))
    (min_lcn : Nat) :
    Option block_ref × Nat × udefrag_job_parameters (List winx_volume_region) :=
  match spec_scan_files min_lcn jp.filelist 0 none with
  | none => (none, min_lcn, jp)
  | some (ref, b) => (some ref, b.lcn, jp)

/-- Modelled from the spec: the host environment of the optimizer (§6):
the move primitive, the release of the temporary space, the block search and
`find_first_free_on_or_after` (§4.2) as modelled above; no termination is
requested; a file opens unless it is locked. The routines the optimizer does
not call are inert. -/
def spec_externals (H : udefrag_internals) (locked : List Nat) :
    Externals (List winx_volume_region) :=
  { destroy_lists := fun jp => ([], [], jp.world),
    winx_get_volume_information := fun jp => (0, jp.v_info),
    reset_cluster_map := fun jp => jp.world,
    winx_get_free_volume_regions := fun jp => jp,
    colorize_map_region := fun jp _ _ => jp.world,
    winx_sub_volume_region := spec_sub_volume_region,
    find_files := fun jp => (0, jp),
    redraw_well_known_locked_files := fun jp => jp,
    produce_list_of_fragmented_files := fun jp => jp,
    termination_router := fun jp => (0, jp),
    release_temp_space_regions := spec_release_temp_space_regions,
    winx_defrag_fopen := fun f jp => (if f ∈ locked then 1 else 0, jp),
    find_first_block := fun jp min_lcn _ => spec_find_first_block jp min_lcn,
    find_first_free_region := fun jp min_lcn min_length =>
      jp.free_regions.find? (fun r =>
        decide (r.lcn ≥ min_lcn ∧ r.length ≥ max 1 min_length)),
    build_fragments_list := fun f => f.disp.blockmap,
    winx_patcmp := fun _ _ => 0,
    move_file := spec_move_file H locked,
    memory_beyond := fun _ _ => [] }

/-- The sum of the free region lengths of a job context. -/
def free_clusters_sum {ω : Type} (jp : udefrag_job_parameters ω) : Nat :=
  (jp.free_regions.map (fun r => r.length)).sum

/-- The sum of the clusters allocated to the files of the list
(`disp.clusters`). -/
def allocated_clusters_sum {ω : Type} (jp : udefrag_job_parameters ω) : Nat :=
  (jp.filelist.map (fun f => f.disp.clusters)).sum

/-- The clusters of the temporary space of the model. -/
def temporary_clusters_sum (jp : udefrag_job_parameters (List winx_volume_region)) : Nat :=
  (jp.world.map (fun r => r.length)).sum

/-- Free-space conservation in the words of the specification: the free
region lengths and the clusters allocated to the files add up to
`total_clusters`. -/
def free_space_conservation {ω : Type} (jp : udefrag_job_parameters ω) : Prop :=
  free_clusters_sum jp + allocated_clusters_sum jp = jp.v_info.total_clusters

/-- Free-space conservation with the temporary space counted. -/
def conservation_with_temporary_space
    (jp : udefrag_job_parameters (List winx_volume_region)) : Prop :=
  free_clusters_sum jp + temporary_clusters_sum jp + allocated_clusters_sum jp =
    jp.v_info.total_clusters

instance {ω : Type} (jp : udefrag_job_parameters ω) :
    Decidable (free_space_conservation jp) := by
  unfold free_space_conservation; infer_instance

/-- The members of the job context that describe the layout of the disk:
the free regions, the dispositions of the files (cluster counts and block
maps), the size of the volume and what the external routines keep
(`world`). -/
def tracked_layout {ω : Type} (jp : udefrag_job_parameters ω) :
    List winx_volume_region × List winx_file_disposition × Nat × ω :=
  (jp.free_regions, jp.filelist.map (fun f => f.disp),
    jp.v_info.total_clusters, jp.world)

/-- Every external routine the optimizer calls keeps the property `P` of the
tracked members of the job context. -/
def externals_keep {ω : Type} (E : Externals ω)
    (P : List winx_volume_region × List winx_file_disposition × Nat × ω → Prop) : Prop :=
  (∀ jp, P (tracked_layout jp) → P (tracked_layout (E.termination_router jp).2)) ∧
  (∀ jp, P (tracked_layout jp) → P (tracked_layout (E.release_temp_space_regions jp))) ∧
  (∀ f jp, P (tracked_layout jp) → P (tracked_layout (E.winx_defrag_fopen f jp).2)) ∧
  (∀ jp min_lcn flags, P (tracked_layout jp) →
    P (tracked_layout (E.find_first_block jp min_lcn flags).2.2)) ∧
  (∀ f vcn length target jp, P (tracked_layout jp) →
    P (tracked_layout (E.move_file f vcn length target jp).2))

/-- The state with which the inner loop of `optimize_file` is left. -/
def inner_exit_state {ω : Type} : inner_exit ω → optimize_state ω
  | .done st => st
  | .try_again st => st
  | .move_the_file st _ => st

/-- The state with which an iteration of the inner loop ends. -/
def inner_step_state {ω : Type} : inner_step ω → optimize_state ω
  | .leave how => inner_exit_state how
  | .next st _ _ _ => st

/-- The value of `end_lcn` in `optimize_file` (lines 201-202). -/
def optimize_file_end_lcn {ω : Type} (target_rgn : Option winx_volume_region)
    (jp : udefrag_job_parameters ω) : Nat :=
  match target_rgn with
  | some rgn => rgn.lcn
  | none => jp.v_info.total_clusters

/-- The part of an iteration of the outer loop of `optimize_file` from the
label `move_the_file` on (lines 267-288), for a target region that is not
`NULL`: the body of `optimize_file_outer` there. `evs` are the events of
the iteration so far. -/
def optimize_file_move {ω : Type} (E : Externals ω) (H : udefrag_internals)
    (f first_cluster fuel : Nat) (st : optimize_state ω) (target_rgn : winx_volume_region)
    (evs : List optimize_event) : List optimize_event × Except Stop (optimize_state ω) :=
  match file_at st.jp f with
  | .error fault => (evs, .error (.trap fault))
  | .ok file =>
    let clusters_to_move := min st.clusters_to_process target_rgn.length
    let next_vcn := advance_vcn file st.start_vcn clusters_to_move
    let target := target_rgn.lcn
    let moved := E.move_file f st.start_vcn clusters_to_move target st.jp
    let ev := optimize_event.move ⟨f, st.start_vcn, clusters_to_move, target, moved.1⟩
    let st := { st with jp := moved.2 }
    if moved.1 < 0 then
      if st.jp.last_move_status ≠ H.STATUS_ALREADY_COMMITTED then
        -- on unrecoverable failures exit
        (evs ++ [ev], .ok st)
      else
        -- go forward and try to cleanup next blocks
        match file_at st.jp f with
        | .error fault => (evs ++ [ev], .error (.trap fault))
        | .ok file =>
          let st := { st with
            jp := { st.jp with filelist :=
              st.jp.filelist.set f (clear_user_flag H.UD_FILE_MOVING_FAILED file) },
            start_lcn := wrap64 (target + clusters_to_move) }
          let r := optimize_file_outer E H f first_cluster fuel st
          (evs ++ ev :: r.1, r.2)
    else
      -- file's part moved successfully
      let st := { st with
        jp := { st.jp with pi := { st.jp.pi with
          total_moves := wrap64 (st.jp.pi.total_moves + 1) } },
        clusters_to_process := sub64 st.clusters_to_process clusters_to_move,
        start_lcn := wrap64 (target + clusters_to_move),
        start_vcn := next_vcn }
      if next_vcn = 0 then (evs ++ [ev], .ok st)
      else
        let r := optimize_file_outer E H f first_cluster fuel st
        (evs ++ ev :: r.1, r.2)

/-- The part of an iteration of the outer loop of `optimize_file` that
follows the inner loop, given the outcome of that loop: the body of
`optimize_file_outer` there. -/
def optimize_file_outer_after {ω : Type} (E : Externals ω) (H : udefrag_internals)
    (f first_cluster fuel : Nat) (inner : List optimize_event × Except Stop (inner_exit ω)) :
    List optimize_event × Except Stop (optimize_state ω) :=
  match inner.2 with
  | .error e => (inner.1, .error e)
  | .ok (.done st) => (inner.1, .ok st)
  | .ok (.try_again st) =>
    (inner.1 ++ (optimize_file_outer E H f first_cluster fuel st).1,
      (optimize_file_outer E H f first_cluster fuel st).2)
  | .ok (.move_the_file st target_rgn) =>
    match target_rgn with
    | none => (inner.1, .ok st)
    | some target_rgn => optimize_file_move E H f first_cluster fuel st target_rgn inner.1

/-- The state of `optimize_file` with which the inner loop is entered: the
job context after the release of the temporary space, the region empty. -/
def optimize_file_inner_entry {ω : Type} (st : optimize_state ω)
    (jp : udefrag_job_parameters ω) : optimize_state ω :=
  { st with jp := jp, region := { st.region with length := 0 } }

/-- Free-space conservation with the temporary space counted, as a
property of the tracked members of the job context. -/
def balance_with_temporary_space
    (t : List winx_volume_region × List winx_file_disposition × Nat × List winx_volume_region) : Prop :=
  (t.1.map (fun r => r.length)).sum + (t.2.2.2.map (fun r => r.length)).sum +
      (t.2.1.map (fun d => d.clusters)).sum =
    t.2.2.1

instance (jp : udefrag_job_parameters (List winx_volume_region)) :
    Decidable (conservation_with_temporary_space jp) := by
  unfold conservation_with_temporary_space; infer_instance

/-- What the termination of `optimize_file` asks of the external routines,
`volume_end` being the number of clusters of the volume, in the job contexts
whose layout has the property `P`: a block found by `find_first_block` lies
at or after `min_lcn`, is not empty and ends inside the volume, and the free
regions
(as `release_temp_space_regions` leaves them) end inside the volume. -/
def externals_in_volume {ω : Type} (E : Externals ω)
    (P : List winx_volume_region × List winx_file_disposition × Nat × ω → Prop)
    (volume_end : Nat) : Prop :=
  (∀ (jp : udefrag_job_parameters ω) (min_lcn flags : Nat) (ref : block_ref)
    (fb : winx_file_info × winx_blockmap),
    P (tracked_layout jp) →
    (E.find_first_block jp min_lcn flags).1 = some ref →
    block_at (E.find_first_block jp min_lcn flags).2.2 ref = .ok fb →
    min_lcn ≤ fb.2.lcn ∧ 0 < fb.2.length ∧ fb.2.lcn + fb.2.length ≤ volume_end) ∧
  (∀ (jp : udefrag_job_parameters ω), P (tracked_layout jp) →
    ∀ r ∈ (E.release_temp_space_regions jp).free_regions, r.lcn + r.length ≤ volume_end)

/-- The progress of the inner loop of `optimize_file` since its entry with
`start_lcn = s0`, `clusters_to_process = ctp0` and `target_rgn = tr0`: the
counters are related as `cleanup_invariant` says, there are clusters left to
process, `start_lcn` has not gone back and lies inside the volume, and the
region under construction ends at `start_lcn`. -/
def inner_progress {ω : Type} (volume_end s0 ctp0 : Nat) (tr0 : Option winx_volume_region)
    (st : optimize_state ω) (clusters_to_cleanup : Nat) (block_cleaned_up : Bool)
    (target_rgn : Option winx_volume_region) : Prop :=
  cleanup_invariant st clusters_to_cleanup block_cleaned_up target_rgn ∧
  0 < st.clusters_to_process ∧ st.clusters_to_process ≤ ctp0 ∧
  s0 ≤ st.start_lcn ∧ st.start_lcn ≤ volume_end ∧
  (block_cleaned_up = false → target_rgn = tr0) ∧
  (block_cleaned_up = true →
    s0 ≤ st.region.lcn ∧ 0 < st.region.length ∧
    st.region.lcn + st.region.length = st.start_lcn)

/-- What holds when the inner loop of `optimize_file` is left, in terms of
the values at its entry: on `try_again` the search has advanced; towards
`move_the_file` the target is the free region found before the loop or a
region of at least one cluster, at or after `s0` and inside the volume, that
the clusters left to process fill. -/
def inner_exit_post {ω : Type} (volume_end s0 ctp0 : Nat)
    (tr0 : Option winx_volume_region) : inner_exit ω → Prop
  | .done _ => True
  | .try_again st1 =>
    0 < st1.clusters_to_process ∧ st1.clusters_to_process ≤ ctp0 ∧
    s0 < st1.start_lcn ∧ st1.start_lcn ≤ volume_end
  | .move_the_file st1 tr1 =>
    0 < st1.clusters_to_process ∧ st1.clusters_to_process ≤ ctp0 ∧
    (tr1 = tr0 ∨
      (tr1 = some st1.region ∧ 0 < st1.region.length ∧
        st1.region.length ≤ st1.clusters_to_process ∧ s0 ≤ st1.region.lcn ∧
        st1.region.lcn + st1.region.length ≤ volume_end))

/-- What an iteration of the inner loop of `optimize_file` ends with, in
terms of progress: the loop is left as `inner_exit_post` says, or
`start_lcn` has advanced. -/
def inner_step_progress {ω : Type} (volume_end s0 ctp0 : Nat)
    (tr0 : Option winx_volume_region) (st : optimize_state ω) : inner_step ω → Prop
  | .leave how => inner_exit_post volume_end s0 ctp0 tr0 how
  | .next st1 clusters_to_cleanup1 block_cleaned_up1 target_rgn1 =>
    inner_progress volume_end s0 ctp0 tr0 st1 clusters_to_cleanup1 block_cleaned_up1
      target_rgn1 ∧
    st.start_lcn < st1.start_lcn

/-- The layout of the disk lies inside a volume of `volume_end` clusters (in
the model of the specification): the free regions, the blocks of the files,
none of them empty, and the regions of the temporary space end at or before
`volume_end`. -/
def layout_in_volume (volume_end : Nat)
    (t : List winx_volume_region × List winx_file_disposition × Nat ×
      List winx_volume_region) : Prop :=
  (∀ r ∈ t.1, r.lcn + r.length ≤ volume_end) ∧
  (∀ d ∈ t.2.1, ∀ b ∈ d.blockmap, 0 < b.length ∧ b.lcn + b.length ≤ volume_end) ∧
  (∀ r ∈ t.2.2.2, r.lcn + r.length ≤ volume_end)

/-- A candidate of the block search is a block of the file list that lies at
or after `min_lcn`. -/
def spec_candidate (files : List winx_file_info) (min_lcn : Nat)
    (best : Option (block_ref × winx_blockmap)) : Prop :=
  ∀ ref b, best = some (ref, b) →
    (∃ file, files[ref.file]? = some file ∧ file.disp.blockmap[ref.block]? = some b) ∧
    min_lcn ≤ b.lcn

/-- What one iteration of the outer loop of `optimize_file` ends with: the
loop is left with the given state, or the next iteration starts with it. -/
inductive outer_step (ω : Type) where
  | leave (st : optimize_state ω)
  | next (st : optimize_state ω)

/-- The part of an iteration of the outer loop of `optimize_file` from the
label `move_the_file` on (lines 267-288), for a target region that is not
`NULL`, up to the next iteration: the body of `optimize_file_move` without
the iterations that follow. -/
def optimize_file_move_step {ω : Type} (E : Externals ω) (H : udefrag_internals)
    (f : Nat) (st : optimize_state ω) (target_rgn : winx_volume_region)
    (evs : List optimize_event) : List optimize_event × Except Stop (outer_step ω) :=
  match file_at st.jp f with
  | .error fault => (evs, .error (.trap fault))
  | .ok file =>
    let clusters_to_move := min st.clusters_to_process target_rgn.length
    let next_vcn := advance_vcn file st.start_vcn clusters_to_move
    let target := target_rgn.lcn
    let moved := E.move_file f st.start_vcn clusters_to_move target st.jp
    let ev := optimize_event.move ⟨f, st.start_vcn, clusters_to_move, target, moved.1⟩
    let st := { st with jp := moved.2 }
    if moved.1 < 0 then
      if st.jp.last_move_status ≠ H.STATUS_ALREADY_COMMITTED then
        -- on unrecoverable failures exit
        (evs ++ [ev], .ok (.leave st))
      else
        -- go forward and try to cleanup next blocks
        match file_at st.jp f with
        | .error fault => (evs ++ [ev], .error (.trap fault))
        | .ok file =>
          (evs ++ [ev], .ok (.next { st with
            jp := { st.jp with filelist :=
              st.jp.filelist.set f (clear_user_flag H.UD_FILE_MOVING_FAILED file) },
            start_lcn := wrap64 (target + clusters_to_move) }))
    else
      -- file's part moved successfully
      let st := { st with
        jp := { st.jp with pi := { st.jp.pi with
          total_moves := wrap64 (st.jp.pi.total_moves + 1) } },
        clusters_to_process := sub64 st.clusters_to_process clusters_to_move,
        start_lcn := wrap64 (target + clusters_to_move),
        start_vcn := next_vcn }
      if next_vcn = 0 then (evs ++ [ev], .ok (.leave st))
      else (evs ++ [ev], .ok (.next st))

/-- One iteration of the outer loop of `optimize_file` (lines 180-289), the
test of the loop condition included: the body of `optimize_file_outer` up to
the next iteration. `fuel` bounds the iterations of the inner loop. -/
def optimize_file_outer_step {ω : Type} (E : Externals ω) (H : udefrag_internals)
    (f first_cluster fuel : Nat) (st : optimize_state ω) :
    List optimize_event × Except Stop (outer_step ω) :=
  if st.clusters_to_process = 0 then ([], .ok (.leave st))
  else
    let stop := E.termination_router st.jp
    let st := { st with jp := stop.2 }
    if stop.1 ≠ 0 then ([], .ok (.leave st))
    else
      -- release temporarily allocated space
      let st := { st with jp := E.release_temp_space_regions st.jp }
      match st.jp.free_regions with
      | [] => ([], .ok (.leave st))
      | _ :: _ =>
        -- search for the first free region after start_lcn
        let target_rgn := first_region_after st.jp.free_regions st.start_lcn
        -- process file blocks between start_lcn and target_rgn
        let end_lcn := optimize_file_end_lcn target_rgn st.jp
        let st := { st with region := { st.region with length := 0 } }
        let inner := optimize_file_inner E H f first_cluster end_lcn fuel st
          st.clusters_to_process false target_rgn
        match inner.2 with
        | .error e => (inner.1, .error e)
        | .ok (.done st) => (inner.1, .ok (.leave st))
        | .ok (.try_again st) => (inner.1, .ok (.next st))
        | .ok (.move_the_file st target_rgn) =>
          match target_rgn with
          | none => (inner.1, .ok (.leave st))
          | some target_rgn => optimize_file_move_step E H f st target_rgn inner.1

/-- The outer loop as the iteration of `optimize_file_outer_step`: what a run
of `fuel + 1` iterations is, given the outcome of the first one. -/
def optimize_file_outer_iterate {ω : Type} (E : Externals ω) (H : udefrag_internals)
    (f first_cluster fuel : Nat) (s : List optimize_event × Except Stop (outer_step ω)) :
    List optimize_event × Except Stop (optimize_state ω) :=
  match s.2 with
  | .error e => (s.1, .error e)
  | .ok (.leave st) => (s.1, .ok st)
  | .ok (.next st) =>
    (s.1 ++ (optimize_file_outer E H f first_cluster fuel st).1,
      (optimize_file_outer E H f first_cluster fuel st).2)

instance (volume_end : Nat)
    (t : List winx_volume_region × List winx_file_disposition × Nat ×
      List winx_volume_region) : Decidable (layout_in_volume volume_end t) := by
  unfold layout_in_volume; infer_instance

/-- The iterations `its` are those of a run of the loop of `cleanup_space`
for the file `file` that begins in the job context `jp` with `vcn` for
`current_vcn` and `remaining` for `clusters_to_cleanup` and ends in the job
context `jp1`: every iteration has seen the free regions of the job context
of the moment and the remainder of the moment, its call is the call of
`move_file` made in that context, with the status that call returned, and
the next iteration begins in the job context that call has left, with
`current_vcn` and `clusters_to_cleanup` as lines 86-87 leave them. -/
def cleanup_space_run {ω : Type} (E : Externals ω) (file : Nat) :
    Nat → Nat → udefrag_job_parameters ω → List cleanup_iteration →
      udefrag_job_parameters ω → Prop
  | _, _, jp, [], jp1 => jp1 = jp
  | vcn, remaining, jp, it :: rest, jp1 =>
    it.free_regions = jp.free_regions ∧ it.clusters_to_cleanup = remaining ∧
    it.call.file = file ∧ it.call.vcn = vcn ∧
    it.call.status = (E.move_file file vcn it.call.length it.call.target jp).1 ∧
    cleanup_space_run E file (wrap64 (vcn + it.call.length))
      (sub64 remaining it.call.length)
      (E.move_file file vcn it.call.length it.call.target jp).2 rest jp1

-- SAMPLE

/-- The local variables of `optimize_file` when the label `try_again` is
reached for the first time (lines 172-178), for the file record `file` whose
block map is `first :: rest`, in the job context `jp`. -/
def optimize_file_entry {ω : Type} (jp : udefrag_job_parameters ω) (file : winx_file_info)
    (first : winx_blockmap) (rest : List winx_blockmap) : optimize_state ω :=
  ⟨jp, sub64 file.disp.clusters first.length,
    (match rest with
      | [] => first.vcn
      | next :: _ => next.vcn),
    wrap64 (first.lcn + first.length), ⟨0, 0⟩⟩

-- THEOREMS

/-! ## Sample data -/

/-- A volume description as the geometry query reports it. -/
def sample_volume (fs_name : List Nat)
    (total_clusters bytes_per_cluster device_capacity : Nat) (is_dirty : Int) :
    winx_volume_information :=
  { fs_name := fs_name, total_bytes := total_clusters * bytes_per_cluster,
    free_bytes := 0, total_clusters := total_clusters,
    bytes_per_cluster := bytes_per_cluster, device_capacity := device_capacity,
    is_dirty := is_dirty, ntfs_data := ⟨0, 0, 0, 0, 0, 0, 0⟩ }

/-- A job context with empty lists and zeroed counters. -/
def sample_job (job_type : udefrag_job_type) (fs_type : file_system_type) :
    udefrag_job_parameters Unit :=
  { job_type := job_type, volume_letter := 67, win_version := 0,
    udo := options_with_threshold 0, v_info := winx_volume_information.zero,
    mft_zone := ⟨0, 0⟩, pi := ⟨0, 0, 0, 0, 0, 0, 0, 0, 0, 0, 0, 0, 0, 0, 0⟩,
    f_counters := ⟨0, 0, 0, 0, 0, 0⟩, fs_type := fs_type, is_fat := 0, is_ntfs := 0,
    clusters_at_once := 0, filelist := [], free_regions := [],
    free_regions_count := 0, already_optimized_clusters := 0,
    last_move_status := 0, world := () }

/-- External routines for a volume whose geometry query yields `status` and
`v`; every other routine leaves the job context alone and succeeds. -/
def sample_externals (status : Int) (v : winx_volume_information) : Externals Unit :=
  { destroy_lists := fun _ => ([], [], ()),
    winx_get_volume_information := fun _ => (status, v),
    reset_cluster_map := fun _ => (),
    winx_get_free_volume_regions := fun jp => jp,
    colorize_map_region := fun _ _ _ => (),
    winx_sub_volume_region := fun regions _ _ => regions,
    find_files := fun jp => (0, jp),
    redraw_well_known_locked_files := fun jp => jp,
    produce_list_of_fragmented_files := fun jp => jp,
    termination_router := fun jp => (0, jp),
    release_temp_space_regions := fun jp => jp,
    winx_defrag_fopen := fun _ jp => (0, jp),
    find_first_block := fun jp min_lcn _ => (none, min_lcn, jp),
    find_first_free_region := fun _ _ _ => none,
    build_fragments_list := fun f => f.disp.blockmap,
    winx_patcmp := fun path patterns => if path ∈ patterns then 1 else 0,
    move_file := fun _ _ _ _ jp => (0, jp),
    memory_beyond := fun _ _ => [] }

/-- A job context with the given list of free regions. -/
def sample_job_with_regions (free_regions : List winx_volume_region) :
    udefrag_job_parameters Unit :=
  { sample_job .FULL_OPTIMIZATION_JOB .FS_NTFS with free_regions := free_regions }

/-- A path comparator for examples: it orders the paths by their length. -/
def sample_wcsicmp (x y : Option (List Nat)) : Int :=
  ((x.getD []).length : Int) - ((y.getD []).length : Int)

/-- Values for the constants of the absent header, for examples. -/
def sample_internals : udefrag_internals :=
  { DEFAULT_FRAGMENT_SIZE_THRESHOLD := 9223372036854775807,
    OPTIMIZER_MAGIC_CONSTANT := 20971520,
    OPTIMIZER_MAGIC_CONSTANT_N := 10,
    OPTIMIZER_MAGIC_CONSTANT_M := 2,
    MAX_FILE_SIZE := 18446744073709551615,
    UD_FILE_FRAGMENTED_BY_FILE_OPT := 1024,
    UD_FILE_MOVING_FAILED := 64,
    UD_FILE_REGION_NOT_FOUND := 2048,
    UD_FILE_MOVED_TO_FRONT := 512,
    UD_FILE_NOT_LOCKED := 16,
    UD_FILE_LOCKED := 8,
    SKIP_PARTIALLY_MOVABLE_FILES := 1,
    STATUS_ALREADY_COMMITTED := -1073741503,
    can_move := fun f _ => decide (f.disp.blockmap ≠ []),
    can_move_entirely := fun f _ => decide (f.disp.blockmap ≠ []),
    is_fragmented := fun f => decide (1 < f.disp.fragments),
    UD_SORT_BY_SIZE := 2,
    UD_SORT_BY_CREATION_TIME := 4,
    UD_SORT_BY_MODIFICATION_TIME := 8,
    UD_SORT_BY_ACCESS_TIME := 16,
    UD_SORT_DESCENDING := 64,
    UD_FILE_EXCLUDED := 1,
    UD_FILE_OVER_LIMIT := 2,
    UD_JOB_CONTEXT_MENU_HANDLER := 4,
    GIANT_FILE_SIZE := 1073741824,
    HUGE_FILE_SIZE := 104857600,
    BIG_FILE_SIZE := 10485760,
    AVERAGE_FILE_SIZE := 1048576,
    SMALL_FILE_SIZE := 102400,
    is_temporary := fun f => decide (f.flags &&& 256 ≠ 0),
    is_directory := fun f => decide (f.flags &&& 16 ≠ 0),
    is_compressed := fun f => decide (f.flags &&& 2048 ≠ 0) }

/-- A job context on a volume of 100000 clusters of 4096 bytes. -/
def sample_job_4k : udefrag_job_parameters Unit :=
  { sample_job .FULL_OPTIMIZATION_JOB .FS_NTFS with
    v_info := sample_volume [] 100000 4096 0 0 }

/-- Three contiguous files, in tree order. -/
def sample_tree : List winx_file_info :=
  [file_of_blockmap [⟨0, 100, 10⟩], file_of_blockmap [⟨0, 110, 5⟩],
    file_of_blockmap [⟨0, 115, 7⟩]]

/-- A job context on a volume of 4096-byte clusters with an optimizer size
limit of 1 MiB. -/
def sample_job_limit_1M : udefrag_job_parameters Unit :=
  { sample_job_4k with udo := { options_with_threshold 0 with
      optimizer_size_limit := 1048576 } }

/-- A file of 1010 clusters in two adjacent blocks: one fragment. -/
def sample_contiguous_file : winx_file_info :=
  { file_of_blockmap [⟨0, 100, 10⟩, ⟨10, 110, 1000⟩] with
    disp := { clusters := 1010, fragments := 1, flags := 0,
              blockmap := [⟨0, 100, 10⟩, ⟨10, 110, 1000⟩] } }

/-- External routines for a run of `move_files_to_back`: the search finds
the first block of the first file as long as `min_lcn` is not beyond it,
and every move succeeds (the lists are left as they are). -/
def sample_externals_back : Externals Unit :=
  { sample_externals 0 (sample_volume [] 0 0 0 0) with
    find_first_block := fun jp min_lcn _ =>
      if min_lcn ≤ 100 then (some ⟨0, 0⟩, 110, jp) else (none, min_lcn, jp) }

/-- A job context with one small file at LCN 100 and free space behind. -/
def sample_job_back : udefrag_job_parameters Unit :=
  { sample_job_limit_1M with
    filelist := [file_of_blockmap [⟨0, 100, 10⟩]],
    free_regions := [⟨2000, 6⟩, ⟨3000, 50⟩] }

/-- A job context with two movable files for which no free region exists;
the first one carries `UD_FILE_REGION_NOT_FOUND` (2048) from an earlier
sweep, the second one does not. -/
def sample_job_front : udefrag_job_parameters Unit :=
  { sample_job_4k with
    filelist := [{ file_of_blockmap [⟨0, 100, 10⟩] with user_defined_flags := 2048 },
      file_of_blockmap [⟨0, 200, 20⟩]] }

/-- A fragmented file: 10 clusters at LCN 100, 10 clusters at LCN 500. -/
def sample_fragmented_file : winx_file_info :=
  file_of_blockmap [⟨0, 100, 10⟩, ⟨10, 500, 10⟩]

/-- A job context with the fragmented file and one free region
(LCN 200, 50 clusters). -/
def sample_job_optimize : udefrag_job_parameters Unit :=
  { sample_job_4k with
    filelist := [sample_fragmented_file], free_regions := [⟨200, 50⟩] }

/-- External routines for a run of `optimize_file` on the sample: the search
for the first block at or after `min_lcn` finds the second block of the
file, the move succeeds and completes the file. -/
def sample_externals_optimize : Externals Unit :=
  { sample_externals 0 (sample_volume [] 0 0 0 0) with
    find_first_block := fun jp min_lcn _ =>
      if min_lcn ≤ 500 then (some ⟨0, 1⟩, 500, jp) else (none, min_lcn, jp),
    move_file := fun _ _ _ _ jp =>
      (0, { jp with
        filelist := [file_of_blockmap [⟨0, 100, 20⟩]], free_regions := [⟨210, 40⟩, ⟨500, 10⟩] }) }

/-- The sample job context once the file has been found not locked (flag
`UD_FILE_NOT_LOCKED`, 16). -/
def sample_job_optimize_unlocked : udefrag_job_parameters Unit :=
  { sample_job_optimize with filelist := [set_user_flag 16 sample_fragmented_file] }

/-- External routines for a run in which termination is requested. -/
def sample_externals_terminating : Externals Unit :=
  { sample_externals_optimize with termination_router := fun jp => (1, jp) }

/-- A job context with the fragmented file, a second file of 20 clusters
right behind its first block (LCN 110) and a single free region of 5
clusters at LCN 1000. -/
def sample_job_blocked : udefrag_job_parameters Unit :=
  { sample_job_4k with
    filelist := [sample_fragmented_file, file_of_blockmap [⟨0, 110, 20⟩]],
    free_regions := [⟨1000, 5⟩] }

/-- External routines for a run of `optimize_file` on the blocked sample:
the search finds the block of the second file, and a move succeeds, using
up the free region and leaving the 5 clusters moved away (LCN 110) free. -/
def sample_externals_blocked : Externals Unit :=
  { sample_externals 0 (sample_volume [] 0 0 0 0) with
    find_first_block := fun jp min_lcn _ =>
      if min_lcn ≤ 110 then (some ⟨1, 0⟩, 110, jp) else (none, min_lcn, jp),
    move_file := fun _ _ _ _ jp => (0, { jp with free_regions := [⟨110, 5⟩] }) }

/-- A job context on an NTFS volume of 10 clusters whose MFT zone is
reported to start at LCN 5 and to end at LCN 1. -/
def sample_job_mft_zone : udefrag_job_parameters Unit :=
  { sample_job .ANALYSIS_JOB .FS_NTFS with
    v_info := { sample_volume [] 10 4096 0 0 with
      ntfs_data := ⟨0, 0, 4096, 5, 1, 0, 1024⟩ } }

/-- A job context with a fragment size threshold of 4096 bytes. -/
def sample_job_threshold_4k : udefrag_job_parameters Unit :=
  { sample_job .ANALYSIS_JOB .FS_UNKNOWN with udo := options_with_threshold 4096 }

/-- The job context `get_volume_information` leaves for the sample with the
threshold of 4096 bytes on a volume of 1000 clusters of 4096 bytes. -/
def sample_job_threshold_4k_result : udefrag_job_parameters Unit :=
  match get_volume_information (sample_externals 0 (sample_volume [] 1000 4096 0 0))
      (-5) 31 sample_job_threshold_4k with
  | .ok r => r.2
  | .error _ => sample_job_threshold_4k

/-- A path comparator with results in {-1, 0, 1}: it orders the paths by
their length. -/
def sample_wcsicmp_sign (x y : Option (List Nat)) : Int :=
  if (x.getD []).length < (y.getD []).length then -1
  else if (y.getD []).length < (x.getD []).length then 1
  else 0

/-- A job context whose options let every file through: no size limit, no
fragment size threshold, no fragments limit, no path filter. -/
def sample_job_filter : udefrag_job_parameters Unit :=
  { sample_job_4k with udo := { options_with_threshold 9223372036854775807 with
      size_limit := 18446744073709551615 } }

/-- A file entry with the three-character path `\??`. -/
def sample_short_path_file : winx_file_info :=
  { file_of_blockmap [⟨0, 100, 10⟩] with path := some [92, 63, 63], disp :=
      { clusters := 10, fragments := 1, flags := 0, blockmap := [⟨0, 100, 10⟩] } }

/-- The root directory of drive C, with the trailing dot the file system
scan gives it. -/
def sample_root_directory : winx_file_info :=
  { file_of_blockmap [⟨0, 100, 10⟩] with
    path := some [92, 63, 63, 92, 67, 58, 92, 46] }

/-- A volume of 200 clusters with the free regions [10, 30), [90, 120) and
[150, 160). -/
def sample_job_count : udefrag_job_parameters Unit :=
  { sample_job_with_regions [⟨10, 20⟩, ⟨90, 30⟩, ⟨150, 10⟩] with
    v_info := sample_volume [] 200 4096 0 0 }

/-- The blocked sample with a free region of 50 clusters at LCN 1000: there
is room to move the block of the second file away. -/
def sample_job_cleanable : udefrag_job_parameters Unit :=
  { sample_job_blocked with free_regions := [⟨1000, 50⟩] }

/-- The state of `optimize_file` for the file 0 of the sample at the start
of the inner loop: 10 clusters to process from VCN 10, the search starting
at LCN 110. -/
def sample_state_cleanable : optimize_state Unit :=
  ⟨sample_job_cleanable, 10, 10, 110, ⟨0, 0⟩⟩

/-- The state in which the inner loop is left on the sample: 10 clusters of
the second file have been moved away from LCN 110, and the file is flagged
`UD_FILE_FRAGMENTED_BY_FILE_OPT` (1024). -/
def sample_state_cleaned : optimize_state Unit :=
  ⟨{ sample_job_cleanable with
      filelist := [sample_fragmented_file,
        set_user_flag 1024 (file_of_blockmap [⟨0, 110, 20⟩])],
      free_regions := [⟨110, 5⟩] }, 10, 10, 120, ⟨110, 10⟩⟩

/-- A job context of the model with empty lists and zeroed counters, on a
volume of the given number of clusters (of 4096 bytes). -/
def spec_sample_job (total_clusters : Nat) (files : List winx_file_info)
    (free_regions : List winx_volume_region) :
    udefrag_job_parameters (List winx_volume_region) :=
  { job_type := .FULL_OPTIMIZATION_JOB, volume_letter := 67, win_version := 0,
    udo := options_with_threshold 0,
    v_info := sample_volume [] total_clusters 4096 0 0,
    mft_zone := ⟨0, 0⟩, pi := ⟨0, 0, 0, 0, 0, 0, 0, 0, 0, 0, 0, 0, 0, 0, 0⟩,
    f_counters := ⟨0, 0, 0, 0, 0, 0⟩, fs_type := .FS_NTFS, is_fat := 0, is_ntfs := 1,
    clusters_at_once := 0, filelist := files, free_regions := free_regions,
    free_regions_count := free_regions.length, already_optimized_clusters := 0,
    last_move_status := 0, world := [] }

/-- A full volume of 40 clusters: four files of one block each (LCN 0, 10,
24 and 36) and the free regions [20, 24) and [30, 36). -/
def sample_job_full_volume : udefrag_job_parameters (List winx_volume_region) :=
  spec_sample_job 40
    [file_of_blockmap [⟨0, 0, 10⟩], file_of_blockmap [⟨0, 10, 10⟩],
      file_of_blockmap [⟨0, 24, 6⟩], file_of_blockmap [⟨0, 36, 4⟩]]
    [⟨20, 4⟩, ⟨30, 6⟩]

/-- A volume of 1000 clusters with the fragmented file of two blocks
(LCN 100 and 500), a second file of two blocks right behind its first block
(LCN 110 and 120) and the free regions [115, 120) and [130, 180). -/
def sample_job_locked_neighbour : udefrag_job_parameters (List winx_volume_region) :=
  spec_sample_job 1000
    [sample_fragmented_file, file_of_blockmap [⟨0, 110, 5⟩, ⟨5, 120, 10⟩]]
    [⟨115, 5⟩, ⟨130, 50⟩]

/-- A job of the context menu handler with a cut filter: the options of
`sample_job_filter`, the flag `UD_JOB_CONTEXT_MENU_HANDLER` (4) and the one
cut pattern `C:`. -/
def sample_job_context_menu : udefrag_job_parameters Unit :=
  { sample_job_filter with udo := { sample_job_filter.udo with
      job_flags := 4, cut_filter := [[67, 58]] } }

-- THEOREMS

/-- External routines for a run of `cleanup_space`: a move succeeds and
takes the clusters from `target` on out of the free region they lie in (the
code moves to the end of a region). -/
def sample_externals_cleanup : Externals Unit :=
  { sample_externals 0 (sample_volume [] 0 0 0 0) with
    move_file := fun _ _ _ target jp =>
      (0, { jp with free_regions := jp.free_regions.map (fun r =>
        if r.lcn ≤ target ∧ target < r.lcn + r.length then ⟨r.lcn, target - r.lcn⟩
        else r) }) }

-- THEOREMS

/-! ## Theorems -/

theorem wrap64_of_lt {n : Nat} (h : n < U64_MOD) : wrap64 n = n :=
  Nat.mod_eq_of_lt h

theorem runs_acc_add (k : Nat) (rest : List winx_blockmap) :
    ∀ (acc : Nat) (prev : winx_blockmap),
      runs_acc (k + acc) prev rest =
        match runs_acc acc prev rest with
        | [] => []
        | r :: rs => (k + r) :: rs := by
  induction rest with
  | nil => intro acc prev; simp [runs_acc]
  | cons b rest ih =>
    intro acc prev
    by_cases h : b.lcn = prev.lcn + prev.length
    · simp only [runs_acc, h, if_true]
      rw [Nat.add_assoc]
      exact ih _ _
    · simp [runs_acc, h]

theorem runs_acc_ne_nil (rest : List winx_blockmap) :
    ∀ (acc : Nat) (prev : winx_blockmap), runs_acc acc prev rest ≠ [] := by
  induction rest with
  | nil => intro acc prev; simp [runs_acc]
  | cons b rest ih =>
    intro acc prev
    by_cases h : b.lcn = prev.lcn + prev.length
    · simp only [runs_acc, h, if_true]; exact ih _ _
    · simp [runs_acc, h]

theorem contiguous_runs_eq_runs_acc (a : winx_blockmap) (rest : List winx_blockmap) :
    contiguous_runs (a :: rest) = runs_acc a.length a rest := by
  induction rest generalizing a with
  | nil => simp [contiguous_runs, runs_acc]
  | cons b rest ih =>
    by_cases h : b.lcn = a.lcn + a.length
    · simp only [contiguous_runs, runs_acc, h, if_true]
      rw [ih b, runs_acc_add a.length rest b.length b]
      cases hr : runs_acc b.length b rest with
      | nil => exact absurd hr (runs_acc_ne_nil rest _ _)
      | cons r rs => rfl
    · simp only [contiguous_runs, runs_acc, h, if_false]
      rw [ih b]

/-- The verdict of `exclude_by_fragment_size` once its loop has finished. -/
theorem exclude_loop_verdict (bpc thr : Nat) (rest : List winx_blockmap) :
    ∀ (prev : winx_blockmap) (acc : Nat),
      blocks_in_range (prev :: rest) →
      acc + blockmap_clusters rest < U64_MOD →
      (acc + blockmap_clusters rest) * bpc < U64_MOD →
      ((match exclude_by_fragment_size_loop bpc thr prev acc rest with
        | none => (0 : Int)
        | some s => if s ≠ 0 ∧ wrap64 (s * bpc) < thr then 0 else 1) = 1
        ↔ ∀ r ∈ runs_acc acc prev rest, r ≠ 0 → thr ≤ r * bpc) := by
  induction rest with
  | nil =>
    intro prev acc _ h1 h2
    simp only [blockmap_clusters, List.map_nil, List.sum_nil, Nat.add_zero] at h1 h2
    simp only [exclude_by_fragment_size_loop, runs_acc, List.mem_singleton, forall_eq,
      wrap64_of_lt h2]
    by_cases h0 : acc = 0
    · simp [h0]
    · by_cases hlt : acc * bpc < thr
      · simp [h0, hlt]
      · simp [h0, hlt]; omega
  | cons b rest ih =>
    intro prev acc hr h1 h2
    have hsum : blockmap_clusters (b :: rest) = b.length + blockmap_clusters rest := by
      simp [blockmap_clusters]
    rw [hsum] at h1 h2
    have hprev : prev.lcn + prev.length < U64_MOD := hr prev (by simp)
    have hr2 : blocks_in_range (b :: rest) := fun x hx => hr x (List.mem_cons_of_mem _ hx)
    have hacc : acc * bpc < U64_MOD :=
      lt_of_le_of_lt (Nat.mul_le_mul_right bpc (by omega)) h2
    by_cases h : b.lcn = prev.lcn + prev.length
    · have hw : wrap64 (acc + b.length) = acc + b.length := wrap64_of_lt (by omega)
      simp only [exclude_by_fragment_size_loop, runs_acc, wrap64_of_lt hprev, h, if_true, hw]
      exact ih b (acc + b.length) hr2 (by omega) (by rw [Nat.add_assoc]; exact h2)
    · have hb : (b.length + blockmap_clusters rest) * bpc < U64_MOD :=
        lt_of_le_of_lt (Nat.mul_le_mul_right bpc (by omega)) h2
      simp only [exclude_by_fragment_size_loop, runs_acc, wrap64_of_lt hprev, h, if_false,
        wrap64_of_lt hacc, List.mem_cons, forall_eq_or_imp]
      by_cases hsmall : acc ≠ 0 ∧ acc * bpc < thr
      · rw [if_pos hsmall]
        constructor
        · intro hc; simp at hc
        · intro hc; exact absurd (hc.1 hsmall.1) (by omega)
      · rw [if_neg hsmall]
        rw [ih b b.length hr2 (by omega) hb]
        constructor
        · intro hc; exact ⟨fun h0 => by
            have : ¬ acc * bpc < thr := fun hlt => hsmall ⟨h0, hlt⟩
            omega, hc⟩
        · intro hc; exact hc.2

theorem contiguous_runs_sum (bm : List winx_blockmap) :
    (contiguous_runs bm).sum = blockmap_clusters bm := by
  induction bm with
  | nil => simp [contiguous_runs, blockmap_clusters]
  | cons a rest ih =>
    cases rest with
    | nil => simp [contiguous_runs, blockmap_clusters]
    | cons b rest =>
      have hsum : blockmap_clusters (a :: b :: rest) =
          a.length + blockmap_clusters (b :: rest) := by simp [blockmap_clusters]
      rw [hsum, ← ih]
      by_cases h : b.lcn = a.lcn + a.length
      · simp only [contiguous_runs, h, if_true]
        cases hr : contiguous_runs (b :: rest) with
        | nil => simp
        | cons r rs => simp [Nat.add_assoc]
      · simp only [contiguous_runs, h, if_false, List.sum_cons]

/-- What `exclude_by_fragment_size` returns once the threshold is in force,
in terms of the contiguous runs of the block map. -/
theorem exclude_by_fragment_size_eq_one_iff (D : Nat) (f : winx_file_info)
    (udo : udefrag_job_options) (bpc : Nat)
    (hset : udo.fragment_size_threshold ≠ D)
    (halg : udo.algorithm_defined_fst = 0)
    (hrange : blocks_in_range f.disp.blockmap)
    (hsz : blockmap_clusters f.disp.blockmap < U64_MOD)
    (hbytes : blockmap_clusters f.disp.blockmap * bpc < U64_MOD) :
    exclude_by_fragment_size D f udo bpc = 1 ↔
      f.disp.blockmap ≠ [] ∧
      ∀ r ∈ contiguous_runs f.disp.blockmap,
        r ≠ 0 → udo.fragment_size_threshold ≤ r * bpc := by
  unfold exclude_by_fragment_size
  rw [if_neg hset, if_neg (by simp [halg])]
  cases hbm : f.disp.blockmap with
  | nil => simp
  | cons first rest =>
    rw [hbm] at hrange hsz hbytes
    have hsum : blockmap_clusters (first :: rest) =
        first.length + blockmap_clusters rest := by simp [blockmap_clusters]
    rw [hsum] at hsz hbytes
    have hw : wrap64 (0 + first.length) = first.length := by
      rw [Nat.zero_add]; exact wrap64_of_lt (by omega)
    simp only [hw, contiguous_runs_eq_runs_acc, ne_eq, reduceCtorEq, not_false_eq_true,
      true_and]
    exact exclude_loop_verdict bpc udo.fragment_size_threshold rest first first.length
      hrange hsz hbytes

/-- C1, as stated, fails: with a threshold of one 4096-byte cluster the file
whose only run has 10 clusters (40960 bytes, not smaller than the
threshold) is excluded. -/
theorem exclude_by_fragment_size_large_run_excluded :
    exclude_by_fragment_size 9223372036854775807
        (file_of_blockmap [⟨0, 100, 10⟩]) (options_with_threshold 4096) 4096 = 1 ∧
      ¬ (∀ r ∈ contiguous_runs (file_of_blockmap [⟨0, 100, 10⟩]).disp.blockmap,
          r * 4096 < (options_with_threshold 4096).fragment_size_threshold) := by
  decide

/-- C1 (amended): when the fragment size threshold is set (not the default
value, not algorithm-defined) and the block map is not empty,
`exclude_by_fragment_size` returns 1 only if (indeed: exactly when) every
contiguous run of non-zero length has a size `length * bytes_per_cluster`
greater than or equal to the threshold; a file with a run strictly smaller
than the threshold is kept. -/
theorem exclude_by_fragment_size_iff_no_small_run (D : Nat) (f : winx_file_info)
    (udo : udefrag_job_options) (bpc : Nat)
    (hset : udo.fragment_size_threshold ≠ D)
    (halg : udo.algorithm_defined_fst = 0)
    (hne : f.disp.blockmap ≠ [])
    (hrange : blocks_in_range f.disp.blockmap)
    (hsz : blockmap_clusters f.disp.blockmap < U64_MOD)
    (hbytes : blockmap_clusters f.disp.blockmap * bpc < U64_MOD) :
    exclude_by_fragment_size D f udo bpc = 1 ↔
      ∀ r ∈ contiguous_runs f.disp.blockmap,
        r ≠ 0 → udo.fragment_size_threshold ≤ r * bpc := by
  rw [exclude_by_fragment_size_eq_one_iff D f udo bpc hset halg hrange hsz hbytes]
  exact ⟨fun h => h.2, fun h => ⟨hne, h⟩⟩

theorem exclude_by_fragment_size_iff_no_small_run_witness :
    exclude_by_fragment_size 9223372036854775807
        (file_of_blockmap [⟨0, 100, 10⟩, ⟨10, 110, 5⟩, ⟨15, 500, 20⟩])
        (options_with_threshold 8192) 4096 = 1 ↔
      ∀ r ∈ contiguous_runs
          (file_of_blockmap [⟨0, 100, 10⟩, ⟨10, 110, 5⟩, ⟨15, 500, 20⟩]).disp.blockmap,
        r ≠ 0 → (options_with_threshold 8192).fragment_size_threshold ≤ r * 4096 :=
  exclude_by_fragment_size_iff_no_small_run 9223372036854775807
    (file_of_blockmap [⟨0, 100, 10⟩, ⟨10, 110, 5⟩, ⟨15, 500, 20⟩])
    (options_with_threshold 8192) 4096 (by decide) (by decide) (by decide)
    (by decide) (by decide) (by decide)

/-- C2, as stated, fails: the file whose only run is one 4096-byte cluster,
exactly the threshold, is excluded (the routine returns 1, not 0). -/
theorem exclude_by_fragment_size_at_threshold_excluded :
    contiguous_runs (file_of_blockmap [⟨0, 100, 1⟩]).disp.blockmap = [1] ∧
      1 * 4096 = (options_with_threshold 4096).fragment_size_threshold ∧
      exclude_by_fragment_size 9223372036854775807
        (file_of_blockmap [⟨0, 100, 1⟩]) (options_with_threshold 4096) 4096 = 1 := by
  decide

/-- C2 (amended): a file whose block map forms exactly one contiguous run
whose size in bytes equals the configured threshold exactly is excluded
(`exclude_by_fragment_size` returns 1): the file is kept only when a run is
strictly below the threshold. -/
theorem exclude_by_fragment_size_single_run_at_threshold (D : Nat)
    (f : winx_file_info) (udo : udefrag_job_options) (bpc r : Nat)
    (hset : udo.fragment_size_threshold ≠ D)
    (halg : udo.algorithm_defined_fst = 0)
    (hrange : blocks_in_range f.disp.blockmap)
    (hsz : blockmap_clusters f.disp.blockmap < U64_MOD)
    (hthr : udo.fragment_size_threshold < U64_MOD)
    (hrun : contiguous_runs f.disp.blockmap = [r])
    (heq : r * bpc = udo.fragment_size_threshold) :
    exclude_by_fragment_size D f udo bpc = 1 := by
  have hcl : blockmap_clusters f.disp.blockmap = r := by
    rw [← contiguous_runs_sum, hrun]; simp
  rw [exclude_by_fragment_size_eq_one_iff D f udo bpc hset halg hrange hsz
    (by rw [hcl, heq]; exact hthr)]
  refine ⟨fun h => by rw [h] at hrun; simp [contiguous_runs] at hrun, ?_⟩
  intro x hx _
  rw [hrun, List.mem_singleton] at hx
  rw [hx, heq]

theorem exclude_by_fragment_size_single_run_at_threshold_witness :
    exclude_by_fragment_size 9223372036854775807
      (file_of_blockmap [⟨0, 100, 2⟩, ⟨2, 102, 2⟩]) (options_with_threshold 16384)
      4096 = 1 :=
  exclude_by_fragment_size_single_run_at_threshold 9223372036854775807
    (file_of_blockmap [⟨0, 100, 2⟩, ⟨2, 102, 2⟩]) (options_with_threshold 16384)
    4096 4 (by decide) (by decide) (by decide) (by decide) (by decide) (by decide)
    (by decide)

/-- C3: when the geometry query succeeds and reports the dirty bit,
`get_volume_information` returns `UDEFRAG_DIRTY_VOLUME` whatever the values
of `total_clusters` and `bytes_per_cluster` are, and `analyze` returns the
same (negative) code having called nothing but `get_volume_information`:
neither the free regions nor the files are enumerated. -/
theorem dirty_volume_stops_analysis {ω : Type} (E : Externals ω)
    (UDEFRAG_DIRTY_VOLUME UDEFRAG_UDF_DEFRAG : Int) (MAX_FS_NAME_LENGTH WINDOWS_XP : Nat)
    (jp : udefrag_job_parameters ω)
    (hcode : UDEFRAG_DIRTY_VOLUME < 0)
    (hquery : ¬ (E.winx_get_volume_information (volume_query_context E jp)).1 < 0)
    (hdirty : (E.winx_get_volume_information (volume_query_context E jp)).2.is_dirty ≠ 0) :
    (∃ jp1, get_volume_information E UDEFRAG_DIRTY_VOLUME MAX_FS_NAME_LENGTH jp =
        .ok (UDEFRAG_DIRTY_VOLUME, jp1)) ∧
    (∃ jp1, analyze E UDEFRAG_DIRTY_VOLUME UDEFRAG_UDF_DEFRAG MAX_FS_NAME_LENGTH WINDOWS_XP jp =
        .ok (UDEFRAG_DIRTY_VOLUME, jp1, [analysis_step.get_volume_information])) := by
  have h1 : ∃ jp1, get_volume_information E UDEFRAG_DIRTY_VOLUME MAX_FS_NAME_LENGTH jp =
      .ok (UDEFRAG_DIRTY_VOLUME, jp1) := by
    refine ⟨{ volume_query_context E jp with
      v_info := (E.winx_get_volume_information (volume_query_context E jp)).2 }, ?_⟩
    unfold get_volume_information
    simp only [hquery, hdirty, if_false, if_true, ne_eq, not_false_eq_true]
    rfl
  refine ⟨h1, ?_⟩
  obtain ⟨jp1, h⟩ := h1
  refine ⟨jp1, ?_⟩
  unfold analyze
  rw [h]
  simp [hcode, bind, Except.bind, pure, Except.pure]

theorem dirty_volume_stops_analysis_witness :
    (∃ jp1, get_volume_information (sample_externals 0 (sample_volume [] 0 0 0 1)) (-5) 31
        (sample_job .ANALYSIS_JOB .FS_UNKNOWN) = .ok (-5, jp1)) ∧
    (∃ jp1, analyze (sample_externals 0 (sample_volume [] 0 0 0 1)) (-5) (-7) 31 51
        (sample_job .ANALYSIS_JOB .FS_UNKNOWN) =
        .ok (-5, jp1, [analysis_step.get_volume_information])) :=
  dirty_volume_stops_analysis (sample_externals 0 (sample_volume [] 0 0 0 1)) (-5) (-7) 31 51
    (sample_job .ANALYSIS_JOB .FS_UNKNOWN) (by decide) (by decide) (by decide)

/-- C4 (defect of the code): on a non-dirty volume whose geometry query
succeeds with `bytes_per_cluster = 0`, `get_volume_information` does not
return an error code: the quotient `free_bytes / bytes_per_cluster` of line
146 is taken before the geometry is validated at line 150, so the routine
(and `analyze` with it) traps with a division by zero. -/
theorem zero_cluster_size_divides_by_zero {ω : Type} (E : Externals ω)
    (UDEFRAG_DIRTY_VOLUME UDEFRAG_UDF_DEFRAG : Int) (MAX_FS_NAME_LENGTH WINDOWS_XP : Nat)
    (jp : udefrag_job_parameters ω)
    (hquery : ¬ (E.winx_get_volume_information (volume_query_context E jp)).1 < 0)
    (hclean : (E.winx_get_volume_information (volume_query_context E jp)).2.is_dirty = 0)
    (hzero :
      (E.winx_get_volume_information (volume_query_context E jp)).2.bytes_per_cluster = 0) :
    get_volume_information E UDEFRAG_DIRTY_VOLUME MAX_FS_NAME_LENGTH jp =
        .error .division_by_zero ∧
    analyze E UDEFRAG_DIRTY_VOLUME UDEFRAG_UDF_DEFRAG MAX_FS_NAME_LENGTH WINDOWS_XP jp =
        .error .division_by_zero := by
  have h1 : get_volume_information E UDEFRAG_DIRTY_VOLUME MAX_FS_NAME_LENGTH jp =
      .error .division_by_zero := by
    unfold get_volume_information
    simp only [hquery, hclean, hzero, if_false, ne_eq, not_true_eq_false, udiv64, if_true]
    rfl
  refine ⟨h1, ?_⟩
  unfold analyze
  rw [h1]
  rfl

theorem zero_cluster_size_divides_by_zero_witness :
    get_volume_information (sample_externals 0 (sample_volume [] 1000 0 0 0)) (-5) 31
        (sample_job .ANALYSIS_JOB .FS_UNKNOWN) = .error .division_by_zero ∧
    analyze (sample_externals 0 (sample_volume [] 1000 0 0 0)) (-5) (-7) 31 51
        (sample_job .ANALYSIS_JOB .FS_UNKNOWN) = .error .division_by_zero :=
  zero_cluster_size_divides_by_zero (sample_externals 0 (sample_volume [] 1000 0 0 0))
    (-5) (-7) 31 51 (sample_job .ANALYSIS_JOB .FS_UNKNOWN) (by decide) (by decide) (by decide)

/-- C5: `check_requested_action` returns the dedicated code
`UDEFRAG_UDF_DEFRAG` (a non-zero constant) if and only if the file system is
UDF and the job is not an analysis; for every other pair of file system and
job type, the analysis of a UDF volume included, it returns 0. -/
theorem check_requested_action_udf {ω : Type} (UDEFRAG_UDF_DEFRAG : Int)
    (jp : udefrag_job_parameters ω) (hcode : UDEFRAG_UDF_DEFRAG ≠ 0) :
    (check_requested_action UDEFRAG_UDF_DEFRAG jp = UDEFRAG_UDF_DEFRAG ↔
      jp.fs_type = .FS_UDF ∧ jp.job_type ≠ .ANALYSIS_JOB) ∧
    (¬ (jp.fs_type = .FS_UDF ∧ jp.job_type ≠ .ANALYSIS_JOB) →
      check_requested_action UDEFRAG_UDF_DEFRAG jp = 0) ∧
    (jp.fs_type = .FS_UDF → jp.job_type = .ANALYSIS_JOB →
      check_requested_action UDEFRAG_UDF_DEFRAG jp = 0) := by
  unfold check_requested_action
  by_cases h : jp.job_type ≠ .ANALYSIS_JOB ∧ jp.fs_type = .FS_UDF
  · rw [if_pos h]
    exact ⟨⟨fun _ => ⟨h.2, h.1⟩, fun _ => rfl⟩, fun hn => absurd ⟨h.2, h.1⟩ hn,
      fun _ ha => absurd ha h.1⟩
  · rw [if_neg h]
    exact ⟨⟨fun h0 => absurd h0.symm hcode, fun hc => absurd ⟨hc.2, hc.1⟩ h⟩,
      fun _ => rfl, fun _ _ => rfl⟩

theorem check_requested_action_udf_witness :
    (check_requested_action (-7) (sample_job .DEFRAGMENTATION_JOB .FS_UDF) = -7 ↔
      (sample_job .DEFRAGMENTATION_JOB .FS_UDF).fs_type = .FS_UDF ∧
      (sample_job .DEFRAGMENTATION_JOB .FS_UDF).job_type ≠ .ANALYSIS_JOB) ∧
    (¬ ((sample_job .DEFRAGMENTATION_JOB .FS_UDF).fs_type = .FS_UDF ∧
        (sample_job .DEFRAGMENTATION_JOB .FS_UDF).job_type ≠ .ANALYSIS_JOB) →
      check_requested_action (-7) (sample_job .DEFRAGMENTATION_JOB .FS_UDF) = 0) ∧
    ((sample_job .DEFRAGMENTATION_JOB .FS_UDF).fs_type = .FS_UDF →
      (sample_job .DEFRAGMENTATION_JOB .FS_UDF).job_type = .ANALYSIS_JOB →
      check_requested_action (-7) (sample_job .DEFRAGMENTATION_JOB .FS_UDF) = 0) :=
  check_requested_action_udf (-7) (sample_job .DEFRAGMENTATION_JOB .FS_UDF) (by decide)

theorem adjust_move_at_once_parameter_eq {ω : Type} (jp : udefrag_job_parameters ω)
    (hbpc : jp.v_info.bytes_per_cluster ≠ 0) :
    adjust_move_at_once_parameter jp = .ok { jp with clusters_at_once := (
        if bytes_at_once jp.v_info.device_capacity / jp.v_info.bytes_per_cluster = 0 then 1
        else bytes_at_once jp.v_info.device_capacity / jp.v_info.bytes_per_cluster) } := by
  unfold adjust_move_at_once_parameter udiv64
  rw [if_neg hbpc]
  by_cases hq : bytes_at_once jp.v_info.device_capacity / jp.v_info.bytes_per_cluster = 0
  · simp [hq, bind, Except.bind, pure, Except.pure, wrap64, U64_MOD]
  · simp [hq, bind, Except.bind, pure, Except.pure]

/-- C6: `adjust_move_at_once_parameter` picks the burst size 256 KiB below
20 GiB of device capacity, 4 MiB below 100 GiB, 8 MiB below 250 GiB, 16 MiB
below 1 TiB, 32 MiB below 2 TiB and 64 MiB otherwise (50 GiB gives 4 MiB);
with a non-zero cluster size it succeeds and sets `clusters_at_once` to
burst / bytes_per_cluster, raised to 1 when that quotient is 0, leaving
everything else alone. -/
theorem adjust_move_at_once_parameter_table {ω : Type} (jp : udefrag_job_parameters ω)
    (hbpc : jp.v_info.bytes_per_cluster ≠ 0) :
    (∀ c : Nat,
      (c < 20 * 2 ^ 30 → bytes_at_once c = 256 * 2 ^ 10) ∧
      (20 * 2 ^ 30 ≤ c → c < 100 * 2 ^ 30 → bytes_at_once c = 4 * 2 ^ 20) ∧
      (100 * 2 ^ 30 ≤ c → c < 250 * 2 ^ 30 → bytes_at_once c = 8 * 2 ^ 20) ∧
      (250 * 2 ^ 30 ≤ c → c < 2 ^ 40 → bytes_at_once c = 16 * 2 ^ 20) ∧
      (2 ^ 40 ≤ c → c < 2 * 2 ^ 40 → bytes_at_once c = 32 * 2 ^ 20) ∧
      (2 * 2 ^ 40 ≤ c → bytes_at_once c = 64 * 2 ^ 20)) ∧
    bytes_at_once (50 * 2 ^ 30) = 4 * 2 ^ 20 ∧
    adjust_move_at_once_parameter jp = .ok { jp with clusters_at_once := (
        if bytes_at_once jp.v_info.device_capacity / jp.v_info.bytes_per_cluster = 0 then 1
        else bytes_at_once jp.v_info.device_capacity / jp.v_info.bytes_per_cluster) } := by
  refine ⟨fun c => ?_, by decide, ?_⟩
  · simp only [bytes_at_once, _20G, _100G, _250G, _1T, _2T, _256K, _4M, _8M, _16M, _32M,
      _64M]
    norm_num
    refine ⟨?_, ?_, ?_, ?_, ?_, ?_⟩ <;> intros <;> split_ifs <;> first | rfl | omega
  · exact adjust_move_at_once_parameter_eq jp hbpc

theorem adjust_move_at_once_parameter_table_witness :
    adjust_move_at_once_parameter
        { sample_job .ANALYSIS_JOB .FS_NTFS with
          v_info := sample_volume [] 1000 4096 (50 * 2 ^ 30) 0 } =
      .ok { sample_job .ANALYSIS_JOB .FS_NTFS with
          v_info := sample_volume [] 1000 4096 (50 * 2 ^ 30) 0,
          clusters_at_once := 1024 } :=
  (adjust_move_at_once_parameter_table
    { sample_job .ANALYSIS_JOB .FS_NTFS with
      v_info := sample_volume [] 1000 4096 (50 * 2 ^ 30) 0 } (by decide)).2.2

theorem c_toupper_eq_iff (x y : Nat) :
    c_toupper x = c_toupper y ↔ c_tolower x = c_tolower y := by
  unfold c_toupper c_tolower
  split_ifs <;> omega

theorem map_eq_map_iff_of_pointwise (f g : Nat → Nat)
    (h : ∀ x y, f x = f y ↔ g x = g y) :
    ∀ a b : List Nat, a.map f = b.map f ↔ a.map g = b.map g := by
  intro a
  induction a with
  | nil => intro b; cases b <;> simp
  | cons x a ih =>
    intro b
    cases b with
    | nil => simp
    | cons y b => simp only [List.map_cons, List.cons.injEq, h x y, ih b]

theorem strupr_eq_iff (a b : List Nat) : _strupr a = _strupr b ↔ eq_ignore_case a b :=
  map_eq_map_iff_of_pointwise c_toupper c_tolower c_toupper_eq_iff a b

theorem eq_ignore_case_length {a b : List Nat} (h : eq_ignore_case a b) :
    a.length = b.length := by
  have := congrArg List.length h
  simpa using this

/-- The name compared with the table is the upper-case form of the reported
name as soon as the latter matches, case aside, a name that fits the
buffer. -/
theorem strupr_take_of_eq_ignore_case (M : Nat) (s b : List Nat)
    (h : eq_ignore_case s b) (hlen : b.length ≤ M) :
    _strupr (s.take M) = _strupr b := by
  have hs : s.length ≤ M := by rw [eq_ignore_case_length h]; exact hlen
  rw [List.take_of_length_le hs]
  exact (strupr_eq_iff s b).2 h

/-- A truncated, upper-cased name equals an upper-case name shorter than the
buffer only if the reported name matches it, case aside. -/
theorem eq_ignore_case_of_strupr_take (M : Nat) (s b : List Nat)
    (h : _strupr (s.take M) = b) (hup : _strupr b = b) (hlen : b.length < M) :
    eq_ignore_case s b := by
  have hl : (s.take M).length = b.length := by
    have := congrArg List.length h
    simpa [_strupr] using this
  have hs : s.length ≤ M := by
    rw [List.length_take] at hl
    omega
  rw [List.take_of_length_le hs] at h
  exact (strupr_eq_iff s b).1 (h.trans hup.symm)

theorem fs_types_loop_eq {ω : Type} (u : List Nat) (jp : udefrag_job_parameters ω)
    (rows : List fs_type_struct) :
    fs_types_loop u jp rows =
      match fs_types_find u rows with
      | some row =>
        { jp with fs_type := row.type, is_fat := row.is_fat, is_ntfs := row.is_ntfs }
      | none => jp := by
  induction rows with
  | nil => rfl
  | cons row rest ih =>
    by_cases h : u = row.name
    · simp only [fs_types_loop, fs_types_find, h, if_true]
    · simp only [fs_types_loop, fs_types_find, h, if_false]; exact ih

/-- The successful path of `get_volume_information`: the file system kind
at return is the one of the row the lookup stops at. -/
theorem get_volume_information_fs_type {ω : Type} (E : Externals ω)
    (UDEFRAG_DIRTY_VOLUME : Int) (MAX_FS_NAME_LENGTH : Nat)
    (jp : udefrag_job_parameters ω)
    (hquery : ¬ (E.winx_get_volume_information (volume_query_context E jp)).1 < 0)
    (hclean : (E.winx_get_volume_information (volume_query_context E jp)).2.is_dirty = 0)
    (htotal :
      (E.winx_get_volume_information (volume_query_context E jp)).2.total_clusters ≠ 0)
    (hbpc :
      (E.winx_get_volume_information (volume_query_context E jp)).2.bytes_per_cluster ≠ 0) :
    ∃ jp1, get_volume_information E UDEFRAG_DIRTY_VOLUME MAX_FS_NAME_LENGTH jp =
        .ok (0, jp1) ∧
      (jp1.fs_type, jp1.is_fat, jp1.is_ntfs) =
        match fs_types_find (_strupr
          ((E.winx_get_volume_information (volume_query_context E jp)).2.fs_name.take
            MAX_FS_NAME_LENGTH)) fs_types with
        | some row => (row.type, row.is_fat, row.is_ntfs)
        | none => (file_system_type.FS_UNKNOWN, 0, 0) := by
  unfold get_volume_information
  simp only [hquery, hclean, if_false, ne_eq, not_true_eq_false, udiv64, hbpc, htotal,
    or_self, bind, Except.bind, pure, Except.pure]
  rw [adjust_move_at_once_parameter_eq _ hbpc]
  refine ⟨_, rfl, ?_⟩
  simp only [fs_types_loop_eq]
  cases fs_types_find (_strupr
      ((E.winx_get_volume_information (volume_query_context E jp)).2.fs_name.take
        MAX_FS_NAME_LENGTH)) fs_types <;> (split_ifs <;> rfl)

theorem fs_types_find_eq_none (u : List Nat) (rows : List fs_type_struct)
    (h : ∀ row ∈ rows, u ≠ row.name) : fs_types_find u rows = none := by
  induction rows with
  | nil => rfl
  | cons row rest ih =>
    have h1 : u ≠ row.name := h row (by simp)
    simp only [fs_types_find, h1, if_false]
    exact ih (fun r hr => h r (List.mem_cons_of_mem _ hr))

theorem fs_types_names_upper :
    ∀ row ∈ fs_types, _strupr row.name = row.name ∧ row.name.length ≤ 5 := by
  decide

/-- C7: the classification of the file system in `get_volume_information`
is a case-insensitive lookup of the reported name in the fixed table (the
buffer holding more than the five characters of the longest table name):
every case variant of "fat" and of "fat16" gives `FS_FAT16` with
`is_fat = 1`, every case variant of NTFS, FAT12, FAT32, EXFAT and UDF gives
its own kind, and a name matching no row leaves `FS_UNKNOWN` with
`is_fat = is_ntfs = 0`; in each case the routine succeeds (returns 0). -/
theorem fs_classification_case_insensitive {ω : Type} (E : Externals ω)
    (UDEFRAG_DIRTY_VOLUME : Int) (MAX_FS_NAME_LENGTH : Nat)
    (jp : udefrag_job_parameters ω)
    (hbuf : 5 < MAX_FS_NAME_LENGTH)
    (hquery : ¬ (E.winx_get_volume_information (volume_query_context E jp)).1 < 0)
    (hclean : (E.winx_get_volume_information (volume_query_context E jp)).2.is_dirty = 0)
    (htotal :
      (E.winx_get_volume_information (volume_query_context E jp)).2.total_clusters ≠ 0)
    (hbpc :
      (E.winx_get_volume_information (volume_query_context E jp)).2.bytes_per_cluster ≠ 0) :
    ∃ jp1, get_volume_information E UDEFRAG_DIRTY_VOLUME MAX_FS_NAME_LENGTH jp =
        .ok (0, jp1) ∧
      (eq_ignore_case (reported_fs_name E jp) (c_str "fat") ∨
        eq_ignore_case (reported_fs_name E jp) (c_str "fat16") →
          jp1.fs_type = .FS_FAT16 ∧ jp1.is_fat = 1 ∧ jp1.is_ntfs = 0) ∧
      (eq_ignore_case (reported_fs_name E jp) (c_str "ntfs") →
          jp1.fs_type = .FS_NTFS ∧ jp1.is_fat = 0 ∧ jp1.is_ntfs = 1) ∧
      (eq_ignore_case (reported_fs_name E jp) (c_str "fat12") →
          jp1.fs_type = .FS_FAT12 ∧ jp1.is_fat = 1 ∧ jp1.is_ntfs = 0) ∧
      (eq_ignore_case (reported_fs_name E jp) (c_str "fat32") →
          jp1.fs_type = .FS_FAT32 ∧ jp1.is_fat = 1 ∧ jp1.is_ntfs = 0) ∧
      (eq_ignore_case (reported_fs_name E jp) (c_str "exfat") →
          jp1.fs_type = .FS_EXFAT ∧ jp1.is_fat = 1 ∧ jp1.is_ntfs = 0) ∧
      (eq_ignore_case (reported_fs_name E jp) (c_str "udf") →
          jp1.fs_type = .FS_UDF ∧ jp1.is_fat = 0 ∧ jp1.is_ntfs = 0) ∧
      ((∀ row ∈ fs_types, ¬ eq_ignore_case (reported_fs_name E jp) row.name) →
          jp1.fs_type = .FS_UNKNOWN ∧ jp1.is_fat = 0 ∧ jp1.is_ntfs = 0) := by
  obtain ⟨jp1, h1, h2⟩ := get_volume_information_fs_type E UDEFRAG_DIRTY_VOLUME
    MAX_FS_NAME_LENGTH jp hquery hclean htotal hbpc
  refine ⟨jp1, h1, ?_⟩
  have key : ∀ (b : List Nat) (row : fs_type_struct), b.length ≤ 5 →
      fs_types_find (_strupr b) fs_types = some row →
      eq_ignore_case (reported_fs_name E jp) b →
      jp1.fs_type = row.type ∧ jp1.is_fat = row.is_fat ∧ jp1.is_ntfs = row.is_ntfs := by
    intro b row hb hfind h
    have hu := strupr_take_of_eq_ignore_case MAX_FS_NAME_LENGTH _ b h (by omega)
    unfold reported_fs_name at hu
    rw [hu, hfind] at h2
    simpa using h2
  refine ⟨?_, ?_, ?_, ?_, ?_, ?_, ?_⟩
  · rintro (h | h)
    · exact key (c_str "fat") ⟨c_str "FAT", .FS_FAT16, 1, 0⟩ (by decide) (by decide) h
    · exact key (c_str "fat16") ⟨c_str "FAT16", .FS_FAT16, 1, 0⟩ (by decide) (by decide) h
  · exact key (c_str "ntfs") ⟨c_str "NTFS", .FS_NTFS, 0, 1⟩ (by decide) (by decide)
  · exact key (c_str "fat12") ⟨c_str "FAT12", .FS_FAT12, 1, 0⟩ (by decide) (by decide)
  · exact key (c_str "fat32") ⟨c_str "FAT32", .FS_FAT32, 1, 0⟩ (by decide) (by decide)
  · exact key (c_str "exfat") ⟨c_str "EXFAT", .FS_EXFAT, 1, 0⟩ (by decide) (by decide)
  · exact key (c_str "udf") ⟨c_str "UDF", .FS_UDF, 0, 0⟩ (by decide) (by decide)
  · intro hno
    have hnone : fs_types_find (_strupr
        ((E.winx_get_volume_information (volume_query_context E jp)).2.fs_name.take
          MAX_FS_NAME_LENGTH)) fs_types = none := by
      apply fs_types_find_eq_none
      intro row hrow hu
      have hr := fs_types_names_upper row hrow
      exact hno row hrow (eq_ignore_case_of_strupr_take MAX_FS_NAME_LENGTH _ row.name hu
        hr.1 (by omega))
    rw [hnone] at h2
    simpa using h2

theorem fs_classification_case_insensitive_witness :
    ∃ jp1, get_volume_information
        (sample_externals 0 (sample_volume (c_str "Fat") 1000 4096 0 0)) (-5) 31
        (sample_job .ANALYSIS_JOB .FS_UNKNOWN) = .ok (0, jp1) ∧
      jp1.fs_type = .FS_FAT16 ∧ jp1.is_fat = 1 ∧ jp1.is_ntfs = 0 := by
  obtain ⟨jp1, h1, h2, _⟩ := fs_classification_case_insensitive
    (sample_externals 0 (sample_volume (c_str "Fat") 1000 4096 0 0)) (-5) 31
    (sample_job .ANALYSIS_JOB .FS_UNKNOWN) (by decide) (by decide) (by decide)
    (by decide) (by decide)
  exact ⟨jp1, h1, h2 (Or.inl (by decide))⟩

theorem sub64_of_le {a b : Nat} (hba : b ≤ a) (ha : a < U64_MOD) : sub64 a b = a - b := by
  unfold sub64
  have hb : b % U64_MOD = b := Nat.mod_eq_of_lt (by omega)
  rw [hb]
  have : a + U64_MOD - b = (a - b) + U64_MOD := by omega
  rw [this, Nat.add_mod_right]
  exact Nat.mod_eq_of_lt (by omega)

theorem cleanup_space_test_iff (s e : Nat) (r : winx_volume_region) (hse : s ≤ e)
    (hr : r.lcn + r.length < U64_MOD) :
    cleanup_space_test s e r = true ↔ usable_region s e r := by
  unfold cleanup_space_test usable_region
  rw [wrap64_of_lt hr, decide_eq_true_iff]
  constructor
  · rintro ⟨hlen, h⟩
    refine ⟨hlen, fun x h1 h2 h3 => ?_⟩
    omega
  · rintro ⟨hlen, h⟩
    refine ⟨hlen, ?_⟩
    by_contra hc
    have hx := h (max r.lcn s) (le_max_left _ _) (by omega)
    apply hx
    constructor
    · exact le_max_right _ _
    · omega

theorem cleanup_space_scan_some (rs : List winx_volume_region) (s e : Nat)
    (rgn : winx_volume_region) (h : cleanup_space_scan rs s e = some rgn) :
    cleanup_space_test s e rgn = true ∧
    ∃ before after, rs = before ++ rgn :: after ∧
      ∀ r ∈ after, cleanup_space_test s e r = false := by
  unfold cleanup_space_scan at h
  rw [List.find?_eq_some] at h
  obtain ⟨ht, as, bs, hrev, hno⟩ := h
  refine ⟨ht, bs.reverse, as.reverse, ?_, ?_⟩
  · have := congrArg List.reverse hrev
    simpa using this
  · intro r hr
    have := hno r (List.mem_reverse.1 hr)
    simpa using this

theorem iteration_of_scan (s e : Nat) (hse : s ≤ e) (frs : List winx_volume_region)
    (rgn : winx_volume_region) (file cv c : Nat) (st : Int) (hc : c ≠ 0)
    (hscan : cleanup_space_scan frs s e = some rgn)
    (hr : ∀ r ∈ frs, r.lcn + r.length < U64_MOD) :
    iteration_as_specified s e ⟨frs, c, ⟨file, cv, min rgn.length c,
      sub64 (wrap64 (rgn.lcn + rgn.length)) (min rgn.length c), st⟩⟩ := by
  obtain ⟨ht, before, after, hsplit, hafter⟩ := cleanup_space_scan_some _ _ _ _ hscan
  have hin : rgn.lcn + rgn.length < U64_MOD := hr rgn (by rw [hsplit]; simp)
  have husable := (cleanup_space_test_iff s e rgn hse hin).1 ht
  have hlen : rgn.length > 0 := husable.1
  have hn1 : 0 < min rgn.length c := lt_min hlen (Nat.pos_of_ne_zero hc)
  have hn2 : min rgn.length c ≤ rgn.length := min_le_left _ _
  have htarget : sub64 (wrap64 (rgn.lcn + rgn.length)) (min rgn.length c) =
      rgn.lcn + rgn.length - min rgn.length c := by
    rw [wrap64_of_lt hin]
    exact sub64_of_le (by omega) hin
  refine ⟨rgn, before, after, hsplit, husable, ?_, rfl, hn1, htarget, ?_, ?_, ?_⟩
  · intro r hra hu
    have hrin : r.lcn + r.length < U64_MOD := hr r (by rw [hsplit]; simp [hra])
    have := (cleanup_space_test_iff s e r hse hrin).2 hu
    rw [hafter r hra] at this
    exact Bool.false_ne_true this
  · show rgn.lcn ≤ sub64 _ _
    rw [htarget]; omega
  · show sub64 _ _ + min rgn.length c ≤ _
    rw [htarget]; omega
  · intro x hx1 hx2
    have hx1' : sub64 (wrap64 (rgn.lcn + rgn.length)) (min rgn.length c) ≤ x := hx1
    have hx2' : x < sub64 (wrap64 (rgn.lcn + rgn.length)) (min rgn.length c) +
        min rgn.length c := hx2
    rw [htarget] at hx1' hx2'
    exact husable.2 x (by omega) (by omega)

theorem cleanup_space_loop_iterations {ω : Type} (E : Externals ω) (file s e : Nat)
    (hse : s ≤ e) :
    ∀ (fuel cv c : Nat) (jp : udefrag_job_parameters ω) (code : Int)
      (jp1 : udefrag_job_parameters ω) (its : List cleanup_iteration),
      cleanup_space_loop E file s e fuel cv c jp = .ok (code, jp1, its) →
      ∀ it ∈ its, (∀ r ∈ it.free_regions, r.lcn + r.length < U64_MOD) →
        iteration_as_specified s e it := by
  intro fuel
  induction fuel with
  | zero =>
    intro cv c jp code jp1 its h
    by_cases h0 : c = 0
    · simp [cleanup_space_loop, h0] at h
      obtain ⟨-, -, rfl⟩ := h; intro it hit; simp at hit
    · simp [cleanup_space_loop, h0] at h
  | succ fuel ih =>
    intro cv c jp code jp1 its h
    by_cases h0 : c = 0
    · simp [cleanup_space_loop, h0] at h
      obtain ⟨-, -, rfl⟩ := h; intro it hit; simp at hit
    · simp only [cleanup_space_loop, h0, if_false] at h
      cases hfr : jp.free_regions with
      | nil =>
        rw [hfr] at h
        simp at h
        obtain ⟨-, -, rfl⟩ := h; intro it hit; simp at hit
      | cons r0 rs =>
        rw [hfr] at h
        simp only [] at h
        cases hscan : cleanup_space_scan (r0 :: rs) s e with
        | none =>
          rw [hscan] at h
          simp at h
          obtain ⟨-, -, rfl⟩ := h; intro it hit; simp at hit
        | some rgn =>
          rw [hscan] at h
          simp only [] at h
          generalize hm : E.move_file file cv (min rgn.length c)
            (sub64 (wrap64 (rgn.lcn + rgn.length)) (min rgn.length c)) jp = moved at h
          have hfirst := fun hr => iteration_of_scan s e hse (r0 :: rs) rgn file cv c
            moved.1 h0 hscan hr
          by_cases hneg : moved.1 < 0
          · rw [if_pos hneg] at h
            simp at h
            obtain ⟨-, -, rfl⟩ := h
            intro it hit hr
            rw [List.mem_singleton] at hit
            subst hit
            exact hfirst hr
          · rw [if_neg hneg] at h
            cases hrec : cleanup_space_loop E file s e fuel
                (wrap64 (cv + min rgn.length c)) (sub64 c (min rgn.length c)) moved.2 with
            | error err => rw [hrec] at h; simp at h
            | ok res =>
              obtain ⟨code2, jp2, its2⟩ := res
              rw [hrec] at h
              simp at h
              obtain ⟨-, -, rfl⟩ := h
              intro it hit hr
              rw [List.mem_cons] at hit
              rcases hit with hit | hit
              · subst hit; exact hfirst hr
              · exact ih _ _ _ _ _ _ hrec it hit hr

theorem sub64_lt (a b : Nat) : sub64 a b < U64_MOD := by
  unfold sub64
  exact Nat.mod_lt _ (by decide)

theorem cleanup_space_loop_total {ω : Type} (E : Externals ω) (file s e : Nat) :
    ∀ (fuel cv c : Nat) (jp : udefrag_job_parameters ω), c ≤ fuel →
      ∃ res, cleanup_space_loop E file s e fuel cv c jp = .ok res := by
  intro fuel
  induction fuel with
  | zero =>
    intro cv c jp hc
    have h0 : c = 0 := by omega
    exact ⟨(0, jp, []), by simp [cleanup_space_loop, h0]⟩
  | succ fuel ih =>
    intro cv c jp hc
    by_cases h0 : c = 0
    · exact ⟨(0, jp, []), by simp [cleanup_space_loop, h0]⟩
    · simp only [cleanup_space_loop, h0, if_false]
      cases hfr : jp.free_regions with
      | nil => exact ⟨_, rfl⟩
      | cons r0 rs =>
        simp only []
        cases hscan : cleanup_space_scan (r0 :: rs) s e with
        | none => exact ⟨_, rfl⟩
        | some rgn =>
          simp only []
          have hlen : rgn.length > 0 := by
            have := (cleanup_space_scan_some _ _ _ _ hscan).1
            simp [cleanup_space_test] at this
            exact this.1
          have hn1 : 0 < min rgn.length c := lt_min hlen (Nat.pos_of_ne_zero h0)
          have hn2 : min rgn.length c ≤ c := min_le_right _ _
          have hsub : sub64 c (min rgn.length c) ≤ fuel := by
            by_cases hlt : c < U64_MOD
            · rw [sub64_of_le hn2 hlt]; omega
            · have := sub64_lt c (min rgn.length c)
              omega
          generalize E.move_file file cv (min rgn.length c)
            (sub64 (wrap64 (rgn.lcn + rgn.length)) (min rgn.length c)) jp = moved
          by_cases hneg : moved.1 < 0
          · rw [if_pos hneg]; exact ⟨_, rfl⟩
          · rw [if_neg hneg]
            obtain ⟨res, hres⟩ := ih (wrap64 (cv + min rgn.length c))
              (sub64 c (min rgn.length c)) moved.2 hsub
            rw [hres]
            exact ⟨_, rfl⟩

theorem cleanup_space_total {ω : Type} (E : Externals ω) (jp : udefrag_job_parameters ω)
    (file : Option Nat) (block : Option winx_blockmap) (c s e : Nat) :
    ∃ res, cleanup_space E jp file block c s e = .ok res := by
  unfold cleanup_space
  by_cases h0 : c = 0
  · exact ⟨_, by rw [if_pos h0]⟩
  · rw [if_neg h0]
    cases file with
    | none => exact ⟨_, rfl⟩
    | some f =>
      cases block with
      | none => exact ⟨_, rfl⟩
      | some b => exact cleanup_space_loop_total E f s e c b.vcn c jp (le_refl _)

theorem cleanup_space_iterations {ω : Type} (E : Externals ω)
    (jp : udefrag_job_parameters ω) (file : Option Nat) (block : Option winx_blockmap)
    (c s e : Nat) (hse : s ≤ e) (code : Int) (jp1 : udefrag_job_parameters ω)
    (its : List cleanup_iteration)
    (h : cleanup_space E jp file block c s e = .ok (code, jp1, its)) :
    ∀ it ∈ its, (∀ r ∈ it.free_regions, r.lcn + r.length < U64_MOD) →
      iteration_as_specified s e it := by
  unfold cleanup_space at h
  by_cases h0 : c = 0
  · rw [if_pos h0] at h
    simp at h
    obtain ⟨-, -, rfl⟩ := h
    intro it hit; simp at hit
  · rw [if_neg h0] at h
    cases file with
    | none => simp at h; obtain ⟨-, -, rfl⟩ := h; intro it hit; simp at hit
    | some f =>
      cases block with
      | none => simp at h; obtain ⟨-, -, rfl⟩ := h; intro it hit; simp at hit
      | some b => exact cleanup_space_loop_iterations E f s e hse _ _ _ _ _ _ _ h

theorem cleanup_space_loop_run {ω : Type} (E : Externals ω) (file s e : Nat) :
    ∀ (fuel cv c : Nat) (jp : udefrag_job_parameters ω) (code : Int)
      (jp1 : udefrag_job_parameters ω) (its : List cleanup_iteration),
      cleanup_space_loop E file s e fuel cv c jp = .ok (code, jp1, its) →
      cleanup_space_run E file cv c jp its jp1 := by
  intro fuel
  induction fuel with
  | zero =>
    intro cv c jp code jp1 its h
    by_cases h0 : c = 0
    · simp [cleanup_space_loop, h0] at h
      obtain ⟨-, rfl, rfl⟩ := h; rfl
    · simp [cleanup_space_loop, h0] at h
  | succ fuel ih =>
    intro cv c jp code jp1 its h
    by_cases h0 : c = 0
    · simp [cleanup_space_loop, h0] at h
      obtain ⟨-, rfl, rfl⟩ := h; rfl
    · simp only [cleanup_space_loop, h0, if_false] at h
      cases hfr : jp.free_regions with
      | nil =>
        rw [hfr] at h
        simp at h
        obtain ⟨-, rfl, rfl⟩ := h; rfl
      | cons r0 rs =>
        rw [hfr] at h
        simp only [] at h
        cases hscan : cleanup_space_scan (r0 :: rs) s e with
        | none =>
          rw [hscan] at h
          simp at h
          obtain ⟨-, rfl, rfl⟩ := h; rfl
        | some rgn =>
          rw [hscan] at h
          simp only [] at h
          by_cases hneg : (E.move_file file cv (min rgn.length c)
            (sub64 (wrap64 (rgn.lcn + rgn.length)) (min rgn.length c)) jp).1 < 0
          · rw [if_pos hneg] at h
            simp at h
            obtain ⟨-, rfl, rfl⟩ := h
            exact ⟨hfr.symm, rfl, rfl, rfl, rfl, rfl⟩
          · rw [if_neg hneg] at h
            cases hrec : cleanup_space_loop E file s e fuel
                (wrap64 (cv + min rgn.length c)) (sub64 c (min rgn.length c))
                (E.move_file file cv (min rgn.length c)
                  (sub64 (wrap64 (rgn.lcn + rgn.length)) (min rgn.length c)) jp).2 with
            | error err => rw [hrec] at h; simp at h
            | ok res =>
              obtain ⟨code2, jp2, its2⟩ := res
              rw [hrec] at h
              simp at h
              obtain ⟨-, rfl, rfl⟩ := h
              exact ⟨hfr.symm, rfl, rfl, rfl, rfl, ih _ _ _ _ _ _ hrec⟩

theorem cleanup_space_run_of {ω : Type} (E : Externals ω)
    (jp : udefrag_job_parameters ω) (file : Option Nat) (block : Option winx_blockmap)
    (c s e : Nat) (code : Int) (jp1 : udefrag_job_parameters ω)
    (its : List cleanup_iteration)
    (h : cleanup_space E jp file block c s e = .ok (code, jp1, its)) :
    (c = 0 ∨ file = none ∨ block = none → its = [] ∧ jp1 = jp) ∧
    (∀ f b, file = some f → block = some b → cleanup_space_run E f b.vcn c jp its jp1) := by
  unfold cleanup_space at h
  by_cases h0 : c = 0
  · rw [if_pos h0] at h
    simp at h
    obtain ⟨-, rfl, rfl⟩ := h
    exact ⟨fun _ => ⟨rfl, rfl⟩, fun _ _ _ _ => rfl⟩
  · rw [if_neg h0] at h
    cases file with
    | none =>
      simp at h; obtain ⟨-, rfl, rfl⟩ := h
      exact ⟨fun _ => ⟨rfl, rfl⟩, fun _ _ _ _ => rfl⟩
    | some f =>
      cases block with
      | none =>
        simp at h; obtain ⟨-, rfl, rfl⟩ := h
        exact ⟨fun _ => ⟨rfl, rfl⟩, fun _ _ _ _ => rfl⟩
      | some b =>
        refine ⟨fun hc => ?_, fun f1 b1 hf hb => ?_⟩
        · rcases hc with hc | hc | hc
          · exact absurd hc h0
          · simp at hc
          · simp at hc
        · cases hf; cases hb
          exact cleanup_space_loop_run E f s e _ _ _ _ _ _ _ h

/-- C8: every iteration of `cleanup_space` chooses the last region of the
list of free regions of the job context, as the calls of `move_file` made
before have left it, that is not empty and does not intersect the reserved
range `[reserved_start_lcn, reserved_end_lcn]` (ends included), and calls
`move_file` for `n = min(region.length, remaining)` clusters and
`target = region.lcn + region.length - n`; the range `[target, target + n)`
lies inside the region and is disjoint from the reserved range. The routine
always returns; the regions are taken not to reach beyond 2^64. -/
theorem cleanup_space_uses_last_usable_region {ω : Type} (E : Externals ω)
    (jp : udefrag_job_parameters ω) (file : Option Nat) (block : Option winx_blockmap)
    (clusters_to_cleanup reserved_start_lcn reserved_end_lcn : Nat)
    (hrange : reserved_start_lcn ≤ reserved_end_lcn) :
    ∃ code jp1 its,
      cleanup_space E jp file block clusters_to_cleanup reserved_start_lcn
        reserved_end_lcn = .ok (code, jp1, its) ∧
      (clusters_to_cleanup = 0 ∨ file = none ∨ block = none → its = [] ∧ jp1 = jp) ∧
      (∀ f b, file = some f → block = some b →
        cleanup_space_run E f b.vcn clusters_to_cleanup jp its jp1) ∧
      ∀ it ∈ its, (∀ r ∈ it.free_regions, r.lcn + r.length < U64_MOD) →
        iteration_as_specified reserved_start_lcn reserved_end_lcn it := by
  obtain ⟨⟨code, jp1, its⟩, hres⟩ := cleanup_space_total E jp file block
    clusters_to_cleanup reserved_start_lcn reserved_end_lcn
  obtain ⟨h1, h2⟩ := cleanup_space_run_of E jp file block _ _ _ code jp1 its hres
  exact ⟨code, jp1, its, hres, h1, h2, cleanup_space_iterations E jp file block _ _ _ hrange
    code jp1 its hres⟩

theorem cleanup_space_uses_last_usable_region_witness :
    cleanup_space sample_externals_cleanup
        (sample_job_with_regions [⟨50, 20⟩, ⟨1000, 4⟩, ⟨2000, 6⟩])
        (some 0) (some ⟨0, 100, 10⟩) 10 100 109 =
      .ok (0, sample_job_with_regions [⟨50, 20⟩, ⟨1000, 0⟩, ⟨2000, 0⟩],
        [⟨[⟨50, 20⟩, ⟨1000, 4⟩, ⟨2000, 6⟩], 10, ⟨0, 0, 6, 2000, 0⟩⟩,
          ⟨[⟨50, 20⟩, ⟨1000, 4⟩, ⟨2000, 0⟩], 4, ⟨0, 6, 4, 1000, 0⟩⟩]) ∧
    ∃ code jp1 its,
      cleanup_space sample_externals_cleanup
        (sample_job_with_regions [⟨50, 20⟩, ⟨1000, 4⟩, ⟨2000, 6⟩])
        (some 0) (some ⟨0, 100, 10⟩) 10 100 109 = .ok (code, jp1, its) ∧
      (10 = 0 ∨ some 0 = none ∨ some (⟨0, 100, 10⟩ : winx_blockmap) = none →
        its = [] ∧ jp1 = sample_job_with_regions [⟨50, 20⟩, ⟨1000, 4⟩, ⟨2000, 6⟩]) ∧
      (∀ f b, some 0 = some f → some (⟨0, 100, 10⟩ : winx_blockmap) = some b →
        cleanup_space_run sample_externals_cleanup f b.vcn 10
          (sample_job_with_regions [⟨50, 20⟩, ⟨1000, 4⟩, ⟨2000, 6⟩]) its jp1) ∧
      ∀ it ∈ its, (∀ r ∈ it.free_regions, r.lcn + r.length < U64_MOD) →
        iteration_as_specified 100 109 it :=
  ⟨rfl, cleanup_space_uses_last_usable_region sample_externals_cleanup
    (sample_job_with_regions [⟨50, 20⟩, ⟨1000, 4⟩, ⟨2000, 6⟩])
    (some 0) (some ⟨0, 100, 10⟩) 10 100 109 (by decide)⟩

theorem sample_wcsicmp_total_order : total_order_comparator sample_wcsicmp := by
  constructor
  · intro x y
    unfold sample_wcsicmp
    rw [← Int.sign_neg]
    congr 1
    omega
  · intro x y z h1 h2
    unfold sample_wcsicmp at *
    omega

/-- C20: `fragmented_files_compare` orders files by (fragment count
descending, path ascending): the result is negative exactly when `a` has
more fragments than `b`, or as many and `a.path` precedes `b.path` for
`winx_wcsicmp`; if `winx_wcsicmp` is the comparator of a total order then so
is `fragmented_files_compare` (opposite signs for swapped arguments,
transitivity), and it returns 0 only for files with equal fragment counts
and paths that compare equal. -/
theorem fragmented_files_compare_total_order
    (winx_wcsicmp : Option (List Nat) → Option (List Nat) → Int)
    (hcmp : total_order_comparator winx_wcsicmp) :
    (∀ a b, fragmented_files_compare winx_wcsicmp a b < 0 ↔
      (b.disp.fragments < a.disp.fragments ∨
        (a.disp.fragments = b.disp.fragments ∧ winx_wcsicmp a.path b.path < 0))) ∧
    total_order_comparator (fragmented_files_compare winx_wcsicmp) ∧
    (∀ a b, fragmented_files_compare winx_wcsicmp a b = 0 →
      a.disp.fragments = b.disp.fragments ∧ winx_wcsicmp a.path b.path = 0) := by
  obtain ⟨hanti, htrans⟩ := hcmp
  have hle : ∀ a b, fragmented_files_compare winx_wcsicmp a b ≤ 0 ↔
      (b.disp.fragments < a.disp.fragments ∨
        (a.disp.fragments = b.disp.fragments ∧ winx_wcsicmp a.path b.path ≤ 0)) := by
    intro a b
    unfold fragmented_files_compare
    split_ifs with h1 h2
    · constructor
      · intro h; omega
      · rintro (h | h) <;> omega
    · constructor
      · intro _; left; omega
      · intro _; omega
    · simp only [ne_eq, not_not] at h1
      constructor
      · intro h; exact Or.inr ⟨h1, h⟩
      · rintro (h | h)
        · omega
        · exact h.2
  refine ⟨?_, ⟨?_, ?_⟩, ?_⟩
  · intro a b
    unfold fragmented_files_compare
    split_ifs with h1 h2
    · constructor
      · intro h; omega
      · rintro (h | h) <;> omega
    · constructor
      · intro _; left; omega
      · intro _; omega
    · simp only [ne_eq, not_not] at h1
      constructor
      · intro h; exact Or.inr ⟨h1, h⟩
      · rintro (h | h)
        · omega
        · exact h.2
  · intro a b
    unfold fragmented_files_compare
    by_cases h1 : a.disp.fragments = b.disp.fragments
    · rw [if_neg (by simpa using h1), if_neg (by simpa using h1.symm)]
      exact hanti _ _
    · have h1' : b.disp.fragments ≠ a.disp.fragments := fun h => h1 h.symm
      rw [if_pos h1, if_pos h1']
      by_cases h2 : a.disp.fragments < b.disp.fragments
      · rw [if_pos h2, if_neg (by omega)]; decide
      · rw [if_neg h2, if_pos (by omega)]; decide
  · intro a b c hab hbc
    rw [hle] at hab hbc ⊢
    rcases hab with hab | ⟨hab, wab⟩
    · rcases hbc with hbc | ⟨hbc, _⟩
      · left; omega
      · left; omega
    · rcases hbc with hbc | ⟨hbc, wbc⟩
      · left; omega
      · right; exact ⟨hab.trans hbc, htrans _ _ _ wab wbc⟩
  · intro a b
    unfold fragmented_files_compare
    by_cases h1 : a.disp.fragments = b.disp.fragments
    · rw [if_neg (by simpa using h1)]
      intro h; exact ⟨h1, h⟩
    · rw [if_pos h1]
      by_cases h2 : a.disp.fragments < b.disp.fragments
      · rw [if_pos h2]; intro h; exact absurd h (by decide)
      · rw [if_neg h2]; intro h; exact absurd h (by decide)

theorem fragmented_files_compare_total_order_witness :
    (∀ a b, fragmented_files_compare sample_wcsicmp a b < 0 ↔
      (b.disp.fragments < a.disp.fragments ∨
        (a.disp.fragments = b.disp.fragments ∧ sample_wcsicmp a.path b.path < 0))) ∧
    total_order_comparator (fragmented_files_compare sample_wcsicmp) ∧
    (∀ a b, fragmented_files_compare sample_wcsicmp a b = 0 →
      a.disp.fragments = b.disp.fragments ∧ sample_wcsicmp a.path b.path = 0) :=
  fragmented_files_compare_total_order sample_wcsicmp sample_wcsicmp_total_order

theorem flag_set_set_user_flag (flag : Nat) (file : winx_file_info) :
    flag_set (set_user_flag flag file).user_defined_flags flag := by
  unfold flag_set set_user_flag
  apply Nat.eq_of_testBit_eq
  intro i
  simp only [Nat.testBit_land, Nat.testBit_lor]
  cases Nat.testBit file.user_defined_flags i <;> cases Nat.testBit flag i <;> rfl

theorem cut_off_group_of_files_loop_eq (H : udefrag_internals) :
    ∀ (l : List winx_file_info) (n aoc : Nat),
      aoc + files_clusters (l.take n) < U64_MOD →
      cut_off_group_of_files_loop H l n aoc =
        ((l.take n).map (set_user_flag H.UD_FILE_MOVED_TO_FRONT) ++ l.drop n,
          aoc + files_clusters (l.take n)) := by
  intro l
  induction l with
  | nil => intro n aoc _; simp [cut_off_group_of_files_loop, files_clusters]
  | cons f rest ih =>
    intro n aoc h
    cases n with
    | zero => simp [cut_off_group_of_files_loop, files_clusters]
    | succ n =>
      have hs : files_clusters ((f :: rest).take (n + 1)) =
          f.disp.clusters + files_clusters (rest.take n) := by
        simp [files_clusters]
      rw [hs] at h ⊢
      have hw : wrap64 (aoc + f.disp.clusters) = aoc + f.disp.clusters :=
        wrap64_of_lt (by omega)
      simp only [cut_off_group_of_files_loop, Nat.add_one_ne_zero, if_false,
        Nat.add_sub_cancel, hw]
      rw [ih n (aoc + f.disp.clusters) (by omega)]
      simp [Nat.add_assoc]

/-- C18: `cut_off_group_of_files` marks the `n` files of a group with
`UD_FILE_MOVED_TO_FRONT` if and only if the length of the group in bytes
(`length * bytes_per_cluster`) is at least
`min(OPTIMIZER_MAGIC_CONSTANT, optimizer_size_limit)` or
`n >= OPTIMIZER_MAGIC_CONSTANT_N`; when it marks them,
`already_optimized_clusters` grows by exactly the sum of the clusters of
those `n` files and nothing else changes; otherwise neither a flag nor the
counter changes. The group is taken to lie in the tree and the sums not to
exceed 64 bits. -/
theorem cut_off_group_of_files_marks {ω : Type} (H : udefrag_internals)
    (jp : udefrag_job_parameters ω) (pt : List winx_file_info)
    (first_file n length : Nat)
    (hbytes : length * jp.v_info.bytes_per_cluster < U64_MOD)
    (hgroup : first_file + n ≤ pt.length)
    (hsum : jp.already_optimized_clusters +
      files_clusters ((pt.drop first_file).take n) < U64_MOD) :
    ((min H.OPTIMIZER_MAGIC_CONSTANT jp.udo.optimizer_size_limit ≤
          length * jp.v_info.bytes_per_cluster ∨ H.OPTIMIZER_MAGIC_CONSTANT_N ≤ n) →
      cut_off_group_of_files H jp pt first_file n length =
        ({ jp with already_optimized_clusters := jp.already_optimized_clusters +
              files_clusters ((pt.drop first_file).take n) },
          pt.take first_file ++
            ((pt.drop first_file).take n).map (set_user_flag H.UD_FILE_MOVED_TO_FRONT) ++
            pt.drop (first_file + n)) ∧
      (((pt.drop first_file).take n).map
          (set_user_flag H.UD_FILE_MOVED_TO_FRONT)).length = n ∧
      ∀ f ∈ ((pt.drop first_file).take n).map (set_user_flag H.UD_FILE_MOVED_TO_FRONT),
        flag_set f.user_defined_flags H.UD_FILE_MOVED_TO_FRONT) ∧
    (¬ (min H.OPTIMIZER_MAGIC_CONSTANT jp.udo.optimizer_size_limit ≤
          length * jp.v_info.bytes_per_cluster ∨ H.OPTIMIZER_MAGIC_CONSTANT_N ≤ n) →
      cut_off_group_of_files H jp pt first_file n length = (jp, pt)) := by
  constructor
  · intro hcond
    refine ⟨?_, ?_, ?_⟩
    · unfold cut_off_group_of_files
      simp only [wrap64_of_lt hbytes]
      rw [if_neg (by omega)]
      rw [cut_off_group_of_files_loop_eq H _ _ _ hsum]
      simp [List.drop_drop, Nat.add_comm]
    · simp; omega
    · intro f hf
      rw [List.mem_map] at hf
      obtain ⟨g, _, rfl⟩ := hf
      exact flag_set_set_user_flag _ _
  · intro hcond
    unfold cut_off_group_of_files
    simp only [wrap64_of_lt hbytes]
    rw [if_pos (by omega)]

theorem cut_off_group_of_files_marks_witness :
    cut_off_group_of_files sample_internals sample_job_4k sample_tree 1 2 12 =
      ({ sample_job_4k with already_optimized_clusters := 12 },
        [file_of_blockmap [⟨0, 100, 10⟩],
          set_user_flag 512 (file_of_blockmap [⟨0, 110, 5⟩]),
          set_user_flag 512 (file_of_blockmap [⟨0, 115, 7⟩])]) :=
  ((cut_off_group_of_files_marks sample_internals sample_job_4k sample_tree 1 2 12
    (by decide) (by decide) (by decide)).1 (by decide)).1

/-- C15, as stated, fails: the first block of a contiguous file of 1010
clusters (4136960 bytes) has 10 clusters, 40960 bytes, less than the
optimizer size limit of 1 MiB, and `is_block_quite_small` returns 0. -/
theorem is_block_quite_small_small_block_kept :
    (⟨0, 100, 10⟩ : winx_blockmap) ∈ sample_contiguous_file.disp.blockmap ∧
    (⟨0, 100, 10⟩ : winx_blockmap).length * sample_job_limit_1M.v_info.bytes_per_cluster <
      sample_job_limit_1M.udo.optimizer_size_limit ∧
    is_block_quite_small (sample_externals 0 (sample_volume [] 0 0 0 0)) sample_internals
      sample_job_limit_1M sample_contiguous_file ⟨0, 100, 10⟩ = 0 := by
  decide

/-- C15 (amended): `is_block_quite_small` returns 1 for every block of a
file whose own size in bytes (`disp.clusters * bytes_per_cluster`) is
smaller than the optimizer size limit; the size of the block is not what
the limit is compared with: for a file of at least that size which is not
fragmented it returns 0, however small the block is. -/
theorem is_block_quite_small_of_small_file {ω : Type} (E : Externals ω)
    (H : udefrag_internals) (jp : udefrag_job_parameters ω) (file : winx_file_info)
    (block : winx_blockmap)
    (hsize : file.disp.clusters * jp.v_info.bytes_per_cluster < U64_MOD) :
    (file.disp.clusters * jp.v_info.bytes_per_cluster < jp.udo.optimizer_size_limit →
      is_block_quite_small E H jp file block = 1) ∧
    (jp.udo.optimizer_size_limit ≤ file.disp.clusters * jp.v_info.bytes_per_cluster →
      H.is_fragmented file = false → is_block_quite_small E H jp file block = 0) := by
  unfold is_block_quite_small
  simp only [wrap64_of_lt hsize]
  constructor
  · intro h; rw [if_pos h]
  · intro h hf; rw [if_neg (by omega), if_pos (by simp [hf])]

theorem is_block_quite_small_of_small_file_witness :
    is_block_quite_small (sample_externals 0 (sample_volume [] 0 0 0 0)) sample_internals
      sample_job_limit_1M (file_of_blockmap [⟨0, 100, 10⟩, ⟨10, 500, 20⟩])
      ⟨10, 500, 20⟩ = 1 :=
  (is_block_quite_small_of_small_file (sample_externals 0 (sample_volume [] 0 0 0 0))
    sample_internals sample_job_limit_1M (file_of_blockmap [⟨0, 100, 10⟩, ⟨10, 500, 20⟩])
    ⟨10, 500, 20⟩ (by decide)).1 (by decide)

theorem evacuation_target_beyond {ω : Type} (E : Externals ω)
    (jp : udefrag_job_parameters ω) (file : Option Nat) (block : winx_blockmap)
    (code : Int) (jp1 : udefrag_job_parameters ω) (its : List cleanup_iteration)
    (h : cleanup_space E jp file (some block) block.length 0
      (sub64 (wrap64 (block.lcn + block.length)) 1) = .ok (code, jp1, its)) :
    ∀ it ∈ its, (∀ r ∈ it.free_regions, r.lcn + r.length < U64_MOD) →
      0 < block.length → block.lcn + block.length < U64_MOD →
      block.lcn + block.length - 1 < it.call.target := by
  intro it hit hr hlen hin
  have hspec := cleanup_space_iterations E jp file (some block) _ 0 _ (Nat.zero_le _)
    code jp1 its h it hit hr
  obtain ⟨rgn, before, after, _, _, _, _, hn, _, _, _, hdisj⟩ := hspec
  have he : sub64 (wrap64 (block.lcn + block.length)) 1 = block.lcn + block.length - 1 := by
    rw [wrap64_of_lt hin]
    exact sub64_of_le (by omega) hin
  rw [he] at hdisj
  have := hdisj it.call.target (le_refl _) (by omega)
  omega

theorem move_files_to_back_loop_targets {ω : Type} (E : Externals ω)
    (H : udefrag_internals) :
    ∀ (fuel : Nat) (jp : udefrag_job_parameters ω) (min_lcn : Nat),
      ∀ ev ∈ (move_files_to_back_loop E H fuel jp min_lcn).1,
      ∀ it ∈ ev.iterations,
        (∀ r ∈ it.free_regions, r.lcn + r.length < U64_MOD) →
        0 < ev.block.length → ev.block.lcn + ev.block.length < U64_MOD →
        ev.block.lcn + ev.block.length - 1 < it.call.target := by
  intro fuel
  induction fuel with
  | zero => intro jp min_lcn ev hev; simp [move_files_to_back_loop] at hev
  | succ fuel ih =>
    intro jp min_lcn ev hev
    unfold move_files_to_back_loop at hev
    simp only [] at hev
    split at hev
    · simp at hev
    · split at hev
      · simp at hev
      · split at hev
        · simp at hev
        · split at hev
          · split at hev
            · simp at hev
            · rename_i hclean
              have hfirst := evacuation_target_beyond E _ _ _ _ _ _ hclean
              split at hev
              · rw [List.mem_singleton] at hev
                subst hev
                exact hfirst
              · rw [List.mem_cons] at hev
                rcases hev with hev | hev
                · subst hev
                  exact hfirst
                · exact ih _ _ ev hev
          · exact ih _ _ ev hev

/-- C16: every relocation issued by `move_files_to_back` moves clusters
towards the end of the disk: `cleanup_space` being called with the reserved
range `[0, block.lcn + block.length - 1]`, every target LCN it chooses is
strictly greater than the last LCN of the block being evacuated. This holds
for the calls made within any number of iterations of the loop; blocks are
not empty and, like the free regions, do not reach beyond 2^64. -/
theorem move_files_to_back_moves_towards_end {ω : Type} (E : Externals ω)
    (H : udefrag_internals) (fuel : Nat) (jp : udefrag_job_parameters ω)
    (start_lcn : Nat) (ev : evacuation) (it : cleanup_iteration)
    (hev : ev ∈ (move_files_to_back E H fuel jp start_lcn).1)
    (hit : it ∈ ev.iterations)
    (hregions : ∀ r ∈ it.free_regions, r.lcn + r.length < U64_MOD)
    (hlen : 0 < ev.block.length)
    (hblock : ev.block.lcn + ev.block.length < U64_MOD) :
    ev.block.lcn + ev.block.length - 1 < it.call.target :=
  move_files_to_back_loop_targets E H fuel _ _ ev hev it hit hregions hlen hblock

theorem move_files_to_back_moves_towards_end_witness :
    100 + 10 - 1 < 3040 :=
  move_files_to_back_moves_towards_end sample_externals_back sample_internals 3
    sample_job_back 0
    ⟨0, ⟨0, 100, 10⟩, 0, [⟨[⟨2000, 6⟩, ⟨3000, 50⟩], 10, ⟨0, 0, 10, 3040, 0⟩⟩]⟩
    ⟨[⟨2000, 6⟩, ⟨3000, 50⟩], 10, ⟨0, 0, 10, 3040, 0⟩⟩
    (by decide) (by decide) (by decide) (by decide) (by decide)

/-- C17, as stated, fails: in a sweep over two movable files without a
fitting free region, the first of which carries `UD_FILE_REGION_NOT_FOUND`,
the second file, which does not carry the flag, is passed over as well
(`skipped_files` is 1 and no cluster has been moved): it is not flagged and
the sweep does not stop at it. -/
theorem move_files_to_front_passes_unflagged_file :
    (move_files_to_front (sample_externals 0 (sample_volume [] 0 0 0 0))
        sample_internals sample_job_front 0 1000 [0, 1]).toOption.map
      (fun r => (r.2.2, r.1.filelist.map (fun f => f.user_defined_flags))) =
    some ([⟨0, true, 0, 0, .passed_over⟩, ⟨1, false, 1, 0, .passed_over⟩],
      [2048, 0]) := by
  decide

theorem front_visit_as_coded_cons (H : udefrag_internals) (hd : front_visit)
    (tl : List front_visit) (files : List winx_file_info)
    (h1 : hd.action ≠ .flagged_and_stopped)
    (h2 : hd.action = .passed_over →
      hd.flagged_before = true ∨ (hd.skipped_files ≠ 0 ∧ hd.moved_clusters = 0))
    (h3 : ∀ v ∈ tl, front_visit_as_coded H tl files v) :
    ∀ v ∈ hd :: tl, front_visit_as_coded H (hd :: tl) files v := by
  intro v hv
  rcases List.mem_cons.1 hv with hv | hv
  · subst hv
    exact ⟨h2, fun h => absurd h h1⟩
  · obtain ⟨ha, hb⟩ := h3 v hv
    refine ⟨ha, fun h => ?_⟩
    obtain ⟨hb1, hb2, hb3, hb4⟩ := hb h
    refine ⟨hb1, hb2, ?_, hb4⟩
    cases tl with
    | nil => simp at hv
    | cons y ys => rw [List.getLast?_cons_cons]; exact hb3

theorem set_file_flag_ok {ω : Type} (jp jp1 : udefrag_job_parameters ω) (file flag : Nat)
    (h : set_file_flag jp file flag = .ok jp1) :
    ∃ f, jp1.filelist[file]? = some f ∧ flag_set f.user_defined_flags flag := by
  unfold set_file_flag at h
  cases hf : jp.filelist[file]? with
  | none => rw [hf] at h; simp at h
  | some f =>
    rw [hf] at h
    simp at h
    subst h
    have hlt : file < jp.filelist.length := by
      by_contra hc
      rw [List.getElem?_eq_none (by omega)] at hf
      simp at hf
    refine ⟨set_user_flag flag f, ?_, flag_set_set_user_flag _ _⟩
    simp [List.getElem?_set, hlt]

theorem move_files_to_front_loop_visits {ω : Type} (E : Externals ω)
    (H : udefrag_internals) (end_lcn : Nat) :
    ∀ (t : List Nat) (jp : udefrag_job_parameters ω) (start_lcn skipped_files : Nat)
      (jp1 : udefrag_job_parameters ω) (s1 : Nat) (log : List front_visit),
      move_files_to_front_loop E H end_lcn t jp start_lcn skipped_files =
        .ok (jp1, s1, log) →
      ∀ v ∈ log, front_visit_as_coded H log jp1.filelist v := by
  intro t
  induction t with
  | nil =>
    intro jp start_lcn skipped_files jp1 s1 log h v hv
    simp [move_files_to_front_loop] at h
    obtain ⟨-, -, rfl⟩ := h
    simp at hv
  | cons file rest ih =>
    intro jp start_lcn skipped_files jp1 s1 log h
    unfold move_files_to_front_loop at h
    simp only [bind, Except.bind, pure, Except.pure] at h
    split at h
    · simp at h
    · rename_i f hf
      split at h
      · split at h
        · -- no fitting region
          split at h
          · rename_i hflag
            split at h
            · simp at h
            · rename_i r hrec
              simp at h
              obtain ⟨rfl, rfl, rfl⟩ := h
              exact front_visit_as_coded_cons H _ _ _ (by simp)
                (fun _ => Or.inl (by simpa using hflag)) (ih _ _ _ r.1 r.2.1 r.2.2 hrec)
          · split at h
            · rename_i hskip
              split at h
              · simp at h
              · rename_i r hrec
                simp at h
                obtain ⟨rfl, rfl, rfl⟩ := h
                exact front_visit_as_coded_cons H _ _ _ (by simp)
                  (fun _ => Or.inr hskip) (ih _ _ _ r.1 r.2.1 r.2.2 hrec)
            · rename_i hflag hskip
              split at h
              · simp at h
              · rename_i jp2 hset
                simp at h
                obtain ⟨rfl, -, rfl⟩ := h
                intro v hv
                rw [List.mem_singleton] at hv
                subst hv
                refine ⟨fun ha => by simp at ha, fun _ => ⟨by simpa using hflag, hskip, rfl, ?_⟩⟩
                exact set_file_flag_ok _ _ _ _ hset
        · -- move the file
          split at h
          · simp at h
          · split at h
            · simp at h
            · split at h
              · simp at h
              · split at h
                · simp at h
                · rename_i r hrec
                  simp at h
                  obtain ⟨rfl, rfl, rfl⟩ := h
                  exact front_visit_as_coded_cons H _ _ _ (by simp)
                    (fun ha => by simp at ha) (ih _ _ _ r.1 r.2.1 r.2.2 hrec)
      · split at h
        · simp at h
        · rename_i r hrec
          simp at h
          obtain ⟨rfl, rfl, rfl⟩ := h
          exact front_visit_as_coded_cons H _ _ _ (by simp)
            (fun ha => by simp at ha) (ih _ _ _ r.1 r.2.1 r.2.2 hrec)

theorem move_files_to_front_loop_no_region {ω : Type} (E : Externals ω)
    (H : udefrag_internals) (end_lcn file : Nat) (rest : List Nat)
    (jp : udefrag_job_parameters ω) (start_lcn skipped_files : Nat) (f : winx_file_info)
    (hfile : file_at jp file = .ok f)
    (hmov : H.can_move_entirely f jp.fs_type = true)
    (hnone : ∀ r, E.find_first_free_region jp start_lcn f.disp.clusters = some r →
      end_lcn ≤ r.lcn) :
    move_files_to_front_loop E H end_lcn (file :: rest) jp start_lcn skipped_files =
      if f.user_defined_flags &&& H.UD_FILE_REGION_NOT_FOUND ≠ 0 ∨
          (skipped_files ≠ 0 ∧ jp.pi.moved_clusters = 0) then
        match move_files_to_front_loop E H end_lcn rest jp start_lcn
            (wrap64 (skipped_files + 1)) with
        | .error e => .error e
        | .ok r => .ok (r.1, r.2.1,
            ⟨file, decide (f.user_defined_flags &&& H.UD_FILE_REGION_NOT_FOUND ≠ 0),
              skipped_files, jp.pi.moved_clusters, .passed_over⟩ :: r.2.2)
      else
        match set_file_flag jp file H.UD_FILE_REGION_NOT_FOUND with
        | .error e => .error e
        | .ok jp1 => .ok (jp1, start_lcn,
            [⟨file, false, skipped_files, jp.pi.moved_clusters, .flagged_and_stopped⟩]) := by
  have hgoal : ∀ x : Except Fault (udefrag_job_parameters ω × Nat × List front_visit),
      (if decide (f.user_defined_flags &&& H.UD_FILE_REGION_NOT_FOUND ≠ 0) = true then
          match move_files_to_front_loop E H end_lcn rest jp start_lcn
              (wrap64 (skipped_files + 1)) with
          | .error e => Except.error e
          | .ok r => .ok (r.1, r.2.1,
              (⟨file, decide (f.user_defined_flags &&& H.UD_FILE_REGION_NOT_FOUND ≠ 0),
                skipped_files, jp.pi.moved_clusters, .passed_over⟩ : front_visit) :: r.2.2)
        else if skipped_files ≠ 0 ∧ jp.pi.moved_clusters = 0 then
          match move_files_to_front_loop E H end_lcn rest jp start_lcn
              (wrap64 (skipped_files + 1)) with
          | .error e => Except.error e
          | .ok r => .ok (r.1, r.2.1,
              (⟨file, decide (f.user_defined_flags &&& H.UD_FILE_REGION_NOT_FOUND ≠ 0),
                skipped_files, jp.pi.moved_clusters, .passed_over⟩ : front_visit) :: r.2.2)
        else
          match set_file_flag jp file H.UD_FILE_REGION_NOT_FOUND with
          | .error e => Except.error e
          | .ok jp1 => .ok (jp1, start_lcn,
              [(⟨file, decide (f.user_defined_flags &&& H.UD_FILE_REGION_NOT_FOUND ≠ 0),
                skipped_files, jp.pi.moved_clusters, .flagged_and_stopped⟩ : front_visit)])) =
          x →
      move_files_to_front_loop E H end_lcn (file :: rest) jp start_lcn skipped_files = x := by
    intro x hx
    rw [← hx]
    rw [move_files_to_front_loop]
    cases hr : E.find_first_free_region jp start_lcn f.disp.clusters with
    | none =>
      simp only [bind, Except.bind, pure, Except.pure, hfile, hmov, if_true, hr]
      split_ifs
      · cases move_files_to_front_loop E H end_lcn rest jp start_lcn
          (wrap64 (skipped_files + 1)) <;> rfl
      · cases move_files_to_front_loop E H end_lcn rest jp start_lcn
          (wrap64 (skipped_files + 1)) <;> rfl
      · cases set_file_flag jp file H.UD_FILE_REGION_NOT_FOUND <;> rfl
    | some r =>
      have hn : ¬ r.lcn < end_lcn := by have := hnone r hr; omega
      simp only [bind, Except.bind, pure, Except.pure, hfile, hmov, if_true, hr, hn, if_false]
      split_ifs
      · cases move_files_to_front_loop E H end_lcn rest jp start_lcn
          (wrap64 (skipped_files + 1)) <;> rfl
      · cases move_files_to_front_loop E H end_lcn rest jp start_lcn
          (wrap64 (skipped_files + 1)) <;> rfl
      · cases set_file_flag jp file H.UD_FILE_REGION_NOT_FOUND <;> rfl
  apply hgoal
  by_cases hflag : f.user_defined_flags &&& H.UD_FILE_REGION_NOT_FOUND ≠ 0
  · simp only [hflag, decide_True, if_true, true_or, ne_eq, not_false_eq_true]
  · by_cases hskip : skipped_files ≠ 0 ∧ jp.pi.moved_clusters = 0
    · simp only [hflag, hskip, decide_False, if_true, false_or, and_self, ne_eq,
        not_false_eq_true, Bool.false_eq_true, if_false]
    · simp only [hflag, hskip, decide_False, false_or, Bool.false_eq_true, if_false]

/-- C17 (amended): in `move_files_to_front` a movable file for which no
fitting free region before `end_lcn` exists is passed over (the traversal
goes on beyond it without a move) exactly if it already carries
`UD_FILE_REGION_NOT_FOUND`, or if a file has been skipped earlier in the same
sweep and no cluster has been moved in it (`jp->pi.moved_clusters` is 0): the
sweep then goes on with the next file in the very same job context, so the
file is passed over without being flagged, and `skipped_files` is one more.
Otherwise the file is flagged `UD_FILE_REGION_NOT_FOUND` and the sweep stops
at it: no file after it is visited, nothing else changes. For a whole sweep:
a visit that passes a file over, or flags one and stops, is of that kind, the
latter is the last visit and the file carries the flag at return. -/
theorem move_files_to_front_region_not_found {ω : Type} (E : Externals ω)
    (H : udefrag_internals) (end_lcn : Nat) :
    (∀ (file : Nat) (rest : List Nat) (jp : udefrag_job_parameters ω)
      (start_lcn skipped_files : Nat) (f : winx_file_info),
      file_at jp file = .ok f → H.can_move_entirely f jp.fs_type = true →
      (∀ r, E.find_first_free_region jp start_lcn f.disp.clusters = some r →
        end_lcn ≤ r.lcn) →
      (f.user_defined_flags &&& H.UD_FILE_REGION_NOT_FOUND ≠ 0 ∨
          (skipped_files ≠ 0 ∧ jp.pi.moved_clusters = 0) →
        (∀ jp1 s1 log,
          move_files_to_front_loop E H end_lcn rest jp start_lcn
            (wrap64 (skipped_files + 1)) = .ok (jp1, s1, log) →
          move_files_to_front_loop E H end_lcn (file :: rest) jp start_lcn skipped_files =
            .ok (jp1, s1,
              ⟨file, decide (f.user_defined_flags &&& H.UD_FILE_REGION_NOT_FOUND ≠ 0),
                skipped_files, jp.pi.moved_clusters, .passed_over⟩ :: log)) ∧
        (∀ e,
          move_files_to_front_loop E H end_lcn rest jp start_lcn
            (wrap64 (skipped_files + 1)) = .error e →
          move_files_to_front_loop E H end_lcn (file :: rest) jp start_lcn skipped_files =
            .error e)) ∧
      (f.user_defined_flags &&& H.UD_FILE_REGION_NOT_FOUND = 0 →
        ¬ (skipped_files ≠ 0 ∧ jp.pi.moved_clusters = 0) →
        move_files_to_front_loop E H end_lcn (file :: rest) jp start_lcn skipped_files =
          .ok ({ jp with filelist :=
              jp.filelist.set file (set_user_flag H.UD_FILE_REGION_NOT_FOUND f) },
            start_lcn,
            [⟨file, false, skipped_files, jp.pi.moved_clusters, .flagged_and_stopped⟩]) ∧
        flag_set (set_user_flag H.UD_FILE_REGION_NOT_FOUND f).user_defined_flags
          H.UD_FILE_REGION_NOT_FOUND)) ∧
    (∀ (jp : udefrag_job_parameters ω) (start_lcn : Nat) (t : List Nat)
      (jp1 : udefrag_job_parameters ω) (s1 : Nat) (log : List front_visit),
      move_files_to_front E H jp start_lcn end_lcn t = .ok (jp1, s1, log) →
      ∀ v ∈ log,
        (v.action = .passed_over →
          v.flagged_before = true ∨ (v.skipped_files ≠ 0 ∧ v.moved_clusters = 0)) ∧
        (v.action = .flagged_and_stopped →
          v.flagged_before = false ∧ ¬ (v.skipped_files ≠ 0 ∧ v.moved_clusters = 0) ∧
          log.getLast? = some v ∧
          ∃ f, jp1.filelist[v.file]? = some f ∧
            flag_set f.user_defined_flags H.UD_FILE_REGION_NOT_FOUND)) := by
  refine ⟨?_, ?_⟩
  · intro file rest jp start_lcn skipped_files f hfile hmov hnone
    have hstep := move_files_to_front_loop_no_region E H end_lcn file rest jp start_lcn
      skipped_files f hfile hmov hnone
    refine ⟨fun hc => ⟨fun jp1 s1 log hrest => ?_, fun e hrest => ?_⟩, fun hflag hskip => ?_⟩
    · rw [hstep, if_pos hc, hrest]
    · rw [hstep, if_pos hc, hrest]
    · refine ⟨?_, flag_set_set_user_flag _ _⟩
      have hc : ¬ (f.user_defined_flags &&& H.UD_FILE_REGION_NOT_FOUND ≠ 0 ∨
          (skipped_files ≠ 0 ∧ jp.pi.moved_clusters = 0)) := by
        rintro (h | h)
        · exact h hflag
        · exact hskip h
      have hset : set_file_flag jp file H.UD_FILE_REGION_NOT_FOUND =
          .ok { jp with filelist :=
            jp.filelist.set file (set_user_flag H.UD_FILE_REGION_NOT_FOUND f) } := by
        unfold file_at at hfile
        unfold set_file_flag
        cases hget : jp.filelist[file]? with
        | none => rw [hget] at hfile; simp at hfile
        | some g =>
          rw [hget] at hfile
          simp only [Except.ok.injEq] at hfile
          rw [hfile]
      rw [hstep, if_neg hc, hset]
  · intro jp start_lcn t jp1 s1 log hrun
    exact move_files_to_front_loop_visits E H end_lcn t _ start_lcn 0 jp1 s1 log hrun

theorem move_files_to_front_region_not_found_witness :
    move_files_to_front_loop (sample_externals 0 (sample_volume [] 0 0 0 0))
        sample_internals 1000 [1] sample_job_front 0 1 =
      .ok (sample_job_front, 0, [⟨1, false, 1, 0, .passed_over⟩]) ∧
    move_files_to_front_loop (sample_externals 0 (sample_volume [] 0 0 0 0))
        sample_internals 1000 [1] sample_job_front 0 0 =
      .ok ({ sample_job_front with filelist :=
          [{ file_of_blockmap [⟨0, 100, 10⟩] with user_defined_flags := 2048 },
            { file_of_blockmap [⟨0, 200, 20⟩] with user_defined_flags := 2048 }] },
        0, [⟨1, false, 0, 0, .flagged_and_stopped⟩]) :=
  ⟨(((move_files_to_front_region_not_found (sample_externals 0 (sample_volume [] 0 0 0 0))
      sample_internals 1000).1 1 [] sample_job_front 0 1 (file_of_blockmap [⟨0, 200, 20⟩])
      rfl rfl (fun r hr => by cases hr)).1 (Or.inr ⟨by decide, rfl⟩)).1
      sample_job_front 0 [] rfl,
    (((move_files_to_front_region_not_found (sample_externals 0 (sample_volume [] 0 0 0 0))
      sample_internals 1000).1 1 [] sample_job_front 0 0 (file_of_blockmap [⟨0, 200, 20⟩])
      rfl rfl (fun r hr => by cases hr)).2 rfl (by decide)).1⟩

/-- C12 (defect of the code): in `optimize_file` for the file 0, the call of
`cleanup_space` for the block of the file 1 lying behind the first block
moves 5 clusters of the file 1 to LCN 1000 (the call of `move_file`
succeeds) and then returns -1 for want of a further free region;
`optimize_file` goes to `done` at once (line 241), before the line that sets
`UD_FILE_FRAGMENTED_BY_FILE_OPT` (1024): it returns -1, no file has been
flagged, and the flags of the file 1 are 0 at return. -/
theorem optimize_file_leaves_moved_file_unflagged :
    (optimize_file sample_externals_blocked sample_internals 3 0 sample_job_blocked).1 =
      [.cleanup ⟨1, ⟨0, 110, 20⟩, -1, [⟨[⟨1000, 5⟩], 10, ⟨1, 0, 5, 1000, 0⟩⟩]⟩] ∧
    (optimize_file sample_externals_blocked sample_internals 3 0
        sample_job_blocked).2.toOption.map
      (fun r => (r.1, r.2.filelist.map (fun file => file.user_defined_flags))) =
      some (-1, [16, 0]) := by
  decide

/-- C27 (defect of the code): `check_region` adds `lcn` and `length` in 64
bits, so a region whose exact end lies beyond 2^64 is accepted when the
wrapped sum is small: on a volume of 10 clusters the region at LCN 5 of
length 2^64 - 3 passes the check (the wrapped sum is 2), although
`lcn + length` exceeds `total_clusters`. Such a length is what
`get_mft_zones_layout` computes for an MFT zone reported to end (LCN 1)
before its start (LCN 5); the zone is then recorded. -/
theorem check_region_accepts_wrapped_region :
    check_region sample_job_mft_zone 5 18446744073709551613 = 1 ∧
    ¬ (5 + 18446744073709551613 ≤ sample_job_mft_zone.v_info.total_clusters) ∧
    (get_mft_zones_layout (sample_externals 0 (sample_volume [] 0 0 0 0)) 51
      sample_job_mft_zone).mft_zone = ⟨5, 18446744073709551613⟩ := by
  decide

theorem get_volume_information_total_zero {ω : Type} (E : Externals ω)
    (UDEFRAG_DIRTY_VOLUME : Int) (MAX_FS_NAME_LENGTH : Nat)
    (jp : udefrag_job_parameters ω)
    (hquery : ¬ (E.winx_get_volume_information (volume_query_context E jp)).1 < 0)
    (hclean : (E.winx_get_volume_information (volume_query_context E jp)).2.is_dirty = 0)
    (htotal :
      (E.winx_get_volume_information (volume_query_context E jp)).2.total_clusters = 0)
    (hbpc :
      (E.winx_get_volume_information (volume_query_context E jp)).2.bytes_per_cluster ≠ 0) :
    ∃ jp1, get_volume_information E UDEFRAG_DIRTY_VOLUME MAX_FS_NAME_LENGTH jp =
      .ok (-1, jp1) := by
  unfold get_volume_information
  simp only [hquery, hclean, if_false, ne_eq, not_true_eq_false, udiv64, hbpc, htotal,
    bind, Except.bind, pure, Except.pure, true_or, if_true]
  exact ⟨_, rfl⟩

/-- C28 (defect of the code): `get_volume_information` divides by zero
exactly when the geometry query succeeds on a volume that is not dirty and
reports `bytes_per_cluster = 0`: the quotient for `used_clusters` (line 146)
is taken before the geometry is validated (line 150). The division of
`adjust_move_at_once_parameter` is guarded by that validation; the one of
line 146 is not. -/
theorem get_volume_information_divides_by_zero_iff {ω : Type} (E : Externals ω)
    (UDEFRAG_DIRTY_VOLUME : Int) (MAX_FS_NAME_LENGTH : Nat)
    (jp : udefrag_job_parameters ω) :
    get_volume_information E UDEFRAG_DIRTY_VOLUME MAX_FS_NAME_LENGTH jp =
        .error .division_by_zero ↔
      (¬ (E.winx_get_volume_information (volume_query_context E jp)).1 < 0 ∧
        (E.winx_get_volume_information (volume_query_context E jp)).2.is_dirty = 0 ∧
        (E.winx_get_volume_information (volume_query_context E jp)).2.bytes_per_cluster
          = 0) := by
  constructor
  · intro h
    by_cases hquery : (E.winx_get_volume_information (volume_query_context E jp)).1 < 0
    · unfold get_volume_information at h
      simp [hquery, pure, Except.pure, bind, Except.bind] at h
    · by_cases hclean :
          (E.winx_get_volume_information (volume_query_context E jp)).2.is_dirty = 0
      · by_cases hbpc : (E.winx_get_volume_information
            (volume_query_context E jp)).2.bytes_per_cluster = 0
        · exact ⟨hquery, hclean, hbpc⟩
        · by_cases htotal : (E.winx_get_volume_information
              (volume_query_context E jp)).2.total_clusters = 0
          · obtain ⟨jp1, h1⟩ := get_volume_information_total_zero E UDEFRAG_DIRTY_VOLUME
              MAX_FS_NAME_LENGTH jp hquery hclean htotal hbpc
            rw [h1] at h; simp at h
          · obtain ⟨jp1, h1, _⟩ := get_volume_information_fs_type E UDEFRAG_DIRTY_VOLUME
              MAX_FS_NAME_LENGTH jp hquery hclean htotal hbpc
            rw [h1] at h; simp at h
      · unfold get_volume_information at h
        simp [hquery, hclean, pure, Except.pure, bind, Except.bind] at h
  · rintro ⟨hquery, hclean, hzero⟩
    unfold get_volume_information
    simp only [hquery, hclean, hzero, if_false, ne_eq, not_true_eq_false, udiv64, if_true]
    rfl

/-- C23, as stated, fails: a threshold of 4096 bytes on a volume with
clusters of 4096 bytes is not below one cluster, yet
`get_volume_information` sets it to 0. -/
theorem threshold_equal_to_cluster_size_overridden :
    ¬ (sample_job_threshold_4k.udo.fragment_size_threshold < 4096) ∧
    (get_volume_information (sample_externals 0 (sample_volume [] 1000 4096 0 0)) (-5) 31
        sample_job_threshold_4k).toOption.map
      (fun r => (r.1, r.2.udo.fragment_size_threshold)) = some (0, 0) := by
  decide

theorem get_volume_information_udo {ω : Type} (E : Externals ω)
    (UDEFRAG_DIRTY_VOLUME : Int) (MAX_FS_NAME_LENGTH : Nat)
    (jp : udefrag_job_parameters ω)
    (hquery : ¬ (E.winx_get_volume_information (volume_query_context E jp)).1 < 0)
    (hclean : (E.winx_get_volume_information (volume_query_context E jp)).2.is_dirty = 0)
    (htotal :
      (E.winx_get_volume_information (volume_query_context E jp)).2.total_clusters ≠ 0)
    (hbpc :
      (E.winx_get_volume_information (volume_query_context E jp)).2.bytes_per_cluster ≠ 0) :
    ∃ jp1, get_volume_information E UDEFRAG_DIRTY_VOLUME MAX_FS_NAME_LENGTH jp =
        .ok (0, jp1) ∧
      jp1.udo =
        if jp.udo.fragment_size_threshold ≠ 0 ∧ jp.udo.fragment_size_threshold ≤
            (E.winx_get_volume_information (volume_query_context E jp)).2.bytes_per_cluster
        then { jp.udo with fragment_size_threshold := 0 }
        else jp.udo := by
  unfold get_volume_information
  simp only [hquery, hclean, if_false, ne_eq, not_true_eq_false, udiv64, hbpc, htotal,
    or_self, bind, Except.bind, pure, Except.pure]
  rw [adjust_move_at_once_parameter_eq _ hbpc]
  refine ⟨_, rfl, ?_⟩
  simp only [fs_types_loop_eq]
  have hudo : (volume_query_context E jp).udo = jp.udo := rfl
  cases fs_types_find (_strupr
      ((E.winx_get_volume_information (volume_query_context E jp)).2.fs_name.take
        MAX_FS_NAME_LENGTH)) fs_types <;>
    (simp only [hudo]; split_ifs <;> first | rfl | (exfalso; simp_all))

/-- C23 (amended): whenever `get_volume_information` returns, the job
options are those at entry, except that a non-zero fragment size threshold
is set to 0 if and only if the routine has reached its end (the query
succeeded, the volume is not dirty, the geometry is valid) and the threshold
is at most one cluster (`threshold <= bytes_per_cluster`, equality
included); a threshold larger than `bytes_per_cluster` is left unchanged,
and no other job option is modified. -/
theorem threshold_override_iff {ω : Type} (E : Externals ω)
    (UDEFRAG_DIRTY_VOLUME : Int) (MAX_FS_NAME_LENGTH : Nat)
    (jp jp1 : udefrag_job_parameters ω) (code : Int)
    (hrun : get_volume_information E UDEFRAG_DIRTY_VOLUME MAX_FS_NAME_LENGTH jp =
      .ok (code, jp1)) :
    jp1.udo =
      if ¬ (E.winx_get_volume_information (volume_query_context E jp)).1 < 0 ∧
          (E.winx_get_volume_information (volume_query_context E jp)).2.is_dirty = 0 ∧
          (E.winx_get_volume_information (volume_query_context E jp)).2.total_clusters ≠ 0 ∧
          jp.udo.fragment_size_threshold ≠ 0 ∧
          jp.udo.fragment_size_threshold ≤
            (E.winx_get_volume_information (volume_query_context E jp)).2.bytes_per_cluster
      then { jp.udo with fragment_size_threshold := 0 }
      else jp.udo := by
  have hudo : (volume_query_context E jp).udo = jp.udo := rfl
  by_cases hquery : (E.winx_get_volume_information (volume_query_context E jp)).1 < 0
  · unfold get_volume_information at hrun
    simp [hquery, pure, Except.pure, bind, Except.bind] at hrun
    rw [if_neg (by simp [hquery]), ← hrun.2]
    rfl
  · by_cases hclean :
        (E.winx_get_volume_information (volume_query_context E jp)).2.is_dirty = 0
    · by_cases hbpc : (E.winx_get_volume_information
          (volume_query_context E jp)).2.bytes_per_cluster = 0
      · unfold get_volume_information at hrun
        simp [hquery, hclean, udiv64, hbpc, pure, Except.pure, bind, Except.bind] at hrun
      · by_cases htotal : (E.winx_get_volume_information
            (volume_query_context E jp)).2.total_clusters = 0
        · unfold get_volume_information at hrun
          simp [hquery, hclean, udiv64, hbpc, htotal, pure, Except.pure, bind,
            Except.bind] at hrun
          rw [if_neg (by simp [htotal]), ← hrun.2]
          rfl
        · obtain ⟨jp2, h1, h2⟩ := get_volume_information_udo E UDEFRAG_DIRTY_VOLUME
            MAX_FS_NAME_LENGTH jp hquery hclean htotal hbpc
          rw [h1] at hrun
          simp at hrun
          rw [← hrun.2, h2]
          simp [hquery, hclean, htotal]
    · unfold get_volume_information at hrun
      simp [hquery, hclean, pure, Except.pure, bind, Except.bind] at hrun
      rw [if_neg (by simp [hclean]), ← hrun.2]
      rfl

theorem threshold_override_iff_witness :
    sample_job_threshold_4k_result.udo =
      { sample_job_threshold_4k.udo with fragment_size_threshold := 0 } :=
  threshold_override_iff (sample_externals 0 (sample_volume [] 1000 4096 0 0)) (-5) 31
    sample_job_threshold_4k sample_job_threshold_4k_result 0 rfl

theorem cleanup_space_loop_bounded {ω : Type} (E : Externals ω) (file s e : Nat) :
    ∀ (fuel cv c : Nat) (jp : udefrag_job_parameters ω), c ≤ fuel → c < U64_MOD →
      ∃ code jp1 its, cleanup_space_loop E file s e fuel cv c jp = .ok (code, jp1, its) ∧
        its.length ≤ c ∧ remaining_chain c its := by
  intro fuel
  induction fuel with
  | zero =>
    intro cv c jp hc _
    have h0 : c = 0 := by omega
    exact ⟨0, jp, [], by simp [cleanup_space_loop, h0], by simp, trivial⟩
  | succ fuel ih =>
    intro cv c jp hc hc64
    by_cases h0 : c = 0
    · exact ⟨0, jp, [], by simp [cleanup_space_loop, h0], by simp, trivial⟩
    · simp only [cleanup_space_loop, h0, if_false]
      cases hfr : jp.free_regions with
      | nil => exact ⟨-1, jp, [], rfl, by simp, trivial⟩
      | cons r0 rs =>
        simp only []
        cases hscan : cleanup_space_scan (r0 :: rs) s e with
        | none => exact ⟨-1, jp, [], rfl, by simp, trivial⟩
        | some rgn =>
          simp only []
          have hlen : rgn.length > 0 := by
            have := (cleanup_space_scan_some _ _ _ _ hscan).1
            simp [cleanup_space_test] at this
            exact this.1
          have hn1 : 0 < min rgn.length c := lt_min hlen (Nat.pos_of_ne_zero h0)
          have hn2 : min rgn.length c ≤ c := min_le_right _ _
          generalize hm : E.move_file file cv (min rgn.length c)
            (sub64 (wrap64 (rgn.lcn + rgn.length)) (min rgn.length c)) jp = moved
          by_cases hneg : moved.1 < 0
          · rw [if_pos hneg]
            refine ⟨-2, moved.2, _, rfl, ?_, ?_⟩
            · simp; omega
            · exact ⟨rfl, hn1, hn2, trivial⟩
          · rw [if_neg hneg]
            rw [sub64_of_le hn2 hc64]
            obtain ⟨code, jp1, its, hrun, hlen2, hchain⟩ := ih (wrap64 (cv + min rgn.length c))
              (c - min rgn.length c) moved.2 (by omega) (by omega)
            rw [hrun]
            refine ⟨code, jp1, _, rfl, ?_, ?_⟩
            · simp; omega
            · exact ⟨rfl, hn1, hn2, hchain⟩

/-- C29: for every behaviour of `move_file` (the external routines are
arbitrary), the loop of `cleanup_space` ends within `clusters_to_cleanup`
iterations: the routine returns, having called `move_file` at most
`clusters_to_cleanup` times, because every iteration that goes on moves
`n >= 1` clusters, `n` not exceeding the remainder, which decreases by `n`
without underflow. -/
theorem cleanup_space_terminates {ω : Type} (E : Externals ω)
    (jp : udefrag_job_parameters ω) (file : Option Nat) (block : Option winx_blockmap)
    (clusters_to_cleanup reserved_start_lcn reserved_end_lcn : Nat)
    (h64 : clusters_to_cleanup < U64_MOD) :
    ∃ code jp1 its,
      cleanup_space E jp file block clusters_to_cleanup reserved_start_lcn
        reserved_end_lcn = .ok (code, jp1, its) ∧
      its.length ≤ clusters_to_cleanup ∧ remaining_chain clusters_to_cleanup its := by
  unfold cleanup_space
  by_cases h0 : clusters_to_cleanup = 0
  · rw [if_pos h0]; exact ⟨0, jp, [], rfl, by simp, trivial⟩
  · rw [if_neg h0]
    cases file with
    | none => exact ⟨0, jp, [], rfl, by simp, trivial⟩
    | some f =>
      cases block with
      | none => exact ⟨0, jp, [], rfl, by simp, trivial⟩
      | some b =>
        exact cleanup_space_loop_bounded E f _ _ clusters_to_cleanup b.vcn
          clusters_to_cleanup jp (le_refl _) h64

theorem cleanup_space_terminates_witness :
    ∃ code jp1 its,
      cleanup_space (sample_externals 0 (sample_volume [] 0 0 0 0))
        (sample_job_with_regions [⟨50, 20⟩, ⟨1000, 4⟩, ⟨2000, 6⟩])
        (some 0) (some ⟨0, 100, 10⟩) 10 100 109 = .ok (code, jp1, its) ∧
      its.length ≤ 10 ∧ remaining_chain 10 its :=
  cleanup_space_terminates (sample_externals 0 (sample_volume [] 0 0 0 0))
    (sample_job_with_regions [⟨50, 20⟩, ⟨1000, 4⟩, ⟨2000, 6⟩])
    (some 0) (some ⟨0, 100, 10⟩) 10 100 109 (by decide)

theorem sub64_self_room (len v : Nat) (hlen : len < U64_MOD) (hv : v < U64_MOD) :
    sub64 len (sub64 v v) = len := by
  rw [sub64_of_le (le_refl _) hv, Nat.sub_self, sub64_of_le (Nat.zero_le _) hlen]
  rfl

theorem advance_vcn_loop_from_block_start (head_vcn vcn : Nat) :
    ∀ (l : List winx_blockmap) (b : winx_blockmap) (n : Nat),
      vcn_contiguous (b :: l) → vcn < b.vcn → 0 < n → n < U64_MOD →
      b.vcn + blockmap_clusters (b :: l) < U64_MOD →
      advance_vcn_loop head_vcn vcn (b :: l) n b.vcn =
        if n ≤ blockmap_clusters (b :: l) then b.vcn + n else 0 := by
  intro l
  induction l with
  | nil =>
    intro b n _ hv hn hn64 h64
    have hs : blockmap_clusters [b] = b.length := by simp [blockmap_clusters]
    rw [hs] at h64 ⊢
    have hroom := sub64_self_room b.length b.vcn (by omega) (by omega)
    have hw : wrap64 (b.vcn + b.length) = b.vcn + b.length := wrap64_of_lt h64
    unfold advance_vcn_loop
    simp only [hroom, hw]
    split_ifs <;> first | omega | (exact wrap64_of_lt (by omega))
  | cons c rest ih =>
    intro b n hc hv hn hn64 h64
    have hs : blockmap_clusters (b :: c :: rest) =
        b.length + blockmap_clusters (c :: rest) := by simp [blockmap_clusters]
    rw [hs] at h64 ⊢
    obtain ⟨hcb, hcr⟩ := hc
    have hroom := sub64_self_room b.length b.vcn (by omega) (by omega)
    have hw : wrap64 (b.vcn + b.length) = b.vcn + b.length := wrap64_of_lt (by omega)
    unfold advance_vcn_loop
    simp only [hroom, hw]
    by_cases h1 : n > b.length
    · have hsub : sub64 n b.length = n - b.length := sub64_of_le (by omega) hn64
      have hrec := ih c (n - b.length) hcr (by omega) (by omega) (by omega) (by omega)
      simp only [h1, if_true, hsub, hrec]
      split_ifs <;> omega
    · simp only [h1, if_false]
      split_ifs <;> first | omega | (exact wrap64_of_lt (by omega))

theorem advance_vcn_loop_inside (head_vcn vcn : Nat) :
    ∀ (l : List winx_blockmap) (b : winx_blockmap) (n : Nat),
      vcn_contiguous (b :: l) → b.vcn ≤ vcn →
      vcn < b.vcn + blockmap_clusters (b :: l) → 0 < n → n < U64_MOD →
      b.vcn + blockmap_clusters (b :: l) < U64_MOD →
      advance_vcn_loop head_vcn vcn (b :: l) n vcn =
        if n ≤ b.vcn + blockmap_clusters (b :: l) - vcn then vcn + n else 0 := by
  intro l
  induction l with
  | nil =>
    intro b n _ hv hin hn hn64 h64
    have hs : blockmap_clusters [b] = b.length := by simp [blockmap_clusters]
    rw [hs] at h64 hin ⊢
    have hroom : sub64 b.length (sub64 vcn b.vcn) = b.length - (vcn - b.vcn) := by
      rw [sub64_of_le hv (by omega), sub64_of_le (by omega) (by omega)]
    have hw : wrap64 (b.vcn + b.length) = b.vcn + b.length := wrap64_of_lt h64
    unfold advance_vcn_loop
    simp only [hroom, hw]
    split_ifs <;> first | omega | (exact wrap64_of_lt (by omega))
  | cons c rest ih =>
    intro b n hc hv hin hn hn64 h64
    have hs : blockmap_clusters (b :: c :: rest) =
        b.length + blockmap_clusters (c :: rest) := by simp [blockmap_clusters]
    rw [hs] at h64 hin ⊢
    obtain ⟨hcb, hcr⟩ := hc
    have hw : wrap64 (b.vcn + b.length) = b.vcn + b.length := wrap64_of_lt (by omega)
    unfold advance_vcn_loop
    simp only [hw]
    by_cases hcontains : b.vcn + b.length > vcn
    · have hroom : sub64 b.length (sub64 vcn b.vcn) = b.length - (vcn - b.vcn) := by
        rw [sub64_of_le hv (by omega), sub64_of_le (by omega) (by omega)]
      simp only [hroom]
      by_cases h1 : n > b.length - (vcn - b.vcn)
      · have hsub : sub64 n (b.length - (vcn - b.vcn)) = n - (b.length - (vcn - b.vcn)) :=
          sub64_of_le (by omega) hn64
        have hrec := advance_vcn_loop_from_block_start head_vcn vcn rest c
          (n - (b.length - (vcn - b.vcn))) hcr (by omega) (by omega) (by omega) (by omega)
        simp only [h1, if_true, hsub, hrec]
        split_ifs <;> omega
      · simp only [h1, if_false]
        split_ifs <;> first | omega | (exact wrap64_of_lt (by omega))
    · have hrec := ih c n hcr (by omega) (by omega) hn hn64 (by omega)
      simp only [hcontains, if_false, hrec]
      split_ifs <;> omega

/-- C25: for a file whose block map is contiguous in VCN space and does not
run beyond 2^64, every `vcn` inside the file and every 64-bit `n`:
`advance_vcn(f, vcn, n)` is `vcn` when `n = 0`, `vcn + n` when
`0 < n <= end VCN of the file - vcn`, and 0 when `n` exceeds the clusters
left after `vcn`. -/
theorem advance_vcn_contiguous (f : winx_file_info) (first : winx_blockmap)
    (rest : List winx_blockmap) (vcn n : Nat)
    (hmap : f.disp.blockmap = first :: rest)
    (hcont : vcn_contiguous (first :: rest))
    (h64 : first.vcn + blockmap_clusters (first :: rest) < U64_MOD)
    (hvcn : first.vcn ≤ vcn)
    (hin : vcn < first.vcn + blockmap_clusters (first :: rest))
    (hn64 : n < U64_MOD) :
    (n = 0 → advance_vcn f vcn n = vcn) ∧
    (0 < n → n ≤ first.vcn + blockmap_clusters (first :: rest) - vcn →
      advance_vcn f vcn n = vcn + n) ∧
    (first.vcn + blockmap_clusters (first :: rest) - vcn < n →
      advance_vcn f vcn n = 0) := by
  refine ⟨fun h0 => by simp [advance_vcn, h0], fun hn hle => ?_, fun hgt => ?_⟩
  · unfold advance_vcn
    rw [if_neg (by omega), hmap]
    simp only []
    rw [advance_vcn_loop_inside first.vcn vcn rest first n hcont hvcn hin hn hn64 h64,
      if_pos hle]
  · unfold advance_vcn
    rw [if_neg (by omega), hmap]
    simp only []
    rw [advance_vcn_loop_inside first.vcn vcn rest first n hcont hvcn hin (by omega) hn64
      h64, if_neg (by omega)]

theorem advance_vcn_contiguous_witness :
    advance_vcn (file_of_blockmap [⟨0, 100, 10⟩, ⟨10, 500, 10⟩]) 3 15 = 3 + 15 :=
  (advance_vcn_contiguous (file_of_blockmap [⟨0, 100, 10⟩, ⟨10, 500, 10⟩]) ⟨0, 100, 10⟩
    [⟨10, 500, 10⟩] 3 15 rfl ⟨rfl, trivial⟩ (by decide) (by decide) (by decide)
    (by decide)).2.1 (by decide) (by decide)

theorem wrap32_neg (x : Int) (h1 : -2147483648 < x) (h2 : x < 2147483648) :
    wrap32 (x * (-1)) = -x := by
  unfold wrap32
  omega

/-- C21: for every combination of sorting flags `files_compare` orders two
files by the selected criterion (size, else creation time, else
modification time, else access time, else path), every tie of the criterion
being broken by the comparison of the paths; it returns 0 only when the
paths compare equal, and with `UD_SORT_DESCENDING` it returns exactly the
negation of the ascending result. The results of `winx_wcsicmp` are taken
to be `int` values other than `INT_MIN`. -/
theorem files_compare_order {ω : Type} (H : udefrag_internals)
    (winx_wcsicmp : Option (List Nat) → Option (List Nat) → Int)
    (jp : udefrag_job_parameters ω) (a b : winx_file_info)
    (hint : ∀ x y, -2147483648 < winx_wcsicmp x y ∧ winx_wcsicmp x y < 2147483648) :
    files_compare H winx_wcsicmp jp a b =
      (if jp.udo.sorting_flags &&& H.UD_SORT_DESCENDING ≠ 0 then
        - ascending_order H winx_wcsicmp jp.udo.sorting_flags a b
      else ascending_order H winx_wcsicmp jp.udo.sorting_flags a b) ∧
    (files_compare H winx_wcsicmp jp a b = 0 → winx_wcsicmp a.path b.path = 0) := by
  have hw := hint a.path b.path
  have key : files_compare H winx_wcsicmp jp a b =
      (if jp.udo.sorting_flags &&& H.UD_SORT_DESCENDING ≠ 0 then
        - ascending_order H winx_wcsicmp jp.udo.sorting_flags a b
      else ascending_order H winx_wcsicmp jp.udo.sorting_flags a b) := by
    unfold files_compare ascending_order selected_criterion
    simp only []
    split_ifs
    all_goals (try (rw [wrap32_neg _ (by omega) (by omega)]))
    all_goals (simp only [])
    all_goals (try split_ifs)
    all_goals omega
  refine ⟨key, ?_⟩
  intro h0
  rw [key] at h0
  unfold ascending_order at h0
  cases hs : selected_criterion H jp.udo.sorting_flags with
  | none => rw [hs] at h0; simp only [] at h0; split_ifs at h0 <;> omega
  | some k => rw [hs] at h0; simp only [] at h0; split_ifs at h0 <;> omega

theorem sample_wcsicmp_sign_range (x y : Option (List Nat)) :
    -2147483648 < sample_wcsicmp_sign x y ∧ sample_wcsicmp_sign x y < 2147483648 := by
  unfold sample_wcsicmp_sign
  split_ifs <;> decide

theorem files_compare_order_witness :
    files_compare sample_internals sample_wcsicmp_sign
        { sample_job_4k with udo := { options_with_threshold 0 with sorting_flags := 66 } }
        (file_of_blockmap [⟨0, 100, 10⟩]) (file_of_blockmap [⟨0, 200, 20⟩]) = 1 :=
  (files_compare_order sample_internals sample_wcsicmp_sign
    { sample_job_4k with udo := { options_with_threshold 0 with sorting_flags := 66 } }
    (file_of_blockmap [⟨0, 100, 10⟩]) (file_of_blockmap [⟨0, 200, 20⟩])
    sample_wcsicmp_sign_range).1

/-- C24, as stated, fails: for an entry whose path has three characters (an
invalid path for `exclude_by_path`), `filter` marks the entry
`UD_FILE_EXCLUDED` (1) but returns 0, not the code 1 that skips the entry
with its descendants. -/
theorem filter_short_path_returns_zero :
    (filter (sample_externals 0 (sample_volume [] 0 0 0 0)) sample_internals
        sample_job_filter sample_short_path_file).toOption.map
      (fun r => (r.1, r.2.1.user_defined_flags)) = some (0, 1) := by
  decide

theorem exclude_by_size_path {ω : Type} (H : udefrag_internals) (f : winx_file_info)
    (jp : udefrag_job_parameters ω) : (exclude_by_size H f jp).2.path = f.path := by
  unfold exclude_by_size
  simp only []
  split_ifs <;> rfl

theorem filter_tests_path {ω : Type} (E : Externals ω) (H : udefrag_internals)
    (jp : udefrag_job_parameters ω) (f f1 : winx_file_info) (skip : Bool)
    (h : filter_tests E H jp f = .ok (skip, f1)) : f1.path = f.path := by
  unfold filter_tests at h
  simp only [] at h
  have hp := exclude_by_size_path H f jp
  split_ifs at h
  all_goals try
    (simp only [Except.ok.injEq, Prod.mk.injEq] at h; rw [← h.2]; first | done | exact hp)
  split at h
  · simp at h
  · simp only [Except.ok.injEq, Prod.mk.injEq] at h; rw [← h.2]; exact hp

theorem filter_tests_short_path {ω : Type} (E : Externals ω) (H : udefrag_internals)
    (jp : udefrag_job_parameters ω) (f f1 : winx_file_info) (skip : Bool)
    (path : List Nat) (hpath : f.path = some path) (hshort : path.length < 4)
    (h : filter_tests E H jp f = .ok (skip, f1)) : skip = true := by
  unfold filter_tests at h
  simp only [] at h
  have hp := exclude_by_size_path H f jp
  split_ifs at h
  all_goals first
    | (simp only [Except.ok.injEq, Prod.mk.injEq] at h; exact h.1.symm)
    | skip
  have hex : exclude_by_path E (exclude_by_size H f jp).2 jp = .ok 1 := by
    unfold exclude_by_path
    rw [hp, hpath]
    simp only [hshort, if_true]
  rw [hex] at h
  simp only [Except.ok.injEq, Prod.mk.injEq] at h
  rw [← h.1]; decide

theorem filter_tests_total {ω : Type} (E : Externals ω) (H : udefrag_internals)
    (jp : udefrag_job_parameters ω) (f : winx_file_info) (path : List Nat)
    (hpath : f.path = some path) : ∃ r, filter_tests E H jp f = .ok r := by
  unfold filter_tests
  simp only []
  have hp := exclude_by_size_path H f jp
  split_ifs
  all_goals first
    | exact ⟨_, rfl⟩
    | skip
  have hex : ∃ x, exclude_by_path E (exclude_by_size H f jp).2 jp = .ok x := by
    unfold exclude_by_path
    rw [hp, hpath]
    simp only []
    split_ifs <;> exact ⟨_, rfl⟩
  obtain ⟨x, hx⟩ := hex
  rw [hx]
  exact ⟨_, rfl⟩

theorem remove_trailing_dot_length_le (path : List Nat) :
    (remove_trailing_dot path).length ≤ path.length := by
  unfold remove_trailing_dot
  split_ifs
  · simp
  · exact le_refl _

theorem update_progress_counters_options {ω : Type} (H : udefrag_internals)
    (f : winx_file_info) (jp : udefrag_job_parameters ω) :
    (update_progress_counters H f jp).udo = jp.udo ∧
    (update_progress_counters H f jp).v_info = jp.v_info := by
  have key : ∀ P : udefrag_job_parameters ω → Prop,
      (∀ j : udefrag_job_parameters ω, j.udo = jp.udo → j.v_info = jp.v_info →
        ∀ p c, P { j with pi := p, f_counters := c }) →
      P (update_progress_counters H f jp) := by
    intro P hP
    unfold update_progress_counters
    lift_lets
    intro s1 jp1 s2 jp2 s3 jp3 s4 jp4 filesize c
    have h2 : jp2.udo = jp.udo ∧ jp2.v_info = jp.v_info := by
      simp only [jp2]; split_ifs <;> exact ⟨rfl, rfl⟩
    have h3 : jp3.udo = jp.udo ∧ jp3.v_info = jp.v_info := by
      simp only [jp3]; split_ifs <;> exact h2
    have h4 : jp4.udo = jp.udo ∧ jp4.v_info = jp.v_info := h3
    clear_value jp4
    split_ifs <;> exact hP jp4 h4.1 h4.2 _ _
  exact key (fun j => j.udo = jp.udo ∧ j.v_info = jp.v_info)
    (fun j h1 h2 _ _ => ⟨h1, h2⟩)

theorem filter_count_total {ω : Type} (E : Externals ω) (H : udefrag_internals)
    (jp : udefrag_job_parameters ω) (f : winx_file_info) (path : List Nat)
    (hpath : f.path = some path) :
    ∃ jp1, filter_count E H jp f = .ok jp1 ∧ jp1.udo = jp.udo ∧ jp1.v_info = jp.v_info := by
  have hu := update_progress_counters_options H f jp
  unfold filter_count
  rw [hpath]
  simp only []
  split_ifs
  · exact ⟨_, rfl, hu⟩
  · exact ⟨_, rfl, rfl, rfl⟩
  · exact ⟨_, rfl, hu⟩
  · exact ⟨_, rfl, rfl, rfl⟩

/-- C24 (amended): for an entry whose path is `NULL` or empty, `filter`
marks the entry `UD_FILE_EXCLUDED` and returns 1, the code that skips the
entry with its descendants. For every entry with a non-empty path it returns
0: an entry whose path (as it is, or the trailing dot of a root directory
removed) has less than the four characters of the prefix is marked
`UD_FILE_EXCLUDED`, but the value returned is 0, so its descendants are not
skipped. -/
theorem filter_return_value {ω : Type} (E : Externals ω) (H : udefrag_internals)
    (jp : udefrag_job_parameters ω) (f : winx_file_info) :
    (f.path = none ∨ f.path = some [] →
      filter E H jp f = .ok (1, set_user_flag H.UD_FILE_EXCLUDED f, jp) ∧
      flag_set (set_user_flag H.UD_FILE_EXCLUDED f).user_defined_flags
        H.UD_FILE_EXCLUDED) ∧
    (∀ path, f.path = some path → path ≠ [] →
      ∃ f1 jp1, filter E H jp f = .ok (0, f1, jp1) ∧
        (path.length < 4 ∨ (remove_trailing_dot path).length < 4 →
          flag_set f1.user_defined_flags H.UD_FILE_EXCLUDED)) := by
  refine ⟨?_, ?_⟩
  · intro h
    refine ⟨?_, flag_set_set_user_flag _ _⟩
    unfold filter
    rcases h with h | h
    · rw [h]
    · rw [h]; simp
  · intro path hpath hne
    unfold filter
    rw [hpath]
    simp only [hne, if_false]
    obtain ⟨⟨skip, f1⟩, htests⟩ := filter_tests_total E H jp
      { f with path := some (remove_trailing_dot path) } _ rfl
    have hp1 := filter_tests_path E H jp _ f1 skip htests
    have hshort := fun hs => filter_tests_short_path E H jp _ f1 skip _ rfl hs htests
    rw [htests]
    simp only []
    have hp2 : (if skip = true then set_user_flag H.UD_FILE_EXCLUDED f1 else f1).path =
        some (remove_trailing_dot path) := by
      split_ifs
      · exact hp1
      · exact hp1
    obtain ⟨jp1, hjp1, -⟩ := filter_count_total E H jp _ _ hp2
    rw [hjp1]
    refine ⟨_, _, rfl, fun hs => ?_⟩
    have hs1 : (remove_trailing_dot path).length < 4 := by
      have := remove_trailing_dot_length_le path
      omega
    simp only [hshort hs1, if_true]
    exact flag_set_set_user_flag _ _

theorem filter_tests_same {ω : Type} (E : Externals ω) (H : udefrag_internals)
    (jp : udefrag_job_parameters ω) (g : winx_file_info) (x : Nat)
    (hpure : H.is_temporary { g with user_defined_flags := x } = H.is_temporary g) :
    filter_tests E H jp { g with user_defined_flags := x } =
      match filter_tests E H jp g with
      | .error fault => .error fault
      | .ok (skip, _) =>
        .ok (skip, filter_tests_file H jp { g with user_defined_flags := x }) := by
  unfold filter_tests filter_tests_file
  simp only [hpure]
  have e1 : (exclude_by_size H { g with user_defined_flags := x } jp).1 =
      (exclude_by_size H g jp).1 := by
    unfold exclude_by_size clear_user_flag set_user_flag
    simp only []
    split_ifs <;> rfl
  have e2 : exclude_by_fragments (exclude_by_size H { g with user_defined_flags := x } jp).2
      jp = exclude_by_fragments (exclude_by_size H g jp).2 jp := by
    unfold exclude_by_fragments exclude_by_size clear_user_flag set_user_flag
    simp only []
    split_ifs <;> rfl
  have e3 : exclude_by_fragment_size H.DEFAULT_FRAGMENT_SIZE_THRESHOLD
      (exclude_by_size H { g with user_defined_flags := x } jp).2 jp.udo
      jp.v_info.bytes_per_cluster =
      exclude_by_fragment_size H.DEFAULT_FRAGMENT_SIZE_THRESHOLD
      (exclude_by_size H g jp).2 jp.udo jp.v_info.bytes_per_cluster := by
    unfold exclude_by_fragment_size exclude_by_size clear_user_flag set_user_flag
    simp only []
    split_ifs <;> rfl
  have e4 : exclude_by_path E (exclude_by_size H { g with user_defined_flags := x } jp).2 jp =
      exclude_by_path E (exclude_by_size H g jp).2 jp := by
    unfold exclude_by_path exclude_by_size clear_user_flag set_user_flag
    simp only []
    split_ifs <;> rfl
  simp only [e1, e2, e3, e4]
  by_cases h1 : g.disp.fragments = 0
  · simp [h1]
  · by_cases h2 : g.disp.blockmap = []
    · simp [h1, h2]
    · by_cases h3 : H.is_temporary g = true
      · simp [h1, h2, h3]
      · simp only [h1, h2, h3, if_false, or_self, or_false, false_or]
        split_ifs
        all_goals first
          | rfl
          | (cases exclude_by_path E (exclude_by_size H g jp).2 jp <;> rfl)

theorem filter_tests_ok_file {ω : Type} (E : Externals ω) (H : udefrag_internals)
    (jp : udefrag_job_parameters ω) (g ft : winx_file_info) (skip : Bool)
    (h : filter_tests E H jp g = .ok (skip, ft)) : ft = filter_tests_file H jp g := by
  have hs := filter_tests_same E H jp g g.user_defined_flags rfl
  change filter_tests E H jp g = _ at hs
  rw [h] at hs
  simp only [Except.ok.injEq, Prod.mk.injEq, true_and] at hs
  exact hs

theorem remove_trailing_dot_idem (path : List Nat) :
    remove_trailing_dot (remove_trailing_dot path) = remove_trailing_dot path := by
  by_cases hc : path.length ≥ 2 ∧ path[path.length - 1]? = some 46 ∧
      path[path.length - 2]? = some 92
  · have h1 : remove_trailing_dot path = path.dropLast := by
      unfold remove_trailing_dot; rw [if_pos hc]
    rw [h1]
    unfold remove_trailing_dot
    rw [if_neg]
    rintro ⟨_, h2, _⟩
    rw [List.length_dropLast, List.getElem?_dropLast] at h2
    have h3 : path.length - 1 - 1 < path.length - 1 := by omega
    rw [if_pos h3] at h2
    have h4 : path.length - 1 - 1 = path.length - 2 := by omega
    rw [h4, hc.2.2] at h2
    simp at h2
  · have h1 : remove_trailing_dot path = path := by
      unfold remove_trailing_dot; rw [if_neg hc]
    rw [h1, h1]

theorem remove_trailing_dot_ne_nil (path : List Nat) (h : path ≠ []) :
    remove_trailing_dot path ≠ [] := by
  unfold remove_trailing_dot
  split_ifs with hc
  · intro hd
    have := congrArg List.length hd
    simp at this
    omega
  · exact h

theorem flags_fixpoint (a o e : Nat) :
    (a ||| e) ||| e = a ||| e ∧
    (a ^^^ (a &&& o)) ^^^ ((a ^^^ (a &&& o)) &&& o) = a ^^^ (a &&& o) ∧
    (((a ^^^ (a &&& o)) ||| e) ^^^ (((a ^^^ (a &&& o)) ||| e) &&& o)) ||| e =
      (a ^^^ (a &&& o)) ||| e ∧
    (((a ^^^ (a &&& o)) ||| o) ^^^ (((a ^^^ (a &&& o)) ||| o) &&& o)) ||| o =
      (a ^^^ (a &&& o)) ||| o ∧
    (((((a ^^^ (a &&& o)) ||| o) ||| e) ^^^
        ((((a ^^^ (a &&& o)) ||| o) ||| e) &&& o)) ||| o) ||| e =
      ((a ^^^ (a &&& o)) ||| o) ||| e := by
  refine ⟨?_, ?_, ?_, ?_, ?_⟩ <;>
  · apply Nat.eq_of_testBit_eq
    intro i
    simp only [Nat.testBit_lor, Nat.testBit_land, Nat.testBit_xor]
    cases Nat.testBit a i <;> cases Nat.testBit o i <;> cases Nat.testBit e i <;> rfl

theorem mark_tests_fixpoint {ω : Type} (H : udefrag_internals)
    (jp : udefrag_job_parameters ω) (g : winx_file_info) (skip : Bool)
    (hpure : ∀ (g : winx_file_info) (x : Nat),
      H.is_temporary { g with user_defined_flags := x } = H.is_temporary g) :
    mark_if_skipped H skip (filter_tests_file H jp
        (mark_if_skipped H skip (filter_tests_file H jp g))) =
      mark_if_skipped H skip (filter_tests_file H jp g) := by
  obtain ⟨b1, b2, b3, b4, b5⟩ :=
    flags_fixpoint g.user_defined_flags H.UD_FILE_OVER_LIMIT H.UD_FILE_EXCLUDED
  by_cases hc : g.disp.fragments = 0 ∨ g.disp.blockmap = [] ∨ H.is_temporary g = true
  · have e1 : filter_tests_file H jp g = g := by
      unfold filter_tests_file; rw [if_pos hc]
    rw [e1]
    cases skip
    · simp only [mark_if_skipped, Bool.false_eq_true, if_false]
      exact e1
    · simp only [mark_if_skipped, if_true]
      have e2 : filter_tests_file H jp (set_user_flag H.UD_FILE_EXCLUDED g) =
          set_user_flag H.UD_FILE_EXCLUDED g := by
        unfold filter_tests_file
        rw [if_pos]
        have := hpure g (g.user_defined_flags ||| H.UD_FILE_EXCLUDED)
        unfold set_user_flag
        rw [this]
        exact hc
      rw [e2]
      unfold set_user_flag
      simp only [b1]
  · have e1 : ∀ x, filter_tests_file H jp { g with user_defined_flags := x } =
        (exclude_by_size H { g with user_defined_flags := x } jp).2 := by
      intro x
      unfold filter_tests_file
      rw [if_neg]
      rw [hpure g x]
      exact hc
    have e0 := e1 g.user_defined_flags
    change filter_tests_file H jp g = (exclude_by_size H g jp).2 at e0
    rw [e0]
    by_cases hs : wrap64 (g.disp.clusters * jp.v_info.bytes_per_cluster) > jp.udo.size_limit
    · have e2 : ∀ x, (exclude_by_size H { g with user_defined_flags := x } jp).2 =
          { g with user_defined_flags := (x ^^^ (x &&& H.UD_FILE_OVER_LIMIT)) |||
            H.UD_FILE_OVER_LIMIT } := by
        intro x
        unfold exclude_by_size clear_user_flag set_user_flag
        simp only [hs, if_true]
      have e3 := e2 g.user_defined_flags
      change (exclude_by_size H g jp).2 = _ at e3
      rw [e3]
      cases skip
      · simp only [mark_if_skipped, Bool.false_eq_true, if_false]
        rw [e1, e2]
        simp only [b4]
      · simp only [mark_if_skipped, if_true, set_user_flag]
        rw [e1, e2]
        simp only [b5]
    · have e2 : ∀ x, (exclude_by_size H { g with user_defined_flags := x } jp).2 =
          { g with user_defined_flags := x ^^^ (x &&& H.UD_FILE_OVER_LIMIT) } := by
        intro x
        unfold exclude_by_size clear_user_flag set_user_flag
        simp only [hs, if_false]
      have e3 := e2 g.user_defined_flags
      change (exclude_by_size H g jp).2 = _ at e3
      rw [e3]
      cases skip
      · simp only [mark_if_skipped, Bool.false_eq_true, if_false]
        rw [e1, e2]
        simp only [b2]
      · simp only [mark_if_skipped, if_true, set_user_flag]
        rw [e1, e2]
        simp only [b3]

theorem filter_tests_congr {ω : Type} (E : Externals ω) (H : udefrag_internals)
    (jp jp2 : udefrag_job_parameters ω) (g : winx_file_info)
    (hudo : jp2.udo = jp.udo)
    (hbpc : jp2.v_info.bytes_per_cluster = jp.v_info.bytes_per_cluster) :
    filter_tests E H jp2 g = filter_tests E H jp g ∧
    filter_tests_file H jp2 g = filter_tests_file H jp g := by
  simp only [filter_tests, filter_tests_file, exclude_by_size, exclude_by_fragments,
    exclude_by_path, hudo, hbpc, and_self]

theorem mark_if_skipped_frame {ω : Type} (H : udefrag_internals)
    (jp : udefrag_job_parameters ω) (g : winx_file_info) (skip : Bool) :
    mark_if_skipped H skip (filter_tests_file H jp g) =
      { g with user_defined_flags :=
          (mark_if_skipped H skip (filter_tests_file H jp g)).user_defined_flags } := by
  unfold mark_if_skipped filter_tests_file exclude_by_size set_user_flag clear_user_flag
  simp only []
  split_ifs <;> rfl

/-- C22: `filter` is idempotent on a file entry. It returns for every entry
and leaves the job options and the volume information as they are; applied
again, with the same job options and cluster size (those of the job context
the first application has left, for one), to the entry as the first
application has left it, it returns the same value and leaves the entry as
it is, so in particular the flags `UD_FILE_EXCLUDED` and `UD_FILE_OVER_LIMIT`
are those the first application has set. The macro `is_temporary` (absent
header) is taken not to read `user_defined_flags`. -/
theorem filter_idempotent {ω : Type} (E : Externals ω) (H : udefrag_internals)
    (jp : udefrag_job_parameters ω) (f : winx_file_info)
    (hpure : ∀ (g : winx_file_info) (x : Nat),
      H.is_temporary { g with user_defined_flags := x } = H.is_temporary g) :
    ∃ r1 f1 jp1, filter E H jp f = .ok (r1, f1, jp1) ∧
      jp1.udo = jp.udo ∧ jp1.v_info = jp.v_info ∧
      ∀ jp2 : udefrag_job_parameters ω, jp2.udo = jp.udo →
        jp2.v_info.bytes_per_cluster = jp.v_info.bytes_per_cluster →
        ∃ jp3, filter E H jp2 f1 = .ok (r1, f1, jp3) := by
  have hb := (flags_fixpoint f.user_defined_flags H.UD_FILE_OVER_LIMIT H.UD_FILE_EXCLUDED).1
  cases hp : f.path with
  | none =>
    refine ⟨1, set_user_flag H.UD_FILE_EXCLUDED f, jp, ?_, rfl, rfl, ?_⟩
    · unfold filter; rw [hp]
    · intro jp2 _ _
      refine ⟨jp2, ?_⟩
      unfold filter
      have hp1 : (set_user_flag H.UD_FILE_EXCLUDED f).path = none := hp
      rw [hp1]
      simp only [set_user_flag, hb]
  | some path =>
    by_cases hne : path = []
    · refine ⟨1, set_user_flag H.UD_FILE_EXCLUDED f, jp, ?_, rfl, rfl, ?_⟩
      · unfold filter; rw [hp]; simp only [hne, if_true]
      · intro jp2 _ _
        refine ⟨jp2, ?_⟩
        unfold filter
        have hp1 : (set_user_flag H.UD_FILE_EXCLUDED f).path = some path := hp
        rw [hp1]
        simp only [hne, if_true, set_user_flag, hb]
    · obtain ⟨⟨skip, ft⟩, htests⟩ := filter_tests_total E H jp
        { f with path := some (remove_trailing_dot path) } _ rfl
      have hft := filter_tests_ok_file E H jp _ ft skip htests
      subst hft
      have hframe := mark_if_skipped_frame H jp
        { f with path := some (remove_trailing_dot path) } skip
      generalize hf1 : mark_if_skipped H skip (filter_tests_file H jp
        { f with path := some (remove_trailing_dot path) }) = f1 at hframe
      have hp1 : f1.path = some (remove_trailing_dot path) := by rw [hframe]
      obtain ⟨jp1, hcount, hu1, hv1⟩ := filter_count_total E H jp f1 _ hp1
      have hmark : (if skip = true then
          set_user_flag H.UD_FILE_EXCLUDED (filter_tests_file H jp
            { f with path := some (remove_trailing_dot path) })
          else filter_tests_file H jp { f with path := some (remove_trailing_dot path) }) =
          f1 := hf1
      refine ⟨0, f1, jp1, ?_, hu1, hv1, ?_⟩
      · unfold filter
        rw [hp]
        simp only [hne, if_false, htests]
        rw [hmark, hcount]
      · intro jp2 hudo hbpc
        have hself : ({ f1 with path := some (remove_trailing_dot
            (remove_trailing_dot path)) } : winx_file_info) = f1 := by
          rw [remove_trailing_dot_idem, ← hp1]
        have htests2 : filter_tests E H jp2 f1 =
            .ok (skip, filter_tests_file H jp f1) := by
          rw [(filter_tests_congr E H jp jp2 f1 hudo hbpc).1, hframe,
            filter_tests_same E H jp _ _ (hpure _ _), htests]
        obtain ⟨jp3, hcount2, -⟩ := filter_count_total E H jp2 f1 _ hp1
        have hfix : mark_if_skipped H skip (filter_tests_file H jp f1) = f1 := by
          rw [← hf1]
          exact mark_tests_fixpoint H jp _ skip hpure
        refine ⟨jp3, ?_⟩
        unfold filter
        rw [hp1]
        simp only [remove_trailing_dot_ne_nil path hne, if_false, hself, htests2]
        have hmark2 : (if skip = true then
            set_user_flag H.UD_FILE_EXCLUDED (filter_tests_file H jp f1)
            else filter_tests_file H jp f1) = f1 := hfix
        rw [hmark2, hcount2]

theorem filter_idempotent_witness :
    filter (sample_externals 0 (sample_volume [] 0 0 0 0)) sample_internals
        sample_job_filter sample_root_directory =
      .ok (0, { sample_root_directory with path := some [92, 63, 63, 92, 67, 58, 92] },
        sample_job_filter) ∧
    filter (sample_externals 0 (sample_volume [] 0 0 0 0)) sample_internals
        sample_job_filter
        { sample_root_directory with path := some [92, 63, 63, 92, 67, 58, 92] } =
      .ok (0, { sample_root_directory with path := some [92, 63, 63, 92, 67, 58, 92] },
        sample_job_filter) ∧
    ∃ r1 f1 jp1, filter (sample_externals 0 (sample_volume [] 0 0 0 0)) sample_internals
        sample_job_filter sample_root_directory = .ok (r1, f1, jp1) ∧
      jp1.udo = sample_job_filter.udo ∧ jp1.v_info = sample_job_filter.v_info ∧
      ∀ jp2 : udefrag_job_parameters Unit, jp2.udo = sample_job_filter.udo →
        jp2.v_info.bytes_per_cluster = sample_job_filter.v_info.bytes_per_cluster →
        ∃ jp3, filter (sample_externals 0 (sample_volume [] 0 0 0 0)) sample_internals
          jp2 f1 = .ok (r1, f1, jp3) :=
  ⟨rfl, rfl, filter_idempotent (sample_externals 0 (sample_volume [] 0 0 0 0))
    sample_internals sample_job_filter sample_root_directory (fun _ _ => rfl)⟩

theorem filter_return_value_witness :
    filter (sample_externals 0 (sample_volume [] 0 0 0 0)) sample_internals
        sample_job_context_menu sample_short_path_file =
      .ok (0, { sample_short_path_file with user_defined_flags := 1 },
        sample_job_context_menu) ∧
    ∃ f1 jp1, filter (sample_externals 0 (sample_volume [] 0 0 0 0)) sample_internals
        sample_job_context_menu sample_short_path_file = .ok (0, f1, jp1) ∧
      (([92, 63, 63] : List Nat).length < 4 ∨
          (remove_trailing_dot [92, 63, 63]).length < 4 →
        flag_set f1.user_defined_flags sample_internals.UD_FILE_EXCLUDED) :=
  ⟨rfl, (filter_return_value (sample_externals 0 (sample_volume [] 0 0 0 0))
    sample_internals sample_job_context_menu sample_short_path_file).2
      [92, 63, 63] rfl (by decide)⟩

theorem count_clusters_loop_no_termination {ω : Type} (E : Externals ω)
    (hterm : ∀ j, E.termination_router j = (0, j)) (start_lcn : Nat) :
    ∀ (regions : List winx_volume_region) (jp : udefrag_job_parameters ω) (n : Nat),
      count_clusters_loop E start_lcn regions jp n =
        (regions.foldl (fun n rgn => count_clusters_step start_lcn rgn n) n, jp) := by
  intro regions
  induction regions with
  | nil => intro jp n; rfl
  | cons rgn rest ih =>
    intro jp n
    unfold count_clusters_loop
    simp only [hterm, ne_eq, not_true_eq_false, if_false, List.foldl_cons]
    exact ih jp _

theorem count_clusters_step_eq (start_lcn total n : Nat) (rgn : winx_volume_region)
    (hin : rgn.lcn + rgn.length ≤ total) (htot : total < U64_MOD)
    (hn : n + (rgn.lcn + rgn.length - max rgn.lcn start_lcn) < U64_MOD) :
    count_clusters_step start_lcn rgn n =
      n + (rgn.lcn + rgn.length - max rgn.lcn start_lcn) := by
  unfold count_clusters_step
  by_cases h1 : rgn.lcn ≥ start_lcn
  · rw [if_pos h1]
    have hmax : max rgn.lcn start_lcn = rgn.lcn := max_eq_left h1
    rw [hmax] at hn ⊢
    have : rgn.lcn + rgn.length - rgn.lcn = rgn.length := by omega
    rw [this] at hn ⊢
    exact wrap64_of_lt hn
  · rw [if_neg h1]
    have hmax : max rgn.lcn start_lcn = start_lcn := max_eq_right (by omega)
    rw [hmax] at hn ⊢
    rw [wrap64_of_lt (by omega : rgn.lcn + rgn.length < U64_MOD)]
    by_cases h2 : rgn.lcn + rgn.length > start_lcn
    · rw [if_pos h2]
      rw [sub64_of_le (by omega : rgn.lcn ≤ start_lcn) (by omega),
        sub64_of_le (by omega : start_lcn - rgn.lcn ≤ rgn.length) (by omega)]
      have : rgn.length - (start_lcn - rgn.lcn) = rgn.lcn + rgn.length - start_lcn := by
        omega
      rw [this]
      exact wrap64_of_lt hn
    · rw [if_neg h2]
      omega

theorem free_clusters_between_cons (r : winx_volume_region)
    (regions : List winx_volume_region) (a b : Nat)
    (hdis : ∀ q ∈ regions, regions_disjoint r q) (hin : r.lcn + r.length ≤ b) :
    free_clusters_between (r :: regions) a b =
      (r.lcn + r.length - max r.lcn a) + free_clusters_between regions a b := by
  unfold free_clusters_between
  have hset : (Finset.Ico a b).filter (fun x => ∃ q ∈ r :: regions, cluster_in_region q x) =
      Finset.Ico (max r.lcn a) (r.lcn + r.length) ∪
        (Finset.Ico a b).filter (fun x => ∃ q ∈ regions, cluster_in_region q x) := by
    ext x
    simp only [Finset.mem_filter, Finset.mem_Ico, Finset.mem_union, List.mem_cons,
      exists_eq_or_imp, cluster_in_region, max_le_iff]
    constructor
    · rintro ⟨hx, h | h⟩
      · exact Or.inl ⟨⟨h.1, hx.1⟩, h.2⟩
      · exact Or.inr ⟨hx, h⟩
    · rintro (h | h)
      · exact ⟨⟨h.1.2, by omega⟩, Or.inl ⟨h.1.1, h.2⟩⟩
      · exact ⟨h.1, Or.inr h.2⟩
  have hdisj : Disjoint (Finset.Ico (max r.lcn a) (r.lcn + r.length))
      ((Finset.Ico a b).filter (fun x => ∃ q ∈ regions, cluster_in_region q x)) := by
    rw [Finset.disjoint_left]
    intro x hx hx2
    simp only [Finset.mem_filter, Finset.mem_Ico, cluster_in_region, max_le_iff] at hx hx2
    obtain ⟨-, q, hq, hq1, hq2⟩ := hx2
    have := hdis q hq
    unfold regions_disjoint at this
    omega
  rw [hset, Finset.card_union_of_disjoint hdisj, Nat.card_Ico]

theorem free_clusters_between_le (regions : List winx_volume_region) (a b : Nat) :
    free_clusters_between regions a b ≤ b - a := by
  unfold free_clusters_between
  calc _ ≤ (Finset.Ico a b).card := Finset.card_filter_le _ _
    _ = b - a := Nat.card_Ico a b

theorem allocated_add_free_clusters (regions : List winx_volume_region) (a b : Nat) :
    allocated_clusters_between regions a b + free_clusters_between regions a b = b - a := by
  unfold allocated_clusters_between free_clusters_between
  have h := Finset.filter_card_add_filter_neg_card_eq_card (s := Finset.Ico a b)
    (fun x => ∃ r ∈ regions, cluster_in_region r x)
  rw [Nat.card_Ico] at h
  have hc : (Finset.Ico a b).filter (fun x => ∀ r ∈ regions, ¬ cluster_in_region r x) =
      (Finset.Ico a b).filter (fun x => ¬ ∃ r ∈ regions, cluster_in_region r x) := by
    apply Finset.filter_congr
    intro x _
    simp
  rw [hc]
  omega

theorem count_clusters_fold (start_lcn total : Nat) (htot : total < U64_MOD) :
    ∀ (regions : List winx_volume_region) (n : Nat),
      regions.Pairwise regions_disjoint →
      (∀ r ∈ regions, r.lcn + r.length ≤ total) →
      n + free_clusters_between regions start_lcn total < U64_MOD →
      regions.foldl (fun n rgn => count_clusters_step start_lcn rgn n) n =
        n + free_clusters_between regions start_lcn total := by
  intro regions
  induction regions with
  | nil =>
    intro n _ _ _
    simp [free_clusters_between]
  | cons r rest ih =>
    intro n hpair hin hn
    rw [List.pairwise_cons] at hpair
    have hr := hin r (List.mem_cons_self _ _)
    have hcons := free_clusters_between_cons r rest start_lcn total hpair.1 hr
    rw [hcons] at hn ⊢
    rw [List.foldl_cons, count_clusters_step_eq start_lcn total n r hr htot (by omega)]
    rw [ih _ hpair.2 (fun q hq => hin q (List.mem_cons_of_mem _ hq)) (by omega)]
    omega

theorem free_clusters_between_sum (start_lcn total : Nat) :
    ∀ (regions : List winx_volume_region),
      regions.Pairwise regions_disjoint →
      (∀ r ∈ regions, r.lcn + r.length ≤ total) →
      free_clusters_between regions start_lcn total =
        (regions.map (fun r => r.lcn + r.length - max r.lcn start_lcn)).sum := by
  intro regions
  induction regions with
  | nil =>
    intro _ _
    simp [free_clusters_between]
  | cons r rest ih =>
    intro hpair hin
    rw [List.pairwise_cons] at hpair
    rw [free_clusters_between_cons r rest start_lcn total hpair.1
      (hin r (List.mem_cons_self _ _)),
      ih hpair.2 (fun q hq => hin q (List.mem_cons_of_mem _ hq))]
    simp

/-- C26: when no termination is requested, the free regions (the list as
`release_temp_space_regions` has actualized it) are pairwise non-overlapping
and lie inside `[0, total_clusters)`, and `start_lcn <= total_clusters`,
`count_clusters` returns exactly the number of clusters of
`[start_lcn, total_clusters)` that belong to no free region. The number `n`
the loop has summed up is the number of clusters of that range that belong to
a free region, a region contributing its part at or after `start_lcn`; it is
not greater than `total_clusters - start_lcn`, so the subtraction does not
underflow. -/
theorem count_clusters_counts_allocated {ω : Type} (E : Externals ω)
    (jp : udefrag_job_parameters ω) (start_lcn : Nat)
    (hterm : ∀ j, E.termination_router j = (0, j))
    (hpair : (E.release_temp_space_regions jp).free_regions.Pairwise regions_disjoint)
    (hin : ∀ r ∈ (E.release_temp_space_regions jp).free_regions,
      r.lcn + r.length ≤ (E.release_temp_space_regions jp).v_info.total_clusters)
    (htot : (E.release_temp_space_regions jp).v_info.total_clusters < U64_MOD)
    (hstart : start_lcn ≤ (E.release_temp_space_regions jp).v_info.total_clusters) :
    (count_clusters E jp start_lcn).1 =
      allocated_clusters_between (E.release_temp_space_regions jp).free_regions start_lcn
        (E.release_temp_space_regions jp).v_info.total_clusters ∧
    (count_clusters_loop E start_lcn (E.release_temp_space_regions jp).free_regions
        (E.release_temp_space_regions jp) 0).1 =
      free_clusters_between (E.release_temp_space_regions jp).free_regions start_lcn
        (E.release_temp_space_regions jp).v_info.total_clusters ∧
    (count_clusters_loop E start_lcn (E.release_temp_space_regions jp).free_regions
        (E.release_temp_space_regions jp) 0).1 =
      ((E.release_temp_space_regions jp).free_regions.map
        (fun r => r.lcn + r.length - max r.lcn start_lcn)).sum ∧
    (count_clusters E jp start_lcn).1 + (count_clusters_loop E start_lcn
        (E.release_temp_space_regions jp).free_regions
        (E.release_temp_space_regions jp) 0).1 + start_lcn =
      (E.release_temp_space_regions jp).v_info.total_clusters := by
  have hloop := count_clusters_loop_no_termination E hterm start_lcn
    (E.release_temp_space_regions jp).free_regions (E.release_temp_space_regions jp) 0
  have hle := free_clusters_between_le (E.release_temp_space_regions jp).free_regions
    start_lcn (E.release_temp_space_regions jp).v_info.total_clusters
  have hfold := count_clusters_fold start_lcn _ htot _ 0 hpair hin (by omega)
  have hsum := free_clusters_between_sum start_lcn _ _ hpair hin
  have hadd := allocated_add_free_clusters (E.release_temp_space_regions jp).free_regions
    start_lcn (E.release_temp_space_regions jp).v_info.total_clusters
  have hcount : (count_clusters E jp start_lcn).1 =
      allocated_clusters_between (E.release_temp_space_regions jp).free_regions start_lcn
        (E.release_temp_space_regions jp).v_info.total_clusters := by
    unfold count_clusters
    simp only []
    rw [hloop]
    simp only []
    rw [hfold, Nat.zero_add, sub64_of_le hstart htot, sub64_of_le hle (by omega)]
    omega
  rw [hcount, hloop]
  simp only []
  rw [hfold, Nat.zero_add]
  exact ⟨trivial, rfl, hsum, by omega⟩

theorem count_clusters_counts_allocated_witness :
    (count_clusters (sample_externals 0 (sample_volume [] 0 0 0 0)) sample_job_count 100).1 =
      allocated_clusters_between [⟨10, 20⟩, ⟨90, 30⟩, ⟨150, 10⟩] 100 200 ∧
    (count_clusters (sample_externals 0 (sample_volume [] 0 0 0 0)) sample_job_count 100).1 =
      70 :=
  ⟨(count_clusters_counts_allocated (sample_externals 0 (sample_volume [] 0 0 0 0))
    sample_job_count 100 (fun _ => rfl) (by decide) (by decide) (by decide)
    (by decide)).1, by decide⟩

set_option maxHeartbeats 2000000 in
theorem optimize_file_inner_succ {ω : Type} (E : Externals ω) (H : udefrag_internals)
    (f first_cluster end_lcn fuel : Nat) (st : optimize_state ω) (ctc : Nat)
    (bcu : Bool) (tr : Option winx_volume_region) :
    optimize_file_inner E H f first_cluster end_lcn (fuel + 1) st ctc bcu tr =
      optimize_file_inner_after E H f first_cluster end_lcn fuel
        (optimize_file_inner_step E H f first_cluster end_lcn st ctc bcu tr) := by
  rw [optimize_file_inner]
  unfold optimize_file_inner_step
  by_cases h0 : ctc = 0
  · rw [if_pos h0, if_pos h0]; rfl
  rw [if_neg h0, if_neg h0]
  generalize hstop : E.termination_router st.jp = stop
  obtain ⟨t, jp1⟩ := stop
  dsimp only
  by_cases h1 : t ≠ 0
  · rw [if_pos h1, if_pos h1]; rfl
  rw [if_neg h1, if_neg h1]
  generalize hfound : E.find_first_block jp1 st.start_lcn 0 = found
  obtain ⟨ref, min_lcn, jp2⟩ := found
  dsimp only
  cases ref with
  | none => rfl
  | some ref =>
    dsimp only
    cases hblock : block_at jp2 ref with
    | error fault => rfl
    | ok fb =>
      obtain ⟨first_file, first_block⟩ := fb
      dsimp only
      by_cases h2 : first_block.lcn ≥ end_lcn
      · rw [if_pos h2, if_pos h2]; rfl
      rw [if_neg h2, if_neg h2]
      by_cases h3 : bcu = true ∧
          (first_block.lcn ≠ wrap64 (st.region.lcn + st.region.length) ∨ ref.file = f)
      · rw [if_pos h3, if_pos h3]; rfl
      rw [if_neg h3, if_neg h3]
      by_cases h4 : ref.file = f ∧ first_block.vcn = st.start_vcn
      · rw [if_pos h4, if_pos h4]
        cases first_file.disp.blockmap[ref.block + 1]? with
        | none => rfl
        | some next =>
          dsimp only
          by_cases h5 : st.clusters_to_process ≤ first_block.length
          · rw [if_pos h5, if_pos h5]; rfl
          · rw [if_neg h5, if_neg h5]; rfl
      rw [if_neg h4, if_neg h4]
      cases cleanup_space E jp2 (some ref.file) (some first_block) (min ctc first_block.length)
          first_cluster (sub64 (wrap64 (first_block.lcn + first_block.length)) 1) with
      | error e => rfl
      | ok r =>
        obtain ⟨result, jp3, its⟩ := r
        dsimp only
        by_cases h6 : result = -1
        · rw [if_pos h6, if_pos h6]; rfl
        rw [if_neg h6, if_neg h6]
        cases (if ref.file ≠ f then
            set_file_flag jp3 ref.file H.UD_FILE_FRAGMENTED_BY_FILE_OPT
          else Except.ok jp3) with
        | error fault => rfl
        | ok jp4 =>
          dsimp only
          by_cases h7 : result = -2
          · rw [if_pos h7, if_pos h7]
            by_cases h8 : bcu = false
            · rw [if_pos h8, if_pos h8]; rfl
            · rw [if_neg h8, if_neg h8]; rfl
          · rw [if_neg h7, if_neg h7]; rfl

theorem optimize_file_inner_step_post {ω : Type} (E : Externals ω)
    (H : udefrag_internals) (f first_cluster end_lcn : Nat) (st : optimize_state ω)
    (ctc : Nat) (bcu : Bool) (tr : Option winx_volume_region)
    (hinv : cleanup_invariant st ctc bcu tr) (evs : List optimize_event)
    (res : inner_step ω) :
    optimize_file_inner_step E H f first_cluster end_lcn st ctc bcu tr = (evs, .ok res) →
      cleanup_step_post st ctc bcu tr res := by
  obtain ⟨hctp, hrel⟩ := hinv
  unfold optimize_file_inner_step
  by_cases h0 : ctc = 0
  · rw [if_pos h0]
    intro h
    simp only [Prod.mk.injEq, Except.ok.injEq] at h
    obtain ⟨-, rfl⟩ := h
    exact ⟨rfl, rfl, rfl⟩
  rw [if_neg h0]
  generalize hstop : E.termination_router st.jp = stop
  obtain ⟨t, jp1⟩ := stop
  dsimp only
  by_cases h1 : t ≠ 0
  · rw [if_pos h1]
    intro h
    simp only [Prod.mk.injEq, Except.ok.injEq] at h
    obtain ⟨-, rfl⟩ := h
    exact le_refl _
  rw [if_neg h1]
  generalize hfound : E.find_first_block jp1 st.start_lcn 0 = found
  obtain ⟨ref, min_lcn, jp2⟩ := found
  dsimp only
  cases ref with
  | none =>
    dsimp only
    intro h
    simp only [Prod.mk.injEq, Except.ok.injEq] at h
    obtain ⟨-, rfl⟩ := h
    exact ⟨rfl, rfl, rfl⟩
  | some ref =>
    dsimp only
    cases hblock : block_at jp2 ref with
    | error fault =>
      dsimp only
      intro h
      simp at h
    | ok fb =>
      obtain ⟨first_file, first_block⟩ := fb
      dsimp only
      by_cases h2 : first_block.lcn ≥ end_lcn
      · rw [if_pos h2]
        intro h
        simp only [Prod.mk.injEq, Except.ok.injEq] at h
        obtain ⟨-, rfl⟩ := h
        exact ⟨rfl, rfl, rfl⟩
      rw [if_neg h2]
      by_cases h3 : bcu = true ∧
          (first_block.lcn ≠ wrap64 (st.region.lcn + st.region.length) ∨ ref.file = f)
      · rw [if_pos h3]
        intro h
        simp only [Prod.mk.injEq, Except.ok.injEq] at h
        obtain ⟨-, rfl⟩ := h
        exact ⟨rfl, rfl, rfl⟩
      rw [if_neg h3]
      by_cases h4 : ref.file = f ∧ first_block.vcn = st.start_vcn
      · rw [if_pos h4]
        have hbcu : bcu = false := by
          cases bcu
          · rfl
          · exact absurd ⟨rfl, Or.inr h4.1⟩ h3
        subst hbcu
        simp only [Bool.false_eq_true, if_false] at hrel
        cases first_file.disp.blockmap[ref.block + 1]? with
        | none =>
          dsimp only
          intro h
          simp only [Prod.mk.injEq, Except.ok.injEq] at h
          obtain ⟨-, rfl⟩ := h
          exact Nat.zero_le _
        | some next =>
          dsimp only
          by_cases h5 : st.clusters_to_process ≤ first_block.length
          · rw [if_pos h5]
            intro h
            simp only [Prod.mk.injEq, Except.ok.injEq] at h
            obtain ⟨-, rfl⟩ := h
            exact Nat.zero_le _
          · rw [if_neg h5]
            intro h
            simp only [Prod.mk.injEq, Except.ok.injEq] at h
            obtain ⟨-, rfl⟩ := h
            have hlen : first_block.length < st.clusters_to_process := by omega
            refine ⟨first_block.length, by omega, ?_, Or.inl ⟨rfl, rfl, hlen, ?_, rfl, rfl⟩⟩
            · exact sub64_of_le (by omega) (by omega)
            · exact sub64_of_le (by omega) hctp
      rw [if_neg h4]
      cases cleanup_space E jp2 (some ref.file) (some first_block) (min ctc first_block.length)
          first_cluster (sub64 (wrap64 (first_block.lcn + first_block.length)) 1) with
      | error e =>
        dsimp only
        intro h
        simp at h
      | ok r =>
        obtain ⟨result, jp3, its⟩ := r
        dsimp only
        by_cases h6 : result = -1
        · rw [if_pos h6]
          intro h
          simp only [Prod.mk.injEq, Except.ok.injEq] at h
          obtain ⟨-, rfl⟩ := h
          exact le_refl _
        rw [if_neg h6]
        cases (if ref.file ≠ f then
            set_file_flag jp3 ref.file H.UD_FILE_FRAGMENTED_BY_FILE_OPT
          else Except.ok jp3) with
        | error fault =>
          dsimp only
          intro h
          simp at h
        | ok jp4 =>
          dsimp only
          by_cases h7 : result = -2
          · rw [if_pos h7]
            by_cases h8 : bcu = false
            · rw [if_pos h8]
              intro h
              simp only [Prod.mk.injEq, Except.ok.injEq] at h
              obtain ⟨-, rfl⟩ := h
              exact ⟨h8, rfl⟩
            · rw [if_neg h8]
              intro h
              simp only [Prod.mk.injEq, Except.ok.injEq] at h
              obtain ⟨-, rfl⟩ := h
              exact ⟨rfl, rfl, rfl⟩
          · rw [if_neg h7]
            intro h
            simp only [Prod.mk.injEq, Except.ok.injEq] at h
            obtain ⟨-, rfl⟩ := h
            have hk : min ctc first_block.length ≤ ctc := Nat.min_le_left _ _
            have hsum : st.region.length + min ctc first_block.length < U64_MOD := by
              cases bcu
              · simp only [Bool.false_eq_true, if_false] at hrel
                omega
              · simp only [if_true] at hrel
                omega
            refine ⟨min ctc first_block.length, hk, ?_, Or.inr ⟨rfl, rfl, ?_, rfl⟩⟩
            · exact sub64_of_le hk (by
                cases bcu
                · simp only [Bool.false_eq_true, if_false] at hrel
                  omega
                · simp only [if_true] at hrel
                  omega)
            · exact wrap64_of_lt hsum

theorem cleanup_invariant_next {ω : Type} (st st1 : optimize_state ω)
    (ctc ctc1 : Nat) (bcu bcu1 : Bool) (tr tr1 : Option winx_volume_region)
    (hinv : cleanup_invariant st ctc bcu tr)
    (hpost : cleanup_step_post st ctc bcu tr (.next st1 ctc1 bcu1 tr1)) :
    cleanup_invariant st1 ctc1 bcu1 tr1 := by
  obtain ⟨hctp, hrel⟩ := hinv
  obtain ⟨k, hk, hctc1, hcase⟩ := hpost
  rcases hcase with ⟨hb1, hb, hlt, hctp1, hregion, htr⟩ | ⟨hb1, hctp1, hlen, htr⟩
  · subst hb1 hb
    simp only [Bool.false_eq_true, if_false] at hrel
    refine ⟨by omega, ?_⟩
    simp only [Bool.false_eq_true, if_false]
    rw [hregion]
    exact ⟨by omega, hrel.2⟩
  · subst hb1
    refine ⟨by omega, ?_⟩
    simp only [if_true]
    refine ⟨?_, htr⟩
    cases bcu
    · simp only [Bool.false_eq_true, if_false] at hrel
      omega
    · simp only [if_true] at hrel
      omega

theorem optimize_file_inner_exit {ω : Type} (E : Externals ω) (H : udefrag_internals)
    (f first_cluster end_lcn : Nat) :
    ∀ (fuel : Nat) (st : optimize_state ω) (ctc : Nat) (bcu : Bool)
      (tr : Option winx_volume_region) (evs : List optimize_event)
      (st1 : optimize_state ω) (tr1 : Option winx_volume_region),
      cleanup_invariant st ctc bcu tr →
      optimize_file_inner E H f first_cluster end_lcn fuel st ctc bcu tr =
        (evs, .ok (.move_the_file st1 tr1)) →
      ∃ ctc1 bcu1, cleanup_invariant st1 ctc1 bcu1 tr1 ∧
        (bcu1 = false → bcu = false ∧ tr1 = tr) := by
  intro fuel
  induction fuel with
  | zero =>
    intro st ctc bcu tr evs st1 tr1 _ h
    simp [optimize_file_inner] at h
  | succ fuel ih =>
    intro st ctc bcu tr evs st1 tr1 hinv h
    rw [optimize_file_inner_succ] at h
    have hpost := optimize_file_inner_step_post E H f first_cluster end_lcn st ctc bcu tr hinv
    generalize optimize_file_inner_step E H f first_cluster end_lcn st ctc bcu tr = s
      at h hpost
    obtain ⟨sevs, sres⟩ := s
    cases sres with
    | error e => simp [optimize_file_inner_after] at h
    | ok res =>
      have hp := hpost sevs res rfl
      cases res with
      | leave how =>
        simp only [optimize_file_inner_after, Prod.mk.injEq, Except.ok.injEq] at h
        obtain ⟨-, rfl⟩ := h
        obtain ⟨hctp1, hregion, htr⟩ := hp
        refine ⟨ctc, bcu, ?_, fun hb => ⟨hb, htr⟩⟩
        subst htr
        refine ⟨by rw [hctp1]; exact hinv.1, ?_⟩
        rw [hctp1, hregion]
        exact hinv.2
      | next st2 ctc2 bcu2 tr2 =>
        have hinv2 := cleanup_invariant_next st st2 ctc ctc2 bcu bcu2 tr tr2 hinv hp
        simp only [optimize_file_inner_after] at h
        have h2 : optimize_file_inner E H f first_cluster end_lcn fuel st2 ctc2 bcu2 tr2 =
            ((optimize_file_inner E H f first_cluster end_lcn fuel st2 ctc2 bcu2 tr2).1,
              .ok (.move_the_file st1 tr1)) := by
          rw [Prod.mk.injEq] at h
          rw [← h.2]
        obtain ⟨ctc1, bcu1, hinv1, hb⟩ := ih st2 ctc2 bcu2 tr2 _ st1 tr1 hinv2 h2
        refine ⟨ctc1, bcu1, hinv1, fun hb1 => ?_⟩
        obtain ⟨hb2, htr2⟩ := hb hb1
        obtain ⟨k, -, -, hcase⟩ := hp
        rcases hcase with ⟨-, hbf, -, -, -, htr⟩ | ⟨hbt, -⟩
        · exact ⟨hbf, by rw [htr2, htr]⟩
        · rw [hb2] at hbt
          exact absurd hbt (by decide)

/-- C30: the counters of the inner clean-up loop of `optimize_file`.
At the entry of the loop (`region.length = 0`, no block cleaned up)
`clusters_to_cleanup == clusters_to_process` holds. Every iteration that
goes on to the next one keeps the relation: as long as no block has been
cleaned up `clusters_to_cleanup == clusters_to_process`, afterwards
`region.length + clusters_to_cleanup == clusters_to_process` with
`target_rgn` pointing to the region; the number `k` of clusters the
iteration takes off is not greater than `clusters_to_cleanup` (and less than
`clusters_to_process` where it is taken off that counter too), so no
subtraction underflows. When the loop is left for `move_the_file`, either
no block has been cleaned up and `target_rgn` is the free region found
before the loop, or `target_rgn` is the accumulated region, whose length is
not greater than `clusters_to_process`: the move that follows is one of
`min(clusters_to_process, region.length) = region.length` clusters to
`region.lcn`. -/
theorem optimize_file_inner_invariant {ω : Type} (E : Externals ω) (H : udefrag_internals)
    (f first_cluster end_lcn : Nat) :
    (∀ (st : optimize_state ω) (tr : Option winx_volume_region),
      st.clusters_to_process < U64_MOD → st.region.length = 0 →
      cleanup_invariant st st.clusters_to_process false tr) ∧
    (∀ (st st1 : optimize_state ω) (ctc ctc1 : Nat) (bcu bcu1 : Bool)
      (tr tr1 : Option winx_volume_region) (evs : List optimize_event),
      cleanup_invariant st ctc bcu tr →
      optimize_file_inner_step E H f first_cluster end_lcn st ctc bcu tr =
        (evs, .ok (.next st1 ctc1 bcu1 tr1)) →
      cleanup_invariant st1 ctc1 bcu1 tr1 ∧
      cleanup_step_post st ctc bcu tr (.next st1 ctc1 bcu1 tr1)) ∧
    (∀ (fuel : Nat) (st st1 : optimize_state ω) (tr tr1 : Option winx_volume_region)
      (evs : List optimize_event),
      st.clusters_to_process < U64_MOD → st.region.length = 0 →
      optimize_file_inner E H f first_cluster end_lcn fuel st st.clusters_to_process
        false tr = (evs, .ok (.move_the_file st1 tr1)) →
      tr1 = tr ∨
      (tr1 = some st1.region ∧ st1.region.length ≤ st1.clusters_to_process ∧
        min st1.clusters_to_process st1.region.length = st1.region.length)) := by
  have hentry : ∀ (st : optimize_state ω) (tr : Option winx_volume_region),
      st.clusters_to_process < U64_MOD → st.region.length = 0 →
      cleanup_invariant st st.clusters_to_process false tr := by
    intro st tr hlt hlen
    refine ⟨hlt, ?_⟩
    simp only [Bool.false_eq_true, if_false]
    exact ⟨trivial, hlen⟩
  refine ⟨hentry, ?_, ?_⟩
  · intro st st1 ctc ctc1 bcu bcu1 tr tr1 evs hinv hstep
    have hpost := optimize_file_inner_step_post E H f first_cluster end_lcn st ctc bcu tr
      hinv evs _ hstep
    exact ⟨cleanup_invariant_next st st1 ctc ctc1 bcu bcu1 tr tr1 hinv hpost, hpost⟩
  · intro fuel st st1 tr tr1 evs hlt hlen hrun
    obtain ⟨ctc1, bcu1, hinv1, hb⟩ := optimize_file_inner_exit E H f first_cluster end_lcn
      fuel st _ false tr evs st1 tr1 (hentry st tr hlt hlen) hrun
    cases bcu1 with
    | false => exact Or.inl (hb rfl).2
    | true =>
      obtain ⟨-, hrel⟩ := hinv1
      simp only [if_true] at hrel
      have hle : st1.region.length ≤ st1.clusters_to_process := by omega
      exact Or.inr ⟨hrel.2, hle, Nat.min_eq_right hle⟩

theorem optimize_file_inner_invariant_witness :
    optimize_file_inner sample_externals_blocked sample_internals 0 100 1000 3
        sample_state_cleanable 10 false (some ⟨1000, 50⟩) =
      ([.cleanup ⟨1, ⟨0, 110, 20⟩, 0, [⟨[⟨1000, 50⟩], 10, ⟨1, 0, 10, 1040, 0⟩⟩]⟩, .flag 1],
        .ok (.move_the_file sample_state_cleaned (some ⟨110, 10⟩))) ∧
    ((some ⟨110, 10⟩ : Option winx_volume_region) = some ⟨1000, 50⟩ ∨
      ((some ⟨110, 10⟩ : Option winx_volume_region) = some sample_state_cleaned.region ∧
        sample_state_cleaned.region.length ≤ sample_state_cleaned.clusters_to_process ∧
        min sample_state_cleaned.clusters_to_process sample_state_cleaned.region.length =
          sample_state_cleaned.region.length)) :=
  ⟨rfl, (optimize_file_inner_invariant sample_externals_blocked sample_internals 0 100
    1000).2.2 3 sample_state_cleanable sample_state_cleaned (some ⟨1000, 50⟩)
    (some ⟨110, 10⟩) _ (by decide) rfl rfl⟩

/-- C13, as stated, fails for the number of fragments: on a volume with 55
free clusters the file 0 (two fragments, 10 clusters behind its first block)
has a neighbour that cannot be moved (the file 1 is locked). Both calls of
`cleanup_space` fail with -2, `optimize_file` passes the neighbour over and
moves the file in two parts, 5 clusters to LCN 115 and 5 clusters to
LCN 130; it returns 1, success, and the file has three fragments. -/
theorem optimize_file_adds_a_fragment :
    sample_fragmented_file.disp.fragments = 2 ∧
    free_clusters_sum sample_job_locked_neighbour = 55 ∧
    (optimize_file (spec_externals sample_internals [1]) sample_internals 10 0
        sample_job_locked_neighbour).2.toOption.map
      (fun r => (r.1, (r.2.filelist.map
        (fun f => (f.disp.blockmap, f.disp.fragments))).head?)) =
      some (1, some ([⟨0, 100, 10⟩, ⟨10, 115, 5⟩, ⟨15, 130, 5⟩], 3)) := by
  decide

/-- C14, as stated, fails between the two moves of one `cleanup_space`: on
the full volume of 40 clusters (10 free, 30 allocated) the call for the ten
clusters of the file 1 moves 6 clusters to LCN 30 and then 4 clusters to
LCN 20. When the second iteration starts, the free regions hold 4 clusters:
the 6 clusters vacated at LCN 10 are temporary space, not free space, so the
free and allocated clusters add up to 34, not to 40. -/
theorem cleanup_space_conservation_fails_between_moves :
    free_clusters_sum sample_job_full_volume +
      allocated_clusters_sum sample_job_full_volume = 40 ∧
    (cleanup_space (spec_externals sample_internals []) sample_job_full_volume (some 1)
        (some ⟨0, 10, 10⟩) 10 0 19).toOption.map
      (fun r => (r.1, r.2.2.map
        (fun it => (it.call, (it.free_regions.map (fun g => g.length)).sum)))) =
      some (0, [(⟨1, 0, 6, 30, 0⟩, 10), (⟨1, 6, 4, 20, 0⟩, 4)]) ∧
    free_clusters_sum
        (spec_move_file sample_internals [] 1 0 6 30 sample_job_full_volume).2 +
      allocated_clusters_sum
        (spec_move_file sample_internals [] 1 0 6 30 sample_job_full_volume).2 = 34 ∧
    ¬ free_space_conservation
      (spec_move_file sample_internals [] 1 0 6 30 sample_job_full_volume).2 ∧
    (spec_move_file sample_internals [] 1 0 6 30
      sample_job_full_volume).2.v_info.total_clusters = 40 := by
  decide

theorem map_clusters_set (files : List winx_file_info) (i : Nat) (f g : winx_file_info)
    (hf : files[i]? = some f) (hg : g.disp.clusters = f.disp.clusters) :
    (files.set i g).map (fun f => f.disp.clusters) =
      files.map (fun f => f.disp.clusters) := by
  induction files generalizing i with
  | nil => rfl
  | cons a rest ih =>
    cases i with
    | zero =>
      simp only [List.getElem?_cons_zero, Option.some.injEq] at hf
      subst hf
      simp [hg]
    | succ i =>
      simp only [List.getElem?_cons_succ] at hf
      simp only [List.set_cons_succ, List.map_cons, ih i hf]

theorem map_disp_set (files : List winx_file_info) (i : Nat) (f g : winx_file_info)
    (hf : files[i]? = some f) (hg : g.disp = f.disp) :
    (files.set i g).map (fun f => f.disp) = files.map (fun f => f.disp) := by
  induction files generalizing i with
  | nil => rfl
  | cons a rest ih =>
    cases i with
    | zero =>
      simp only [List.getElem?_cons_zero, Option.some.injEq] at hf
      subst hf
      simp [hg]
    | succ i =>
      simp only [List.getElem?_cons_succ] at hf
      simp only [List.set_cons_succ, List.map_cons, ih i hf]

theorem tracked_layout_set_file_flag {ω : Type} (jp jp1 : udefrag_job_parameters ω)
    (file flag : Nat) (h : set_file_flag jp file flag = .ok jp1) :
    tracked_layout jp1 = tracked_layout jp := by
  unfold set_file_flag at h
  split at h
  · simp at h
  · rename_i f hf
    simp only [Except.ok.injEq] at h
    subst h
    simp only [tracked_layout]
    rw [map_disp_set jp.filelist file f (set_user_flag flag f) hf rfl]

theorem cleanup_space_loop_keeps {ω : Type} (E : Externals ω)
    (P : List winx_volume_region × List winx_file_disposition × Nat × ω → Prop)
    (hE : externals_keep E P) (file s e : Nat) :
    ∀ (fuel cv c : Nat) (jp jp1 : udefrag_job_parameters ω) (code : Int)
      (its : List cleanup_iteration),
      P (tracked_layout jp) →
      cleanup_space_loop E file s e fuel cv c jp = .ok (code, jp1, its) →
      P (tracked_layout jp1) := by
  intro fuel
  induction fuel with
  | zero =>
    intro cv c jp jp1 code its hP h
    unfold cleanup_space_loop at h
    split_ifs at h
    simp only [Except.ok.injEq, Prod.mk.injEq] at h
    obtain ⟨-, rfl, -⟩ := h
    exact hP
  | succ fuel ih =>
    intro cv c jp jp1 code its hP h
    unfold cleanup_space_loop at h
    split_ifs at h
    · simp only [Except.ok.injEq, Prod.mk.injEq] at h
      obtain ⟨-, rfl, -⟩ := h
      exact hP
    · split at h
      · simp only [Except.ok.injEq, Prod.mk.injEq] at h
        obtain ⟨-, rfl, -⟩ := h
        exact hP
      · split at h
        · simp only [Except.ok.injEq, Prod.mk.injEq] at h
          obtain ⟨-, rfl, -⟩ := h
          exact hP
        · rename_i rgn hscan
          simp only [] at h
          have hmove := hE.2.2.2.2 file cv (min rgn.length c)
            (sub64 (wrap64 (rgn.lcn + rgn.length)) (min rgn.length c)) jp hP
          split_ifs at h
          · simp only [Except.ok.injEq, Prod.mk.injEq] at h
            obtain ⟨-, rfl, -⟩ := h
            exact hmove
          · split at h
            · simp at h
            · rename_i code2 jp2 its2 hrec
              simp only [Except.ok.injEq, Prod.mk.injEq] at h
              obtain ⟨-, rfl, -⟩ := h
              exact ih _ _ _ _ _ _ hmove hrec

theorem cleanup_space_keeps {ω : Type} (E : Externals ω)
    (P : List winx_volume_region × List winx_file_disposition × Nat × ω → Prop)
    (hE : externals_keep E P) (jp jp1 : udefrag_job_parameters ω) (file : Option Nat)
    (block : Option winx_blockmap) (c s e : Nat) (code : Int)
    (its : List cleanup_iteration) (hP : P (tracked_layout jp))
    (h : cleanup_space E jp file block c s e = .ok (code, jp1, its)) :
    P (tracked_layout jp1) := by
  unfold cleanup_space at h
  split_ifs at h
  · simp only [Except.ok.injEq, Prod.mk.injEq] at h
    obtain ⟨-, rfl, -⟩ := h
    exact hP
  · split at h
    · exact cleanup_space_loop_keeps E P hE _ s e _ _ _ jp jp1 code its hP h
    · simp only [Except.ok.injEq, Prod.mk.injEq] at h
      obtain ⟨-, rfl, -⟩ := h
      exact hP

theorem move_files_to_back_loop_keeps {ω : Type} (E : Externals ω) (H : udefrag_internals)
    (P : List winx_volume_region × List winx_file_disposition × Nat × ω → Prop)
    (hE : externals_keep E P) :
    ∀ (fuel : Nat) (jp jp1 : udefrag_job_parameters ω) (min_lcn lcn : Nat),
      P (tracked_layout jp) →
      (move_files_to_back_loop E H fuel jp min_lcn).2 = .ok (lcn, jp1) →
      P (tracked_layout jp1) := by
  intro fuel
  induction fuel with
  | zero =>
    intro jp jp1 min_lcn lcn _ h
    simp [move_files_to_back_loop] at h
  | succ fuel ih =>
    intro jp jp1 min_lcn lcn hP
    unfold move_files_to_back_loop
    have hstop := hE.1 jp hP
    generalize E.termination_router jp = stop at hstop
    obtain ⟨t, jp2⟩ := stop
    dsimp only
    by_cases h1 : t ≠ 0
    · rw [if_pos h1]
      intro h
      simp only [Except.ok.injEq, Prod.mk.injEq] at h
      obtain ⟨-, rfl⟩ := h
      exact hstop
    rw [if_neg h1]
    have hfound := hE.2.2.2.1 jp2 min_lcn H.SKIP_PARTIALLY_MOVABLE_FILES hstop
    generalize E.find_first_block jp2 min_lcn H.SKIP_PARTIALLY_MOVABLE_FILES = found
      at hfound
    obtain ⟨ref, min_lcn2, jp3⟩ := found
    dsimp only at hfound ⊢
    cases ref with
    | none =>
      dsimp only
      intro h
      simp only [Except.ok.injEq, Prod.mk.injEq] at h
      obtain ⟨-, rfl⟩ := h
      exact hfound
    | some ref =>
      dsimp only
      cases block_at jp3 ref with
      | error fault =>
        dsimp only
        intro h
        simp at h
      | ok fb =>
        obtain ⟨first_file, first_block⟩ := fb
        dsimp only
        by_cases h2 : is_block_quite_small E H jp3 first_file first_block ≠ 0
        · rw [if_pos h2]
          cases hclean : cleanup_space E jp3 (some ref.file) (some first_block)
              first_block.length 0
              (sub64 (wrap64 (first_block.lcn + first_block.length)) 1) with
          | error e =>
            dsimp only
            intro h
            simp at h
          | ok r =>
            obtain ⟨result, jp4, its⟩ := r
            have hclean2 := cleanup_space_keeps E P hE jp3 jp4 _ _ _ _ _ result its hfound
              hclean
            dsimp only
            have hjp5 : P (tracked_layout (if result = 0 then
                { jp4 with pi := { jp4.pi with
                    total_moves := wrap64 (jp4.pi.total_moves + 1) } }
                else jp4)) := by
              split_ifs
              · exact hclean2
              · exact hclean2
            generalize (if result = 0 then
                { jp4 with pi := { jp4.pi with
                    total_moves := wrap64 (jp4.pi.total_moves + 1) } }
                else jp4) = jp5 at hjp5
            by_cases h3 : result = -1
            · rw [if_pos h3]
              intro h
              simp only [Except.ok.injEq, Prod.mk.injEq] at h
              obtain ⟨-, rfl⟩ := h
              exact hjp5
            · rw [if_neg h3]
              intro h
              exact ih jp5 jp1 min_lcn2 lcn hjp5 h
        · rw [if_neg h2]
          intro h
          exact ih jp3 jp1 min_lcn2 lcn hfound h

theorem move_files_to_back_keeps {ω : Type} (E : Externals ω) (H : udefrag_internals)
    (P : List winx_volume_region × List winx_file_disposition × Nat × ω → Prop)
    (hE : externals_keep E P) (fuel : Nat) (jp jp1 : udefrag_job_parameters ω)
    (start_lcn lcn : Nat) (hP : P (tracked_layout jp))
    (h : (move_files_to_back E H fuel jp start_lcn).2 = .ok (lcn, jp1)) :
    P (tracked_layout jp1) := by
  unfold move_files_to_back at h
  exact move_files_to_back_loop_keeps E H P hE fuel _ jp1 start_lcn lcn
    (hE.2.1 { jp with pi := { jp.pi with moved_clusters := 0 } } hP) h

theorem move_files_to_front_loop_keeps {ω : Type} (E : Externals ω)
    (H : udefrag_internals) (P : List winx_volume_region × List winx_file_disposition × Nat × ω → Prop)
    (hE : externals_keep E P) (end_lcn : Nat) :
    ∀ (t : List Nat) (jp : udefrag_job_parameters ω) (start_lcn skipped_files : Nat)
      (jp1 : udefrag_job_parameters ω) (s1 : Nat) (log : List front_visit),
      P (tracked_layout jp) →
      move_files_to_front_loop E H end_lcn t jp start_lcn skipped_files =
        .ok (jp1, s1, log) →
      P (tracked_layout jp1) := by
  intro t
  induction t with
  | nil =>
    intro jp start_lcn skipped_files jp1 s1 log hP h
    simp [move_files_to_front_loop] at h
    obtain ⟨rfl, -, -⟩ := h
    exact hP
  | cons file rest ih =>
    intro jp start_lcn skipped_files jp1 s1 log hP h
    unfold move_files_to_front_loop at h
    simp only [bind, Except.bind, pure, Except.pure] at h
    split at h
    · simp at h
    · rename_i f hf
      split at h
      · split at h
        · -- no fitting region
          split at h
          · split at h
            · simp at h
            · rename_i r hrec
              simp at h
              obtain ⟨rfl, -, -⟩ := h
              exact ih _ _ _ r.1 r.2.1 r.2.2 hP hrec
          · split at h
            · split at h
              · simp at h
              · rename_i r hrec
                simp at h
                obtain ⟨rfl, -, -⟩ := h
                exact ih _ _ _ r.1 r.2.1 r.2.2 hP hrec
            · split at h
              · simp at h
              · rename_i jp2 hset
                simp at h
                obtain ⟨rfl, -, -⟩ := h
                rw [tracked_layout_set_file_flag _ _ _ _ hset]
                exact hP
        · -- move the file
          split at h
          · simp at h
          · rename_i vcn hvcn
            split at h
            · simp at h
            · split at h
              · simp at h
              · rename_i jp2 hset
                split at h
                · simp at h
                · rename_i r hrec
                  simp at h
                  obtain ⟨rfl, -, -⟩ := h
                  refine ih _ _ _ r.1 r.2.1 r.2.2 ?_ hrec
                  rw [tracked_layout_set_file_flag _ _ _ _ hset]
                  split_ifs
                  · exact hE.2.2.2.2 file _ f.disp.clusters _ jp hP
                  · exact hE.2.2.2.2 file _ f.disp.clusters _ jp hP
      · split at h
        · simp at h
        · rename_i r hrec
          simp at h
          obtain ⟨rfl, -, -⟩ := h
          exact ih _ _ _ r.1 r.2.1 r.2.2 hP hrec

theorem move_files_to_front_keeps {ω : Type} (E : Externals ω) (H : udefrag_internals)
    (P : List winx_volume_region × List winx_file_disposition × Nat × ω → Prop)
    (hE : externals_keep E P) (jp jp1 : udefrag_job_parameters ω)
    (start_lcn end_lcn s1 : Nat) (t : List Nat) (log : List front_visit)
    (hP : P (tracked_layout jp))
    (h : move_files_to_front E H jp start_lcn end_lcn t = .ok (jp1, s1, log)) :
    P (tracked_layout jp1) := by
  unfold move_files_to_front at h
  exact move_files_to_front_loop_keeps E H P hE end_lcn t _ start_lcn 0 jp1 s1 log
    (hE.2.1 { jp with pi := { jp.pi with moved_clusters := 0 } } hP) h

theorem optimize_file_inner_step_keeps {ω : Type} (E : Externals ω)
    (H : udefrag_internals) (P : List winx_volume_region × List winx_file_disposition × Nat × ω → Prop)
    (hE : externals_keep E P) (f first_cluster end_lcn : Nat) (st : optimize_state ω)
    (ctc : Nat) (bcu : Bool) (tr : Option winx_volume_region)
    (hP : P (tracked_layout st.jp)) (evs : List optimize_event) (res : inner_step ω) :
    optimize_file_inner_step E H f first_cluster end_lcn st ctc bcu tr = (evs, .ok res) →
      P (tracked_layout (inner_step_state res).jp) := by
  unfold optimize_file_inner_step
  by_cases h0 : ctc = 0
  · rw [if_pos h0]
    intro h
    simp only [Prod.mk.injEq, Except.ok.injEq] at h
    obtain ⟨-, rfl⟩ := h
    exact hP
  rw [if_neg h0]
  have hstop := hE.1 st.jp hP
  generalize E.termination_router st.jp = stop at hstop
  obtain ⟨t, jp1⟩ := stop
  dsimp only at hstop ⊢
  by_cases h1 : t ≠ 0
  · rw [if_pos h1]
    intro h
    simp only [Prod.mk.injEq, Except.ok.injEq] at h
    obtain ⟨-, rfl⟩ := h
    exact hstop
  rw [if_neg h1]
  have hfound := hE.2.2.2.1 jp1 st.start_lcn 0 hstop
  generalize E.find_first_block jp1 st.start_lcn 0 = found at hfound
  obtain ⟨ref, min_lcn, jp2⟩ := found
  dsimp only at hfound ⊢
  cases ref with
  | none =>
    dsimp only
    intro h
    simp only [Prod.mk.injEq, Except.ok.injEq] at h
    obtain ⟨-, rfl⟩ := h
    exact hfound
  | some ref =>
    dsimp only
    cases block_at jp2 ref with
    | error fault =>
      dsimp only
      intro h
      simp at h
    | ok fb =>
      obtain ⟨first_file, first_block⟩ := fb
      dsimp only
      by_cases h2 : first_block.lcn ≥ end_lcn
      · rw [if_pos h2]
        intro h
        simp only [Prod.mk.injEq, Except.ok.injEq] at h
        obtain ⟨-, rfl⟩ := h
        exact hfound
      rw [if_neg h2]
      by_cases h3 : bcu = true ∧
          (first_block.lcn ≠ wrap64 (st.region.lcn + st.region.length) ∨ ref.file = f)
      · rw [if_pos h3]
        intro h
        simp only [Prod.mk.injEq, Except.ok.injEq] at h
        obtain ⟨-, rfl⟩ := h
        exact hfound
      rw [if_neg h3]
      by_cases h4 : ref.file = f ∧ first_block.vcn = st.start_vcn
      · rw [if_pos h4]
        cases first_file.disp.blockmap[ref.block + 1]? with
        | none =>
          dsimp only
          intro h
          simp only [Prod.mk.injEq, Except.ok.injEq] at h
          obtain ⟨-, rfl⟩ := h
          exact hfound
        | some next =>
          dsimp only
          by_cases h5 : st.clusters_to_process ≤ first_block.length
          · rw [if_pos h5]
            intro h
            simp only [Prod.mk.injEq, Except.ok.injEq] at h
            obtain ⟨-, rfl⟩ := h
            exact hfound
          · rw [if_neg h5]
            intro h
            simp only [Prod.mk.injEq, Except.ok.injEq] at h
            obtain ⟨-, rfl⟩ := h
            exact hfound
      rw [if_neg h4]
      cases hclean : cleanup_space E jp2 (some ref.file) (some first_block)
          (min ctc first_block.length) first_cluster
          (sub64 (wrap64 (first_block.lcn + first_block.length)) 1) with
      | error e =>
        dsimp only
        intro h
        simp at h
      | ok r =>
        obtain ⟨result, jp3, its⟩ := r
        have hclean2 := cleanup_space_keeps E P hE jp2 jp3 _ _ _ _ _ result its hfound hclean
        dsimp only
        by_cases h6 : result = -1
        · rw [if_pos h6]
          intro h
          simp only [Prod.mk.injEq, Except.ok.injEq] at h
          obtain ⟨-, rfl⟩ := h
          exact hclean2
        rw [if_neg h6]
        cases hflag : (if ref.file ≠ f then
            set_file_flag jp3 ref.file H.UD_FILE_FRAGMENTED_BY_FILE_OPT
          else Except.ok jp3) with
        | error fault =>
          dsimp only
          intro h
          simp at h
        | ok jp4 =>
          have hjp4 : P (tracked_layout jp4) := by
            split_ifs at hflag
            · rw [tracked_layout_set_file_flag _ _ _ _ hflag]
              exact hclean2
            · simp only [Except.ok.injEq] at hflag
              rw [← hflag]
              exact hclean2
          dsimp only
          by_cases h7 : result = -2
          · rw [if_pos h7]
            by_cases h8 : bcu = false
            · rw [if_pos h8]
              intro h
              simp only [Prod.mk.injEq, Except.ok.injEq] at h
              obtain ⟨-, rfl⟩ := h
              exact hjp4
            · rw [if_neg h8]
              intro h
              simp only [Prod.mk.injEq, Except.ok.injEq] at h
              obtain ⟨-, rfl⟩ := h
              exact hjp4
          · rw [if_neg h7]
            intro h
            simp only [Prod.mk.injEq, Except.ok.injEq] at h
            obtain ⟨-, rfl⟩ := h
            exact hjp4

theorem optimize_file_inner_keeps {ω : Type} (E : Externals ω)
    (H : udefrag_internals) (P : List winx_volume_region × List winx_file_disposition × Nat × ω → Prop)
    (hE : externals_keep E P) (f first_cluster end_lcn : Nat) :
    ∀ (fuel : Nat) (st : optimize_state ω) (ctc : Nat) (bcu : Bool)
      (tr : Option winx_volume_region) (how : inner_exit ω),
      P (tracked_layout st.jp) →
      (optimize_file_inner E H f first_cluster end_lcn fuel st ctc bcu tr).2 = .ok how →
      P (tracked_layout (inner_exit_state how).jp) := by
  intro fuel
  induction fuel with
  | zero =>
    intro st ctc bcu tr how _ h
    simp [optimize_file_inner] at h
  | succ fuel ih =>
    intro st ctc bcu tr how hP h
    rw [optimize_file_inner_succ] at h
    have hstep := optimize_file_inner_step_keeps E H P hE f first_cluster end_lcn st ctc
      bcu tr hP
    generalize optimize_file_inner_step E H f first_cluster end_lcn st ctc bcu tr = s
      at h hstep
    obtain ⟨sevs, sres⟩ := s
    cases sres with
    | error e => simp [optimize_file_inner_after] at h
    | ok res =>
      have hp := hstep sevs res rfl
      cases res with
      | leave how2 =>
        simp only [optimize_file_inner_after, Except.ok.injEq] at h
        subst h
        exact hp
      | next st2 ctc2 bcu2 tr2 =>
        simp only [optimize_file_inner_after] at h
        exact ih st2 ctc2 bcu2 tr2 how hp h

theorem optimize_file_outer_succ {ω : Type} (E : Externals ω) (H : udefrag_internals)
    (f first_cluster fuel : Nat) (st : optimize_state ω) :
    optimize_file_outer E H f first_cluster (fuel + 1) st =
      if st.clusters_to_process = 0 then ([], .ok st)
      else if (E.termination_router st.jp).1 ≠ 0 then
        ([], .ok { st with jp := (E.termination_router st.jp).2 })
      else if (E.release_temp_space_regions (E.termination_router st.jp).2).free_regions = []
        then ([], .ok { st with
          jp := E.release_temp_space_regions (E.termination_router st.jp).2 })
      else
        optimize_file_outer_after E H f first_cluster fuel
          (optimize_file_inner E H f first_cluster
            (optimize_file_end_lcn
              (first_region_after
                (E.release_temp_space_regions (E.termination_router st.jp).2).free_regions
                st.start_lcn)
              (E.release_temp_space_regions (E.termination_router st.jp).2))
            fuel
            (optimize_file_inner_entry st
              (E.release_temp_space_regions (E.termination_router st.jp).2))
            st.clusters_to_process false
            (first_region_after
              (E.release_temp_space_regions (E.termination_router st.jp).2).free_regions
              st.start_lcn)) := by
  rw [optimize_file_outer]
  by_cases h0 : st.clusters_to_process = 0
  · rw [if_pos h0, if_pos h0]
  rw [if_neg h0, if_neg h0]
  generalize E.termination_router st.jp = stop
  obtain ⟨t, jp1⟩ := stop
  dsimp only
  by_cases h1 : t ≠ 0
  · rw [if_pos h1, if_pos h1]
  rw [if_neg h1, if_neg h1]
  generalize E.release_temp_space_regions jp1 = jp2
  cases hfr : jp2.free_regions with
  | nil =>
    simp only [if_true]
  | cons r0 regions =>
    rw [if_neg (by simp)]
    rfl

theorem tracked_layout_set_file {ω : Type} (jp : udefrag_job_parameters ω)
    (f flag : Nat) (file : winx_file_info) (h : file_at jp f = .ok file) :
    tracked_layout { jp with filelist := jp.filelist.set f (clear_user_flag flag file) } =
      tracked_layout jp := by
  unfold file_at at h
  split at h
  · simp at h
  · rename_i g hg
    simp only [Except.ok.injEq] at h
    subst h
    simp only [tracked_layout]
    rw [map_disp_set jp.filelist f g (clear_user_flag flag g) hg rfl]

theorem optimize_file_move_keeps {ω : Type} (E : Externals ω)
    (H : udefrag_internals) (P : List winx_volume_region × List winx_file_disposition × Nat × ω → Prop)
    (hE : externals_keep E P) (f first_cluster fuel : Nat)
    (ih : ∀ (st st1 : optimize_state ω), P (tracked_layout st.jp) →
      (optimize_file_outer E H f first_cluster fuel st).2 = .ok st1 →
      P (tracked_layout st1.jp))
    (st st1 : optimize_state ω) (target_rgn : winx_volume_region)
    (evs : List optimize_event) (hP : P (tracked_layout st.jp)) :
    (optimize_file_move E H f first_cluster fuel st target_rgn evs).2 = .ok st1 →
      P (tracked_layout st1.jp) := by
  unfold optimize_file_move
  cases hfile : file_at st.jp f with
  | error fault =>
    dsimp only
    intro h
    simp at h
  | ok file =>
    dsimp only
    have hmove := hE.2.2.2.2 f st.start_vcn
      (min st.clusters_to_process target_rgn.length) target_rgn.lcn st.jp hP
    generalize E.move_file f st.start_vcn
      (min st.clusters_to_process target_rgn.length) target_rgn.lcn st.jp = moved
      at hmove
    obtain ⟨status, jp3⟩ := moved
    dsimp only at hmove ⊢
    by_cases h2 : status < 0
    · rw [if_pos h2]
      by_cases h3 : jp3.last_move_status ≠ H.STATUS_ALREADY_COMMITTED
      · rw [if_pos h3]
        intro h
        simp only [Except.ok.injEq] at h
        subst h
        exact hmove
      · rw [if_neg h3]
        cases hfile2 : file_at jp3 f with
        | error fault =>
          dsimp only
          intro h
          simp at h
        | ok file2 =>
          dsimp only
          intro h
          refine ih _ st1 ?_ h
          dsimp only
          rw [tracked_layout_set_file jp3 f _ file2 hfile2]
          exact hmove
    · rw [if_neg h2]
      by_cases h4 : advance_vcn file st.start_vcn
          (min st.clusters_to_process target_rgn.length) = 0
      · rw [if_pos h4]
        intro h
        simp only [Except.ok.injEq] at h
        subst h
        exact hmove
      · rw [if_neg h4]
        intro h
        exact ih _ st1 hmove h

theorem optimize_file_outer_keeps {ω : Type} (E : Externals ω)
    (H : udefrag_internals) (P : List winx_volume_region × List winx_file_disposition × Nat × ω → Prop)
    (hE : externals_keep E P) (f first_cluster : Nat) :
    ∀ (fuel : Nat) (st st1 : optimize_state ω),
      P (tracked_layout st.jp) →
      (optimize_file_outer E H f first_cluster fuel st).2 = .ok st1 →
      P (tracked_layout st1.jp) := by
  intro fuel
  induction fuel with
  | zero =>
    intro st st1 _ h
    simp [optimize_file_outer] at h
  | succ fuel ih =>
    intro st st1 hP
    rw [optimize_file_outer_succ]
    by_cases h0 : st.clusters_to_process = 0
    · rw [if_pos h0]
      intro h
      simp only [Except.ok.injEq] at h
      subst h
      exact hP
    rw [if_neg h0]
    have hstop := hE.1 st.jp hP
    by_cases h1 : (E.termination_router st.jp).1 ≠ 0
    · rw [if_pos h1]
      intro h
      simp only [Except.ok.injEq] at h
      subst h
      exact hstop
    rw [if_neg h1]
    have hrel := hE.2.1 _ hstop
    by_cases h2 : (E.release_temp_space_regions (E.termination_router st.jp).2).free_regions
        = []
    · rw [if_pos h2]
      intro h
      simp only [Except.ok.injEq] at h
      subst h
      exact hrel
    rw [if_neg h2]
    have hinner := optimize_file_inner_keeps E H P hE f first_cluster
      (optimize_file_end_lcn
        (first_region_after
          (E.release_temp_space_regions (E.termination_router st.jp).2).free_regions
          st.start_lcn)
        (E.release_temp_space_regions (E.termination_router st.jp).2))
      fuel
      (optimize_file_inner_entry st
        (E.release_temp_space_regions (E.termination_router st.jp).2))
      st.clusters_to_process false
      (first_region_after
        (E.release_temp_space_regions (E.termination_router st.jp).2).free_regions
        st.start_lcn)
    generalize optimize_file_inner E H f first_cluster
      (optimize_file_end_lcn
        (first_region_after
          (E.release_temp_space_regions (E.termination_router st.jp).2).free_regions
          st.start_lcn)
        (E.release_temp_space_regions (E.termination_router st.jp).2))
      fuel
      (optimize_file_inner_entry st
        (E.release_temp_space_regions (E.termination_router st.jp).2))
      st.clusters_to_process false
      (first_region_after
        (E.release_temp_space_regions (E.termination_router st.jp).2).free_regions
        st.start_lcn) = inner at hinner ⊢
    obtain ⟨ievs, ires⟩ := inner
    unfold optimize_file_outer_after
    cases ires with
    | error e =>
      dsimp only
      intro h
      simp at h
    | ok how =>
      have hhow := hinner how hrel rfl
      cases how with
      | done st2 =>
        dsimp only
        intro h
        simp only [Except.ok.injEq] at h
        subst h
        exact hhow
      | try_again st2 =>
        dsimp only
        intro h
        exact ih st2 st1 hhow h
      | move_the_file st2 tr2 =>
        cases tr2 with
        | none =>
          dsimp only
          intro h
          simp only [Except.ok.injEq] at h
          subst h
          exact hhow
        | some target_rgn =>
          dsimp only
          exact optimize_file_move_keeps E H P hE f first_cluster fuel ih st2 st1
            target_rgn ievs hhow

theorem is_file_locked_keeps {ω : Type} (E : Externals ω)
    (H : udefrag_internals) (P : List winx_volume_region × List winx_file_disposition × Nat × ω → Prop)
    (hE : externals_keep E P) (f : Nat) (jp jp1 : udefrag_job_parameters ω) (locked : Int)
    (hP : P (tracked_layout jp)) (h : is_file_locked E H f jp = .ok (locked, jp1)) :
    P (tracked_layout jp1) := by
  unfold is_file_locked at h
  simp only [bind, Except.bind, pure, Except.pure] at h
  split at h
  · simp at h
  · split_ifs at h
    · simp only [Except.ok.injEq, Prod.mk.injEq] at h
      rw [← h.2]
      exact hP
    · simp only [Except.ok.injEq, Prod.mk.injEq] at h
      rw [← h.2]
      exact hP
    · split at h
      · simp at h
      · rename_i jp2 hset
        simp only [Except.ok.injEq, Prod.mk.injEq] at h
        rw [← h.2, tracked_layout_set_file_flag _ _ _ _ hset]
        exact hE.2.2.1 f jp hP
    · split at h
      · simp at h
      · rename_i jp2 hset
        simp only [Except.ok.injEq, Prod.mk.injEq] at h
        rw [← h.2, tracked_layout_set_file_flag _ _ _ _ hset]
        exact hE.2.2.1 f jp hP

theorem optimize_file_keeps {ω : Type} (E : Externals ω)
    (H : udefrag_internals) (P : List winx_volume_region × List winx_file_disposition × Nat × ω → Prop)
    (hE : externals_keep E P) (fuel f : Nat) (jp jp1 : udefrag_job_parameters ω)
    (code : Int) (hP : P (tracked_layout jp)) :
    (optimize_file E H fuel f jp).2 = .ok (code, jp1) → P (tracked_layout jp1) := by
  unfold optimize_file
  cases file_at jp f with
  | error fault =>
    dsimp only
    intro h
    simp at h
  | ok file =>
    dsimp only
    by_cases h0 : ¬ H.can_move file jp.is_fat = true ∨ ¬ H.is_fragmented file = true
    · rw [if_pos h0]
      intro h
      simp only [Except.ok.injEq, Prod.mk.injEq] at h
      rw [← h.2]
      exact hP
    rw [if_neg h0]
    cases hlock : is_file_locked E H f jp with
    | error fault =>
      dsimp only
      intro h
      simp at h
    | ok r =>
      obtain ⟨locked, jp2⟩ := r
      have hjp2 := is_file_locked_keeps E H P hE f jp jp2 locked hP hlock
      dsimp only
      by_cases h1 : locked ≠ 0
      · rw [if_pos h1]
        intro h
        simp only [Except.ok.injEq, Prod.mk.injEq] at h
        rw [← h.2]
        exact hjp2
      rw [if_neg h1]
      cases file_at jp2 f with
      | error fault =>
        dsimp only
        intro h
        simp at h
      | ok file2 =>
        dsimp only
        cases file2.disp.blockmap with
        | nil =>
          dsimp only
          intro h
          simp at h
        | cons first rest =>
          dsimp only
          by_cases h2 : sub64 file2.disp.clusters first.length = 0
          · rw [if_pos h2]
            intro h
            simp only [Except.ok.injEq, Prod.mk.injEq] at h
            rw [← h.2]
            exact hjp2
          rw [if_neg h2]
          have houter := optimize_file_outer_keeps E H P hE f first.lcn fuel
            ⟨jp2, sub64 file2.disp.clusters first.length,
              (match rest with
                | [] => first.vcn
                | next :: _ => next.vcn),
              wrap64 (first.lcn + first.length), ⟨0, 0⟩⟩
          cases rest with
          | nil =>
            dsimp only at houter ⊢
            generalize optimize_file_outer E H f first.lcn fuel
              ⟨jp2, sub64 file2.disp.clusters first.length, first.vcn,
                wrap64 (first.lcn + first.length), ⟨0, 0⟩⟩ = r at houter ⊢
            obtain ⟨evs, res⟩ := r
            cases res with
            | error e =>
              dsimp only
              intro h
              simp at h
            | ok st =>
              dsimp only
              intro h
              simp only [Except.ok.injEq] at h
              have hst := houter st hjp2 rfl
              unfold optimize_file_done at h
              dsimp only at h
              split_ifs at h
              · simp only [Prod.mk.injEq] at h
                rw [← h.2]
                exact hE.1 _ hst
              · simp only [Prod.mk.injEq] at h
                rw [← h.2]
                exact hE.1 _ hst
              · simp only [Prod.mk.injEq] at h
                rw [← h.2]
                exact hE.1 _ hst
          | cons next rest2 =>
            dsimp only at houter ⊢
            generalize optimize_file_outer E H f first.lcn fuel
              ⟨jp2, sub64 file2.disp.clusters first.length, next.vcn,
                wrap64 (first.lcn + first.length), ⟨0, 0⟩⟩ = r at houter ⊢
            obtain ⟨evs, res⟩ := r
            cases res with
            | error e =>
              dsimp only
              intro h
              simp at h
            | ok st =>
              dsimp only
              intro h
              simp only [Except.ok.injEq] at h
              have hst := houter st hjp2 rfl
              unfold optimize_file_done at h
              dsimp only at h
              split_ifs at h
              · simp only [Prod.mk.injEq] at h
                rw [← h.2]
                exact hE.1 _ hst
              · simp only [Prod.mk.injEq] at h
                rw [← h.2]
                exact hE.1 _ hst
              · simp only [Prod.mk.injEq] at h
                rw [← h.2]
                exact hE.1 _ hst

theorem spec_sub_volume_region_sum (lcn length : Nat) :
    ∀ (regions : List winx_volume_region), spec_is_free regions lcn length = true →
      ((spec_sub_volume_region regions lcn length).map (fun r => r.length)).sum + length =
        (regions.map (fun r => r.length)).sum := by
  intro regions
  induction regions with
  | nil =>
    intro h
    simp [spec_is_free] at h
  | cons r rest ih =>
    intro h
    unfold spec_sub_volume_region
    by_cases hr : r.lcn ≤ lcn ∧ lcn + length ≤ r.lcn + r.length
    · rw [if_pos hr]
      simp only [List.map_append, List.sum_append, List.map_cons, List.sum_cons]
      split_ifs <;> simp <;> omega
    · rw [if_neg hr]
      have hrest : spec_is_free rest lcn length = true := by
        simp only [spec_is_free, List.any_cons, Bool.or_eq_true, decide_eq_true_eq] at h
        rcases h with h | h
        · exact absurd h hr
        · simpa [spec_is_free] using h
      simp only [List.map_cons, List.sum_cons]
      have := ih hrest
      omega

theorem spec_add_volume_region_sum (x : winx_volume_region) :
    ∀ (regions : List winx_volume_region),
      ((spec_add_volume_region regions x).map (fun r => r.length)).sum =
        (regions.map (fun r => r.length)).sum + x.length := by
  intro regions
  induction regions with
  | nil => simp [spec_add_volume_region]
  | cons r rest ih =>
    unfold spec_add_volume_region
    split_ifs
    · simp only [List.map_cons, List.sum_cons]
      omega
    · simp only [List.map_cons, List.sum_cons, ih]
      omega

theorem spec_add_volume_regions_sum :
    ∀ (temp regions : List winx_volume_region),
      ((temp.foldl spec_add_volume_region regions).map (fun r => r.length)).sum =
        (regions.map (fun r => r.length)).sum + (temp.map (fun r => r.length)).sum := by
  intro temp
  induction temp with
  | nil => intro regions; simp
  | cons x rest ih =>
    intro regions
    simp only [List.foldl_cons, ih, spec_add_volume_region_sum, List.map_cons, List.sum_cons]
    omega

theorem spec_move_file_keeps_balance (H : udefrag_internals) (locked : List Nat)
    (f vcn length target : Nat) (jp : udefrag_job_parameters (List winx_volume_region))
    (hP : balance_with_temporary_space (tracked_layout jp)) :
    balance_with_temporary_space
      (tracked_layout (spec_move_file H locked f vcn length target jp).2) := by
  unfold spec_move_file
  cases hf : jp.filelist[f]? with
  | none => exact hP
  | some file =>
    dsimp only
    by_cases hz : length = 0
    · rw [if_pos hz]
      exact hP
    rw [if_neg hz]
    by_cases h1 : f ∈ locked
    · rw [if_pos h1]
      exact hP
    rw [if_neg h1]
    by_cases h2 : spec_is_free jp.free_regions target length = false
    · rw [if_pos h2]
      exact hP
    rw [if_neg h2]
    by_cases h3 : ((file.disp.blockmap.flatMap
        (fun b => spec_block_vacated b vcn length)).map (fun r => r.length)).sum ≠ length
    · rw [if_pos h3]
      exact hP
    rw [if_neg h3]
    have h3eq := not_not.mp h3
    have hfree := spec_sub_volume_region_sum target length jp.free_regions
      (by simpa using h2)
    unfold balance_with_temporary_space tracked_layout at hP ⊢
    dsimp only at hP ⊢
    simp only [List.map_map] at hP ⊢
    have hset : ∀ g : winx_file_info, g.disp.clusters = file.disp.clusters →
        (jp.filelist.set f g).map ((fun d => d.clusters) ∘ fun f => f.disp) =
          jp.filelist.map ((fun d => d.clusters) ∘ fun f => f.disp) :=
      fun g hg => map_clusters_set jp.filelist f file g hf hg
    rw [hset _ (by rfl)]
    simp only [List.map_append, List.sum_append, h3eq]
    omega

theorem spec_release_keeps_balance (jp : udefrag_job_parameters (List winx_volume_region))
    (hP : balance_with_temporary_space (tracked_layout jp)) :
    balance_with_temporary_space (tracked_layout (spec_release_temp_space_regions jp)) ∧
    free_space_conservation (spec_release_temp_space_regions jp) := by
  unfold balance_with_temporary_space tracked_layout at hP ⊢
  unfold free_space_conservation free_clusters_sum allocated_clusters_sum
    spec_release_temp_space_regions
  dsimp only at hP ⊢
  simp only [List.map_map, Function.comp_def] at hP ⊢
  rw [spec_add_volume_regions_sum]
  simp only [List.map_nil, List.sum_nil]
  omega

theorem balance_iff_conservation (jp : udefrag_job_parameters (List winx_volume_region)) :
    balance_with_temporary_space (tracked_layout jp) ↔
      conservation_with_temporary_space jp := by
  unfold balance_with_temporary_space tracked_layout conservation_with_temporary_space
    free_clusters_sum temporary_clusters_sum allocated_clusters_sum
  simp only [List.map_map, Function.comp_def]

theorem spec_externals_keep_balance (H : udefrag_internals) (locked : List Nat) :
    externals_keep (spec_externals H locked) balance_with_temporary_space := by
  refine ⟨fun jp hP => hP, fun jp hP => (spec_release_keeps_balance jp hP).1,
    fun f jp hP => hP, ?_, fun f vcn length target jp hP =>
      spec_move_file_keeps_balance H locked f vcn length target jp hP⟩
  intro jp min_lcn flags hP
  show balance_with_temporary_space (tracked_layout (spec_find_first_block jp min_lcn).2.2)
  unfold spec_find_first_block
  split
  · exact hP
  · exact hP

/-- C14 (amended): with the move primitive and the release of the temporary
space as the specification describes them, the free region lengths, the
clusters of the temporary space (vacated by moves and not yet released) and
the clusters allocated to the files add up to `total_clusters` after every
move, after every release, and at the return of `cleanup_space`,
`optimize_file`, `move_files_to_back` and `move_files_to_front`, whenever
they did before; the free region lengths and the allocated clusters alone
add up to `total_clusters` once `release_temp_space_regions` has re-admitted
the temporary space. -/
theorem conservation_with_temporary_space_kept (H : udefrag_internals) (locked : List Nat) :
    (∀ (f vcn length target : Nat) (jp : udefrag_job_parameters (List winx_volume_region)),
      conservation_with_temporary_space jp →
      conservation_with_temporary_space (spec_move_file H locked f vcn length target jp).2) ∧
    (∀ (jp : udefrag_job_parameters (List winx_volume_region)),
      conservation_with_temporary_space jp →
      conservation_with_temporary_space (spec_release_temp_space_regions jp) ∧
      free_space_conservation (spec_release_temp_space_regions jp)) ∧
    (∀ (jp jp1 : udefrag_job_parameters (List winx_volume_region)) (file : Option Nat)
      (block : Option winx_blockmap) (c s e : Nat) (code : Int)
      (its : List cleanup_iteration),
      conservation_with_temporary_space jp →
      cleanup_space (spec_externals H locked) jp file block c s e = .ok (code, jp1, its) →
      conservation_with_temporary_space jp1) ∧
    (∀ (fuel f : Nat) (jp jp1 : udefrag_job_parameters (List winx_volume_region))
      (code : Int),
      conservation_with_temporary_space jp →
      (optimize_file (spec_externals H locked) H fuel f jp).2 = .ok (code, jp1) →
      conservation_with_temporary_space jp1) ∧
    (∀ (fuel : Nat) (jp jp1 : udefrag_job_parameters (List winx_volume_region))
      (start_lcn lcn : Nat),
      conservation_with_temporary_space jp →
      (move_files_to_back (spec_externals H locked) H fuel jp start_lcn).2 =
        .ok (lcn, jp1) →
      conservation_with_temporary_space jp1) ∧
    (∀ (jp jp1 : udefrag_job_parameters (List winx_volume_region))
      (start_lcn end_lcn s1 : Nat) (t : List Nat) (log : List front_visit),
      conservation_with_temporary_space jp →
      move_files_to_front (spec_externals H locked) H jp start_lcn end_lcn t =
        .ok (jp1, s1, log) →
      conservation_with_temporary_space jp1) := by
  have hE := spec_externals_keep_balance H locked
  refine ⟨?_, ?_, ?_, ?_, ?_, ?_⟩
  · intro f vcn length target jp hP
    exact (balance_iff_conservation _).mp (spec_move_file_keeps_balance H locked f vcn
      length target jp ((balance_iff_conservation _).mpr hP))
  · intro jp hP
    have h := spec_release_keeps_balance jp ((balance_iff_conservation _).mpr hP)
    exact ⟨(balance_iff_conservation _).mp h.1, h.2⟩
  · intro jp jp1 file block c s e code its hP h
    exact (balance_iff_conservation _).mp (cleanup_space_keeps _ _ hE jp jp1 file block c s
      e code its ((balance_iff_conservation _).mpr hP) h)
  · intro fuel f jp jp1 code hP h
    exact (balance_iff_conservation _).mp (optimize_file_keeps _ H _ hE fuel f jp jp1 code
      ((balance_iff_conservation _).mpr hP) h)
  · intro fuel jp jp1 start_lcn lcn hP h
    exact (balance_iff_conservation _).mp (move_files_to_back_keeps _ H _ hE fuel jp jp1
      start_lcn lcn ((balance_iff_conservation _).mpr hP) h)
  · intro jp jp1 start_lcn end_lcn s1 t log hP h
    exact (balance_iff_conservation _).mp (move_files_to_front_keeps _ H _ hE jp jp1
      start_lcn end_lcn s1 t log ((balance_iff_conservation _).mpr hP) h)

theorem conservation_with_temporary_space_kept_witness :
    conservation_with_temporary_space (spec_release_temp_space_regions
      (spec_move_file sample_internals [] 1 0 6 30 sample_job_full_volume).2) ∧
    free_space_conservation (spec_release_temp_space_regions
      (spec_move_file sample_internals [] 1 0 6 30 sample_job_full_volume).2) :=
  (conservation_with_temporary_space_kept sample_internals []).2.1
    (spec_move_file sample_internals [] 1 0 6 30 sample_job_full_volume).2 (by decide)

theorem optimize_file_inner_step_progress {ω : Type} (E : Externals ω)
    (H : udefrag_internals)
    (P : List winx_volume_region × List winx_file_disposition × Nat × ω → Prop)
    (hK : externals_keep E P) (B : Nat) (hB : B < U64_MOD)
    (hE : externals_in_volume E P B)
    (f first_cluster end_lcn s0 ctp0 : Nat) (tr0 : Option winx_volume_region)
    (st : optimize_state ω) (ctc : Nat) (bcu : Bool) (tr : Option winx_volume_region)
    (hP : P (tracked_layout st.jp))
    (hprog : inner_progress B s0 ctp0 tr0 st ctc bcu tr) (evs : List optimize_event)
    (res : inner_step ω) :
    optimize_file_inner_step E H f first_cluster end_lcn st ctc bcu tr = (evs, .ok res) →
      inner_step_progress B s0 ctp0 tr0 st res := by
  intro hstep
  obtain ⟨hinv, hpos, hle, hs0, hsB, htr0, hreg⟩ := hprog
  have hpost := optimize_file_inner_step_post E H f first_cluster end_lcn st ctc bcu tr
    hinv evs res hstep
  have hnext : ∀ st1 ctc1 bcu1 tr1, res = .next st1 ctc1 bcu1 tr1 →
      cleanup_invariant st1 ctc1 bcu1 tr1 := by
    intro st1 ctc1 bcu1 tr1 hres
    rw [hres] at hpost
    exact cleanup_invariant_next st st1 ctc ctc1 bcu bcu1 tr tr1 hinv hpost
  obtain ⟨hctp, hrel⟩ := hinv
  -- the target region when the loop is left for `move_the_file`
  have hleave : ∀ jp : udefrag_job_parameters ω, inner_exit_post B s0 ctp0 tr0
      (inner_exit.move_the_file { st with jp := jp } tr) := by
    intro jp
    refine ⟨hpos, hle, ?_⟩
    cases bcu with
    | false => exact Or.inl (htr0 rfl)
    | true =>
      simp only [if_true] at hrel
      obtain ⟨h1, h2, h3⟩ := hreg rfl
      refine Or.inr ⟨hrel.2, h2, ?_, h1, ?_⟩
      · show st.region.length ≤ st.clusters_to_process
        omega
      · show st.region.lcn + st.region.length ≤ B
        omega
  revert hstep
  unfold optimize_file_inner_step
  by_cases h0 : ctc = 0
  · rw [if_pos h0]
    intro h
    simp only [Prod.mk.injEq, Except.ok.injEq] at h
    obtain ⟨-, rfl⟩ := h
    exact hleave st.jp
  rw [if_neg h0]
  have hstop := hK.1 st.jp hP
  generalize E.termination_router st.jp = stop at hstop
  obtain ⟨t, jp1⟩ := stop
  dsimp only at hstop ⊢
  by_cases h1 : t ≠ 0
  · rw [if_pos h1]
    intro h
    simp only [Prod.mk.injEq, Except.ok.injEq] at h
    obtain ⟨-, rfl⟩ := h
    exact trivial
  rw [if_neg h1]
  have hvol := fun ref fb => hE.1 jp1 st.start_lcn 0 ref fb hstop
  generalize E.find_first_block jp1 st.start_lcn 0 = found at hvol
  obtain ⟨ref, min_lcn, jp2⟩ := found
  dsimp only at hvol ⊢
  cases ref with
  | none =>
    dsimp only
    intro h
    simp only [Prod.mk.injEq, Except.ok.injEq] at h
    obtain ⟨-, rfl⟩ := h
    exact hleave jp2
  | some ref =>
    dsimp only
    cases hblock : block_at jp2 ref with
    | error fault =>
      dsimp only
      intro h
      simp at h
    | ok fb =>
      obtain ⟨first_file, first_block⟩ := fb
      obtain ⟨hb1, hb2, hb3⟩ := hvol ref (first_file, first_block) rfl hblock
      dsimp only at hb1 hb2 hb3 ⊢
      by_cases h2 : first_block.lcn ≥ end_lcn
      · rw [if_pos h2]
        intro h
        simp only [Prod.mk.injEq, Except.ok.injEq] at h
        obtain ⟨-, rfl⟩ := h
        exact hleave jp2
      rw [if_neg h2]
      by_cases h3 : bcu = true ∧
          (first_block.lcn ≠ wrap64 (st.region.lcn + st.region.length) ∨ ref.file = f)
      · rw [if_pos h3]
        intro h
        simp only [Prod.mk.injEq, Except.ok.injEq] at h
        obtain ⟨-, rfl⟩ := h
        exact hleave jp2
      rw [if_neg h3]
      have hend : wrap64 (first_block.lcn + first_block.length) =
          first_block.lcn + first_block.length := wrap64_of_lt (by omega)
      by_cases h4 : ref.file = f ∧ first_block.vcn = st.start_vcn
      · rw [if_pos h4]
        have hbcu : bcu = false := by
          cases bcu
          · rfl
          · exact absurd ⟨rfl, Or.inr h4.1⟩ h3
        subst hbcu
        simp only [Bool.false_eq_true, if_false] at hrel
        cases first_file.disp.blockmap[ref.block + 1]? with
        | none =>
          dsimp only
          intro h
          simp only [Prod.mk.injEq, Except.ok.injEq] at h
          obtain ⟨-, rfl⟩ := h
          exact trivial
        | some next =>
          dsimp only
          by_cases h5 : st.clusters_to_process ≤ first_block.length
          · rw [if_pos h5]
            intro h
            simp only [Prod.mk.injEq, Except.ok.injEq] at h
            obtain ⟨-, rfl⟩ := h
            exact trivial
          · rw [if_neg h5]
            intro h
            simp only [Prod.mk.injEq, Except.ok.injEq] at h
            obtain ⟨-, rfl⟩ := h
            have hsub : sub64 st.clusters_to_process first_block.length =
                st.clusters_to_process - first_block.length :=
              sub64_of_le (by omega) hctp
            refine ⟨⟨hnext _ _ _ _ rfl, ?_, ?_, ?_, ?_, fun _ => htr0 rfl, ?_⟩, ?_⟩
            · show 0 < sub64 st.clusters_to_process first_block.length
              omega
            · show sub64 st.clusters_to_process first_block.length ≤ ctp0
              omega
            · show s0 ≤ wrap64 (first_block.lcn + first_block.length)
              omega
            · show wrap64 (first_block.lcn + first_block.length) ≤ B
              omega
            · intro hc
              exact absurd hc (by decide)
            · show st.start_lcn < wrap64 (first_block.lcn + first_block.length)
              omega
      rw [if_neg h4]
      cases cleanup_space E jp2 (some ref.file) (some first_block) (min ctc first_block.length)
          first_cluster (sub64 (wrap64 (first_block.lcn + first_block.length)) 1) with
      | error e =>
        dsimp only
        intro h
        simp at h
      | ok r =>
        obtain ⟨result, jp3, its⟩ := r
        dsimp only
        by_cases h6 : result = -1
        · rw [if_pos h6]
          intro h
          simp only [Prod.mk.injEq, Except.ok.injEq] at h
          obtain ⟨-, rfl⟩ := h
          exact trivial
        rw [if_neg h6]
        have hk1 : min ctc first_block.length ≤ ctc := Nat.min_le_left _ _
        have hk2 : min ctc first_block.length ≤ first_block.length := Nat.min_le_right _ _
        have hk3 : 0 < min ctc first_block.length := by
          rw [Nat.lt_min]
          exact ⟨by omega, hb2⟩
        cases (if ref.file ≠ f then
            set_file_flag jp3 ref.file H.UD_FILE_FRAGMENTED_BY_FILE_OPT
          else Except.ok jp3) with
        | error fault =>
          dsimp only
          intro h
          simp at h
        | ok jp4 =>
          dsimp only
          by_cases h7 : result = -2
          · rw [if_pos h7]
            by_cases h8 : bcu = false
            · rw [if_pos h8]
              intro h
              simp only [Prod.mk.injEq, Except.ok.injEq] at h
              obtain ⟨-, rfl⟩ := h
              have hw : wrap64 (first_block.lcn + min ctc first_block.length) =
                  first_block.lcn + min ctc first_block.length := wrap64_of_lt (by omega)
              refine ⟨hpos, hle, ?_, ?_⟩
              · show s0 < wrap64 (first_block.lcn + min ctc first_block.length)
                omega
              · show wrap64 (first_block.lcn + min ctc first_block.length) ≤ B
                omega
            · rw [if_neg h8]
              intro h
              simp only [Prod.mk.injEq, Except.ok.injEq] at h
              obtain ⟨-, rfl⟩ := h
              exact hleave jp4
          · rw [if_neg h7]
            intro h
            simp only [Prod.mk.injEq, Except.ok.injEq] at h
            obtain ⟨-, rfl⟩ := h
            have hinv1 := hnext _ _ _ _ rfl
            cases bcu with
            | false =>
              simp only [Bool.false_eq_true, if_false] at hrel
              have hw1 : wrap64 (st.region.length + min ctc first_block.length) =
                  min ctc first_block.length := by
                rw [hrel.2, Nat.zero_add]
                exact wrap64_of_lt (by omega)
              have hw2 : wrap64 (first_block.lcn + min ctc first_block.length) =
                  first_block.lcn + min ctc first_block.length := wrap64_of_lt (by omega)
              refine ⟨⟨hinv1, hpos, hle, ?_, ?_, fun hc => absurd hc (by decide),
                fun _ => ⟨?_, ?_, ?_⟩⟩, ?_⟩
              all_goals simp only [if_true, hw1, hw2]
              all_goals omega
            | true =>
              simp only [if_true] at hrel
              obtain ⟨hr1, hr2, hr3⟩ := hreg rfl
              have hlcn : first_block.lcn = st.start_lcn := by
                by_contra hne
                apply h3
                refine ⟨rfl, Or.inl ?_⟩
                rw [hr3, wrap64_of_lt (by omega)]
                exact hne
              have hw1 : wrap64 (st.region.length + min ctc first_block.length) =
                  st.region.length + min ctc first_block.length :=
                wrap64_of_lt (by omega)
              have hw2 : wrap64 (st.region.lcn +
                  (st.region.length + min ctc first_block.length)) =
                  st.region.lcn + (st.region.length + min ctc first_block.length) :=
                wrap64_of_lt (by omega)
              refine ⟨⟨hinv1, hpos, hle, ?_, ?_, fun hc => absurd hc (by decide),
                fun _ => ⟨?_, ?_, ?_⟩⟩, ?_⟩
              all_goals simp only [Bool.true_eq_false, if_false, hw1, hw2]
              all_goals omega

theorem optimize_file_inner_step_error {ω : Type} (E : Externals ω)
    (H : udefrag_internals) (f first_cluster end_lcn : Nat) (st : optimize_state ω)
    (ctc : Nat) (bcu : Bool) (tr : Option winx_volume_region) :
    (optimize_file_inner_step E H f first_cluster end_lcn st ctc bcu tr).2 ≠
      .error .out_of_fuel := by
  unfold optimize_file_inner_step
  by_cases h0 : ctc = 0
  · rw [if_pos h0]
    simp
  rw [if_neg h0]
  generalize E.termination_router st.jp = stop
  obtain ⟨t, jp1⟩ := stop
  dsimp only
  by_cases h1 : t ≠ 0
  · rw [if_pos h1]
    simp
  rw [if_neg h1]
  generalize E.find_first_block jp1 st.start_lcn 0 = found
  obtain ⟨ref, min_lcn, jp2⟩ := found
  dsimp only
  cases ref with
  | none => simp
  | some ref =>
    dsimp only
    cases block_at jp2 ref with
    | error fault => simp
    | ok fb =>
      obtain ⟨first_file, first_block⟩ := fb
      dsimp only
      by_cases h2 : first_block.lcn ≥ end_lcn
      · rw [if_pos h2]
        simp
      rw [if_neg h2]
      by_cases h3 : bcu = true ∧
          (first_block.lcn ≠ wrap64 (st.region.lcn + st.region.length) ∨ ref.file = f)
      · rw [if_pos h3]
        simp
      rw [if_neg h3]
      by_cases h4 : ref.file = f ∧ first_block.vcn = st.start_vcn
      · rw [if_pos h4]
        cases first_file.disp.blockmap[ref.block + 1]? with
        | none => simp
        | some next =>
          dsimp only
          by_cases h5 : st.clusters_to_process ≤ first_block.length
          · rw [if_pos h5]
            simp
          · rw [if_neg h5]
            simp
      rw [if_neg h4]
      obtain ⟨r, hr⟩ := cleanup_space_total E jp2 (some ref.file) (some first_block)
        (min ctc first_block.length) first_cluster
        (sub64 (wrap64 (first_block.lcn + first_block.length)) 1)
      rw [hr]
      obtain ⟨result, jp3, its⟩ := r
      dsimp only
      by_cases h6 : result = -1
      · rw [if_pos h6]
        simp
      rw [if_neg h6]
      cases (if ref.file ≠ f then
          set_file_flag jp3 ref.file H.UD_FILE_FRAGMENTED_BY_FILE_OPT
        else Except.ok jp3) with
      | error fault => simp
      | ok jp4 =>
        dsimp only
        by_cases h7 : result = -2
        · rw [if_pos h7]
          by_cases h8 : bcu = false
          · rw [if_pos h8]
            simp
          · rw [if_neg h8]
            simp
        · rw [if_neg h7]
          simp

theorem optimize_file_inner_terminates {ω : Type} (E : Externals ω)
    (H : udefrag_internals)
    (P : List winx_volume_region × List winx_file_disposition × Nat × ω → Prop)
    (hK : externals_keep E P) (B : Nat) (hB : B < U64_MOD)
    (hE : externals_in_volume E P B)
    (f first_cluster end_lcn s0 ctp0 : Nat) (tr0 : Option winx_volume_region) :
    ∀ (n fuel : Nat) (st : optimize_state ω) (ctc : Nat) (bcu : Bool)
      (tr : Option winx_volume_region),
      P (tracked_layout st.jp) →
      inner_progress B s0 ctp0 tr0 st ctc bcu tr →
      B - st.start_lcn ≤ n → n + 1 ≤ fuel →
      (optimize_file_inner E H f first_cluster end_lcn fuel st ctc bcu tr).2 ≠
          .error .out_of_fuel ∧
        ∀ how, (optimize_file_inner E H f first_cluster end_lcn fuel st ctc bcu tr).2 =
          .ok how → inner_exit_post B s0 ctp0 tr0 how := by
  intro n
  induction n with
  | zero =>
    intro fuel st ctc bcu tr hP hprog hn hfuel
    obtain ⟨fuel, rfl⟩ : ∃ k, fuel = k + 1 := ⟨fuel - 1, by omega⟩
    rw [optimize_file_inner_succ]
    have herr := optimize_file_inner_step_error E H f first_cluster end_lcn st ctc bcu tr
    have hstep := optimize_file_inner_step_progress E H P hK B hB hE f first_cluster
      end_lcn s0 ctp0 tr0 st ctc bcu tr hP hprog
    have hkeep := optimize_file_inner_step_keeps E H P hK f first_cluster end_lcn st ctc
      bcu tr hP
    generalize optimize_file_inner_step E H f first_cluster end_lcn st ctc bcu tr = s
      at herr hstep hkeep
    obtain ⟨sevs, sres⟩ := s
    cases sres with
    | error e =>
      simp only [optimize_file_inner_after]
      have he : e ≠ .out_of_fuel := fun he => herr (by rw [he])
      exact ⟨by simpa using he, fun how h => by simp at h⟩
    | ok res =>
      have hp := hstep sevs res rfl
      cases res with
      | leave how2 =>
        simp only [optimize_file_inner_after]
        refine ⟨by simp, fun how h => ?_⟩
        simp only [Except.ok.injEq] at h
        subst h
        exact hp
      | next st2 ctc2 bcu2 tr2 =>
        obtain ⟨hprog2, hlt⟩ := hp
        have := hprog2.2.2.2.2.1
        omega
  | succ n ih =>
    intro fuel st ctc bcu tr hP hprog hn hfuel
    obtain ⟨fuel, rfl⟩ : ∃ k, fuel = k + 1 := ⟨fuel - 1, by omega⟩
    rw [optimize_file_inner_succ]
    have herr := optimize_file_inner_step_error E H f first_cluster end_lcn st ctc bcu tr
    have hstep := optimize_file_inner_step_progress E H P hK B hB hE f first_cluster
      end_lcn s0 ctp0 tr0 st ctc bcu tr hP hprog
    have hkeep := optimize_file_inner_step_keeps E H P hK f first_cluster end_lcn st ctc
      bcu tr hP
    generalize optimize_file_inner_step E H f first_cluster end_lcn st ctc bcu tr = s
      at herr hstep hkeep
    obtain ⟨sevs, sres⟩ := s
    cases sres with
    | error e =>
      simp only [optimize_file_inner_after]
      have he : e ≠ .out_of_fuel := fun he => herr (by rw [he])
      exact ⟨by simpa using he, fun how h => by simp at h⟩
    | ok res =>
      have hp := hstep sevs res rfl
      cases res with
      | leave how2 =>
        simp only [optimize_file_inner_after]
        refine ⟨by simp, fun how h => ?_⟩
        simp only [Except.ok.injEq] at h
        subst h
        exact hp
      | next st2 ctc2 bcu2 tr2 =>
        obtain ⟨hprog2, hlt⟩ := hp
        have hB2 := hprog2.2.2.2.2.1
        simp only [optimize_file_inner_after]
        exact ih fuel st2 ctc2 bcu2 tr2 (hkeep sevs _ rfl) hprog2 (by omega) (by omega)

theorem optimize_file_move_terminates {ω : Type} (E : Externals ω)
    (H : udefrag_internals)
    (P : List winx_volume_region × List winx_file_disposition × Nat × ω → Prop)
    (hK : externals_keep E P) (B : Nat) (hB : B < U64_MOD) (f first_cluster fuel : Nat)
    (s0 ctp0 : Nat)
    (hrec : ∀ st1 : optimize_state ω, P (tracked_layout st1.jp) →
      st1.clusters_to_process < U64_MOD → st1.start_lcn ≤ B →
      st1.clusters_to_process * (B + 1) + (B - st1.start_lcn) <
        ctp0 * (B + 1) + (B - s0) →
      (optimize_file_outer E H f first_cluster fuel st1).2 ≠ .error .out_of_fuel)
    (st : optimize_state ω) (rgn : winx_volume_region) (evs : List optimize_event)
    (hP : P (tracked_layout st.jp))
    (hpos : 0 < st.clusters_to_process) (hle : st.clusters_to_process ≤ ctp0)
    (hctp0 : ctp0 < U64_MOD) (hs0 : s0 ≤ B)
    (hr1 : s0 ≤ rgn.lcn) (hr2 : 0 < rgn.length) (hr3 : rgn.lcn + rgn.length ≤ B) :
    (optimize_file_move E H f first_cluster fuel st rgn evs).2 ≠ .error .out_of_fuel := by
  have hk1 : min st.clusters_to_process rgn.length ≤ st.clusters_to_process :=
    Nat.min_le_left _ _
  have hk2 : min st.clusters_to_process rgn.length ≤ rgn.length := Nat.min_le_right _ _
  have hk3 : 0 < min st.clusters_to_process rgn.length := by
    rw [Nat.lt_min]
    exact ⟨hpos, hr2⟩
  have hw : wrap64 (rgn.lcn + min st.clusters_to_process rgn.length) =
      rgn.lcn + min st.clusters_to_process rgn.length := wrap64_of_lt (by omega)
  have hmul : st.clusters_to_process * (B + 1) ≤ ctp0 * (B + 1) :=
    Nat.mul_le_mul_right _ hle
  unfold optimize_file_move
  cases file_at st.jp f with
  | error fault => simp
  | ok file =>
    dsimp only
    have hmove := hK.2.2.2.2 f st.start_vcn
      (min st.clusters_to_process rgn.length) rgn.lcn st.jp hP
    generalize E.move_file f st.start_vcn
      (min st.clusters_to_process rgn.length) rgn.lcn st.jp = moved at hmove
    obtain ⟨status, jp3⟩ := moved
    dsimp only at hmove ⊢
    by_cases h2 : status < 0
    · rw [if_pos h2]
      by_cases h3 : jp3.last_move_status ≠ H.STATUS_ALREADY_COMMITTED
      · rw [if_pos h3]
        simp
      · rw [if_neg h3]
        cases hfile2 : file_at jp3 f with
        | error fault => simp
        | ok file2 =>
          dsimp only
          apply hrec
          · dsimp only
            rw [tracked_layout_set_file jp3 f _ file2 hfile2]
            exact hmove
          · show st.clusters_to_process < U64_MOD
            omega
          · show wrap64 (rgn.lcn + min st.clusters_to_process rgn.length) ≤ B
            omega
          · show st.clusters_to_process * (B + 1) +
                (B - wrap64 (rgn.lcn + min st.clusters_to_process rgn.length)) <
              ctp0 * (B + 1) + (B - s0)
            omega
    · rw [if_neg h2]
      by_cases h4 : advance_vcn file st.start_vcn
          (min st.clusters_to_process rgn.length) = 0
      · rw [if_pos h4]
        simp
      · rw [if_neg h4]
        dsimp only
        have hsub : sub64 st.clusters_to_process (min st.clusters_to_process rgn.length) =
            st.clusters_to_process - min st.clusters_to_process rgn.length :=
          sub64_of_le hk1 (by omega)
        have hmul2 : (st.clusters_to_process - min st.clusters_to_process rgn.length + 1) *
            (B + 1) ≤ ctp0 * (B + 1) := Nat.mul_le_mul_right _ (by omega)
        rw [Nat.add_mul, Nat.one_mul] at hmul2
        apply hrec
        · exact hmove
        · show sub64 st.clusters_to_process (min st.clusters_to_process rgn.length) <
            U64_MOD
          omega
        · show wrap64 (rgn.lcn + min st.clusters_to_process rgn.length) ≤ B
          omega
        · show sub64 st.clusters_to_process (min st.clusters_to_process rgn.length) *
                (B + 1) +
                (B - wrap64 (rgn.lcn + min st.clusters_to_process rgn.length)) <
              ctp0 * (B + 1) + (B - s0)
          rw [hsub]
          omega

theorem first_region_after_some (regions : List winx_volume_region) (start_lcn : Nat)
    (rgn : winx_volume_region) (h : first_region_after regions start_lcn = some rgn) :
    rgn ∈ regions ∧ start_lcn ≤ rgn.lcn ∧ 0 < rgn.length := by
  unfold first_region_after at h
  have h1 := List.mem_of_find?_eq_some h
  have h2 := List.find?_some h
  simp only [ge_iff_le, ne_eq, decide_eq_true_eq] at h2
  exact ⟨h1, h2.1, Nat.pos_of_ne_zero h2.2⟩

theorem optimize_file_outer_terminates {ω : Type} (E : Externals ω)
    (H : udefrag_internals)
    (P : List winx_volume_region × List winx_file_disposition × Nat × ω → Prop)
    (hK : externals_keep E P) (B : Nat) (hB : B < U64_MOD)
    (hE : externals_in_volume E P B) (f first_cluster : Nat) :
    ∀ (n fuel : Nat) (st : optimize_state ω),
      P (tracked_layout st.jp) →
      st.clusters_to_process < U64_MOD → st.start_lcn ≤ B →
      st.clusters_to_process * (B + 1) + (B - st.start_lcn) ≤ n →
      n + B + 3 ≤ fuel →
      (optimize_file_outer E H f first_cluster fuel st).2 ≠ .error .out_of_fuel := by
  intro n
  induction n with
  | zero =>
    intro fuel st _ hctp hsB hrank hfuel
    obtain ⟨fuel, rfl⟩ : ∃ k, fuel = k + 1 := ⟨fuel - 1, by omega⟩
    rw [optimize_file_outer_succ]
    have h0 : st.clusters_to_process = 0 := by
      have hz : st.clusters_to_process * (B + 1) = 0 := by omega
      rcases Nat.mul_eq_zero.mp hz with h | h
      · exact h
      · omega
    rw [if_pos h0]
    simp
  | succ n ih =>
    intro fuel st hP hctp hsB hrank hfuel
    obtain ⟨fuel, rfl⟩ : ∃ k, fuel = k + 1 := ⟨fuel - 1, by omega⟩
    rw [optimize_file_outer_succ]
    by_cases h0 : st.clusters_to_process = 0
    · rw [if_pos h0]
      simp
    rw [if_neg h0]
    by_cases h1 : (E.termination_router st.jp).1 ≠ 0
    · rw [if_pos h1]
      simp
    rw [if_neg h1]
    by_cases h2 : (E.release_temp_space_regions (E.termination_router st.jp).2).free_regions
        = []
    · rw [if_pos h2]
      simp
    rw [if_neg h2]
    have hstop := hK.1 st.jp hP
    have hregions := hE.2 (E.termination_router st.jp).2 hstop
    have hrel := hK.2.1 _ hstop
    generalize E.release_temp_space_regions (E.termination_router st.jp).2 = jp2
      at hregions hrel ⊢
    have hfirst := first_region_after_some jp2.free_regions st.start_lcn
    generalize first_region_after jp2.free_regions st.start_lcn = tr0 at hfirst ⊢
    have hprog : inner_progress B st.start_lcn st.clusters_to_process tr0
        (optimize_file_inner_entry st jp2) st.clusters_to_process false tr0 := by
      refine ⟨⟨hctp, ?_⟩, Nat.pos_of_ne_zero h0, le_refl _, le_refl _, hsB, fun _ => rfl,
        fun hc => absurd hc (by decide)⟩
      simp only [Bool.false_eq_true, if_false]
      exact ⟨rfl, rfl⟩
    have hinner := optimize_file_inner_terminates E H P hK B hB hE f first_cluster
      (optimize_file_end_lcn tr0 jp2) st.start_lcn st.clusters_to_process tr0
      (B - st.start_lcn) fuel (optimize_file_inner_entry st jp2) st.clusters_to_process
      false tr0 hrel hprog (le_refl _) (by omega)
    have hkeep := optimize_file_inner_keeps E H P hK f first_cluster
      (optimize_file_end_lcn tr0 jp2) fuel (optimize_file_inner_entry st jp2)
      st.clusters_to_process false tr0
    generalize optimize_file_inner E H f first_cluster (optimize_file_end_lcn tr0 jp2) fuel
      (optimize_file_inner_entry st jp2) st.clusters_to_process false tr0 = inner
      at hinner hkeep ⊢
    obtain ⟨ievs, ires⟩ := inner
    obtain ⟨hnofuel, hexit⟩ := hinner
    have hrec : ∀ st1 : optimize_state ω, P (tracked_layout st1.jp) →
        st1.clusters_to_process < U64_MOD → st1.start_lcn ≤ B →
        st1.clusters_to_process * (B + 1) + (B - st1.start_lcn) <
          st.clusters_to_process * (B + 1) + (B - st.start_lcn) →
        (optimize_file_outer E H f first_cluster fuel st1).2 ≠ .error .out_of_fuel :=
      fun st1 hP1 h1 h2 h3 => ih fuel st1 hP1 h1 h2 (by omega) (by omega)
    unfold optimize_file_outer_after
    cases ires with
    | error e =>
      dsimp only
      have he : e ≠ .out_of_fuel := fun he => hnofuel (by rw [he])
      simpa using he
    | ok how =>
      have hpost := hexit how rfl
      have hPhow := hkeep how hrel rfl
      cases how with
      | done st2 =>
        dsimp only
        simp
      | try_again st2 =>
        dsimp only
        obtain ⟨hp1, hp2, hp3, hp4⟩ := hpost
        have hmul : st2.clusters_to_process * (B + 1) ≤ st.clusters_to_process * (B + 1) :=
          Nat.mul_le_mul_right _ hp2
        exact hrec st2 hPhow (by omega) hp4 (by omega)
      | move_the_file st2 tr2 =>
        obtain ⟨hp1, hp2, hp3⟩ := hpost
        cases tr2 with
        | none =>
          dsimp only
          simp
        | some rgn =>
          dsimp only
          have hrgn : st.start_lcn ≤ rgn.lcn ∧ 0 < rgn.length ∧ rgn.lcn + rgn.length ≤ B := by
            rcases hp3 with h | h
            · obtain ⟨hm, hge, hlen⟩ := hfirst rgn h.symm
              exact ⟨hge, hlen, hregions rgn hm⟩
            · obtain ⟨hreg, hlen, -, hge, hend⟩ := h
              simp only [Option.some.injEq] at hreg
              rw [hreg]
              exact ⟨hge, hlen, hend⟩
          exact optimize_file_move_terminates E H P hK B hB f first_cluster fuel
            st.start_lcn st.clusters_to_process hrec st2 rgn ievs hPhow hp1 hp2 hctp hsB
            hrgn.1 hrgn.2.1 hrgn.2.2

theorem externals_in_volume_mono {ω : Type} (E : Externals ω)
    (P : List winx_volume_region × List winx_file_disposition × Nat × ω → Prop)
    (B B1 : Nat) (hle : B ≤ B1) (hE : externals_in_volume E P B) :
    externals_in_volume E P B1 := by
  refine ⟨fun jp min_lcn flags ref fb hP h1 h2 => ?_, fun jp hP r hr => ?_⟩
  · obtain ⟨h3, h4, h5⟩ := hE.1 jp min_lcn flags ref fb hP h1 h2
    exact ⟨h3, h4, by omega⟩
  · have := hE.2 jp hP r hr
    omega

theorem optimize_file_terminates_of {ω : Type} (E : Externals ω)
    (H : udefrag_internals)
    (P : List winx_volume_region × List winx_file_disposition × Nat × ω → Prop)
    (hK : externals_keep E P) (B : Nat) (hB : B < U64_MOD)
    (hE : externals_in_volume E P B) (fuel f : Nat) (jp : udefrag_job_parameters ω)
    (hP : P (tracked_layout jp))
    (hfuel : U64_MOD * U64_MOD + 2 * U64_MOD + 3 ≤ fuel) :
    (optimize_file E H fuel f jp).2 ≠ .error .out_of_fuel := by
  unfold optimize_file
  cases file_at jp f with
  | error fault => simp
  | ok file =>
    dsimp only
    by_cases h0 : ¬ H.can_move file jp.is_fat = true ∨ ¬ H.is_fragmented file = true
    · rw [if_pos h0]
      simp
    rw [if_neg h0]
    cases hlock : is_file_locked E H f jp with
    | error fault => simp
    | ok r =>
      obtain ⟨locked, jp2⟩ := r
      have hjp2 := is_file_locked_keeps E H P hK f jp jp2 locked hP hlock
      dsimp only
      by_cases h1 : locked ≠ 0
      · rw [if_pos h1]
        simp
      rw [if_neg h1]
      cases file_at jp2 f with
      | error fault => simp
      | ok file2 =>
        dsimp only
        cases file2.disp.blockmap with
        | nil => simp
        | cons first rest =>
          dsimp only
          by_cases h2 : sub64 file2.disp.clusters first.length = 0
          · rw [if_pos h2]
            simp
          rw [if_neg h2]
          have hmax : max B (wrap64 (first.lcn + first.length)) < U64_MOD := by
            rw [max_lt_iff]
            exact ⟨hB, Nat.mod_lt _ (by decide)⟩
          have hctp := sub64_lt file2.disp.clusters first.length
          have hmul : sub64 file2.disp.clusters first.length *
              (max B (wrap64 (first.lcn + first.length)) + 1) ≤ U64_MOD * U64_MOD :=
            Nat.mul_le_mul (by omega) (by omega)
          have houter := optimize_file_outer_terminates E H P hK
            (max B (wrap64 (first.lcn + first.length))) hmax
            (externals_in_volume_mono E P B _ (le_max_left _ _) hE) f first.lcn
            (sub64 file2.disp.clusters first.length *
                (max B (wrap64 (first.lcn + first.length)) + 1) +
              (max B (wrap64 (first.lcn + first.length)) -
                wrap64 (first.lcn + first.length)))
            fuel
            ⟨jp2, sub64 file2.disp.clusters first.length,
              (match rest with
                | [] => first.vcn
                | next :: _ => next.vcn),
              wrap64 (first.lcn + first.length), ⟨0, 0⟩⟩
            hjp2 hctp (le_max_right _ _) (le_refl _) (by omega)
          cases rest with
          | nil =>
            dsimp only at houter ⊢
            generalize optimize_file_outer E H f first.lcn fuel
              ⟨jp2, sub64 file2.disp.clusters first.length, first.vcn,
                wrap64 (first.lcn + first.length), ⟨0, 0⟩⟩ = r at houter ⊢
            obtain ⟨evs, res⟩ := r
            cases res with
            | error e =>
              dsimp only
              have he : e ≠ .out_of_fuel := fun he => houter (by rw [he])
              simpa using he
            | ok st => simp
          | cons next rest2 =>
            dsimp only at houter ⊢
            generalize optimize_file_outer E H f first.lcn fuel
              ⟨jp2, sub64 file2.disp.clusters first.length, next.vcn,
                wrap64 (first.lcn + first.length), ⟨0, 0⟩⟩ = r at houter ⊢
            obtain ⟨evs, res⟩ := r
            cases res with
            | error e =>
              dsimp only
              have he : e ≠ .out_of_fuel := fun he => houter (by rw [he])
              simpa using he
            | ok st => simp

theorem spec_sub_volume_region_mem (lcn length : Nat) (r : winx_volume_region) :
    ∀ (regions : List winx_volume_region), r ∈ spec_sub_volume_region regions lcn length →
      ∃ r0 ∈ regions, r.lcn + r.length ≤ r0.lcn + r0.length := by
  intro regions
  induction regions with
  | nil =>
    intro h
    simp [spec_sub_volume_region] at h
  | cons a rest ih =>
    intro h
    unfold spec_sub_volume_region at h
    by_cases ha : a.lcn ≤ lcn ∧ lcn + length ≤ a.lcn + a.length
    · rw [if_pos ha] at h
      simp only [List.mem_append] at h
      rcases h with h | h | h
      · split_ifs at h
        · simp only [List.mem_singleton] at h
          subst h
          exact ⟨a, List.mem_cons_self _ _, by dsimp only; omega⟩
        · simp at h
      · split_ifs at h
        · simp only [List.mem_singleton] at h
          subst h
          exact ⟨a, List.mem_cons_self _ _, by dsimp only; omega⟩
        · simp at h
      · exact ⟨r, List.mem_cons_of_mem _ h, le_refl _⟩
    · rw [if_neg ha] at h
      rcases List.mem_cons.mp h with h | h
      · subst h
        exact ⟨r, List.mem_cons_self _ _, le_refl _⟩
      · obtain ⟨r0, hr0, hle⟩ := ih h
        exact ⟨r0, List.mem_cons_of_mem _ hr0, hle⟩

theorem spec_add_volume_region_mem (x r : winx_volume_region) :
    ∀ (regions : List winx_volume_region), r ∈ spec_add_volume_region regions x →
      r = x ∨ r ∈ regions := by
  intro regions
  induction regions with
  | nil =>
    intro h
    simp only [spec_add_volume_region, List.mem_singleton] at h
    exact Or.inl h
  | cons a rest ih =>
    intro h
    unfold spec_add_volume_region at h
    split_ifs at h
    · rcases List.mem_cons.mp h with h | h
      · exact Or.inl h
      · exact Or.inr h
    · rcases List.mem_cons.mp h with h | h
      · subst h
        exact Or.inr (List.mem_cons_self _ _)
      · rcases ih h with h | h
        · exact Or.inl h
        · exact Or.inr (List.mem_cons_of_mem _ h)

theorem spec_add_volume_regions_mem (r : winx_volume_region) :
    ∀ (temp regions : List winx_volume_region),
      r ∈ temp.foldl spec_add_volume_region regions → r ∈ regions ∨ r ∈ temp := by
  intro temp
  induction temp with
  | nil =>
    intro regions h
    exact Or.inl h
  | cons x rest ih =>
    intro regions h
    simp only [List.foldl_cons] at h
    rcases ih _ h with h | h
    · rcases spec_add_volume_region_mem x r regions h with h | h
      · subst h
        exact Or.inr (List.mem_cons_self _ _)
      · exact Or.inl h
    · exact Or.inr (List.mem_cons_of_mem _ h)

theorem spec_insert_block_mem (x b : winx_blockmap) :
    ∀ (bm : List winx_blockmap), b ∈ spec_insert_block bm x → b = x ∨ b ∈ bm := by
  intro bm
  induction bm with
  | nil =>
    intro h
    simp only [spec_insert_block, List.mem_singleton] at h
    exact Or.inl h
  | cons a rest ih =>
    intro h
    unfold spec_insert_block at h
    split_ifs at h
    · rcases List.mem_cons.mp h with h | h
      · exact Or.inl h
      · exact Or.inr h
    · rcases List.mem_cons.mp h with h | h
      · subst h
        exact Or.inr (List.mem_cons_self _ _)
      · rcases ih h with h | h
        · exact Or.inl h
        · exact Or.inr (List.mem_cons_of_mem _ h)

theorem spec_block_rest_mem (b0 b : winx_blockmap) (vcn length : Nat)
    (h0 : 0 < b0.length) (h : b ∈ spec_block_rest b0 vcn length) :
    0 < b.length ∧ b.lcn + b.length ≤ b0.lcn + b0.length := by
  unfold spec_block_rest at h
  simp only [List.mem_append] at h
  rcases h with h | h
  · split_ifs at h with hc
    · simp only [List.mem_singleton] at h
      subst h
      dsimp only
      have := Nat.min_le_left b0.length (vcn - b0.vcn)
      have : 0 < min b0.length (vcn - b0.vcn) := by
        rw [Nat.lt_min]
        exact ⟨h0, by omega⟩
      omega
    · simp at h
  · split_ifs at h with hc
    · simp only [List.mem_singleton] at h
      subst h
      dsimp only
      have h1 : b0.vcn ≤ max b0.vcn (vcn + length) := le_max_left _ _
      have h2 : max b0.vcn (vcn + length) < b0.vcn + b0.length := by
        rw [max_lt_iff]
        exact ⟨by omega, hc⟩
      omega
    · simp at h

theorem spec_block_vacated_mem (b0 : winx_blockmap) (r : winx_volume_region)
    (vcn length : Nat) (h : r ∈ spec_block_vacated b0 vcn length) :
    r.lcn + r.length ≤ b0.lcn + b0.length := by
  unfold spec_block_vacated at h
  split_ifs at h with hc
  · simp only [List.mem_singleton] at h
    subst h
    dsimp only
    have h1 : b0.vcn ≤ max b0.vcn vcn := le_max_left _ _
    have h2 : min (b0.vcn + b0.length) (vcn + length) ≤ b0.vcn + b0.length :=
      Nat.min_le_left _ _
    omega
  · simp at h

theorem spec_is_free_bound (B lcn length : Nat) (regions : List winx_volume_region)
    (hreg : ∀ r ∈ regions, r.lcn + r.length ≤ B)
    (h : spec_is_free regions lcn length = true) : lcn + length ≤ B := by
  unfold spec_is_free at h
  rw [List.any_eq_true] at h
  obtain ⟨r, hr, hd⟩ := h
  simp only [decide_eq_true_eq] at hd
  have := hreg r hr
  omega

theorem spec_move_file_in_volume (H : udefrag_internals) (locked : List Nat) (B : Nat)
    (f vcn length target : Nat) (jp : udefrag_job_parameters (List winx_volume_region))
    (hP : layout_in_volume B (tracked_layout jp)) :
    layout_in_volume B (tracked_layout (spec_move_file H locked f vcn length target jp).2) := by
  unfold spec_move_file
  cases hf : jp.filelist[f]? with
  | none => exact hP
  | some file =>
    dsimp only
    by_cases hz : length = 0
    · rw [if_pos hz]
      exact hP
    rw [if_neg hz]
    by_cases h1 : f ∈ locked
    · rw [if_pos h1]
      exact hP
    rw [if_neg h1]
    by_cases h2 : spec_is_free jp.free_regions target length = false
    · rw [if_pos h2]
      exact hP
    rw [if_neg h2]
    by_cases h3 : ((file.disp.blockmap.flatMap
        (fun b => spec_block_vacated b vcn length)).map (fun r => r.length)).sum ≠ length
    · rw [if_pos h3]
      exact hP
    rw [if_neg h3]
    obtain ⟨hfree, hfiles, htemp⟩ := hP
    have hfile : ∀ b ∈ file.disp.blockmap, 0 < b.length ∧ b.lcn + b.length ≤ B := by
      apply hfiles file.disp
      simp only [tracked_layout, List.mem_map]
      exact ⟨file, List.getElem?_mem hf, rfl⟩
    have htarget := spec_is_free_bound B target length jp.free_regions hfree
      (by simpa using h2)
    refine ⟨?_, ?_, ?_⟩
    · intro r hr
      obtain ⟨r0, hr0, hle⟩ := spec_sub_volume_region_mem target length r _ hr
      have := hfree r0 hr0
      omega
    · intro d hd b hb
      simp only [tracked_layout, List.mem_map] at hd
      obtain ⟨g, hg, rfl⟩ := hd
      rcases List.mem_or_eq_of_mem_set hg with hg | hg
      · exact hfiles g.disp (by
          simp only [tracked_layout, List.mem_map]
          exact ⟨g, hg, rfl⟩) b hb
      · subst hg
        dsimp only at hb
        unfold spec_move_blockmap at hb
        rcases spec_insert_block_mem _ b _ hb with hb | hb
        · subst hb
          dsimp only
          omega
        · rw [List.mem_flatMap] at hb
          obtain ⟨b0, hb0, hb⟩ := hb
          obtain ⟨h00, h01⟩ := hfile b0 hb0
          obtain ⟨h10, h11⟩ := spec_block_rest_mem b0 b vcn length h00 hb
          exact ⟨h10, by omega⟩
    · intro r hr
      simp only [tracked_layout, List.mem_append] at hr
      rcases hr with hr | hr
      · exact htemp r hr
      · rw [List.mem_flatMap] at hr
        obtain ⟨b0, hb0, hr⟩ := hr
        have := spec_block_vacated_mem b0 r vcn length hr
        have := (hfile b0 hb0).2
        omega

theorem spec_release_in_volume (B : Nat)
    (jp : udefrag_job_parameters (List winx_volume_region))
    (hP : layout_in_volume B (tracked_layout jp)) :
    layout_in_volume B (tracked_layout (spec_release_temp_space_regions jp)) := by
  obtain ⟨hfree, hfiles, htemp⟩ := hP
  refine ⟨?_, hfiles, ?_⟩
  · intro r hr
    rcases spec_add_volume_regions_mem r _ _ hr with h | h
    · exact hfree r h
    · exact htemp r h
  · intro r hr
    simp [tracked_layout, spec_release_temp_space_regions] at hr

theorem spec_externals_keep_in_volume (H : udefrag_internals) (locked : List Nat)
    (B : Nat) : externals_keep (spec_externals H locked) (layout_in_volume B) := by
  refine ⟨fun jp hP => hP, fun jp hP => spec_release_in_volume B jp hP,
    fun f jp hP => hP, ?_, fun f vcn length target jp hP =>
      spec_move_file_in_volume H locked B f vcn length target jp hP⟩
  intro jp min_lcn flags hP
  show layout_in_volume B (tracked_layout (spec_find_first_block jp min_lcn).2.2)
  unfold spec_find_first_block
  split
  · exact hP
  · exact hP

theorem spec_first_of_candidate (files : List winx_file_info) (min_lcn : Nat)
    (best : Option (block_ref × winx_blockmap)) (ref : block_ref) (b : winx_blockmap)
    (hbest : spec_candidate files min_lcn best)
    (hb : ∃ file, files[ref.file]? = some file ∧ file.disp.blockmap[ref.block]? = some b) :
    spec_candidate files min_lcn (spec_first_of min_lcn best ref b) := by
  unfold spec_first_of
  by_cases h1 : b.lcn < min_lcn
  · rw [if_pos h1]
    exact hbest
  rw [if_neg h1]
  cases best with
  | none =>
    intro ref1 b1 h
    simp only [Option.some.injEq, Prod.mk.injEq] at h
    obtain ⟨rfl, rfl⟩ := h
    exact ⟨hb, by omega⟩
  | some rb =>
    obtain ⟨r0, b0⟩ := rb
    dsimp only
    split_ifs
    · intro ref1 b1 h
      simp only [Option.some.injEq, Prod.mk.injEq] at h
      obtain ⟨rfl, rfl⟩ := h
      exact ⟨hb, by omega⟩
    · exact hbest

theorem spec_scan_blocks_candidate (files : List winx_file_info) (min_lcn fi : Nat)
    (file : winx_file_info) (hfile : files[fi]? = some file) :
    ∀ (bs : List winx_blockmap) (i : Nat) (best : Option (block_ref × winx_blockmap)),
      (∀ j, bs[j]? = file.disp.blockmap[i + j]?) →
      spec_candidate files min_lcn best →
      spec_candidate files min_lcn (spec_scan_blocks min_lcn fi bs i best) := by
  intro bs
  induction bs with
  | nil =>
    intro i best _ hbest
    exact hbest
  | cons b rest ih =>
    intro i best hbs hbest
    unfold spec_scan_blocks
    apply ih
    · intro j
      have := hbs (j + 1)
      simp only [List.getElem?_cons_succ] at this
      rw [this]
      congr 1
      omega
    · apply spec_first_of_candidate files min_lcn best ⟨fi, i⟩ b hbest
      refine ⟨file, hfile, ?_⟩
      have := hbs 0
      simp only [List.getElem?_cons_zero, Nat.add_zero] at this
      exact this.symm

theorem spec_scan_files_candidate (files : List winx_file_info) (min_lcn : Nat) :
    ∀ (fs : List winx_file_info) (i : Nat) (best : Option (block_ref × winx_blockmap)),
      (∀ j, fs[j]? = files[i + j]?) →
      spec_candidate files min_lcn best →
      spec_candidate files min_lcn (spec_scan_files min_lcn fs i best) := by
  intro fs
  induction fs with
  | nil =>
    intro i best _ hbest
    exact hbest
  | cons g rest ih =>
    intro i best hfs hbest
    unfold spec_scan_files
    apply ih
    · intro j
      have := hfs (j + 1)
      simp only [List.getElem?_cons_succ] at this
      rw [this]
      congr 1
      omega
    · have h0 := hfs 0
      simp only [List.getElem?_cons_zero, Nat.add_zero] at h0
      exact spec_scan_blocks_candidate files min_lcn i g h0.symm g.disp.blockmap 0 best
        (fun j => by rw [Nat.zero_add]) hbest

theorem spec_externals_in_volume (H : udefrag_internals) (locked : List Nat) (B : Nat) :
    externals_in_volume (spec_externals H locked) (layout_in_volume B) B := by
  refine ⟨?_, fun jp hP r hr => (spec_release_in_volume B jp hP).1 r hr⟩
  intro jp min_lcn flags ref fb hP hfound hblock
  change (spec_find_first_block jp min_lcn).1 = some ref at hfound
  change block_at (spec_find_first_block jp min_lcn).2.2 ref = .ok fb at hblock
  have hscan := spec_scan_files_candidate jp.filelist min_lcn jp.filelist 0 none
    (fun j => by rw [Nat.zero_add]) (fun _ _ h => by simp at h)
  unfold spec_find_first_block at hfound hblock
  cases hres : spec_scan_files min_lcn jp.filelist 0 none with
  | none =>
    rw [hres] at hfound
    simp at hfound
  | some rb =>
    obtain ⟨ref1, b⟩ := rb
    rw [hres] at hfound hblock hscan
    dsimp only at hfound hblock
    simp only [Option.some.injEq] at hfound
    subst hfound
    obtain ⟨⟨file, hfile, hb⟩, hmin⟩ := hscan ref1 b rfl
    unfold block_at at hblock
    rw [hfile] at hblock
    dsimp only at hblock
    rw [hb] at hblock
    simp only [Except.ok.injEq] at hblock
    subst hblock
    dsimp only
    have hin := hP.2.1 file.disp (by
      simp only [tracked_layout, List.mem_map]
      exact ⟨file, List.getElem?_mem hfile, rfl⟩) b (List.getElem?_mem hb)
    exact ⟨hmin, hin.1, hin.2⟩

theorem optimize_file_move_iterate {ω : Type} (E : Externals ω) (H : udefrag_internals)
    (f first_cluster fuel : Nat) (st : optimize_state ω) (target_rgn : winx_volume_region)
    (evs : List optimize_event) :
    optimize_file_move E H f first_cluster fuel st target_rgn evs =
      optimize_file_outer_iterate E H f first_cluster fuel
        (optimize_file_move_step E H f st target_rgn evs) := by
  unfold optimize_file_move optimize_file_move_step
  cases file_at st.jp f with
  | error fault => rfl
  | ok file =>
    dsimp only
    generalize E.move_file f st.start_vcn
      (min st.clusters_to_process target_rgn.length) target_rgn.lcn st.jp = moved
    obtain ⟨status, jp3⟩ := moved
    dsimp only
    by_cases h2 : status < 0
    · rw [if_pos h2, if_pos h2]
      by_cases h3 : jp3.last_move_status ≠ H.STATUS_ALREADY_COMMITTED
      · rw [if_pos h3, if_pos h3]
        rfl
      · rw [if_neg h3, if_neg h3]
        cases file_at jp3 f with
        | error fault => rfl
        | ok file2 =>
          simp only [optimize_file_outer_iterate, List.append_assoc, List.singleton_append]
    · rw [if_neg h2, if_neg h2]
      by_cases h4 : advance_vcn file st.start_vcn
          (min st.clusters_to_process target_rgn.length) = 0
      · rw [if_pos h4, if_pos h4]
        rfl
      · rw [if_neg h4, if_neg h4]
        simp only [optimize_file_outer_iterate, List.append_assoc, List.singleton_append]

theorem optimize_file_outer_iterate_succ {ω : Type} (E : Externals ω)
    (H : udefrag_internals) (f first_cluster fuel : Nat) (st : optimize_state ω) :
    optimize_file_outer E H f first_cluster (fuel + 1) st =
      optimize_file_outer_iterate E H f first_cluster fuel
        (optimize_file_outer_step E H f first_cluster fuel st) := by
  rw [optimize_file_outer_succ]
  unfold optimize_file_outer_step
  by_cases h0 : st.clusters_to_process = 0
  · rw [if_pos h0, if_pos h0]
    rfl
  rw [if_neg h0, if_neg h0]
  dsimp only
  by_cases h1 : (E.termination_router st.jp).1 ≠ 0
  · rw [if_pos h1, if_pos h1]
    rfl
  rw [if_neg h1, if_neg h1]
  generalize E.release_temp_space_regions (E.termination_router st.jp).2 = jp2
  cases hfr : jp2.free_regions with
  | nil =>
    simp only [if_true]
    rfl
  | cons r0 regions =>
    rw [if_neg (by simp)]
    simp only []
    have hentry : optimize_file_inner_entry st jp2 =
        { jp := jp2, clusters_to_process := st.clusters_to_process,
          start_vcn := st.start_vcn, start_lcn := st.start_lcn,
          region := { lcn := st.region.lcn, length := 0 } } := rfl
    rw [hentry]
    generalize optimize_file_inner E H f first_cluster
      (optimize_file_end_lcn (first_region_after (r0 :: regions) st.start_lcn) jp2) fuel
      { jp := jp2, clusters_to_process := st.clusters_to_process,
        start_vcn := st.start_vcn, start_lcn := st.start_lcn,
        region := { lcn := st.region.lcn, length := 0 } }
      st.clusters_to_process false (first_region_after (r0 :: regions) st.start_lcn) = inner
    obtain ⟨ievs, ires⟩ := inner
    unfold optimize_file_outer_after
    cases ires with
    | error e => rfl
    | ok how =>
      cases how with
      | done st2 => rfl
      | try_again st2 => rfl
      | move_the_file st2 tr2 =>
        cases tr2 with
        | none => rfl
        | some rgn =>
          dsimp only
          exact optimize_file_move_iterate E H f first_cluster fuel st2 rgn ievs

theorem optimize_file_inner_exit_post {ω : Type} (E : Externals ω)
    (H : udefrag_internals)
    (P : List winx_volume_region × List winx_file_disposition × Nat × ω → Prop)
    (hK : externals_keep E P) (B : Nat) (hB : B < U64_MOD)
    (hE : externals_in_volume E P B)
    (f first_cluster end_lcn s0 ctp0 : Nat) (tr0 : Option winx_volume_region) :
    ∀ (fuel : Nat) (st : optimize_state ω) (ctc : Nat) (bcu : Bool)
      (tr : Option winx_volume_region) (how : inner_exit ω),
      P (tracked_layout st.jp) →
      inner_progress B s0 ctp0 tr0 st ctc bcu tr →
      (optimize_file_inner E H f first_cluster end_lcn fuel st ctc bcu tr).2 = .ok how →
      inner_exit_post B s0 ctp0 tr0 how := by
  intro fuel
  induction fuel with
  | zero =>
    intro st ctc bcu tr how _ _ h
    simp [optimize_file_inner] at h
  | succ fuel ih =>
    intro st ctc bcu tr how hP hprog h
    rw [optimize_file_inner_succ] at h
    have hstep := optimize_file_inner_step_progress E H P hK B hB hE f first_cluster
      end_lcn s0 ctp0 tr0 st ctc bcu tr hP hprog
    have hkeep := optimize_file_inner_step_keeps E H P hK f first_cluster end_lcn st ctc
      bcu tr hP
    generalize optimize_file_inner_step E H f first_cluster end_lcn st ctc bcu tr = s
      at h hstep hkeep
    obtain ⟨sevs, sres⟩ := s
    cases sres with
    | error e => simp [optimize_file_inner_after] at h
    | ok res =>
      have hp := hstep sevs res rfl
      cases res with
      | leave how2 =>
        simp only [optimize_file_inner_after, Except.ok.injEq] at h
        subst h
        exact hp
      | next st2 ctc2 bcu2 tr2 =>
        simp only [optimize_file_inner_after] at h
        exact ih st2 ctc2 bcu2 tr2 how (hkeep sevs _ rfl) hp.1 h

theorem optimize_file_move_step_progress {ω : Type} (E : Externals ω)
    (H : udefrag_internals) (B : Nat) (hB : B < U64_MOD) (f : Nat) (s0 ctp0 : Nat)
    (st st1 : optimize_state ω) (rgn : winx_volume_region) (evs evs1 : List optimize_event)
    (hpos : 0 < st.clusters_to_process) (hle : st.clusters_to_process ≤ ctp0)
    (hctp0 : ctp0 < U64_MOD)
    (hr1 : s0 ≤ rgn.lcn) (hr2 : 0 < rgn.length) (hr3 : rgn.lcn + rgn.length ≤ B) :
    optimize_file_move_step E H f st rgn evs = (evs1, .ok (.next st1)) →
      (st1.clusters_to_process < ctp0 ∨
        (st1.clusters_to_process ≤ ctp0 ∧ s0 < st1.start_lcn)) ∧
      st1.start_lcn ≤ B := by
  have hk1 : min st.clusters_to_process rgn.length ≤ st.clusters_to_process :=
    Nat.min_le_left _ _
  have hk2 : min st.clusters_to_process rgn.length ≤ rgn.length := Nat.min_le_right _ _
  have hk3 : 0 < min st.clusters_to_process rgn.length := by
    rw [Nat.lt_min]
    exact ⟨hpos, hr2⟩
  have hw : wrap64 (rgn.lcn + min st.clusters_to_process rgn.length) =
      rgn.lcn + min st.clusters_to_process rgn.length := wrap64_of_lt (by omega)
  unfold optimize_file_move_step
  cases file_at st.jp f with
  | error fault =>
    dsimp only
    intro h
    simp at h
  | ok file =>
    dsimp only
    generalize E.move_file f st.start_vcn
      (min st.clusters_to_process rgn.length) rgn.lcn st.jp = moved
    obtain ⟨status, jp3⟩ := moved
    dsimp only
    by_cases h2 : status < 0
    · rw [if_pos h2]
      by_cases h3 : jp3.last_move_status ≠ H.STATUS_ALREADY_COMMITTED
      · rw [if_pos h3]
        intro h
        simp at h
      · rw [if_neg h3]
        cases file_at jp3 f with
        | error fault =>
          dsimp only
          intro h
          simp at h
        | ok file2 =>
          dsimp only
          intro h
          simp only [Prod.mk.injEq, Except.ok.injEq, outer_step.next.injEq] at h
          obtain ⟨-, rfl⟩ := h
          dsimp only
          exact ⟨Or.inr ⟨hle, by omega⟩, by omega⟩
    · rw [if_neg h2]
      by_cases h4 : advance_vcn file st.start_vcn
          (min st.clusters_to_process rgn.length) = 0
      · rw [if_pos h4]
        intro h
        simp at h
      · rw [if_neg h4]
        intro h
        simp only [Prod.mk.injEq, Except.ok.injEq, outer_step.next.injEq] at h
        obtain ⟨-, rfl⟩ := h
        dsimp only
        have hsub : sub64 st.clusters_to_process (min st.clusters_to_process rgn.length) =
            st.clusters_to_process - min st.clusters_to_process rgn.length :=
          sub64_of_le hk1 (by omega)
        exact ⟨Or.inl (by omega), by omega⟩

theorem optimize_file_outer_step_progress {ω : Type} (E : Externals ω)
    (H : udefrag_internals)
    (P : List winx_volume_region × List winx_file_disposition × Nat × ω → Prop)
    (hK : externals_keep E P) (B : Nat) (hB : B < U64_MOD)
    (hE : externals_in_volume E P B) (f first_cluster fuel : Nat)
    (st st1 : optimize_state ω) (evs : List optimize_event)
    (hP : P (tracked_layout st.jp)) (hctp : st.clusters_to_process < U64_MOD)
    (hsB : st.start_lcn ≤ B) :
    optimize_file_outer_step E H f first_cluster fuel st = (evs, .ok (.next st1)) →
      (st1.clusters_to_process < st.clusters_to_process ∨
        (st1.clusters_to_process ≤ st.clusters_to_process ∧
          st.start_lcn < st1.start_lcn)) ∧
      st1.start_lcn ≤ B := by
  unfold optimize_file_outer_step
  by_cases h0 : st.clusters_to_process = 0
  · rw [if_pos h0]
    intro h
    simp at h
  rw [if_neg h0]
  dsimp only
  by_cases h1 : (E.termination_router st.jp).1 ≠ 0
  · rw [if_pos h1]
    intro h
    simp at h
  rw [if_neg h1]
  have hstop := hK.1 st.jp hP
  have hregions := hE.2 (E.termination_router st.jp).2 hstop
  have hrel := hK.2.1 _ hstop
  generalize E.release_temp_space_regions (E.termination_router st.jp).2 = jp2
    at hregions hrel ⊢
  cases hfr : jp2.free_regions with
  | nil =>
    simp only []
    intro h
    simp at h
  | cons r0 regions =>
    simp only []
    rw [← hfr]
    have hfirst := first_region_after_some jp2.free_regions st.start_lcn
    generalize first_region_after jp2.free_regions st.start_lcn = tr0 at hfirst ⊢
    have hprog : inner_progress B st.start_lcn st.clusters_to_process tr0
        (optimize_file_inner_entry st jp2) st.clusters_to_process false tr0 := by
      refine ⟨⟨hctp, ?_⟩, Nat.pos_of_ne_zero h0, le_refl _, le_refl _, hsB, fun _ => rfl,
        fun hc => absurd hc (by decide)⟩
      simp only [Bool.false_eq_true, if_false]
      exact ⟨rfl, rfl⟩
    have hexit := optimize_file_inner_exit_post E H P hK B hB hE f first_cluster
      (optimize_file_end_lcn tr0 jp2) st.start_lcn st.clusters_to_process tr0 fuel
      (optimize_file_inner_entry st jp2) st.clusters_to_process false tr0
    have hentry : optimize_file_inner_entry st jp2 =
        { jp := jp2, clusters_to_process := st.clusters_to_process,
          start_vcn := st.start_vcn, start_lcn := st.start_lcn,
          region := { lcn := st.region.lcn, length := 0 } } := rfl
    rw [hentry] at hexit
    generalize optimize_file_inner E H f first_cluster (optimize_file_end_lcn tr0 jp2) fuel
      { jp := jp2, clusters_to_process := st.clusters_to_process,
        start_vcn := st.start_vcn, start_lcn := st.start_lcn,
        region := { lcn := st.region.lcn, length := 0 } }
      st.clusters_to_process false tr0 = inner at hexit ⊢
    obtain ⟨ievs, ires⟩ := inner
    cases ires with
    | error e =>
      dsimp only
      intro h
      simp at h
    | ok how =>
      have hpost := hexit how hrel (hentry ▸ hprog) rfl
      cases how with
      | done st2 =>
        dsimp only
        intro h
        simp at h
      | try_again st2 =>
        dsimp only
        intro h
        simp only [Prod.mk.injEq, Except.ok.injEq, outer_step.next.injEq] at h
        obtain ⟨-, rfl⟩ := h
        obtain ⟨hp1, hp2, hp3, hp4⟩ := hpost
        exact ⟨Or.inr ⟨hp2, hp3⟩, hp4⟩
      | move_the_file st2 tr2 =>
        obtain ⟨hp1, hp2, hp3⟩ := hpost
        cases tr2 with
        | none =>
          dsimp only
          intro h
          simp at h
        | some rgn =>
          dsimp only
          have hrgn : st.start_lcn ≤ rgn.lcn ∧ 0 < rgn.length ∧ rgn.lcn + rgn.length ≤ B := by
            rcases hp3 with h | h
            · obtain ⟨hm, hge, hlen⟩ := hfirst rgn h.symm
              exact ⟨hge, hlen, hregions rgn hm⟩
            · obtain ⟨hreg, hlen, -, hge, hend⟩ := h
              simp only [Option.some.injEq] at hreg
              rw [hreg]
              exact ⟨hge, hlen, hend⟩
          exact optimize_file_move_step_progress E H B hB f st.start_lcn
            st.clusters_to_process st2 st1 rgn ievs evs hp1 hp2 hctp hrgn.1 hrgn.2.1
            hrgn.2.2

/-- C13 (amended): `optimize_file` terminates, whatever the number of
fragments of the file, when the external routines keep a property `P` of
the disk layout under which `find_first_block` returns only blocks that lie
at or after `min_lcn`, are not empty and end inside the volume, and the free
regions end inside the volume: a run with `2^128 + 2^65 + 3` units of fuel
does not run out of fuel, it returns a code or stops at an invalid pointer.
Every iteration of the inner loop that goes on has advanced `start_lcn` and
has not raised `clusters_to_process`; every iteration of the outer loop that
goes on has lowered `clusters_to_process`, or has advanced `start_lcn`
without raising `clusters_to_process`; `start_lcn` stays inside the volume.
Nothing is said of the number of fragments the file is left with. -/
theorem optimize_file_terminates {ω : Type} (E : Externals ω) (H : udefrag_internals)
    (P : List winx_volume_region × List winx_file_disposition × Nat × ω → Prop)
    (B : Nat) (hK : externals_keep E P) (hB : B < U64_MOD)
    (hE : externals_in_volume E P B) :
    (∀ (fuel f : Nat) (jp : udefrag_job_parameters ω),
      P (tracked_layout jp) → U64_MOD * U64_MOD + 2 * U64_MOD + 3 ≤ fuel →
      (∃ code jp1, (optimize_file E H fuel f jp).2 = .ok (code, jp1)) ∨
      (∃ fault, (optimize_file E H fuel f jp).2 = .error (.trap fault))) ∧
    (∀ (f first_cluster end_lcn s0 ctp0 : Nat) (tr0 : Option winx_volume_region)
      (st st1 : optimize_state ω) (ctc ctc1 : Nat) (bcu bcu1 : Bool)
      (tr tr1 : Option winx_volume_region) (evs : List optimize_event),
      P (tracked_layout st.jp) →
      inner_progress B s0 ctp0 tr0 st ctc bcu tr →
      optimize_file_inner_step E H f first_cluster end_lcn st ctc bcu tr =
        (evs, .ok (.next st1 ctc1 bcu1 tr1)) →
      st.start_lcn < st1.start_lcn ∧
      st1.clusters_to_process ≤ st.clusters_to_process ∧
      inner_progress B s0 ctp0 tr0 st1 ctc1 bcu1 tr1) ∧
    (∀ (f first_cluster fuel : Nat) (st st1 : optimize_state ω)
      (evs : List optimize_event),
      P (tracked_layout st.jp) → st.clusters_to_process < U64_MOD → st.start_lcn ≤ B →
      optimize_file_outer_step E H f first_cluster fuel st = (evs, .ok (.next st1)) →
      (st1.clusters_to_process < st.clusters_to_process ∨
        (st1.clusters_to_process ≤ st.clusters_to_process ∧
          st.start_lcn < st1.start_lcn)) ∧
      st1.start_lcn ≤ B) := by
  refine ⟨?_, ?_, ?_⟩
  · intro fuel f jp hP hfuel
    have h := optimize_file_terminates_of E H P hK B hB hE fuel f jp hP hfuel
    generalize (optimize_file E H fuel f jp).2 = r at h
    cases r with
    | ok res => exact Or.inl ⟨res.1, res.2, rfl⟩
    | error e =>
      cases e with
      | trap fault => exact Or.inr ⟨fault, rfl⟩
      | out_of_fuel => exact absurd rfl h
  · intro f first_cluster end_lcn s0 ctp0 tr0 st st1 ctc ctc1 bcu bcu1 tr tr1 evs hP hprog
      hstep
    have hp := optimize_file_inner_step_progress E H P hK B hB hE f first_cluster end_lcn
      s0 ctp0 tr0 st ctc bcu tr hP hprog evs _ hstep
    have hpost := optimize_file_inner_step_post E H f first_cluster end_lcn st ctc bcu tr
      hprog.1 evs _ hstep
    obtain ⟨k, -, -, hcase⟩ := hpost
    refine ⟨hp.2, ?_, hp.1⟩
    rcases hcase with ⟨-, -, -, h, -, -⟩ | ⟨-, h, -, -⟩
    · omega
    · omega
  · intro f first_cluster fuel st st1 evs hP hctp hsB hstep
    exact optimize_file_outer_step_progress E H P hK B hB hE f first_cluster fuel st st1
      evs hP hctp hsB hstep

theorem optimize_file_terminates_witness :
    (∃ code jp1, (optimize_file (spec_externals sample_internals [1]) sample_internals
        (U64_MOD * U64_MOD + 2 * U64_MOD + 3) 0 sample_job_locked_neighbour).2 =
          .ok (code, jp1)) ∨
    (∃ fault, (optimize_file (spec_externals sample_internals [1]) sample_internals
        (U64_MOD * U64_MOD + 2 * U64_MOD + 3) 0 sample_job_locked_neighbour).2 =
          .error (.trap fault)) :=
  (optimize_file_terminates (spec_externals sample_internals [1]) sample_internals
    (layout_in_volume 1000) 1000 (spec_externals_keep_in_volume sample_internals [1] 1000)
    (by decide) (spec_externals_in_volume sample_internals [1] 1000)).1
    (U64_MOD * U64_MOD + 2 * U64_MOD + 3) 0 sample_job_locked_neighbour (by decide)
    (le_refl _)

theorem optimize_file_past_checks {ω : Type} (E : Externals ω) (H : udefrag_internals)
    (fuel f : Nat) (jp jp0 : udefrag_job_parameters ω) (file file0 : winx_file_info)
    (first : winx_blockmap) (rest : List winx_blockmap)
    (hfile : file_at jp f = .ok file)
    (hmov : H.can_move file jp.is_fat = true) (hfrag : H.is_fragmented file = true)
    (hlock : is_file_locked E H f jp = .ok (0, jp0))
    (hfile0 : file_at jp0 f = .ok file0) (hmap : file0.disp.blockmap = first :: rest)
    (hz : sub64 file0.disp.clusters first.length ≠ 0) :
    optimize_file E H fuel f jp =
      ((optimize_file_outer E H f first.lcn fuel
          (optimize_file_entry jp0 file0 first rest)).1,
        match (optimize_file_outer E H f first.lcn fuel
          (optimize_file_entry jp0 file0 first rest)).2 with
        | .error e => .error e
        | .ok st => .ok (optimize_file_done E st)) := by
  unfold optimize_file
  simp only [hfile, hmov, hfrag, hlock, hfile0, hmap, hz, not_true_eq_false, or_self,
    if_false, ne_eq, not_false_eq_true]
  cases rest with
  | nil =>
    show (match (optimize_file_outer E H f first.lcn fuel
      (optimize_file_entry jp0 file0 first [])).2 with
      | .error e => (_, Except.error e)
      | .ok st => (_, Except.ok (optimize_file_done E st))) = _
    cases (optimize_file_outer E H f first.lcn fuel
      (optimize_file_entry jp0 file0 first [])).2 <;> rfl
  | cons next rest2 =>
    show (match (optimize_file_outer E H f first.lcn fuel
      (optimize_file_entry jp0 file0 first (next :: rest2))).2 with
      | .error e => (_, Except.error e)
      | .ok st => (_, Except.ok (optimize_file_done E st))) = _
    cases (optimize_file_outer E H f first.lcn fuel
      (optimize_file_entry jp0 file0 first (next :: rest2))).2 <;> rfl

/-- C11: `optimize_file` returns 0 without a move when the file cannot be
moved, is not fragmented, or has no clusters beyond its first block, and -1
without a move when the file is locked. Otherwise it runs the loops from the
state of lines 172-178, and when they reach the label `done` in a state `st`
it returns 1 if termination is requested there (even if clusters remain) or
if `clusters_to_process` is 0, and -1 if clusters remain and no termination
is requested; a stop inside the loops is a stop of the routine. The loops do
reach `done` or stop at an invalid pointer, given enough fuel, when the
external routines keep a property of the disk layout under which
`find_first_block` returns only non-empty blocks at or after `min_lcn`
inside the volume. -/
theorem optimize_file_return_codes {ω : Type} (E : Externals ω) (H : udefrag_internals)
    (fuel f : Nat) (jp : udefrag_job_parameters ω) (file : winx_file_info)
    (hfile : file_at jp f = .ok file) :
    (H.can_move file jp.is_fat = false ∨ H.is_fragmented file = false →
      optimize_file E H fuel f jp = ([], .ok (0, jp))) ∧
    (H.can_move file jp.is_fat = true → H.is_fragmented file = true →
      ∀ locked jp0, is_file_locked E H f jp = .ok (locked, jp0) →
        (locked ≠ 0 → optimize_file E H fuel f jp = ([], .ok (-1, jp0))) ∧
        (locked = 0 → ∀ file0 first rest, file_at jp0 f = .ok file0 →
          file0.disp.blockmap = first :: rest →
          (sub64 file0.disp.clusters first.length = 0 →
            optimize_file E H fuel f jp = ([], .ok (0, jp0))) ∧
          (sub64 file0.disp.clusters first.length ≠ 0 →
            (∀ evs st,
              optimize_file_outer E H f first.lcn fuel
                (optimize_file_entry jp0 file0 first rest) = (evs, .ok st) →
              ((E.termination_router st.jp).1 ≠ 0 ∨ st.clusters_to_process = 0 →
                optimize_file E H fuel f jp =
                  (evs, .ok (1, (E.termination_router st.jp).2))) ∧
              ((E.termination_router st.jp).1 = 0 → st.clusters_to_process > 0 →
                optimize_file E H fuel f jp =
                  (evs, .ok (-1, (E.termination_router st.jp).2)))) ∧
            (∀ evs e,
              optimize_file_outer E H f first.lcn fuel
                (optimize_file_entry jp0 file0 first rest) = (evs, .error e) →
              optimize_file E H fuel f jp = (evs, .error e))))) ∧
    (∀ (P : List winx_volume_region × List winx_file_disposition × Nat × ω → Prop)
      (B : Nat), externals_keep E P → B < U64_MOD → externals_in_volume E P B →
      P (tracked_layout jp) → U64_MOD * U64_MOD + 2 * U64_MOD + 3 ≤ fuel →
      (optimize_file E H fuel f jp).2 ≠ .error .out_of_fuel) := by
  refine ⟨?_, ?_, ?_⟩
  · intro h
    unfold optimize_file
    simp only [hfile]
    rw [if_pos (by rcases h with h | h <;> simp [h])]
  · intro hmov hfrag locked jp0 hlock
    constructor
    · intro hl
      unfold optimize_file
      simp only [hfile, hmov, hfrag, hlock, not_true_eq_false, or_self, if_false, ne_eq, hl,
        not_false_eq_true, if_true]
    · intro hl file0 first rest hfile0 hmap
      subst hl
      constructor
      · intro hz
        unfold optimize_file
        simp only [hfile, hmov, hfrag, hlock, hfile0, hmap, hz, not_true_eq_false, or_self,
          if_false, ne_eq, if_true]
      · intro hz
        have hrun := optimize_file_past_checks E H fuel f jp jp0 file file0 first rest
          hfile hmov hfrag hlock hfile0 hmap hz
        refine ⟨fun evs st hout => ⟨fun hc => ?_, fun ht hc => ?_⟩, fun evs e hout => ?_⟩
        · rw [hrun, hout]
          simp only [optimize_file_done]
          by_cases ht : (E.termination_router st.jp).1 = 0
          · rcases hc with hc | hc
            · exact absurd ht hc
            · simp [ht, hc]
          · simp [ht]
        · rw [hrun, hout]
          simp only [optimize_file_done]
          simp [ht, hc]
        · rw [hrun, hout]
  · intro P B hK hB hE hP hfuel
    exact optimize_file_terminates_of E H P hK B hB hE fuel f jp hP hfuel

theorem optimize_file_return_codes_witness :
    optimize_file_outer sample_externals_terminating sample_internals 0 100 1
        (optimize_file_entry sample_job_optimize_unlocked
          (set_user_flag 16 sample_fragmented_file) ⟨0, 100, 10⟩ [⟨10, 500, 10⟩]) =
      ([], .ok ⟨sample_job_optimize_unlocked, 10, 10, 110, ⟨0, 0⟩⟩) ∧
    optimize_file sample_externals_terminating sample_internals 1 0 sample_job_optimize =
      ([], .ok (1, sample_job_optimize_unlocked)) :=
  ⟨rfl, ((((((optimize_file_return_codes sample_externals_terminating sample_internals
    1 0 sample_job_optimize sample_fragmented_file rfl).2.1 rfl rfl 0
    sample_job_optimize_unlocked rfl).2 rfl (set_user_flag 16 sample_fragmented_file)
    ⟨0, 100, 10⟩ [⟨10, 500, 10⟩] rfl rfl).2 (by decide)).1 []
    ⟨sample_job_optimize_unlocked, 10, 10, 110, ⟨0, 0⟩⟩ rfl).1 (Or.inl (by decide)))⟩

end UltraDefrag
